import Mathlib

/-!
# vega: entity catalogs, references and the membership index

A shallow embedding of `src/Abstract/Model.cpp` (the `Model::Container<T>` template,
the `Model::remove` family and the membership index) together with the statements
of its specification that have been settled against it.

Conventions of the embedding

* `std::map` / `std::unordered_map` are association lists (`KeyMap`); `m[k] = v` is
  `KeyMap.assign`, `m.find(k)` is `KeyMap.find`, `m.erase(k)` is `KeyMap.erase`.
* `shared_ptr<T>` is a position in the arena `Container.objs` of the catalog that
  owns the object; the null pointer is `none`.  Several index entries may hold the
  same position, so that a mutation through one of them is seen through all.
* a call that may throw returns an `Outcome`: the state it leaves behind and the
  exception it raised, if any (nothing is rolled back when an exception is thrown).
-/

namespace vega

/-! ## Calls that may throw -/

/-- The result of a call that may throw: the state left by the call, and the message
of the `runtime_error` it raised, if any. -/
structure Outcome (σ : Type) where
  state : σ
  error : Option String
deriving DecidableEq

namespace Outcome

variable {σ : Type}

/-- A call that returns normally. -/
def ok (s : σ) : Outcome σ := { state := s, error := none }

/-- A call that throws, leaving the state `s`. -/
def throw (s : σ) (msg : String) : Outcome σ := { state := s, error := some msg }

/-- Sequencing: what follows a call runs only if the call did not throw. -/
def andThen (r : Outcome σ) (next : σ → Outcome σ) : Outcome σ :=
  match r.error with
  | some _ => r
  | none => next r.state

/-- The outcome of a call seen from an enclosing state. -/
def mapState {ρ : Type} (r : Outcome σ) (f : σ → ρ) : Outcome ρ :=
  { state := f r.state, error := r.error }

end Outcome

/-! ## Associative containers -/

/-- An associative container with unique keys, as a list of (key, value) pairs. -/
abbrev KeyMap (K V : Type) := List (K × V)

namespace KeyMap

variable {K V : Type} [DecidableEq K]

/-- The value of `m.find(k)`, `none` standing for `m.end()`. -/
def find : KeyMap K V → K → Option V
  | [], _ => none
  | (k', v) :: rest, k => if k' = k then some v else find rest k

/-- The effect of `m.erase(k)`. -/
def erase : KeyMap K V → K → KeyMap K V
  | [], _ => []
  | (k', v) :: rest, k => if k' = k then erase rest k else (k', v) :: erase rest k

/-- The effect of `m[k] = v`: the entry of `k` is overwritten, or created. -/
def assign : KeyMap K V → K → V → KeyMap K V
  | [], k, v => [(k, v)]
  | (k', v') :: rest, k, v => if k' = k then (k, v) :: rest else (k', v') :: assign rest k v

/-- Lookup under a key that may be absent. The source passes its sentinel `NO_ID`
there, under which nothing is ever registered: the lookup finds nothing. -/
def findOpt (m : KeyMap K V) : Option K → Option V
  | none => none
  | some k => m.find k

/-- Erasure under a key that may be absent (the sentinel `NO_ID` in the source,
which is the key of no entry): nothing is erased then. -/
def eraseOpt (m : KeyMap K V) : Option K → KeyMap K V
  | none => m
  | some k => m.erase k

/-- The value of `m[k]` read on a map of containers: the entry, or a fresh empty one. -/
def atOrEmpty {W : Type} (m : KeyMap K (List W)) (k : K) : List W :=
  (m.find k).getD []

/-- The effect of `result.insert(x)` on a `std::set`, kept as a list without
repetition. -/
def setInsert {W : Type} [DecidableEq W] (result : List W) (x : W) : List W :=
  if x ∈ result then result else result ++ [x]

end KeyMap

/-! ## References and identifiable entities -/

/-- Modelled from the spec: `Reference.h` is not among the sources. A reference is
`{ type, id: optional internal int, original_id: optional int }`; an absent field
(the sentinel `NO_ID` of the source) is `none`. -/
structure Reference (τ : Type) where
  type : τ
  original_id : Option Int
  id : Option Int
deriving DecidableEq

namespace Reference

variable {τ : Type}

/-- The test `has_original_id()`. -/
def has_original_id (r : Reference τ) : Bool := r.original_id.isSome

/-- The test `has_id()`. -/
def has_id (r : Reference τ) : Bool := r.id.isSome

end Reference

/-- Modelled from the spec: the base class `Identifiable<T>` is declared in a header
that is not among the sources. An entity has an internal `id`, an optional
`original_id` (absent: the sentinel `NO_ORIGINAL_ID`), the enum tag `type` of its
kind, and the attributes `data` proper to its kind. -/
structure Identifiable (τ α : Type) where
  id : Int
  original_id : Option Int
  type : τ
  data : α
deriving DecidableEq

namespace Identifiable

variable {τ α : Type}

/-- The accessor `getId()`. -/
def getId (t : Identifiable τ α) : Int := t.id

/-- The accessor `getOriginalId()`. -/
def getOriginalId (t : Identifiable τ α) : Option Int := t.original_id

/-- The test `isOriginal()`. -/
def isOriginal (t : Identifiable τ α) : Bool := t.original_id.isSome

/-- Modelled from the spec: the constructor `Reference<T>(const T&)` behind
`getReference()` is absent from the sources. A reference is "either an opaque
internal identifier or a pair (original_id, type)": an entity that has an original
id is designated by (type, original_id), any other entity by its internal id. -/
def getReference (t : Identifiable τ α) : Reference τ :=
  { type := t.type, original_id := t.original_id,
    id := if t.isOriginal then none else some t.id }

end Identifiable

/-! ## `Model::Container<T>` -/

/-- The catalog `Model::Container<T>`: the objects it owns and its two indices. -/
structure Container (τ α : Type) where
  objs : List (Identifiable τ α)
  by_id : KeyMap Int Nat
  by_original_ids_by_type : KeyMap τ (KeyMap Int Nat)
deriving DecidableEq

namespace Container

variable {τ α : Type} [DecidableEq τ]

/-- The catalog of a freshly constructed model. -/
def empty : Container τ α :=
  { objs := [], by_id := [], by_original_ids_by_type := [] }

/-- The object behind a `shared_ptr<T>`; nothing behind the null pointer. -/
def deref (c : Container τ α) : Option Nat → Option (Identifiable τ α)
  | none => none
  | some p => c.objs[p]?

/-- `Container<T>::find(const Reference<T>&)`, Model.cpp lines 99-120. The branch on
the original id comes first; the final `assert(false)` branch leaves the null
pointer. -/
def find (c : Container τ α) (reference : Reference τ) : Option Nat :=
  match reference.original_id with
  | some original_id =>
    match c.by_original_ids_by_type.find reference.type with
    | some inner => inner.find original_id
    | none => none
  | none =>
    match reference.id with
    | some id => c.by_id.find id
    | none => none

/-- `Container<T>::find(int original_id)`, Model.cpp lines 122-132: every type of the
catalog is visited, and the last one that registers the original id wins. -/
def findByOriginalId (c : Container τ α) (original_id : Int) : Option Nat :=
  c.by_original_ids_by_type.foldl
    (fun t it =>
      match it.2.find original_id with
      | some ptr => some ptr
      | none => t)
    none

/-- `Container<T>::get(int id)`, Model.cpp lines 134-142. -/
def get (c : Container τ α) (id : Int) : Option Nat :=
  c.by_id.find id

/-- The registration of the object at position `ptr` in the two indices, the last
three lines of `Container<T>::add` (Model.cpp lines 55-57). -/
def register (c : Container τ α) (t : Identifiable τ α) (ptr : Nat) : Container τ α :=
  { objs := c.objs,
    by_id := c.by_id.assign t.getId ptr,
    by_original_ids_by_type :=
      match t.getOriginalId with
      | some original_id =>
        c.by_original_ids_by_type.assign t.type
          (KeyMap.assign (KeyMap.atOrEmpty c.by_original_ids_by_type t.type) original_id ptr)
      | none => c.by_original_ids_by_type }

/-- `Container<T>::add`, Model.cpp lines 42-58: the entity is cloned into the catalog
and registered, unless its reference already resolves. -/
def add (c : Container τ α) (t : Identifiable τ α) : Outcome (Container τ α) :=
  if (c.find t.getReference).isSome then
    Outcome.throw c "is already in the model"
  else
    Outcome.ok (register { c with objs := c.objs ++ [t] } t c.objs.length)

/-- `Container<T>::erase(const Reference<T>)`, Model.cpp lines 60-65. -/
def erase (c : Container τ α) (ref : Reference τ) : Container τ α :=
  { objs := c.objs,
    by_id := c.by_id.eraseOpt ref.id,
    by_original_ids_by_type :=
      match ref.original_id with
      | some original_id =>
        c.by_original_ids_by_type.assign ref.type
          (KeyMap.erase (KeyMap.atOrEmpty c.by_original_ids_by_type ref.type) original_id)
      | none => c.by_original_ids_by_type }

end Container

/-! ## The catalog of values -/

/-- Modelled from the spec: `Value.h` is not among the sources. Of a value the
catalog uses whether it is a placeholder and its two optional parameters
(`hasParaX`, `getParaX`, `setParaX` and the same for Y). -/
structure ValueData where
  isPlaceHolder : Bool
  paraX : Option Nat
  paraY : Option Nat
deriving DecidableEq

namespace ValueData

/-- The test `hasParaX()`. -/
def hasParaX (v : ValueData) : Bool := v.paraX.isSome

/-- The test `hasParaY()`. -/
def hasParaY (v : ValueData) : Bool := v.paraY.isSome

/-- The effect of `setParaX(x)`. -/
def setParaX (v : ValueData) (x : Option Nat) : ValueData := { v with paraX := x }

/-- The effect of `setParaY(y)`. -/
def setParaY (v : ValueData) (y : Option Nat) : ValueData := { v with paraY := y }

/-- The two guarded assignments of the first branch of `Container<Value>::add`
(Model.cpp lines 75-78), on `ptr_old`. -/
def mergedOld (ptr ptr_old : ValueData) : ValueData :=
  let o1 := if ptr.hasParaX then ptr_old.setParaX ptr.paraX else ptr_old
  if o1.hasParaY then o1.setParaY ptr.paraY else o1

/-- The two guarded assignments of the second branch of `Container<Value>::add`
(Model.cpp lines 81-84), on `ptr`. -/
def mergedNew (ptr ptr_old : ValueData) : ValueData :=
  let p1 := if ptr_old.hasParaX then ptr.setParaX ptr_old.paraX else ptr
  if ptr_old.hasParaY then p1.setParaY ptr_old.paraY else p1

end ValueData

namespace Container

variable {τ : Type} [DecidableEq τ]

/-- The last two statements of `Container<Value>::add` (Model.cpp lines 91-96): the
value at `ptr` is registered under its internal id unless `t` is a placeholder, and
under its original id when `t` has one. -/
def registerValue (c : Container τ ValueData) (t : Identifiable τ ValueData) (ptr : Nat) :
    Container τ ValueData :=
  { objs := c.objs,
    by_id := if t.data.isPlaceHolder then c.by_id else c.by_id.assign t.getId ptr,
    by_original_ids_by_type :=
      match t.getOriginalId with
      | some original_id =>
        c.by_original_ids_by_type.assign t.type
          (KeyMap.assign (KeyMap.atOrEmpty c.by_original_ids_by_type t.type) original_id ptr)
      | none => c.by_original_ids_by_type }

/-- `Container<Value>::add`, Model.cpp lines 70-97. `find(t)` goes through the
reference of `t`. When the clone is merged into the existing value the clone is
dropped; otherwise it joins the objects of the catalog. A pointer of the index is
non-null only if it points to an object: a position outside `objs` is read as the
null pointer. -/
def addValue (c : Container τ ValueData) (t : Identifiable τ ValueData) :
    Outcome (Container τ ValueData) :=
  match c.deref (c.find t.getReference), c.find t.getReference with
  | some ptr_old, some old =>
    if t.data.isPlaceHolder then
      Outcome.ok (registerValue
        { c with objs := c.objs.set old { ptr_old with data := t.data.mergedOld ptr_old.data } }
        t old)
    else if ptr_old.data.isPlaceHolder then
      Outcome.ok (registerValue
        { c with objs := c.objs ++ [{ t with data := t.data.mergedNew ptr_old.data }] }
        t c.objs.length)
    else
      Outcome.throw c "is already in the model"
  | _, _ => Outcome.ok (registerValue { c with objs := c.objs ++ [t] } t c.objs.length)

end Container

/-! ## Degrees of freedom -/

/-- Modelled from the spec: `Dof.h` is not among the sources. One of the "six
degrees of freedom (3 translations + 3 rotations)". -/
inductive DOF
  | DX | DY | DZ | RX | RY | RZ
deriving DecidableEq, Fintype

/-- Modelled from the spec: `DOFS` is "a bitset-like value type over six degrees of
freedom with set algebra (union `+`, difference `-`, containment,
intersection-test)": a finite set of `DOF`, with `∪` for `+` and `\` for `-`. -/
abbrev DOFS := Finset DOF

namespace DOFS

/-- The constant `DOFS::NO_DOFS`. -/
def NO_DOFS : DOFS := ∅

/-- The constant `DOFS::TRANSLATIONS`. -/
def TRANSLATIONS : DOFS := {DOF.DX, DOF.DY, DOF.DZ}

/-- The constant `DOFS::ROTATIONS`. -/
def ROTATIONS : DOFS := {DOF.RX, DOF.RY, DOF.RZ}

/-- The constant `DOFS::ALL_DOFS`. -/
def ALL_DOFS : DOFS := Finset.univ

/-- The test `a.containsAll(b)`. -/
def containsAll (a b : DOFS) : Bool := decide (b ⊆ a)

/-- The test `a.containsAnyOf(b)`. -/
def containsAnyOf (a b : DOFS) : Bool := decide ((a ∩ b).Nonempty)

/-- The count `a.size()`. -/
def size (a : DOFS) : Nat := a.card

/-- The DOFs of `a` in the order of `for (const DOF dof : a)`, from DX to RZ. -/
def toList (a : DOFS) : List DOF :=
  [DOF.DX, DOF.DY, DOF.DZ, DOF.RX, DOF.RY, DOF.RZ].filter (fun dof => decide (dof ∈ a))

end DOFS

/-! ## Objectives -/

/-- `Objective::Type`, Objective.h lines 45-53. -/
inductive ObjectiveType
  | NODAL_DISPLACEMENT_ASSERTION
  | NODAL_COMPLEX_DISPLACEMENT_ASSERTION
  | FREQUENCY_ASSERTION
  | FREQUENCY_TARGET
  | FREQUENCY_BAND
  | MODAL_DAMPING
  | NONLINEAR_STRATEGY
deriving DecidableEq

/-- The classes of Objective.h below `Objective`, with their attributes (a `double`
is carried as a rational, a `complex<double>` as its two parts). -/
inductive ObjectiveData
  | NodalDisplacementAssertion (tolerance : ℚ) (nodePosition : Int) (dof : DOF)
      (value instant : ℚ)
  | NodalComplexDisplacementAssertion (tolerance : ℚ) (nodePosition : Int) (dof : DOF)
      (valueRe valueIm frequency : ℚ)
  | FrequencyAssertion (number : Int) (value tolerance : ℚ)
  | AnalysisParameter
  | FrequencyValues (valueRange : Reference Nat)
  | FrequencyBand (lower upper : ℚ) (num_max : Int) (norm : String)
  | ModalDamping (function_table : Reference Nat)
  | NonLinearStrategy (number_of_increments : Int)
deriving DecidableEq

/-- An objective of the model. -/
abbrev Objective := Identifiable ObjectiveType ObjectiveData

/-- `Objective::stringByType`, Objective.cpp lines 37-44: the entries of the map, in
the order of the initialiser list. -/
def Objective.stringByType : KeyMap ObjectiveType String :=
  [ (ObjectiveType.NODAL_DISPLACEMENT_ASSERTION, "NODAL_DISPLACEMENT_ASSERTION"),
    (ObjectiveType.FREQUENCY_ASSERTION, "FREQUENCY_ASSERTION"),
    (ObjectiveType.FREQUENCY_TARGET, "FREQUENCY_TARGET"),
    (ObjectiveType.FREQUENCY_BAND, "FREQUENCY_BAND"),
    (ObjectiveType.MODAL_DAMPING, "MODAL_DAMPING"),
    (ObjectiveType.NONLINEAR_STRATEGY, "NONLINEAR_STRATEGY") ]

namespace ObjectiveData

/-- `Objective::isAssertion`, Objective.h lines 65-67, overridden by
`Assertion::isAssertion`, lines 80-82. -/
def isAssertion : ObjectiveData → Bool
  | NodalDisplacementAssertion _ _ _ _ _ => true
  | NodalComplexDisplacementAssertion _ _ _ _ _ _ => true
  | FrequencyAssertion _ _ _ => true
  | _ => false

/-- `NodalAssertion::getDOFSForNode`, Objective.cpp lines 60-63, and
`FrequencyAssertion::getDOFSForNode`, lines 100-103; `none` for a class that is not
an assertion. -/
def getDOFSForNode : ObjectiveData → Int → Option DOFS
  | NodalDisplacementAssertion _ _ dof _ _, _ => some {dof}
  | NodalComplexDisplacementAssertion _ _ dof _ _ _, _ => some {dof}
  | FrequencyAssertion _ _ _, _ => some DOFS.NO_DOFS
  | _, _ => none

/-- `NodalAssertion::nodePositions`, Objective.cpp lines 64-68, and
`FrequencyAssertion::nodePositions`, lines 104-106; `none` for a class that is not an
assertion. -/
def nodePositions : ObjectiveData → Option (List Int)
  | NodalDisplacementAssertion _ nodePosition _ _ _ => some [nodePosition]
  | NodalComplexDisplacementAssertion _ nodePosition _ _ _ _ => some [nodePosition]
  | FrequencyAssertion _ _ _ => some []
  | _ => none

end ObjectiveData

/-! ## Analyses -/

/-- Modelled from the spec: `Analysis.h` and `Analysis.cpp` are not among the
sources. An analysis "owns references to the load-sets/constraint-sets it
exercises" and to its objectives, and "tracks the boundary DOFs it requires per
node". -/
structure AnalysisData where
  loadSet_references : List (Reference Nat)
  constraintSet_references : List (Reference Nat)
  objectiveReferences : List (Reference ObjectiveType)
  boundaryDOFSByNodePosition : KeyMap Int DOFS
deriving DecidableEq

/-- An analysis of the model. The tag of a kind whose enum is declared in an absent
header is the integer value of the enumerator. -/
abbrev Analysis := Identifiable Nat AnalysisData

namespace Analysis

/-- Modelled from the spec: `Analysis::contains(Reference<LoadSet>)` is absent from
the sources; the analysis contains the references it owns. -/
def containsLoadSet (a : Analysis) (r : Reference Nat) : Bool :=
  decide (r ∈ a.data.loadSet_references)

/-- Modelled from the spec: `Analysis::remove(Reference<LoadSet>)` is absent from the
sources; it disassociates the load set from the analysis. -/
def removeLoadSet (a : Analysis) (r : Reference Nat) : Analysis :=
  { a with data := { a.data with
      loadSet_references := a.data.loadSet_references.filter (fun x => decide (x ≠ r)) } }

/-- Modelled from the spec: `Analysis::contains(Reference<ConstraintSet>)` is absent
from the sources; the analysis contains the references it owns. -/
def containsConstraintSet (a : Analysis) (r : Reference Nat) : Bool :=
  decide (r ∈ a.data.constraintSet_references)

/-- Modelled from the spec: `Analysis::remove(Reference<ConstraintSet>)` is absent
from the sources; it disassociates the constraint set from the analysis. -/
def removeConstraintSet (a : Analysis) (r : Reference Nat) : Analysis :=
  { a with data := { a.data with
      constraintSet_references :=
        a.data.constraintSet_references.filter (fun x => decide (x ≠ r)) } }

/-- Modelled from the spec: `Analysis::contains(Reference<Objective>)` is absent from
the sources; the analysis contains the references it owns. -/
def containsObjective (a : Analysis) (r : Reference ObjectiveType) : Bool :=
  decide (r ∈ a.data.objectiveReferences)

/-- Modelled from the spec: `Analysis::remove(Reference<Objective>)` is absent from
the sources; it disassociates the objective from the analysis. -/
def removeObjective (a : Analysis) (r : Reference ObjectiveType) : Analysis :=
  { a with data := { a.data with
      objectiveReferences := a.data.objectiveReferences.filter (fun x => decide (x ≠ r)) } }

/-- Modelled from the spec: `Analysis::add(const ConstraintSet&)` is absent from the
sources; the analysis owns one more reference to a constraint set. -/
def addConstraintSet (a : Analysis) (r : Reference Nat) : Analysis :=
  { a with data := { a.data with
      constraintSet_references := a.data.constraintSet_references ++ [r] } }

/-- Modelled from the spec: `Analysis::findBoundaryDOFS(nodePosition)` is absent from
the sources; the boundary DOFs that the analysis tracks for the node, none when it
tracks nothing there. -/
def findBoundaryDOFS (a : Analysis) (nodePosition : Int) : DOFS :=
  (a.data.boundaryDOFSByNodePosition.find nodePosition).getD DOFS.NO_DOFS

end Analysis

/-! ## The mesh -/

/-- Modelled from the spec: `MeshComponents.h` is not among the sources. The cell
types that the pipeline creates. -/
inductive CellType
  | POINT1
  | SEG2
  | POLY (nodes : Nat)
deriving DecidableEq

/-- Modelled from the spec: the storage of a node in the mesh, with its "DOF-allowance
bitmap". The position of a node is its rank in the storage. -/
structure NodeData where
  id : Int
  dofs : DOFS
deriving DecidableEq

/-- The value `Node` that the mesh hands out for a position. -/
structure Node where
  position : Int
  id : Int
  dofs : DOFS
deriving DecidableEq

/-- Modelled from the spec: a cell of the mesh. -/
structure Cell where
  id : Int
  type : CellType
  nodeIds : List Int
  isVirtual : Bool
deriving DecidableEq

/-- Modelled from the spec: a cell group of the mesh, with the ids of its cells. -/
structure CellGroup where
  name : String
  cellIds : List Int
deriving DecidableEq

/-- Modelled from the spec: the "Mesh collaborator", `Mesh.h` being absent from the
sources: "node/cell storage, DOF-allowance bitmap per node, cell-group creation". A
`CellGroup*` is a position in `cellGroups`; `cell_auto_id` is the id that the next
cell added with `Cell::AUTO_ID` receives. -/
structure Mesh where
  nodes : List NodeData
  cells : List Cell
  cellGroups : List CellGroup
  cell_auto_id : Int
deriving DecidableEq

namespace Mesh

/-- The mesh of a freshly constructed model. -/
def empty : Mesh := { nodes := [], cells := [], cellGroups := [], cell_auto_id := 0 }

/-- Modelled from the spec: `findNode(position) -> Node`. -/
def findNode (mesh : Mesh) (position : Int) : Option Node :=
  if 0 ≤ position then
    (mesh.nodes[position.toNat]?).map
      (fun n => { position := position, id := n.id, dofs := n.dofs })
  else none

/-- Modelled from the spec: `allowDOFS(nodePosition, DOFS)` adds the given DOFs to the
allowance of the node. -/
def allowDOFS (mesh : Mesh) (nodePosition : Int) (dofs : DOFS) : Mesh :=
  if 0 ≤ nodePosition then
    { mesh with
      nodes := mesh.nodes.modify (fun n => { n with dofs := n.dofs ∪ dofs }) nodePosition.toNat }
  else mesh

/-- Modelled from the spec: `createCellGroup(name, original_id?, comment?) ->
CellGroup handle`; the new group is empty. -/
def createCellGroup (mesh : Mesh) (name : String) : Nat × Mesh :=
  (mesh.cellGroups.length,
   { mesh with cellGroups := mesh.cellGroups ++ [{ name := name, cellIds := [] }] })

/-- Modelled from the spec: `addCell(id_or_auto, cellType, nodeIds, isVirtual) ->
cell_position`, called with `Cell::AUTO_ID`. -/
def addCell (mesh : Mesh) (type : CellType) (nodeIds : List Int) (isVirtual : Bool) :
    Nat × Mesh :=
  (mesh.cells.length,
   { mesh with
     cells := mesh.cells ++
       [{ id := mesh.cell_auto_id, type := type, nodeIds := nodeIds, isVirtual := isVirtual }],
     cell_auto_id := mesh.cell_auto_id + 1 })

/-- Modelled from the spec: `CellGroup::addCell(cellId)` on the group behind a
`CellGroup*`. -/
def addCellToGroup (mesh : Mesh) (group : Nat) (cellId : Int) : Mesh :=
  { mesh with
    cellGroups := mesh.cellGroups.modify (fun g => { g with cellIds := g.cellIds ++ [cellId] })
      group }

/-- Modelled from the spec: `findOrReserveNode(original_id) -> position`: the position
of the node that has the id; when the mesh has none, a node without DOFs is reserved
at the end of the storage. -/
def findOrReserveNode (mesh : Mesh) (id : Int) : Int × Mesh :=
  match mesh.nodes.findIdx? (fun n => decide (n.id = id)) with
  | some position => ((position : Int), mesh)
  | none =>
    ((mesh.nodes.length : Int),
     { mesh with nodes := mesh.nodes ++ [{ id := id, dofs := DOFS.NO_DOFS }] })

/-- Modelled from the spec: `CellGroup::getCells()` on the group behind a
`CellGroup*`: the cells of the mesh whose id the group holds. -/
def getCells (mesh : Mesh) (group : Nat) : List Cell :=
  match mesh.cellGroups[group]? with
  | some cellGroup => mesh.cells.filter (fun cell => decide (cell.id ∈ cellGroup.cellIds))
  | none => []

/-- The calls `mesh->addCell(Cell::AUTO_ID, type, nodeIds, true)` and
`group->addCell(mesh->findCell(cellPosition).id)` that the passes make in a row. -/
def addCellInto (mesh : Mesh) (group : Nat) (type : CellType) (nodeIds : List Int) : Mesh :=
  match (mesh.addCell type nodeIds true).2.cells[(mesh.addCell type nodeIds true).1]? with
  | some cell => (mesh.addCell type nodeIds true).2.addCellToGroup group cell.id
  | none => (mesh.addCell type nodeIds true).2

end Mesh

/-! ## Element sets and materials -/

/-- Modelled from the spec: `Material.h` is not among the sources. A nature of a
material. -/
inductive Nature
  | Elastic (e nu : ℚ)
  | Other (tag : Nat)
  | Rigid (rigidity lagrangian : Option ℚ)
deriving DecidableEq

/-- Modelled from the spec: the attributes of a material that the pipeline sets. -/
structure MaterialData where
  natures : List Nature
deriving DecidableEq

/-- Modelled from the spec: `DOFMatrix` is declared in a header that is not among
the sources. Its map `componentByDofs`, from a pair of DOFs to a term of the matrix
(a `double` is carried as a rational). -/
abbrev DOFMatrix := KeyMap (DOF × DOF) ℚ

/-- Modelled from the spec: `Element.h` is not among the sources. The variants of
element set that the pipeline reads or creates. A discrete point has the stiffness
terms given to its constructor and those given to `addStiffness`; a discrete segment
has its terms by (row index, column index) and pair of DOFs; a matrix element is
"defined directly as a dense submatrix per node pair", the nodes being positions in
the mesh. -/
inductive ElementSetKind
  | DiscretePoint (stiffness : List ℚ) (componentByDofs : DOFMatrix)
  | Other (tag : Nat)
  | DiscreteSegment (componentByIndicesAndDofs : KeyMap ((Nat × Nat) × (DOF × DOF)) ℚ)
  | MatrixElement (submatrixByNodes : KeyMap (Int × Int) DOFMatrix)
  | Beam
  | Shell
  | Rbar (masterId : Int)
  | Rbe3 (masterId : Int) (mDOFS sDOFS : DOFS)
deriving DecidableEq

/-- Modelled from the spec: an element set "owns a cell-group reference and a
material reference"; both are pointers, null until assigned. -/
structure ElementSetData where
  kind : ElementSetKind
  cellGroup : Option Nat
  material : Option Nat
deriving DecidableEq

/-! ## Matrix elements -/

namespace MatrixElement

/-- Modelled from the spec: `MatrixElement::nodePositions()`, the set of the nodes of
the submatrices. -/
def nodePositions (submatrixByNodes : KeyMap (Int × Int) DOFMatrix) : List Int :=
  (submatrixByNodes.flatMap fun kv => [kv.1.1, kv.1.2]).dedup

/-- Modelled from the spec: `MatrixElement::nodePairs()`, the set of the node pairs
that have a submatrix. -/
def nodePairs (submatrixByNodes : KeyMap (Int × Int) DOFMatrix) : List (Int × Int) :=
  (submatrixByNodes.map Prod.fst).dedup

/-- Modelled from the spec: `MatrixElement::findInPairs(nodePosition)`, the set of
the other nodes with which the node forms a pair. -/
def findInPairs (submatrixByNodes : KeyMap (Int × Int) DOFMatrix) (nodePosition : Int) :
    List Int :=
  (submatrixByNodes.filterMap fun kv =>
    if kv.1.1 = nodePosition ∧ kv.1.2 ≠ nodePosition then some kv.1.2
    else if kv.1.2 = nodePosition ∧ kv.1.1 ≠ nodePosition then some kv.1.1
    else none).dedup

/-- Modelled from the spec: `MatrixElement::findSubmatrix(row, column)`, the
submatrix of the node pair, an empty one when the pair has none. -/
def findSubmatrix (submatrixByNodes : KeyMap (Int × Int) DOFMatrix)
    (nodePosition1 nodePosition2 : Int) : DOFMatrix :=
  (submatrixByNodes.find (nodePosition1, nodePosition2)).getD []

/-- Modelled from the spec: `MatrixElement::addComponent(nodeid1, dof1, nodeid2, dof2,
value)`: the nodes are given by id and found, or reserved, in the mesh; the term is
stored in the submatrix of the pair of their positions. -/
def addComponent (mesh : Mesh) (submatrixByNodes : KeyMap (Int × Int) DOFMatrix)
    (nodeid1 : Int) (dof1 : DOF) (nodeid2 : Int) (dof2 : DOF) (value : ℚ) :
    Mesh × KeyMap (Int × Int) DOFMatrix :=
  ((((mesh.findOrReserveNode nodeid1).2).findOrReserveNode nodeid2).2,
   submatrixByNodes.assign
     ((mesh.findOrReserveNode nodeid1).1,
      (((mesh.findOrReserveNode nodeid1).2).findOrReserveNode nodeid2).1)
     (KeyMap.assign
       (findSubmatrix submatrixByNodes (mesh.findOrReserveNode nodeid1).1
         (((mesh.findOrReserveNode nodeid1).2).findOrReserveNode nodeid2).1)
       (dof1, dof2) value))

end MatrixElement

namespace ElementSetData

/-- The test `isMatrixElement()`. -/
def isMatrixElement (e : ElementSetData) : Bool :=
  match e.kind with
  | ElementSetKind.MatrixElement _ => true
  | _ => false

/-- The submatrices of a matrix element; none for another element set. -/
def submatrixByNodes (e : ElementSetData) : KeyMap (Int × Int) DOFMatrix :=
  match e.kind with
  | ElementSetKind.MatrixElement submatrixByNodes => submatrixByNodes
  | _ => []

/-- The test `isBeam()`. -/
def isBeam (e : ElementSetData) : Bool := decide (e.kind = ElementSetKind.Beam)

/-- The test `isShell()`. -/
def isShell (e : ElementSetData) : Bool := decide (e.kind = ElementSetKind.Shell)

end ElementSetData

/-! ## Constraints -/

/-- Modelled from the spec: `Constraint.h` is not among the sources. The variants of
constraint that the passes read. A single-point constraint "pins specific DOFs at
one node to a prescribed value": `dofsByNode` holds the DOFs that it blocks at each
of its nodes and `valueByDOF` the value prescribed to a DOF. The rigid constraints
link "a master node's motion to one or more slave nodes"; an RBE3 gives each slave
its DOFs and its coefficient. The nodes are positions in the mesh. -/
inductive ConstraintData
  | SinglePointConstraint (dofsByNode : KeyMap Int DOFS) (valueByDOF : KeyMap DOF ℚ)
  | RigidConstraint (master : Int) (slaves : List Int)
  | QuasiRigidConstraint (dofs : DOFS) (slaves : List Int)
  | RBE3 (master : Int) (dofs : DOFS) (slaves : List (Int × DOFS × ℚ))
  | Other (tag : Nat)
deriving DecidableEq

/-- A constraint of the model. -/
abbrev Constraint := Identifiable Nat ConstraintData

namespace ConstraintData

/-- Modelled from the spec: `SinglePointConstraint::nodePositions()`, the set of the
nodes of the constraint. -/
def nodePositions : ConstraintData → List Int
  | SinglePointConstraint dofsByNode _ => (dofsByNode.map Prod.fst).dedup
  | _ => []

/-- Modelled from the spec: `SinglePointConstraint::getDOFSForNode(nodePosition)`,
the DOFs that the single-point constraint blocks at the node. -/
def getDOFSForNode : ConstraintData → Int → DOFS
  | SinglePointConstraint dofsByNode _, nodePosition =>
    (dofsByNode.find nodePosition).getD DOFS.NO_DOFS
  | _, _ => DOFS.NO_DOFS

/-- Modelled from the spec: `RBE3::getDOFSForNode(nodePosition)`, the DOFs that the
RBE3 gives to the slave. -/
def getSlaveDOFSForNode : ConstraintData → Int → DOFS
  | RBE3 _ _ slaves, nodePosition =>
    ((slaves.find? (fun slave => decide (slave.1 = nodePosition))).map
      (fun slave => slave.2.1)).getD DOFS.NO_DOFS
  | _, _ => DOFS.NO_DOFS

/-- Modelled from the spec: `SinglePointConstraint::getDoubleForDOF(dof)`, the value
prescribed to the DOF. -/
def getDoubleForDOF : ConstraintData → DOF → ℚ
  | SinglePointConstraint _ valueByDOF, dof => (valueByDOF.find dof).getD 0
  | _, _ => 0

/-- Modelled from the spec: the effect of `Analysis::removeSPCNodeDofs(spc,
nodePosition, dofsToRemove)` on the constraint: it no longer blocks the DOFs at the
node, and the node leaves the constraint when no DOF is left ("trimming an SPC's
node list"). -/
def removeNodeDofs (c : ConstraintData) (nodePosition : Int) (dofsToRemove : DOFS) :
    ConstraintData :=
  match c with
  | SinglePointConstraint dofsByNode valueByDOF =>
    if (dofsByNode.find nodePosition).getD DOFS.NO_DOFS \ dofsToRemove = DOFS.NO_DOFS then
      SinglePointConstraint (dofsByNode.erase nodePosition) valueByDOF
    else
      SinglePointConstraint
        (dofsByNode.assign nodePosition
          ((dofsByNode.find nodePosition).getD DOFS.NO_DOFS \ dofsToRemove))
        valueByDOF
  | other => other

/-- Modelled from the spec: `getMaster()` of a rigid constraint or of an RBE3. -/
def getMaster : ConstraintData → Int
  | RigidConstraint master _ => master
  | RBE3 master _ _ => master
  | _ => 0

/-- Modelled from the spec: `getSlaves()`, the set of the slave nodes. -/
def getSlaves : ConstraintData → List Int
  | RigidConstraint _ slaves => slaves.dedup
  | QuasiRigidConstraint _ slaves => slaves.dedup
  | RBE3 _ _ slaves => (slaves.map Prod.fst).dedup
  | _ => []

/-- Modelled from the spec: `QuasiRigidConstraint::isCompletelyRigid()`, whether the
constraint bears on the six DOFs. -/
def isCompletelyRigid : ConstraintData → Bool
  | QuasiRigidConstraint dofs _ => decide (dofs = DOFS.ALL_DOFS)
  | _ => true

/-- Modelled from the spec: `RBE3::getDOFS()`, the DOFs of the master. -/
def getDOFS : ConstraintData → DOFS
  | RBE3 _ dofs _ => dofs
  | _ => DOFS.NO_DOFS

/-- Modelled from the spec: `RBE3::getCoefForNode(nodePosition)`, the coefficient of
the slave. -/
def getCoefForNode : ConstraintData → Int → ℚ
  | RBE3 _ _ slaves, nodePosition =>
    ((slaves.find? (fun slave => decide (slave.1 = nodePosition))).map
      (fun slave => slave.2.2)).getD 0
  | _, _ => 0

end ConstraintData

/-! ## Load sets -/

/-- Modelled from the spec: `LoadSet.h` is not among the sources. A load set may
"embed other load sets with a scale coefficient"; `embedded_loadsets` is its
embedding record (a `double` coefficient is carried as a rational). -/
structure LoadSetData where
  embedded_loadsets : List (Reference Nat × ℚ)
deriving DecidableEq

instance : Inhabited LoadSetData := ⟨{ embedded_loadsets := [] }⟩

/-! ## Configuration -/

/-- The switches of `ModelConfiguration` that `Model::finish` reads (Model.cpp lines
1915-1964) and `partitionModel` (line 1013). -/
structure ModelConfiguration where
  emulateLocalDisplacement : Bool
  displayHomogeneousConstraint : Bool
  createSkin : Bool
  emulateAdditionalMass : Bool
  replaceCombinedLoadSets : Bool
  replaceDirectMatrices : Bool
  removeRedundantSpcs : Bool
  removeIneffectives : Bool
  virtualDiscrets : Bool
  splitDirectMatrices : Bool
  sizeDirectMatrices : Nat
  makeCellsFromDirectMatrices : Bool
  makeCellsFromRBE : Bool
  splitElementsByDOFS : Bool
  partitionModel : Bool
deriving DecidableEq

namespace ModelConfiguration

/-- The configuration in which every optional step is switched off. -/
def allOff : ModelConfiguration :=
  { emulateLocalDisplacement := false, displayHomogeneousConstraint := false,
    createSkin := false, emulateAdditionalMass := false, replaceCombinedLoadSets := false,
    replaceDirectMatrices := false, removeRedundantSpcs := false, removeIneffectives := false,
    virtualDiscrets := false, splitDirectMatrices := false, sizeDirectMatrices := 999,
    makeCellsFromDirectMatrices := false, makeCellsFromRBE := false,
    splitElementsByDOFS := false, partitionModel := false }

end ModelConfiguration

/-! ## The model and its membership index -/

/-- The part of `Model` that the catalog and membership operations and the passes
of the pipeline use. `Lg`, `LSd`,
`Cg`, `CSd` are the attributes proper to loadings, load sets, constraints and
constraint sets. The sets `std::set<shared_ptr<Reference<T>>>` of the membership
index are lists of references. Modelled from the spec: the constructor of
`Identifiable<T>` is absent from the sources; the id of an entity is
"catalog-assigned", and `loadSet_auto_id` is the id that the next load set
constructed by the model receives, and the same for the other kinds. A
`CellContainer` of `material_assignment_by_material_id` is the list of the cell
groups added to it. -/
structure Model (Lg LSd Cg CSd : Type) where
  analyses : Container Nat AnalysisData
  loadings : Container Nat Lg
  loadSets : Container Nat LSd
  constraints : Container Nat Cg
  constraintSets : Container Nat CSd
  loadingReferences_by_loadSet_ids : KeyMap Int (List (Reference Nat))
  loadingReferences_by_loadSet_original_ids_by_loadSet_type :
    KeyMap Nat (KeyMap Int (List (Reference Nat)))
  constraintReferences_by_constraintSet_ids : KeyMap Int (List (Reference Nat))
  constraintReferences_by_constraintSet_original_ids_by_constraintSet_type :
    KeyMap Nat (KeyMap Int (List (Reference Nat)))
  commonLoadSet : Identifiable Nat LSd
  commonConstraintSet : Identifiable Nat CSd
  loadSet_auto_id : Int
  objectives : Container ObjectiveType ObjectiveData
  elementSets : Container Nat ElementSetData
  materials : Container Nat MaterialData
  virtualMaterial : Option Nat
  material_assignment_by_material_id : KeyMap Int (List Nat)
  mesh : Mesh
  configuration : ModelConfiguration
  finished : Bool
  analysis_auto_id : Int
  loading_auto_id : Int
  constraint_auto_id : Int
  constraintSet_auto_id : Int
  elementSet_auto_id : Int
  material_auto_id : Int

namespace Model

variable {Lg LSd Cg CSd : Type}

/-- The state built by the constructor `Model::Model` (Model.cpp lines 25-37): empty
catalogs and indices, an empty mesh, `finished` false, and the two common sets, which
are not yet in the catalogs. The next id of every kind is `loadSet_auto_id`, and every
optional step of the configuration is off. -/
def init (commonLoadSet : Identifiable Nat LSd) (commonConstraintSet : Identifiable Nat CSd)
    (loadSet_auto_id : Int) : Model Lg LSd Cg CSd :=
  { analyses := Container.empty, loadings := Container.empty, loadSets := Container.empty,
    constraints := Container.empty, constraintSets := Container.empty,
    loadingReferences_by_loadSet_ids := [],
    loadingReferences_by_loadSet_original_ids_by_loadSet_type := [],
    constraintReferences_by_constraintSet_ids := [],
    constraintReferences_by_constraintSet_original_ids_by_constraintSet_type := [],
    commonLoadSet := commonLoadSet, commonConstraintSet := commonConstraintSet,
    loadSet_auto_id := loadSet_auto_id,
    objectives := Container.empty, elementSets := Container.empty,
    materials := Container.empty, virtualMaterial := none,
    material_assignment_by_material_id := [], mesh := Mesh.empty,
    configuration := ModelConfiguration.allOff, finished := false,
    analysis_auto_id := loadSet_auto_id, loading_auto_id := loadSet_auto_id,
    constraint_auto_id := loadSet_auto_id, constraintSet_auto_id := loadSet_auto_id,
    elementSet_auto_id := loadSet_auto_id, material_auto_id := loadSet_auto_id }

/-- The effect of `index[id].insert(ptr)` guarded by `has_id()`. -/
def insertById (index : KeyMap Int (List (Reference Nat))) (setReference member : Reference Nat) :
    KeyMap Int (List (Reference Nat)) :=
  match setReference.id with
  | some id => index.assign id (KeyMap.atOrEmpty index id ++ [member])
  | none => index

/-- The effect of `index[type][original_id].insert(ptr)` guarded by
`has_original_id()`. -/
def insertByOriginalId (index : KeyMap Nat (KeyMap Int (List (Reference Nat))))
    (setReference member : Reference Nat) : KeyMap Nat (KeyMap Int (List (Reference Nat))) :=
  match setReference.original_id with
  | some original_id =>
    index.assign setReference.type
      (KeyMap.assign (KeyMap.atOrEmpty index setReference.type) original_id
        (KeyMap.atOrEmpty (KeyMap.atOrEmpty index setReference.type) original_id ++ [member]))
  | none => index

/-- The member references held under the internal id of a set reference. -/
def membersById (index : KeyMap Int (List (Reference Nat))) (setReference : Reference Nat) :
    List (Reference Nat) :=
  (index.findOpt setReference.id).getD []

/-- The member references held under the (type, original id) of a set reference. -/
def membersByOriginalId (index : KeyMap Nat (KeyMap Int (List (Reference Nat))))
    (setReference : Reference Nat) : List (Reference Nat) :=
  match index.find setReference.type with
  | some inner => (inner.findOpt setReference.original_id).getD []
  | none => []

/-- `Model::add(const LoadSet&)`, Model.cpp lines 160-165. -/
def addLoadSet (m : Model Lg LSd Cg CSd) (loadSet : Identifiable Nat LSd) :
    Outcome (Model Lg LSd Cg CSd) :=
  { state := { m with loadSets := (m.loadSets.add loadSet).state },
    error := (m.loadSets.add loadSet).error }

/-- `Model::add(const ConstraintSet&)`, Model.cpp lines 184-189. -/
def addConstraintSet (m : Model Lg LSd Cg CSd) (constraintSet : Identifiable Nat CSd) :
    Outcome (Model Lg LSd Cg CSd) :=
  { state := { m with constraintSets := (m.constraintSets.add constraintSet).state },
    error := (m.constraintSets.add constraintSet).error }

/-- Modelled from the spec: the constructor `LoadSet(model, type, original_id)` is
absent from the sources. The set it builds has the given type and original id,
the next id of its kind and the attributes of an empty set. -/
def newLoadSet [Inhabited LSd] (m : Model Lg LSd Cg CSd) (type : Nat)
    (original_id : Option Int) : Identifiable Nat LSd × Model Lg LSd Cg CSd :=
  ({ id := m.loadSet_auto_id, original_id := original_id, type := type, data := default },
   { m with loadSet_auto_id := m.loadSet_auto_id + 1 })

/-- The insertions of `Model::addLoadingIntoLoadSet` into the membership index,
Model.cpp lines 489-494. -/
def insertLoadingReference (m : Model Lg LSd Cg CSd)
    (loadingReference loadSetReference : Reference Nat) : Model Lg LSd Cg CSd :=
  { m with
    loadingReferences_by_loadSet_ids :=
      insertById m.loadingReferences_by_loadSet_ids loadSetReference loadingReference,
    loadingReferences_by_loadSet_original_ids_by_loadSet_type :=
      insertByOriginalId m.loadingReferences_by_loadSet_original_ids_by_loadSet_type
        loadSetReference loadingReference }

/-- The common load set "is added to the model if needed", Model.cpp lines 495-496.
Modelled from the spec: `operator==` of `Reference<T>` is absent from the sources;
two references are equal when their three fields are. -/
def addCommonLoadSetIfNeeded (m : Model Lg LSd Cg CSd) (loadSetReference : Reference Nat) :
    Outcome (Model Lg LSd Cg CSd) :=
  if loadSetReference = m.commonLoadSet.getReference
      ∧ (m.loadSets.find m.commonLoadSet.getReference).isNone then
    m.addLoadSet m.commonLoadSet
  else Outcome.ok m

/-- The synthesis of the load set that the reference does not resolve, Model.cpp
lines 497-500. -/
def addMissingLoadSet [Inhabited LSd] (m : Model Lg LSd Cg CSd)
    (loadSetReference : Reference Nat) : Outcome (Model Lg LSd Cg CSd) :=
  if (m.loadSets.find loadSetReference).isNone then
    (m.newLoadSet loadSetReference.type loadSetReference.original_id).2.addLoadSet
      (m.newLoadSet loadSetReference.type loadSetReference.original_id).1
  else Outcome.ok m

/-- `Model::addLoadingIntoLoadSet`, Model.cpp lines 487-501. -/
def addLoadingIntoLoadSet [Inhabited LSd] (m : Model Lg LSd Cg CSd)
    (loadingReference loadSetReference : Reference Nat) : Outcome (Model Lg LSd Cg CSd) :=
  ((m.insertLoadingReference loadingReference loadSetReference).addCommonLoadSetIfNeeded
    loadSetReference).andThen fun m2 => m2.addMissingLoadSet loadSetReference

/-- `Model::getLoadingsByLoadSet`, Model.cpp lines 503-523: a set of pointers to
loadings, the null pointer among them when a member reference does not resolve. -/
def getLoadingsByLoadSet (m : Model Lg LSd Cg CSd) (loadSetReference : Reference Nat) :
    List (Option Nat) :=
  let result : List (Option Nat) := []
  let result :=
    match m.loadingReferences_by_loadSet_ids.findOpt loadSetReference.id with
    | some itm => itm.foldl (fun acc itm2 => KeyMap.setInsert acc (m.loadings.find itm2)) result
    | none => result
  match m.loadingReferences_by_loadSet_original_ids_by_loadSet_type.find
      loadSetReference.type with
  | some itm2 =>
    match itm2.findOpt loadSetReference.original_id with
    | some itm3 => itm3.foldl (fun acc itm4 => KeyMap.setInsert acc (m.loadings.find itm4)) result
    | none => result
  | none => result

/-- The insertions of `Model::addConstraintIntoConstraintSet` into the membership
index, Model.cpp lines 528-533. -/
def insertConstraintReference (m : Model Lg LSd Cg CSd)
    (constraintReference constraintSetReference : Reference Nat) : Model Lg LSd Cg CSd :=
  { m with
    constraintReferences_by_constraintSet_ids :=
      insertById m.constraintReferences_by_constraintSet_ids constraintSetReference
        constraintReference,
    constraintReferences_by_constraintSet_original_ids_by_constraintSet_type :=
      insertByOriginalId
        m.constraintReferences_by_constraintSet_original_ids_by_constraintSet_type
        constraintSetReference constraintReference }

/-- The common constraint set "is added to the model if needed", Model.cpp lines
534-536. -/
def addCommonConstraintSetIfNeeded (m : Model Lg LSd Cg CSd)
    (constraintSetReference : Reference Nat) : Outcome (Model Lg LSd Cg CSd) :=
  if constraintSetReference = m.commonConstraintSet.getReference
      ∧ (m.constraintSets.find m.commonConstraintSet.getReference).isNone then
    m.addConstraintSet m.commonConstraintSet
  else Outcome.ok m

/-- `Model::addConstraintIntoConstraintSet`, Model.cpp lines 525-537: the function
ends after the common constraint set. -/
def addConstraintIntoConstraintSet (m : Model Lg LSd Cg CSd)
    (constraintReference constraintSetReference : Reference Nat) :
    Outcome (Model Lg LSd Cg CSd) :=
  (m.insertConstraintReference constraintReference constraintSetReference).addCommonConstraintSetIfNeeded
    constraintSetReference

/-- `Model::getConstraintsByConstraintSet`, Model.cpp lines 539-559. -/
def getConstraintsByConstraintSet (m : Model Lg LSd Cg CSd)
    (constraintSetReference : Reference Nat) : List (Option Nat) :=
  let result : List (Option Nat) := []
  let result :=
    match m.constraintReferences_by_constraintSet_ids.findOpt constraintSetReference.id with
    | some itm =>
      itm.foldl (fun acc itm2 => KeyMap.setInsert acc (m.constraints.find itm2)) result
    | none => result
  match m.constraintReferences_by_constraintSet_original_ids_by_constraintSet_type.find
      constraintSetReference.type with
  | some itm2 =>
    match itm2.findOpt constraintSetReference.original_id with
    | some itm3 =>
      itm3.foldl (fun acc itm4 => KeyMap.setInsert acc (m.constraints.find itm4)) result
    | none => result
  | none => result

/-- The loop `for (auto analysis : analyses)` of the `remove` functions, with body
`if (analysis->contains(ref)) analysis->remove(ref)`. Modelled from the spec: the
iterator of `Container<T>` is declared in the absent `Model.h`; the catalog is
traversed through the entities registered under an internal id. -/
def disassociate (contains : Analysis → Reference Nat → Bool)
    (remove : Analysis → Reference Nat → Analysis)
    (analyses : Container Nat AnalysisData) (ref : Reference Nat) :
    Container Nat AnalysisData :=
  { analyses with
    objs := analyses.by_id.foldl
      (fun objs entry => objs.modify (fun a => if contains a ref then remove a ref else a) entry.2)
      analyses.objs }

/-- The loop `for (auto analysis : analyses)` of `Model::remove(Reference<Objective>)`,
Model.cpp lines 410-418, traversed as in `disassociate`. -/
def disassociateObjective (analyses : Container Nat AnalysisData)
    (ref : Reference ObjectiveType) : Container Nat AnalysisData :=
  { analyses with
    objs := analyses.by_id.foldl
      (fun objs entry =>
        objs.modify
          (fun a =>
            if Analysis.containsObjective a ref then Analysis.removeObjective a ref else a)
          entry.2)
      analyses.objs }

/-- `Model::remove(const Reference<Objective>)`, Model.cpp lines 406-421: the analyses
are visited only when the reference resolves to an assertion. -/
def removeObjective (m : Model Lg LSd Cg CSd) (objectiveReference : Reference ObjectiveType) :
    Model Lg LSd Cg CSd :=
  { m with
    analyses :=
      match m.objectives.deref (m.objectives.find objectiveReference) with
      | some objective =>
        if objective.data.isAssertion then
          disassociateObjective m.analyses objectiveReference
        else m.analyses
      | none => m.analyses,
    objectives := m.objectives.erase objectiveReference }

/-- `Model::remove(const Reference<LoadSet>)`, Model.cpp lines 380-391. -/
def removeLoadSet (m : Model Lg LSd Cg CSd) (loadSetReference : Reference Nat) :
    Model Lg LSd Cg CSd :=
  { m with
    analyses := disassociate Analysis.containsLoadSet Analysis.removeLoadSet m.analyses
      loadSetReference,
    loadSets := m.loadSets.erase loadSetReference }

/-- `Model::remove(const Reference<ConstraintSet>)`, Model.cpp lines 393-404. -/
def removeConstraintSet (m : Model Lg LSd Cg CSd) (constraintSetReference : Reference Nat) :
    Model Lg LSd Cg CSd :=
  { m with
    analyses := disassociate Analysis.containsConstraintSet Analysis.removeConstraintSet
      m.analyses constraintSetReference,
    constraintSets := m.constraintSets.erase constraintSetReference }

/-! ### Virtual discrete elements -/

/-- `Model::add(const Constraint&)`, Model.cpp lines 177-182. -/
def addConstraint (m : Model Lg LSd Cg CSd) (constraint : Identifiable Nat Cg) :
    Outcome (Model Lg LSd Cg CSd) :=
  { state := { m with constraints := (m.constraints.add constraint).state },
    error := (m.constraints.add constraint).error }

/-- `Model::add(const ElementSet&)`, Model.cpp lines 213-218. -/
def addElementSet (m : Model Lg LSd Cg CSd) (elementSet : Identifiable Nat ElementSetData) :
    Outcome (Model Lg LSd Cg CSd) :=
  { state := { m with elementSets := (m.elementSets.add elementSet).state },
    error := (m.elementSets.add elementSet).error }

/-- `Model::add(const shared_ptr<Material>)`, Model.cpp lines 170-175. -/
def addMaterial (m : Model Lg LSd Cg CSd) (material : Identifiable Nat MaterialData) :
    Outcome (Model Lg LSd Cg CSd) :=
  { state := { m with materials := (m.materials.add material).state },
    error := (m.materials.add material).error }

/-- The enumerators that the passes of the pipeline name and whose enums are
declared in headers absent from the sources; each stands for the integer value of
the enumerator. -/
structure Enumerators where
  ConstraintSet_SPC : Nat
  Constraint_SPC : Nat
  ElementSet_DISCRETE_0D : Nat
  Material_MATERIAL : Nat
  Constraint_RIGID : Nat
  Constraint_QUASI_RIGID : Nat
  Constraint_RBE3 : Nat
  ElementSet_DISCRETE_1D : Nat
  ElementSet_STIFFNESS_MATRIX : Nat
  ElementSet_RBAR : Nat
  ElementSet_RBE3 : Nat
  LoadSet_DLOAD : Nat

/-- `Model::getOrCreateMaterial`, Model.cpp lines 755-762, called with
`createIfNotExists` true. `material_id` absent is `Material::NO_ORIGINAL_ID`, under
which no material is registered. The result is the state and the exception of the
call; the material is the last object of `materials` when one was created.
Modelled from the spec: the constructor `Material(model, material_id)` is absent
from the sources. -/
def getOrCreateMaterial (E : Enumerators) (m : Model Lg LSd Cg CSd) (material_id : Option Int) :
    Option Nat × Outcome (Model Lg LSd Cg CSd) :=
  match material_id.bind m.materials.findByOriginalId with
  | some result => (some result, Outcome.ok m)
  | none =>
    (some m.materials.objs.length,
     ({ m with material_auto_id := m.material_auto_id + 1 } : Model Lg LSd Cg CSd).addMaterial
       { id := m.material_auto_id, original_id := material_id, type := E.Material_MATERIAL,
         data := { natures := [] } })

/-- `Model::getVirtualMaterial`, Model.cpp lines 783-789; the stiffness `1e-12` of
the elastic nature is `1 / 10 ^ 12`. -/
def getVirtualMaterial (E : Enumerators) (m : Model Lg LSd Cg CSd) :
    Outcome (Model Lg LSd Cg CSd) :=
  match m.virtualMaterial with
  | some _ => Outcome.ok m
  | none =>
    (getOrCreateMaterial E m none).2.andThen fun m2 =>
      Outcome.ok
        { m2 with
          virtualMaterial := (getOrCreateMaterial E m none).1,
          materials := { m2.materials with
            objs := match (getOrCreateMaterial E m none).1 with
              | some ptr =>
                m2.materials.objs.modify
                  (fun material => { material with
                    data := { natures := material.data.natures
                      ++ [Nature.Elastic (1 / 1000000000000) 0] } })
                  ptr
              | none => m2.materials.objs } }

/-- The local variables of `Model::generateDiscrets` that live across the nodes,
with the model. -/
structure DiscretsState (Lg LSd Cg CSd : Type) where
  model : Model Lg LSd Cg CSd
  virtualDiscretTRGroup : Option Nat
  virtualDiscretTGroup : Option Nat

/-- The accumulation of `missingDOFS` over the analyses, Model.cpp lines 684-692. -/
def missingDOFS (analyses : Container Nat AnalysisData) (node : Node) : DOFS :=
  analyses.by_id.foldl
    (fun missingDOFS entry =>
      match analyses.objs[entry.2]? with
      | some analysis =>
        if ¬ node.dofs.containsAll (Analysis.findBoundaryDOFS analysis node.position) then
          (missingDOFS ∪ Analysis.findBoundaryDOFS analysis node.position) \ node.dofs
        else missingDOFS
      | none => missingDOFS)
    DOFS.NO_DOFS

/-- The value of `addedDOFS` after Model.cpp lines 694-726: "extra dofs added by the
DISCRET. They need to be blocked." -/
def addedDOFS (node : Node) (missingDOFS : DOFS) : DOFS :=
  if missingDOFS.size ≠ 0 then
    if missingDOFS.containsAnyOf DOFS.ROTATIONS then
      (DOFS.ALL_DOFS \ node.dofs) \ missingDOFS
    else
      (DOFS.TRANSLATIONS \ node.dofs) \ missingDOFS
  else DOFS.NO_DOFS

/-- The creation of a virtual discrete element set with its cell group, Model.cpp
lines 700-704 and 715-719: the result is the new `CellGroup*` and the outcome of
the calls. Modelled from the spec: the constructor `DiscretePoint(model, ...)` is
absent from the sources; the element set has the next id of its kind and the given
stiffness terms. -/
def createVirtualDiscret (E : Enumerators) (m : Model Lg LSd Cg CSd) (groupName : String)
    (stiffness : List ℚ) : Nat × Outcome (Model Lg LSd Cg CSd) :=
  (m.mesh.cellGroups.length,
   (getVirtualMaterial E
      { m with
        elementSet_auto_id := m.elementSet_auto_id + 1,
        mesh := (m.mesh.createCellGroup groupName).2 }).andThen fun m2 =>
     m2.addElementSet
       { id := m.elementSet_auto_id, original_id := none, type := E.ElementSet_DISCRETE_0D,
         data := { kind := ElementSetKind.DiscretePoint stiffness [],
                   cellGroup := some (m.mesh.createCellGroup groupName).1,
                   material := m2.virtualMaterial } })

/-- The calls `mesh->addCell(Cell::AUTO_ID, CellType::POINT1, {node.id}, true)` and
`group->addCell(mesh->findCell(cellPosition).id)`, Model.cpp lines 709-711 and
721-723. -/
def addVirtualCell (mesh : Mesh) (group : Nat) (node : Node) : Mesh :=
  match (mesh.addCell CellType.POINT1 [node.id] true).2.cells[
      (mesh.addCell CellType.POINT1 [node.id] true).1]? with
  | some cell => (mesh.addCell CellType.POINT1 [node.id] true).2.addCellToGroup group cell.id
  | none => (mesh.addCell CellType.POINT1 [node.id] true).2

/-- The branch of Model.cpp lines 696-711: a rotation is missing. -/
def attachCarrierTR (E : Enumerators) (st : DiscretsState Lg LSd Cg CSd) (node : Node) :
    Outcome (DiscretsState Lg LSd Cg CSd) :=
  let created : Outcome (DiscretsState Lg LSd Cg CSd) :=
    match st.virtualDiscretTRGroup with
    | some _ => Outcome.ok st
    | none =>
      (createVirtualDiscret E st.model "VDiscrTR" [0, 0, 0, 0, 0, 0]).2.mapState fun m2 =>
        { st with model := m2,
                  virtualDiscretTRGroup :=
                    some (createVirtualDiscret E st.model "VDiscrTR" [0, 0, 0, 0, 0, 0]).1 }
  created.andThen fun st2 =>
    match st2.virtualDiscretTRGroup with
    | some group =>
      Outcome.ok
        { st2 with
          model := { st2.model with
            mesh := addVirtualCell (st2.model.mesh.allowDOFS node.position DOFS.ALL_DOFS)
              group node } }
    | none => Outcome.ok st2

/-- The branch of Model.cpp lines 712-725: only translations are missing. -/
def attachCarrierT (E : Enumerators) (st : DiscretsState Lg LSd Cg CSd) (node : Node) :
    Outcome (DiscretsState Lg LSd Cg CSd) :=
  let created : Outcome (DiscretsState Lg LSd Cg CSd) :=
    match st.virtualDiscretTGroup with
    | some _ => Outcome.ok st
    | none =>
      (createVirtualDiscret E st.model "VDiscrT" [0, 0, 0]).2.mapState fun m2 =>
        { st with model := m2,
                  virtualDiscretTGroup :=
                    some (createVirtualDiscret E st.model "VDiscrT" [0, 0, 0]).1 }
  created.andThen fun st2 =>
    match st2.virtualDiscretTGroup with
    | some group =>
      Outcome.ok
        { st2 with
          model := { st2.model with
            mesh := (addVirtualCell st2.model.mesh group node).allowDOFS node.position
              DOFS.TRANSLATIONS } }
    | none => Outcome.ok st2

/-- The DOFs that `allowDOFS` receives for the carrier of a node, Model.cpp lines
708 and 724; none when the node receives no carrier. -/
def carrierDOFS (missingDOFS : DOFS) : DOFS :=
  if missingDOFS.size ≠ 0 then
    if missingDOFS.containsAnyOf DOFS.ROTATIONS then DOFS.ALL_DOFS else DOFS.TRANSLATIONS
  else DOFS.NO_DOFS

/-- The attachment of a carrier to a node, Model.cpp lines 694-726. -/
def attachCarrier (E : Enumerators) (st : DiscretsState Lg LSd Cg CSd) (node : Node)
    (missingDOFS : DOFS) : Outcome (DiscretsState Lg LSd Cg CSd) :=
  if missingDOFS.size ≠ 0 then
    if missingDOFS.containsAnyOf DOFS.ROTATIONS then attachCarrierTR E st node
    else attachCarrierT E st node
  else Outcome.ok st

/-- The body of the second loop over the analyses, Model.cpp lines 729-750, for the
analysis behind `analysisPtr`; `spcSet` is null at each turn. Modelled from the
spec: the constructors `ConstraintSet(model, type)` and
`SinglePointConstraint(model, dofs)` with `addNodeId` are absent from the sources;
the entities built have the next id of their kind, and `newSPC dofs nodeId` stands
for the attributes of a constraint that blocks `dofs` on the node `nodeId`. -/
def addVirtualSpc [Inhabited CSd] (E : Enumerators) (newSPC : DOFS → Int → Cg) (node : Node)
    (addedDOFS : DOFS) (m : Model Lg LSd Cg CSd) (analysisPtr : Nat) :
    Outcome (Model Lg LSd Cg CSd) :=
  match m.analyses.objs[analysisPtr]? with
  | none => Outcome.ok m
  | some analysis =>
    if ¬ node.dofs.containsAll (Analysis.findBoundaryDOFS analysis node.position) then
      if (addedDOFS \ Analysis.findBoundaryDOFS analysis node.position) \ node.dofs
          ≠ DOFS.NO_DOFS then
        (({ m with constraintSet_auto_id := m.constraintSet_auto_id + 1 } :
            Model Lg LSd Cg CSd).addConstraintSet
          { id := m.constraintSet_auto_id, original_id := none, type := E.ConstraintSet_SPC,
            data := default }).andThen fun m2 =>
        (({ m2 with constraint_auto_id := m2.constraint_auto_id + 1 } :
            Model Lg LSd Cg CSd).addConstraint
          { id := m2.constraint_auto_id, original_id := none, type := E.Constraint_SPC,
            data := newSPC
              ((addedDOFS \ Analysis.findBoundaryDOFS analysis node.position) \ node.dofs)
              node.id }).andThen fun m3 =>
        (m3.addConstraintIntoConstraintSet
          { type := E.Constraint_SPC, original_id := none, id := some m2.constraint_auto_id }
          { type := E.ConstraintSet_SPC, original_id := none,
            id := some m.constraintSet_auto_id }).andThen fun m4 =>
        Outcome.ok
          { m4 with
            analyses := { m4.analyses with
              objs := m4.analyses.objs.modify
                (fun a => Analysis.addConstraintSet a
                  { type := E.ConstraintSet_SPC, original_id := none,
                    id := some m.constraintSet_auto_id })
                analysisPtr } }
      else Outcome.ok m
    else Outcome.ok m

/-- The body of the loop over the nodes of `Model::generateDiscrets`, Model.cpp
lines 683-752, for the node at `position`. -/
def generateDiscretsNode [Inhabited CSd] (E : Enumerators) (newSPC : DOFS → Int → Cg)
    (st : DiscretsState Lg LSd Cg CSd) (position : Nat) :
    Outcome (DiscretsState Lg LSd Cg CSd) :=
  match st.model.mesh.findNode position with
  | none => Outcome.ok st
  | some node =>
    (attachCarrier E st node (missingDOFS st.model.analyses node)).andThen fun st2 =>
      (st2.model.analyses.by_id.foldl
        (fun r entry => r.andThen fun m2 =>
          addVirtualSpc E newSPC node (addedDOFS node (missingDOFS st.model.analyses node))
            m2 entry.2)
        (Outcome.ok st2.model)).mapState fun m3 => { st2 with model := m3 }

/-- The first `turns` turns of the loop over the nodes of `Model::generateDiscrets`,
Model.cpp lines 679-752, with its local variables. The nodes are visited by
position. -/
def generateDiscretsUpTo [Inhabited CSd] (E : Enumerators) (newSPC : DOFS → Int → Cg)
    (m : Model Lg LSd Cg CSd) (turns : Nat) : Outcome (DiscretsState Lg LSd Cg CSd) :=
  (List.range turns).foldl
    (fun r position => r.andThen fun st => generateDiscretsNode E newSPC st position)
    (Outcome.ok { model := m, virtualDiscretTRGroup := none, virtualDiscretTGroup := none })

/-- The run of `Model::generateDiscrets` with its local variables, Model.cpp lines
676-753: one turn for each node of the mesh; the pass adds no node. -/
def generateDiscretsRun [Inhabited CSd] (E : Enumerators) (newSPC : DOFS → Int → Cg)
    (m : Model Lg LSd Cg CSd) : Outcome (DiscretsState Lg LSd Cg CSd) :=
  generateDiscretsUpTo E newSPC m m.mesh.nodes.length

/-- `Model::generateDiscrets`, Model.cpp lines 676-753. -/
def generateDiscrets [Inhabited CSd] (E : Enumerators) (newSPC : DOFS → Int → Cg)
    (m : Model Lg LSd Cg CSd) : Outcome (Model Lg LSd Cg CSd) :=
  (generateDiscretsRun E newSPC m).mapState fun st => st.model

/-! ### Removal of ineffective entities -/

/-- The effect of the two loops of `Model::remove(Reference<Loading>)` on a map of
the membership index keyed by internal id (Model.cpp lines 362-367): every member
reference equal to the removed one is erased from every set. -/
def eraseMemberById (index : KeyMap Int (List (Reference Nat))) (member : Reference Nat) :
    KeyMap Int (List (Reference Nat)) :=
  index.map (fun it => (it.1, it.2.filter (fun it2 => decide (it2 ≠ member))))

/-- The effect of the three loops of `Model::remove(Reference<Loading>)` on a map of
the membership index keyed by type and original id (Model.cpp lines 368-376). -/
def eraseMemberByOriginalId (index : KeyMap Nat (KeyMap Int (List (Reference Nat))))
    (member : Reference Nat) : KeyMap Nat (KeyMap Int (List (Reference Nat))) :=
  index.map (fun it =>
    (it.1, it.2.map (fun it2 => (it2.1, it2.2.filter (fun it3 => decide (it3 ≠ member))))))

/-- `Model::remove(const Reference<Loading>)`, Model.cpp lines 360-378. -/
def removeLoading (m : Model Lg LSd Cg CSd) (loadingReference : Reference Nat) :
    Model Lg LSd Cg CSd :=
  { m with
    loadingReferences_by_loadSet_ids :=
      eraseMemberById m.loadingReferences_by_loadSet_ids loadingReference,
    loadingReferences_by_loadSet_original_ids_by_loadSet_type :=
      eraseMemberByOriginalId m.loadingReferences_by_loadSet_original_ids_by_loadSet_type
        loadingReference,
    loadings := m.loadings.erase loadingReference }

/-- `Model::remove(const Reference<Constraint>)`, Model.cpp lines 321-339. -/
def removeConstraint (m : Model Lg LSd Cg CSd) (constraintReference : Reference Nat) :
    Model Lg LSd Cg CSd :=
  { m with
    constraintReferences_by_constraintSet_ids :=
      eraseMemberById m.constraintReferences_by_constraintSet_ids constraintReference,
    constraintReferences_by_constraintSet_original_ids_by_constraintSet_type :=
      eraseMemberByOriginalId
        m.constraintReferences_by_constraintSet_original_ids_by_constraintSet_type
        constraintReference,
    constraints := m.constraints.erase constraintReference }

/-- The entities of a catalog in the order of `for (auto t : container)`: those
registered under an internal id (see `disassociate`). -/
def registered {τ α : Type} (c : Container τ α) : List (Identifiable τ α) :=
  c.by_id.filterMap (fun entry => c.objs[entry.2]?)

/-- Modelled from the spec: `LoadSet::size` is absent from the sources; the members
of a set are "resolved through the Membership Index", under the reference of the
set, and `size` counts them. -/
def loadSetSize (m : Model Lg LSd Cg CSd) (loadSet : Identifiable Nat LSd) : Nat :=
  (m.getLoadingsByLoadSet loadSet.getReference).length

/-- Modelled from the spec: `ConstraintSet::size`, absent from the sources, as
`loadSetSize`. -/
def constraintSetSize (m : Model Lg LSd Cg CSd) (constraintSet : Identifiable Nat CSd) : Nat :=
  (m.getConstraintsByConstraintSet constraintSet.getReference).length

/-- First part of `Model::removeIneffectives`, Model.cpp lines 1041-1051: the
ineffective loadings are collected, then removed. `ineffective` stands for the
virtual `Loading::ineffective`, absent from the sources. -/
def removeIneffectiveLoadings (ineffective : Lg → Bool) (m : Model Lg LSd Cg CSd) :
    Model Lg LSd Cg CSd :=
  ((registered m.loadings).filter (fun loading => ineffective loading.data)).foldl
    (fun m2 loading => m2.removeLoading loading.getReference) m

/-- Second part of `Model::removeIneffectives`, Model.cpp lines 1053-1064: the
references of the empty load sets are collected, then removed. -/
def removeEmptyLoadSets (m : Model Lg LSd Cg CSd) : Model Lg LSd Cg CSd :=
  (((registered m.loadSets).filter (fun loadSet => m.loadSetSize loadSet = 0)).map
      (fun loadSet => loadSet.getReference)).foldl
    (fun m2 loadSetRef => m2.removeLoadSet loadSetRef) m

/-- Third part of `Model::removeIneffectives`, Model.cpp lines 1066-1076. -/
def removeIneffectiveConstraints (ineffective : Cg → Bool) (m : Model Lg LSd Cg CSd) :
    Model Lg LSd Cg CSd :=
  ((registered m.constraints).filter (fun constraint => ineffective constraint.data)).foldl
    (fun m2 constraint => m2.removeConstraint constraint.getReference) m

/-- Fourth part of `Model::removeIneffectives`, Model.cpp lines 1078-1089. -/
def removeEmptyConstraintSets (m : Model Lg LSd Cg CSd) : Model Lg LSd Cg CSd :=
  (((registered m.constraintSets).filter
        (fun constraintSet => m.constraintSetSize constraintSet = 0)).map
      (fun constraintSet => constraintSet.getReference)).foldl
    (fun m2 constraintSetRef => m2.removeConstraintSet constraintSetRef) m

/-- The test `elementSet->cellGroup && elementSet->cellGroup->cellIds.size() == 0`,
Model.cpp line 1094. -/
def hasEmptyCellGroup (mesh : Mesh) (elementSet : Identifiable Nat ElementSetData) : Bool :=
  match elementSet.data.cellGroup with
  | some group =>
    match mesh.cellGroups[group]? with
    | some cellGroup => decide (cellGroup.cellIds.length = 0)
    | none => false
  | none => false

/-- Last part of `Model::removeIneffectives`, Model.cpp lines 1091-1101. -/
def removeEmptyElementSets (m : Model Lg LSd Cg CSd) : Model Lg LSd Cg CSd :=
  ((registered m.elementSets).filter (fun elementSet => hasEmptyCellGroup m.mesh elementSet)).foldl
    (fun m2 elementSet =>
      { m2 with elementSets := m2.elementSets.erase elementSet.getReference }) m

/-- `Model::removeIneffectives`, Model.cpp lines 1040-1102. -/
def removeIneffectives (ineffectiveLoading : Lg → Bool) (ineffectiveConstraint : Cg → Bool)
    (m : Model Lg LSd Cg CSd) : Model Lg LSd Cg CSd :=
  removeEmptyElementSets
    (removeEmptyConstraintSets
      (removeIneffectiveConstraints ineffectiveConstraint
        (removeEmptyLoadSets (removeIneffectiveLoadings ineffectiveLoading m))))

/-! ### Flattening of combined load sets -/

/-- `Model::add(const Loading&)`, Model.cpp lines 153-158. -/
def addLoading (m : Model Lg LSd Cg CSd) (loading : Identifiable Nat Lg) :
    Outcome (Model Lg LSd Cg CSd) :=
  { state := { m with loadings := (m.loadings.add loading).state },
    error := (m.loadings.add loading).error }

/-- Modelled from the spec: `Loading::clone`, `resetId` and `scale` are absent from
the sources. The clone of a loading, given "a fresh id" (the next id of its kind, and
no id of the source format) and scaled by `coefficient`; `scale` is the scaling of
the attributes of a loading. -/
def scaledClone (scale : ℚ → Lg → Lg) (m : Model Lg LSd Cg CSd) (loading : Identifiable Nat Lg)
    (coefficient : ℚ) : Identifiable Nat Lg × Model Lg LSd Cg CSd :=
  ({ id := m.loading_auto_id, original_id := none, type := loading.type,
     data := scale coefficient loading.data },
   { m with loading_auto_id := m.loading_auto_id + 1 })

/-- The body of the innermost loop of `Model::replaceCombinedLoadSets`, Model.cpp
lines 1113-1117, for one pointer of `otherloadSet->getLoadings()`. `loading->clone()`
on the null pointer ends the run. -/
def cloneLoadingInto (scale : ℚ → Lg → Lg) (m : Model Lg LoadSetData Cg CSd)
    (loadSet : Identifiable Nat LoadSetData) (coefficient : ℚ) (loading : Option Nat) :
    Outcome (Model Lg LoadSetData Cg CSd) :=
  match m.loadings.deref loading with
  | none => Outcome.throw m "null pointer dereference"
  | some l =>
    ((scaledClone scale m l coefficient).2.addLoading
        (scaledClone scale m l coefficient).1).andThen
      fun m2 =>
        m2.addLoadingIntoLoadSet (scaledClone scale m l coefficient).1.getReference
          loadSet.getReference

/-- The body of the loop over `loadSet->embedded_loadsets`, Model.cpp lines
1107-1122. When the embedded reference does not resolve, "Missing loadSet" is
written and the run goes on to `otherloadSet->getLoadings()` on the null pointer,
which ends it. Modelled from the spec: `LoadSet::getLoadings` is absent from the
sources; the members of a set are "resolved through the Membership Index", under the
reference of the set. -/
def flattenEmbedded (scale : ℚ → Lg → Lg) (m : Model Lg LoadSetData Cg CSd)
    (loadSet : Identifiable Nat LoadSetData) (kv : Reference Nat × ℚ) :
    Outcome (Model Lg LoadSetData Cg CSd) :=
  match m.loadSets.deref (m.loadSets.find kv.1) with
  | none => Outcome.throw m "null pointer dereference"
  | some otherloadSet =>
    (m.getLoadingsByLoadSet otherloadSet.getReference).foldl
      (fun r loading => r.andThen fun m2 => cloneLoadingInto scale m2 loadSet kv.2 loading)
      (Outcome.ok m)

/-- The effect of `loadSet->embedded_loadsets.clear()` on the load set behind a
pointer. -/
def clearEmbedded (m : Model Lg LoadSetData Cg CSd) (ptr : Nat) : Model Lg LoadSetData Cg CSd :=
  { m with
    loadSets := { m.loadSets with
      objs := m.loadSets.objs.modify
        (fun ls => { ls with data := { embedded_loadsets := [] } }) ptr } }

/-- The body of the loop over the load sets of `Model::replaceCombinedLoadSets`,
Model.cpp lines 1106-1124, for the load set behind `ptr`. -/
def flattenLoadSet (scale : ℚ → Lg → Lg) (m : Model Lg LoadSetData Cg CSd) (ptr : Nat) :
    Outcome (Model Lg LoadSetData Cg CSd) :=
  match m.loadSets.objs[ptr]? with
  | none => Outcome.ok m
  | some loadSet =>
    (loadSet.data.embedded_loadsets.foldl
      (fun r kv => r.andThen fun m2 => flattenEmbedded scale m2 loadSet kv)
      (Outcome.ok m)).andThen
      fun m2 => Outcome.ok (m2.clearEmbedded ptr)

/-- `Model::replaceCombinedLoadSets`, Model.cpp lines 1104-1126. The catalog is
traversed through the load sets registered under an internal id when the pass
starts; a load set that the pass itself adds to the catalog embeds nothing. -/
def replaceCombinedLoadSets (scale : ℚ → Lg → Lg) (m : Model Lg LoadSetData Cg CSd) :
    Outcome (Model Lg LoadSetData Cg CSd) :=
  m.loadSets.by_id.foldl
    (fun r entry => r.andThen fun m2 => flattenLoadSet scale m2 entry.2)
    (Outcome.ok m)

/-- The boundary DOFs tracked by the analyses of a catalog, object by object. -/
def boundaries (analyses : Container Nat AnalysisData) : List (KeyMap Int DOFS) :=
  analyses.objs.map (fun a => a.data.boundaryDOFSByNodePosition)

/-- What the second loop of `Model::generateDiscrets` keeps of a model: the mesh, the
element sets, the entries of the catalog of analyses and the boundary DOFs that the
analyses track. -/
def SpcFrame (m m2 : Model Lg LSd Cg CSd) : Prop :=
  m2.mesh = m.mesh ∧ m2.elementSets = m.elementSets ∧ m2.analyses.by_id = m.analyses.by_id
    ∧ boundaries m2.analyses = boundaries m.analyses

/-- The effect on a model of the attachment of a carrier to a node: `group` and
`group2` are the `CellGroup*` of the carrier before and after, `dofs` the DOFs that
the carrier allows. The node gains the DOFs, the mesh one virtual point cell on the
node, whose id goes to the cell group of the carrier; the cell group, with its
element set, is created when `group` is null. -/
def CarrierAttached (groupName : String) (stiffness : List ℚ) (dofs : DOFS)
    (group group2 : Option Nat) (m m2 : Model Lg LSd Cg CSd) (node : Node) : Prop :=
  m2.mesh.nodes = (m.mesh.allowDOFS node.position dofs).nodes
    ∧ m2.mesh.cells = m.mesh.cells ++
        [{ id := m.mesh.cell_auto_id, type := CellType.POINT1, nodeIds := [node.id],
           isVirtual := true }]
    ∧ group2 = some (group.getD m.mesh.cellGroups.length)
    ∧ m2.mesh.cellGroups
        = (if group.isSome then m.mesh.cellGroups
            else m.mesh.cellGroups ++ [{ name := groupName, cellIds := [] }]).modify
          (fun g => { g with cellIds := g.cellIds ++ [m.mesh.cell_auto_id] })
          (group.getD m.mesh.cellGroups.length)
    ∧ if group.isSome then m2.elementSets = m.elementSets
      else ∃ elementSet : Identifiable Nat ElementSetData,
        m2.elementSets.objs = m.elementSets.objs ++ [elementSet]
          ∧ elementSet.data.kind = ElementSetKind.DiscretePoint stiffness []
          ∧ elementSet.data.cellGroup = some m.mesh.cellGroups.length

/-! ### The carriers in the words of the specification -/

/-- The missing DOFs of a node in the words of the specification: the union, over
the analyses, of the required boundary DOFs at the node that are not native DOFs of
the node. -/
def missingOfNode (analyses : Container Nat AnalysisData) (node : Node) : DOFS :=
  ((registered analyses).map
    (fun a => Analysis.findBoundaryDOFS a node.position \ node.dofs)).foldr (fun s t => s ∪ t) ∅

/-- A node receives a point cell of the carrier group named `groupName`, the group of
an element set with the stiffness terms `stiffness`, between two states of the mesh
and of the objects of the element-set catalog: the mesh gains one virtual point cell
on the node, the id of the cell goes to the cell group of that name, the other cell
groups are as they were. -/
def ReceivesCell (groupName : String) (stiffness : List ℚ) (mesh : Mesh) (mesh2 : Mesh)
    (elementSets2 : List (Identifiable Nat ElementSetData)) (node : Node) : Prop :=
  ∃ (cell : Cell) (g : Nat) (group : CellGroup),
    mesh2.cells = mesh.cells ++ [cell]
      ∧ cell.type = CellType.POINT1 ∧ cell.nodeIds = [node.id] ∧ cell.isVirtual = true
      ∧ mesh2.cellGroups[g]? = some group ∧ group.name = groupName
      ∧ group.cellIds = ((mesh.cellGroups[g]?).map (fun old => old.cellIds)).getD [] ++ [cell.id]
      ∧ (∀ g2, g2 ≠ g → mesh2.cellGroups[g2]? = mesh.cellGroups[g2]?)
      ∧ ∃ elementSet ∈ elementSets2,
          elementSet.data.kind = ElementSetKind.DiscretePoint stiffness []
            ∧ elementSet.data.cellGroup = some g

/-- The `CellGroup*` of a carrier, when not null, is a cell group of the mesh with the
name of the carrier, and the group of an element set with its stiffness terms. -/
def CarrierGroup (groupName : String) (stiffness : List ℚ) (group : Option Nat) (mesh : Mesh)
    (elementSets : List (Identifiable Nat ElementSetData)) : Prop :=
  ∀ g, group = some g →
    (∃ cellGroup, mesh.cellGroups[g]? = some cellGroup ∧ cellGroup.name = groupName)
      ∧ ∃ elementSet ∈ elementSets,
          elementSet.data.kind = ElementSetKind.DiscretePoint stiffness []
            ∧ elementSet.data.cellGroup = some g

/-- The element set is a discrete point with the given stiffness terms. -/
def isDiscretePoint (stiffness : List ℚ) (elementSet : Identifiable Nat ElementSetData) : Bool :=
  decide (elementSet.data.kind = ElementSetKind.DiscretePoint stiffness [])

/-- The effect of one turn of the loop over the nodes on the carriers, from the
state `st` to the state `st2`, for a node whose missing DOFs are `missingDOFS`: which
cell the node receives, the element sets that the turn adds, and the cell groups of
the two carriers. -/
def TurnEffect (missingDOFS : DOFS) (node : Node) (st st2 : DiscretsState Lg LSd Cg CSd) : Prop :=
  CarrierGroup "VDiscrTR" [0, 0, 0, 0, 0, 0] st2.virtualDiscretTRGroup st2.model.mesh
      st2.model.elementSets.objs
    ∧ CarrierGroup "VDiscrT" [0, 0, 0] st2.virtualDiscretTGroup st2.model.mesh
        st2.model.elementSets.objs
    ∧ (∃ added, st2.model.elementSets.objs = st.model.elementSets.objs ++ added
        ∧ added.countP (isDiscretePoint [0, 0, 0, 0, 0, 0])
              + (if st.virtualDiscretTRGroup.isSome then 1 else 0)
            = (if st2.virtualDiscretTRGroup.isSome then 1 else 0)
        ∧ added.countP (isDiscretePoint [0, 0, 0])
              + (if st.virtualDiscretTGroup.isSome then 1 else 0)
            = (if st2.virtualDiscretTGroup.isSome then 1 else 0)
        ∧ ∀ es ∈ added, isDiscretePoint [0, 0, 0, 0, 0, 0] es = true
            ∨ isDiscretePoint [0, 0, 0] es = true)
    ∧ (missingDOFS.size ≠ 0 → missingDOFS.containsAnyOf DOFS.ROTATIONS = true →
        ReceivesCell "VDiscrTR" [0, 0, 0, 0, 0, 0] st.model.mesh st2.model.mesh
          st2.model.elementSets.objs node)
    ∧ (missingDOFS.size ≠ 0 → missingDOFS.containsAnyOf DOFS.ROTATIONS = false →
        ReceivesCell "VDiscrT" [0, 0, 0] st.model.mesh st2.model.mesh
          st2.model.elementSets.objs node)
    ∧ (missingDOFS.size = 0 →
        st2.model.mesh.cells = st.model.mesh.cells
          ∧ st2.model.mesh.cellGroups = st.model.mesh.cellGroups)

/-! ### Removal of the assertions on missing DOFs -/

/-- Modelled from the spec: `Analysis::getAssertions` is absent from the sources; the
analysis hands out the objectives that its references resolve in the catalog and that
are assertions. -/
def getAssertions (m : Model Lg LSd Cg CSd) (analysis : Analysis) : List Nat :=
  analysis.data.objectiveReferences.filterMap fun reference =>
    match m.objectives.find reference with
    | some ptr =>
      match m.objectives.objs[ptr]? with
      | some objective => if objective.data.isAssertion then some ptr else none
      | none => none
    | none => none

/-- The DOFs of the node that `mesh->findNode(nodePosition)` hands out. Modelled from
the spec: a position that the mesh does not know has no DOFs. -/
def nodeDOFS (mesh : Mesh) (nodePosition : Int) : DOFS :=
  match mesh.findNode nodePosition with
  | some node => node.dofs
  | none => DOFS.NO_DOFS

/-- The test of Model.cpp lines 1134-1141 on an assertion of an analysis, for one of
its node positions: the assertion has DOFs at the node, and the DOFs of the node with
the boundary DOFs of the analysis at the node do not contain them all. -/
def missesDOFS (m : Model Lg LSd Cg CSd) (analysis : Analysis) (assertion : Objective)
    (nodePosition : Int) : Bool :=
  match assertion.data.getDOFSForNode nodePosition with
  | some assertionDOFS =>
    decide (assertionDOFS.size ≥ 1)
      && !(DOFS.containsAll
            (nodeDOFS m.mesh nodePosition ∪ Analysis.findBoundaryDOFS analysis nodePosition)
            assertionDOFS)
  | none => false

/-- The vector `objectivesToRemove` after the first loop of
`Model::removeAssertionsMissingDOFS`, Model.cpp lines 1130-1144. -/
def objectivesToRemove (m : Model Lg LSd Cg CSd) : List Nat :=
  (registered m.analyses).flatMap fun analysis =>
    (m.getAssertions analysis).flatMap fun ptr =>
      match m.objectives.objs[ptr]? with
      | some assertion =>
        ((assertion.data.nodePositions.getD []).filter
          (fun nodePosition => missesDOFS m analysis assertion nodePosition)).map fun _ => ptr
      | none => []

/-- The body of the second loop of `Model::removeAssertionsMissingDOFS`, Model.cpp
lines 1145-1150: `remove(Reference<Objective>(*objective))`. -/
def removeObjectiveAt (m : Model Lg LSd Cg CSd) (ptr : Nat) : Model Lg LSd Cg CSd :=
  match m.objectives.objs[ptr]? with
  | some objective => m.removeObjective objective.getReference
  | none => m

/-- `Model::removeAssertionsMissingDOFS`, Model.cpp lines 1128-1151. -/
def removeAssertionsMissingDOFS (m : Model Lg LSd Cg CSd) : Model Lg LSd Cg CSd :=
  m.objectivesToRemove.foldl removeObjectiveAt m

/-- An assertion is unreachable, in the words of the specification: for some
analysis holding it and some node of the assertion, the DOFs of the assertion at
that node are non-empty and not contained in the native DOFs of the node united with
the boundary DOFs of that analysis at the node. The assertion is the objective
behind `ptr`. -/
def Unreachable (m : Model Lg LSd Cg CSd) (ptr : Nat) (assertion : Objective) : Prop :=
  assertion.data.isAssertion = true
    ∧ ∃ analysis ∈ registered m.analyses,
        (∃ reference ∈ analysis.data.objectiveReferences,
          m.objectives.find reference = some ptr)
        ∧ ∃ nodePosition ∈ assertion.data.nodePositions.getD [],
            ∃ dofs, assertion.data.getDOFSForNode nodePosition = some dofs
              ∧ dofs.Nonempty
              ∧ ¬ dofs ⊆ nodeDOFS m.mesh nodePosition
                    ∪ Analysis.findBoundaryDOFS analysis nodePosition

/-! ### The flattening of combined load sets: conditions and effects -/

/-- The ids that the model is about to give to loadings are registered for no
loading. -/
def FreshLoadingIds (m : Model Lg LSd Cg CSd) : Prop :=
  ∀ k, m.loading_auto_id ≤ k → m.loadings.by_id.find k = none

/-- Every member that the membership index gives to the load set `s` is a loading of
the catalog: no member reference of `s` is dangling. -/
def MembersResolve (m : Model Lg LSd Cg CSd) (s : Reference Nat) : Prop :=
  ∀ lp ∈ m.getLoadingsByLoadSet s, ∃ l, m.loadings.deref lp = some l

/-- From `m` to `m2` the loadings and the membership index have only grown: the
loadings of `m` are loadings of `m2`, unchanged and resolved by the same references,
and the members of a load set in `m` are members of it in `m2`. -/
def LoadingsGrow (m m2 : Model Lg LSd Cg CSd) : Prop :=
  m.loadings.objs.length ≤ m2.loadings.objs.length
    ∧ (∀ (i : Nat) (l : Identifiable Nat Lg), m.loadings.objs[i]? = some l →
        m2.loadings.objs[i]? = some l)
    ∧ (∀ (r : Reference Nat) (p : Nat), m.loadings.find r = some p →
        m2.loadings.find r = some p)
    ∧ (∀ s r, r ∈ membersById m.loadingReferences_by_loadSet_ids s →
        r ∈ membersById m2.loadingReferences_by_loadSet_ids s)
    ∧ (∀ s r,
        r ∈ membersByOriginalId m.loadingReferences_by_loadSet_original_ids_by_loadSet_type s →
        r ∈ membersByOriginalId m2.loadingReferences_by_loadSet_original_ids_by_loadSet_type s)
    ∧ m.loading_auto_id ≤ m2.loading_auto_id

/-- The load set `s` has gained, from `m0` to `m`, a clone of the loading `l` scaled
by `c`: a loading of `m` that `m0` did not have, with an id that `m0` had not given
and no id of the source format, the kind of `l` and the attributes of `l` scaled by
`c`, and that is a member of `s` in `m`. -/
def GainedClone (scale : ℚ → Lg → Lg) (m0 m : Model Lg LSd Cg CSd) (s : Reference Nat)
    (l : Identifiable Nat Lg) (c : ℚ) : Prop :=
  ∃ (q : Nat) (clone : Identifiable Nat Lg),
    m0.loadings.objs.length ≤ q ∧ m.loadings.objs[q]? = some clone
      ∧ clone.original_id = none ∧ m0.loading_auto_id ≤ clone.id
      ∧ clone.type = l.type ∧ clone.data = scale c l.data
      ∧ some q ∈ m.getLoadingsByLoadSet s

/-! ### The pipeline -/

/-- What `Model::finish` calls and this development does not embed. The virtual
functions of the entities and the functions of the mesh, whose headers are absent
from the sources, and the enumerators of absent enums, are attributes of the
entities or functions on them; the passes of Model.cpp that are not embedded are
functions on the model, that may throw. What is proved of `finish` holds whatever
they are. -/
structure Collaborators (Lg Cg CSd : Type) where
  scale : ℚ → Lg → Lg
  ineffectiveLoading : Lg → Bool
  ineffectiveConstraint : Cg → Bool
  newSPC : DOFS → Int → Cg
  enumerators : Enumerators
  Analysis_LINEAR_MECA_STAT : Nat
  elementSetDOFS : Mesh → Identifiable Nat ElementSetData → List (Int × DOFS)
  boundaryConditionDOFS : Model Lg LoadSetData Cg CSd → Analysis → List (Int × DOFS)
  assignElementId : Mesh → Nat → Int → Mesh
  meshFinish : Mesh → Mesh
  emulateLocalDisplacementConstraint :
    Model Lg LoadSetData Cg CSd → Outcome (Model Lg LoadSetData Cg CSd)
  generateBeamsToDisplayHomogeneousConstraint :
    Model Lg LoadSetData Cg CSd → Outcome (Model Lg LoadSetData Cg CSd)
  generateSkin : Model Lg LoadSetData Cg CSd → Outcome (Model Lg LoadSetData Cg CSd)
  emulateAdditionalMass : Model Lg LoadSetData Cg CSd → Outcome (Model Lg LoadSetData Cg CSd)
  replaceDirectMatrices : Model Lg LoadSetData Cg CSd → Outcome (Model Lg LoadSetData Cg CSd)
  removeRedundantSpcs : Model Lg LoadSetData Cg CSd → Outcome (Model Lg LoadSetData Cg CSd)
  splitDirectMatrices :
    Nat → Model Lg LoadSetData Cg CSd → Outcome (Model Lg LoadSetData Cg CSd)
  makeCellsFromDirectMatrices :
    Model Lg LoadSetData Cg CSd → Outcome (Model Lg LoadSetData Cg CSd)
  makeCellsFromRBE : Model Lg LoadSetData Cg CSd → Outcome (Model Lg LoadSetData Cg CSd)
  splitElementsByDOFS : Model Lg LoadSetData Cg CSd → Outcome (Model Lg LoadSetData Cg CSd)

/-- The loop over the element sets of `Model::finish`, Model.cpp lines 1899-1903:
`K.elementSetDOFS` gives, for an element set, its node positions with its DOFs
there. -/
def allowElementSetDOFS (K : Collaborators Lg Cg CSd) (m : Model Lg LoadSetData Cg CSd) :
    Model Lg LoadSetData Cg CSd :=
  { m with
    mesh := (registered m.elementSets).foldl
      (fun mesh elementSet =>
        (K.elementSetDOFS mesh elementSet).foldl
          (fun mesh2 entry => mesh2.allowDOFS entry.1 entry.2) mesh)
      m.mesh }

/-- Modelled from the spec: `Analysis::addBoundaryDOFS` is absent from the sources;
the DOFs are added to the boundary DOFs that the analysis tracks for the node. -/
def addBoundaryDOFS (a : Analysis) (nodePosition : Int) (dofs : DOFS) : Analysis :=
  { a with data := { a.data with
      boundaryDOFSByNodePosition :=
        a.data.boundaryDOFSByNodePosition.assign nodePosition
          (Analysis.findBoundaryDOFS a nodePosition ∪ dofs) } }

/-- The loop over the analyses of `Model::finish`, Model.cpp lines 1904-1911:
`K.boundaryConditionDOFS` gives, for an analysis, the node positions of its boundary
conditions with their DOFs there. -/
def addBoundaryConditionDOFS (K : Collaborators Lg Cg CSd) (m : Model Lg LoadSetData Cg CSd) :
    Model Lg LoadSetData Cg CSd :=
  { m with
    analyses := { m.analyses with
      objs := m.analyses.by_id.foldl
        (fun objs entry =>
          match objs[entry.2]? with
          | some analysis =>
            objs.modify
              (fun a =>
                (K.boundaryConditionDOFS m analysis).foldl
                  (fun a2 bc => addBoundaryDOFS a2 bc.1 bc.2) a)
              entry.2
          | none => objs)
        m.analyses.objs } }

/-- `Model::assignElementsToCells`, Model.cpp lines 2009-2017. -/
def assignElementsToCells (K : Collaborators Lg Cg CSd) (m : Model Lg LoadSetData Cg CSd) :
    Model Lg LoadSetData Cg CSd :=
  { m with
    mesh := (registered m.elementSets).foldl
      (fun mesh element =>
        match element.data.cellGroup with
        | some cellGroup => K.assignElementId mesh cellGroup element.getId
        | none => mesh)
      m.mesh }

/-- `Model::generateMaterialAssignments`, Model.cpp lines 1012-1038. -/
def generateMaterialAssignments (m : Model Lg LSd Cg CSd) : Model Lg LSd Cg CSd :=
  if m.configuration.partitionModel then m
  else
    { m with
      material_assignment_by_material_id := (registered m.elementSets).foldl
        (fun assignments element =>
          match m.materials.deref element.data.material with
          | some material =>
            match element.data.cellGroup with
            | some cellGroup =>
              assignments.assign material.getId
                (KeyMap.atOrEmpty assignments material.getId ++ [cellGroup])
            | none => assignments
          | none => assignments)
        m.material_assignment_by_material_id }

/-- `Model::add(const Analysis&)`, Model.cpp lines 146-151. -/
def addAnalysis (m : Model Lg LSd Cg CSd) (analysis : Analysis) :
    Outcome (Model Lg LSd Cg CSd) :=
  { state := { m with analyses := (m.analyses.add analysis).state },
    error := (m.analyses.add analysis).error }

/-- `Model::addDefaultAnalysis`, Model.cpp lines 1153-1163. Modelled from the spec:
the constructor `LinearMecaStat(model, "", 1)` and `Container::size` are absent from
the sources; "a default linear-static analysis" with original id 1 and the next id
of its kind, that exercises no set, is built, and the size of a catalog is the
number of the entities registered under an internal id. -/
def addDefaultAnalysis (K : Collaborators Lg Cg CSd) (m : Model Lg LoadSetData Cg CSd) :
    Outcome (Model Lg LoadSetData Cg CSd) :=
  if m.analyses.by_id.length = 0
      ∧ (m.loadings.by_id.length > 0 ∨ m.constraints.by_id.length > 0) then
    ({ m with analysis_auto_id := m.analysis_auto_id + 1 } :
        Model Lg LoadSetData Cg CSd).addAnalysis
      { id := m.analysis_auto_id, original_id := some 1, type := K.Analysis_LINEAR_MECA_STAT,
        data := { loadSet_references := [], constraintSet_references := [],
                  objectiveReferences := [], boundaryDOFSByNodePosition := [] } }
  else Outcome.ok m

/-- The mandatory steps at the start of `Model::finish`, Model.cpp lines 1894-1913.
The coordinate systems, which no statement settled here reads, are not part of the
state. -/
def finishPrepare (K : Collaborators Lg Cg CSd) (m : Model Lg LoadSetData Cg CSd) :
    Model Lg LoadSetData Cg CSd :=
  removeAssertionsMissingDOFS (addBoundaryConditionDOFS K (allowElementSetDOFS K m))

/-- The optional steps of `Model::finish`, Model.cpp lines 1915-1966, in their order,
each behind its switch of the configuration. -/
def finishOptionalSteps [Inhabited CSd] (K : Collaborators Lg Cg CSd) :
    List (Model Lg LoadSetData Cg CSd → Outcome (Model Lg LoadSetData Cg CSd)) :=
  [fun m2 =>
      if m2.configuration.emulateLocalDisplacement then K.emulateLocalDisplacementConstraint m2
      else Outcome.ok m2,
   fun m2 =>
      if m2.configuration.displayHomogeneousConstraint then
        K.generateBeamsToDisplayHomogeneousConstraint m2
      else Outcome.ok m2,
   fun m2 => if m2.configuration.createSkin then K.generateSkin m2 else Outcome.ok m2,
   fun m2 =>
      if m2.configuration.emulateAdditionalMass then K.emulateAdditionalMass m2
      else Outcome.ok m2,
   fun m2 =>
      if m2.configuration.replaceCombinedLoadSets then replaceCombinedLoadSets K.scale m2
      else Outcome.ok m2,
   fun m2 =>
      if m2.configuration.replaceDirectMatrices then K.replaceDirectMatrices m2
      else Outcome.ok m2,
   fun m2 =>
      if m2.configuration.removeRedundantSpcs then K.removeRedundantSpcs m2
      else Outcome.ok m2,
   fun m2 =>
      if m2.configuration.removeIneffectives then
        Outcome.ok (removeIneffectives K.ineffectiveLoading K.ineffectiveConstraint m2)
      else Outcome.ok m2,
   fun m2 =>
      if m2.configuration.virtualDiscrets then generateDiscrets K.enumerators K.newSPC m2
      else Outcome.ok m2,
   fun m2 =>
      if m2.configuration.splitDirectMatrices then
        K.splitDirectMatrices m2.configuration.sizeDirectMatrices m2
      else Outcome.ok m2,
   fun m2 =>
      if m2.configuration.makeCellsFromDirectMatrices then K.makeCellsFromDirectMatrices m2
      else Outcome.ok m2,
   fun m2 =>
      if m2.configuration.makeCellsFromRBE then K.makeCellsFromRBE m2 else Outcome.ok m2,
   fun m2 =>
      if m2.configuration.splitElementsByDOFS then K.splitElementsByDOFS m2
      else Outcome.ok m2]

/-- The run of the optional steps of `Model::finish`: a step runs when the steps
before it did not throw. -/
def finishOptional [Inhabited CSd] (K : Collaborators Lg Cg CSd)
    (m : Model Lg LoadSetData Cg CSd) : Outcome (Model Lg LoadSetData Cg CSd) :=
  (finishOptionalSteps K).foldl (fun r step => r.andThen step) (Outcome.ok m)

/-- The mandatory steps at the end of `Model::finish`, Model.cpp lines 1968-1972. -/
def finishClose (K : Collaborators Lg Cg CSd) (m : Model Lg LoadSetData Cg CSd) :
    Outcome (Model Lg LoadSetData Cg CSd) :=
  (addDefaultAnalysis K (generateMaterialAssignments (assignElementsToCells K m))).andThen
    fun m2 => Outcome.ok { m2 with mesh := K.meshFinish m2.mesh, finished := true }

/-- `Model::finish`, Model.cpp lines 1889-1972. -/
def finish [Inhabited CSd] (K : Collaborators Lg Cg CSd) (m : Model Lg LoadSetData Cg CSd) :
    Outcome (Model Lg LoadSetData Cg CSd) :=
  if m.finished then Outcome.ok m
  else (finishOptional K (finishPrepare K m)).andThen fun m2 => finishClose K m2

/-! ### Splitting of the direct matrices -/

/-- The ids of the nodes at the given positions, as `mesh->findNode(position).id`
gives them one after the other. Modelled from the spec: `findNode(position) -> Node`
has no node to hand out for a position that the mesh does not hold; the result is
then `none`, and the pass that asked throws. -/
def nodeIdsOf (mesh : Mesh) : List Int → Option (List Int)
  | [] => some []
  | position :: rest =>
    match mesh.findNode position, nodeIdsOf mesh rest with
    | some node, some ids => some (node.id :: ids)
    | _, _ => none

/-- The local variables of `Model::splitDirectMatrices` that live across the element
sets, with the model: `esToErase` holds pointers into the catalog, `esToAdd` the new
element sets, a `shared_ptr` to one of them being its rank in `esToAdd`. -/
structure SplitState (Lg LSd Cg CSd : Type) where
  model : Model Lg LSd Cg CSd
  esToErase : List Nat
  esToAdd : List (Identifiable Nat ElementSetData)

/-- The local variables of the turn of `Model::splitDirectMatrices` for one matrix. -/
structure SplitMaps where
  stackOfNodesByNodes : KeyMap Int Int
  esToAddByStackNumber : KeyMap (Int × Int) Nat

/-- The stack of a node, Model.cpp lines 1464-1470 and 1471-1477: "We attribute a
stack of sizeStack to each node." -/
def stackOfNode (sizeStack : Int) (stackOfNodesByNodes : KeyMap Int Int) (node : Int) :
    Int × KeyMap Int Int :=
  match stackOfNodesByNodes.find node with
  | none =>
    ((stackOfNodesByNodes.length : Int) / sizeStack,
     stackOfNodesByNodes.assign node ((stackOfNodesByNodes.length : Int) / sizeStack))
  | some stack => (stack, stackOfNodesByNodes)

/-- The pair of stacks put in order, Model.cpp lines 1480-1485. -/
def stackPair (sI sJ : Int) : Int × Int :=
  if sI < sJ then (sI, sJ) else (sJ, sI)

/-- The element set of a pair of stacks, created if needed, Model.cpp lines
1486-1506. `dummyElement` is the clone of the matrix, cleared. Modelled from the
spec: `clone` and `resetId` are absent from the sources; the new element set is the
clone with "a fresh id" (the next id of its kind, and no id of the source format). -/
def elementSetOfStacks (dummyElement : Identifiable Nat ElementSetData)
    (st : SplitState Lg LSd Cg CSd) (maps : SplitMaps) (ps : Int × Int) :
    Nat × SplitState Lg LSd Cg CSd × SplitMaps :=
  match maps.esToAddByStackNumber.find ps with
  | none =>
    (st.esToAdd.length,
     { st with
       model := { st.model with elementSet_auto_id := st.model.elementSet_auto_id + 1 },
       esToAdd := st.esToAdd ++
         [{ dummyElement with id := st.model.elementSet_auto_id, original_id := none }] },
     { maps with
       esToAddByStackNumber :=
         if ps.1 - ps.1 % 2 = ps.2 - ps.2 % 2 then
           (((maps.esToAddByStackNumber.assign ps st.esToAdd.length).assign
                (ps.1 - ps.1 % 2, ps.1 - ps.1 % 2) st.esToAdd.length).assign
              (ps.1 - ps.1 % 2, ps.1 - ps.1 % 2 + 1) st.esToAdd.length).assign
            (ps.1 - ps.1 % 2 + 1, ps.1 - ps.1 % 2 + 1) st.esToAdd.length
         else maps.esToAddByStackNumber.assign ps st.esToAdd.length })
  | some newElementSet => (newElementSet, st, maps)

/-- The copy of the terms of a submatrix into a new element set, Model.cpp lines
1509-1513. -/
def copyComponents (nodeId1 nodeId2 : Int) (dM : DOFMatrix) (st : SplitState Lg LSd Cg CSd)
    (newElementSet : Nat) : SplitState Lg LSd Cg CSd :=
  dM.foldl
    (fun st2 dof =>
      match st2.esToAdd[newElementSet]? with
      | some nM =>
        { st2 with
          model := { st2.model with
            mesh := (MatrixElement.addComponent st2.model.mesh nM.data.submatrixByNodes
              nodeId1 dof.1.1 nodeId2 dof.1.2 dof.2).1 },
          esToAdd := st2.esToAdd.set newElementSet
            { nM with data := { nM.data with
                kind := ElementSetKind.MatrixElement
                  (MatrixElement.addComponent st2.model.mesh nM.data.submatrixByNodes
                    nodeId1 dof.1.1 nodeId2 dof.1.2 dof.2).2 } } }
      | none => st2)
    st

/-- The body of the loop over the node pairs of a matrix, Model.cpp lines 1460-1515. -/
def splitPair (sizeStack : Int) (submatrixByNodes : KeyMap (Int × Int) DOFMatrix)
    (dummyElement : Identifiable Nat ElementSetData) (nodeIdOfElement : KeyMap Int Int)
    (acc : SplitState Lg LSd Cg CSd × SplitMaps) (np : Int × Int) :
    SplitState Lg LSd Cg CSd × SplitMaps :=
  let sI := stackOfNode sizeStack acc.2.stackOfNodesByNodes np.1
  let sJ := stackOfNode sizeStack sI.2 np.2
  let es := elementSetOfStacks dummyElement acc.1
    { acc.2 with stackOfNodesByNodes := sJ.2 } (stackPair sI.1 sJ.1)
  (copyComponents ((nodeIdOfElement.find np.1).getD 0) ((nodeIdOfElement.find np.2).getD 0)
     (MatrixElement.findSubmatrix submatrixByNodes np.1 np.2) es.2.1 es.1,
   es.2.2)

/-- The body of the first loop of `Model::splitDirectMatrices`, Model.cpp lines
1429-1525, for the element set behind `ptr`. -/
def splitMatrix (sizeMax : Nat) (st : SplitState Lg LSd Cg CSd) (ptr : Nat) :
    Outcome (SplitState Lg LSd Cg CSd) :=
  match st.model.elementSets.objs[ptr]? with
  | none => Outcome.ok st
  | some elementSetM =>
    if ¬ elementSetM.data.isMatrixElement then Outcome.ok st
    else if (MatrixElement.nodePositions elementSetM.data.submatrixByNodes).length ≤ sizeMax then
      Outcome.ok st
    else
      match nodeIdsOf st.model.mesh
          (MatrixElement.nodePositions elementSetM.data.submatrixByNodes) with
      | none =>
        Outcome.throw { st with esToErase := st.esToErase ++ [ptr] } "Node position not found"
      | some ids =>
        Outcome.ok
          ((MatrixElement.nodePairs elementSetM.data.submatrixByNodes).foldl
            (splitPair ((sizeMax : Int) / 2) elementSetM.data.submatrixByNodes
              { elementSetM with data := { elementSetM.data with
                  kind := ElementSetKind.MatrixElement [] } }
              ((MatrixElement.nodePositions elementSetM.data.submatrixByNodes).zip ids))
            ({ st with esToErase := st.esToErase ++ [ptr] },
             { stackOfNodesByNodes := [], esToAddByStackNumber := [] })).1

/-- The first loop of `Model::splitDirectMatrices`, Model.cpp lines 1425-1525, over
the element sets registered under an internal id. -/
def splitDirectMatricesRun (sizeMax : Nat) (m : Model Lg LSd Cg CSd) :
    Outcome (SplitState Lg LSd Cg CSd) :=
  m.elementSets.by_id.foldl
    (fun r entry => r.andThen fun st => splitMatrix sizeMax st entry.2)
    (Outcome.ok { model := m, esToErase := [], esToAdd := [] })

/-- The second loop of `Model::splitDirectMatrices`, Model.cpp lines 1527-1530:
`this->elementSets.erase(*es)`, the element set being turned into its reference. -/
def eraseSplitMatrices (st : SplitState Lg LSd Cg CSd) : Model Lg LSd Cg CSd :=
  st.esToErase.foldl
    (fun m2 ptr =>
      match m2.elementSets.objs[ptr]? with
      | some es => { m2 with elementSets := m2.elementSets.erase es.getReference }
      | none => m2)
    st.model

/-- `Model::splitDirectMatrices`, Model.cpp lines 1418-1536. -/
def splitDirectMatrices (sizeMax : Nat) (m : Model Lg LSd Cg CSd) :
    Outcome (Model Lg LSd Cg CSd) :=
  if sizeMax < 2 then Outcome.throw m "Model can't split matrices to a size under 2."
  else
    match (splitDirectMatricesRun sizeMax m).error with
    | some msg => Outcome.throw (splitDirectMatricesRun sizeMax m).state.model msg
    | none =>
      (splitDirectMatricesRun sizeMax m).state.esToAdd.foldl
        (fun r es => r.andThen fun m2 => m2.addElementSet es)
        (Outcome.ok (eraseSplitMatrices (splitDirectMatricesRun sizeMax m).state))

/-! ### Cells for the direct matrices -/

/-- The cell type of a matrix of `size` nodes, the `switch` of Model.cpp lines
1571-1657; `none` stands for the `default` branch, which throws. -/
def cellTypeOfSize : Nat → Option CellType
  | 1 => some CellType.POINT1
  | 2 => some CellType.SEG2
  | size => if 3 ≤ size ∧ size ≤ 20 then some (CellType.POLY size) else none

/-- The local variable `idM` of `Model::makeCellsFromDirectMatrices`, with the
model. -/
structure MatrixCellsState (Lg LSd Cg CSd : Type) where
  model : Model Lg LSd Cg CSd
  idM : Nat

/-- The effect of `matrix->assignCellGroup(matrixGroup)` on the element set behind a
pointer. -/
def assignCellGroup (m : Model Lg LSd Cg CSd) (ptr : Nat) (group : Nat) : Model Lg LSd Cg CSd :=
  { m with
    elementSets := { m.elementSets with
      objs := m.elementSets.objs.modify
        (fun es => { es with data := { es.data with cellGroup := some group } }) ptr } }

/-- The body of the loop of `Model::makeCellsFromDirectMatrices`, Model.cpp lines
1543-1671, for the element set behind `ptr`. The cell group is created and assigned
before the `switch` on the number of nodes. -/
def makeCellsFromMatrix (st : MatrixCellsState Lg LSd Cg CSd) (ptr : Nat) :
    Outcome (MatrixCellsState Lg LSd Cg CSd) :=
  match st.model.elementSets.objs[ptr]? with
  | none => Outcome.ok st
  | some elementSetM =>
    if ¬ elementSetM.data.isMatrixElement then Outcome.ok st
    else if elementSetM.data.cellGroup.isSome then Outcome.ok st
    else if (MatrixElement.nodePositions elementSetM.data.submatrixByNodes).length = 0 then
      Outcome.ok st
    else
      match cellTypeOfSize
          (MatrixElement.nodePositions elementSetM.data.submatrixByNodes).length with
      | none =>
        Outcome.throw
          { model := assignCellGroup
              { st.model with
                mesh := (st.model.mesh.createCellGroup ("DM" ++ toString (st.idM + 1))).2 }
              ptr (st.model.mesh.createCellGroup ("DM" ++ toString (st.idM + 1))).1,
            idM := st.idM + 1 }
          "Element size exceed the maximum size : 20."
      | some cellType =>
        match nodeIdsOf st.model.mesh
            (MatrixElement.nodePositions elementSetM.data.submatrixByNodes) with
        | none =>
          Outcome.throw
            { model := assignCellGroup
                { st.model with
                  mesh := (st.model.mesh.createCellGroup ("DM" ++ toString (st.idM + 1))).2 }
                ptr (st.model.mesh.createCellGroup ("DM" ++ toString (st.idM + 1))).1,
              idM := st.idM + 1 }
            "Node position not found"
        | some vNodeIds =>
          Outcome.ok
            { model := assignCellGroup
                { st.model with
                  mesh := Mesh.addCellInto
                    (st.model.mesh.createCellGroup ("DM" ++ toString (st.idM + 1))).2
                    (st.model.mesh.createCellGroup ("DM" ++ toString (st.idM + 1))).1
                    cellType vNodeIds }
                ptr (st.model.mesh.createCellGroup ("DM" ++ toString (st.idM + 1))).1,
              idM := st.idM + 1 }

/-- The first `turns` turns of the loop of `Model::makeCellsFromDirectMatrices`, over
the element sets registered under an internal id. -/
def makeCellsFromDirectMatricesUpTo (m : Model Lg LSd Cg CSd) (turns : Nat) :
    Outcome (MatrixCellsState Lg LSd Cg CSd) :=
  (m.elementSets.by_id.take turns).foldl
    (fun r entry => r.andThen fun st => makeCellsFromMatrix st entry.2)
    (Outcome.ok { model := m, idM := 0 })

/-- `Model::makeCellsFromDirectMatrices`, Model.cpp lines 1540-1672. -/
def makeCellsFromDirectMatrices (m : Model Lg LSd Cg CSd) : Outcome (Model Lg LSd Cg CSd) :=
  (makeCellsFromDirectMatricesUpTo m m.elementSets.by_id.length).mapState fun st => st.model

/-! ### Replacement of the direct matrices -/

/-- The virtual functions of the loadings and of the constraints that
`Model::replaceDirectMatrices` calls, their classes being declared in headers absent
from the sources: `nodePositions()` and `getDOFSForNode(nodePosition)`; and
`newSPC dofs nodeId`, the attributes of the constraint built by
`SinglePointConstraint(model, dofs)` followed by `addNodeId(nodeId)`. With them,
`divide value n`: the quotient of the `double` `value` by the `int` `n` as the
machine computes it, of which nothing is assumed (a `double` is carried as a
rational, and the quotient of two of them need not be the exact one). -/
structure NodalFunctions (Lg Cg : Type) where
  loadingNodePositions : Lg → List Int
  loadingDOFSForNode : Lg → Int → DOFS
  constraintNodePositions : Cg → List Int
  constraintDOFSForNode : Cg → Int → DOFS
  newSPC : DOFS → Int → Cg
  divide : ℚ → Nat → ℚ

/-- The local variables of `Model::replaceDirectMatrices`, Model.cpp lines 1167-1171,
with the model. -/
structure ReplaceState (Lg LSd Cg CSd : Type) where
  model : Model Lg LSd Cg CSd
  elementSetsToRemove : List Nat
  matrix_count : Nat
  addedDofsByNode : KeyMap Int DOFS
  requiredDofsByNode : KeyMap Int DOFS
  ownedDofsByNode : KeyMap Int DOFS

/-- The value of `owned` after the loop of Model.cpp lines 1181-1197, over the
element sets that the catalog holds when the loop runs. -/
def ownedDOFS (m : Model Lg LSd Cg CSd) (node : Node) : DOFS :=
  m.elementSets.by_id.foldl
    (fun owned entry =>
      match m.elementSets.objs[entry.2]? with
      | some elementSetI =>
        match elementSetI.data.cellGroup with
        | none => owned
        | some group =>
          (m.mesh.getCells group).foldl
            (fun owned2 cell =>
              if node.id ∈ cell.nodeIds then
                if elementSetI.data.isBeam ∨ elementSetI.data.isShell then
                  owned2 ∪ DOFS.ALL_DOFS
                else owned2 ∪ DOFS.TRANSLATIONS
              else owned2)
            owned
      | none => owned)
    DOFS.NO_DOFS

/-- The body of the loop over the nodes of a matrix, Model.cpp lines 1177-1199. -/
def recordOwnedDOFS (st : ReplaceState Lg LSd Cg CSd) (nodePosition : Int) :
    Outcome (ReplaceState Lg LSd Cg CSd) :=
  match st.model.mesh.findNode nodePosition with
  | none =>
    Outcome.throw
      { st with requiredDofsByNode := st.requiredDofsByNode.assign nodePosition DOFS.NO_DOFS }
      "Node position not found"
  | some node =>
    Outcome.ok
      { st with
        requiredDofsByNode := st.requiredDofsByNode.assign nodePosition DOFS.NO_DOFS,
        ownedDofsByNode := st.ownedDofsByNode.assign nodePosition (ownedDOFS st.model node) }

/-- Modelled from the spec: `is_equal` is declared in a header absent from the
sources; "stated over exact arithmetic", two values are equal when they are the
same. The test `!is_equal(value, 0)`. -/
def isNonZero (value : ℚ) : Bool := decide (value ≠ 0)

/-- The terms of the discrete point after the loop of Model.cpp lines 1211-1226.
Modelled from the spec: `DiscretePoint::addStiffness(dof1, dof2, value)` stores the
term of the pair of DOFs. The local copy `requiredDofs` of the entry of
`requiredDofsByNode` is discarded when the branch ends. -/
def pointStiffness (E : Enumerators) (type : Nat) (submatrix : DOFMatrix) : Outcome DOFMatrix :=
  submatrix.foldl
    (fun r kv => r.andThen fun discrete =>
      if isNonZero kv.2 then
        if type = E.ElementSet_STIFFNESS_MATRIX then Outcome.ok (discrete.assign kv.1 kv.2)
        else Outcome.throw discrete "Not yet implemented"
      else Outcome.ok discrete)
    (Outcome.ok [])

/-- Modelled from the spec: `Discrete::hasRotations()`, whether a stiffness term of
the discrete point bears on a rotation. -/
def pointHasRotations (stiffness : DOFMatrix) : Bool :=
  stiffness.any fun kv => decide (kv.1.1 ∈ DOFS.ROTATIONS ∨ kv.1.2 ∈ DOFS.ROTATIONS)

/-- Modelled from the spec: `Discrete::hasRotations()` on a discrete segment. -/
def segmentHasRotations (stiffness : KeyMap ((Nat × Nat) × (DOF × DOF)) ℚ) : Bool :=
  stiffness.any fun kv => decide (kv.1.2.1 ∈ DOFS.ROTATIONS ∨ kv.1.2.2 ∈ DOFS.ROTATIONS)

/-- The outcome of a call on the model, seen from the local variables of
`Model::replaceDirectMatrices`. -/
def ReplaceState.withModel (st : ReplaceState Lg LSd Cg CSd)
    (r : Outcome (Model Lg LSd Cg CSd)) : Outcome (ReplaceState Lg LSd Cg CSd) :=
  r.mapState fun m => { st with model := m }

/-- The branch "single node" of `Model::replaceDirectMatrices`, Model.cpp lines
1205-1245, for a matrix of type `type`. Modelled from the spec: the constructor
`DiscretePoint(model, {})` is absent from the sources; the element set has the next
id of its kind. -/
def replaceSingleNode (E : Enumerators) (type : Nat)
    (submatrixByNodes : KeyMap (Int × Int) DOFMatrix) (st : ReplaceState Lg LSd Cg CSd)
    (nodePosition : Int) : Outcome (ReplaceState Lg LSd Cg CSd) :=
  match st.model.mesh.findNode nodePosition with
  | none => Outcome.throw st "Node position not found"
  | some node =>
    match (pointStiffness E type
        (MatrixElement.findSubmatrix submatrixByNodes nodePosition nodePosition)).error with
    | some msg =>
      Outcome.throw
        { st with
          model := { st.model with elementSet_auto_id := st.model.elementSet_auto_id + 1 } }
        msg
    | none =>
      (st.withModel (getVirtualMaterial E
        { st.model with elementSet_auto_id := st.model.elementSet_auto_id + 1 })).andThen
      fun st2 =>
        ({ st2 with
            matrix_count := st.matrix_count + 1,
            addedDofsByNode := st.addedDofsByNode.assign nodePosition
              (if pointHasRotations (pointStiffness E type
                  (MatrixElement.findSubmatrix submatrixByNodes nodePosition
                    nodePosition)).state then DOFS.ALL_DOFS
               else DOFS.TRANSLATIONS) } : ReplaceState Lg LSd Cg CSd).withModel
          (Model.addElementSet
            { st2.model with
              mesh := Mesh.allowDOFS
                (Mesh.addCellInto
                  (st2.model.mesh.createCellGroup ("MTN" ++ toString (st.matrix_count + 1))).2
                  (st2.model.mesh.createCellGroup ("MTN" ++ toString (st.matrix_count + 1))).1
                  CellType.SEG2 [node.id])
                node.position
                (if pointHasRotations (pointStiffness E type
                    (MatrixElement.findSubmatrix submatrixByNodes nodePosition
                      nodePosition)).state then DOFS.ALL_DOFS
                 else DOFS.TRANSLATIONS) }
            { id := st.model.elementSet_auto_id, original_id := none,
              type := E.ElementSet_DISCRETE_0D,
              data := { kind := ElementSetKind.DiscretePoint []
                          (pointStiffness E type
                            (MatrixElement.findSubmatrix submatrixByNodes nodePosition
                              nodePosition)).state,
                        cellGroup := some
                          (st2.model.mesh.createCellGroup
                            ("MTN" ++ toString (st.matrix_count + 1))).1,
                        material := st2.model.virtualMaterial } })

/-- The four blocks that the loops of Model.cpp lines 1273-1288 read for the node
pair `pair`, with their row and column indices. -/
def segmentBlocks (pair : Int × Int) : List ((Nat × Nat) × (Int × Int)) :=
  [((0, 0), (pair.1, pair.1)), ((0, 1), (pair.1, pair.2)),
   ((1, 0), (pair.2, pair.1)), ((1, 1), (pair.2, pair.2))]

/-- The terms of the discrete segment after the loops of Model.cpp lines 1273-1308
for the node pair `pair`: "We are disassembling the matrix, so we must divide the
value by the segments"; `divide` is the division of a `double` by an `int`, line
1291. Modelled from the spec:
`DiscreteSegment::addStiffness(row_index, col_index, rowDof, colDof, value)` stores
the term. The local copies `requiredRowDofs` and `requiredColDofs` are discarded
when the branch ends. -/
def segmentStiffness (E : Enumerators) (type : Nat) (divide : ℚ → Nat → ℚ)
    (submatrixByNodes : KeyMap (Int × Int) DOFMatrix) (pair : Int × Int) :
    Outcome (KeyMap ((Nat × Nat) × (DOF × DOF)) ℚ) :=
  (segmentBlocks pair).foldl
    (fun r block => r.andThen fun discrete0 =>
      (MatrixElement.findSubmatrix submatrixByNodes block.2.1 block.2.2).foldl
        (fun r2 kv => r2.andThen fun discrete =>
          if isNonZero
              (divide kv.2 (MatrixElement.findInPairs submatrixByNodes pair.1).length) then
            if type = E.ElementSet_STIFFNESS_MATRIX then
              Outcome.ok (discrete.assign (block.1, kv.1)
                (divide kv.2 (MatrixElement.findInPairs submatrixByNodes pair.1).length))
            else Outcome.throw discrete "Not yet implemented"
          else Outcome.ok discrete)
        (Outcome.ok discrete0))
    (Outcome.ok [])

/-- The branch "node couple" of `Model::replaceDirectMatrices`, Model.cpp lines
1247-1313. `discrete.hasRotations()` is asked before any term is given to the
segment. Modelled from the spec: the constructor `DiscreteSegment(model)` is absent
from the sources; the element set has the next id of its kind and no term. -/
def replaceNodeCouple (E : Enumerators) (type : Nat) (divide : ℚ → Nat → ℚ)
    (submatrixByNodes : KeyMap (Int × Int) DOFMatrix) (st : ReplaceState Lg LSd Cg CSd)
    (pair : Int × Int) : Outcome (ReplaceState Lg LSd Cg CSd) :=
  match st.model.mesh.findNode pair.1, st.model.mesh.findNode pair.2 with
  | some rowNode, some colNode =>
    (st.withModel (getVirtualMaterial E
      { st.model with
        elementSet_auto_id := st.model.elementSet_auto_id + 1,
        mesh := Mesh.addCellInto
          (st.model.mesh.createCellGroup ("MTL" ++ toString st.matrix_count)).2
          (st.model.mesh.createCellGroup ("MTL" ++ toString st.matrix_count)).1
          CellType.SEG2 [rowNode.id, colNode.id] })).andThen
    fun st2 =>
      match (segmentStiffness E type divide submatrixByNodes pair).error with
      | some msg =>
        Outcome.throw
          { st2 with
            matrix_count := st.matrix_count + 1,
            addedDofsByNode :=
              (st.addedDofsByNode.assign rowNode.position
                (if segmentHasRotations [] then DOFS.ALL_DOFS else DOFS.TRANSLATIONS)).assign
                colNode.position
                (if segmentHasRotations [] then DOFS.ALL_DOFS else DOFS.TRANSLATIONS),
            model := { st2.model with
              mesh := Mesh.allowDOFS
                (Mesh.allowDOFS st2.model.mesh rowNode.position
                  (if segmentHasRotations [] then DOFS.ALL_DOFS else DOFS.TRANSLATIONS))
                colNode.position
                (if segmentHasRotations [] then DOFS.ALL_DOFS else DOFS.TRANSLATIONS) } }
          msg
      | none =>
        ({ st2 with
            matrix_count := st.matrix_count + 1,
            addedDofsByNode :=
              (st.addedDofsByNode.assign rowNode.position
                (if segmentHasRotations [] then DOFS.ALL_DOFS else DOFS.TRANSLATIONS)).assign
                colNode.position
                (if segmentHasRotations [] then DOFS.ALL_DOFS else DOFS.TRANSLATIONS) } :
            ReplaceState Lg LSd Cg CSd).withModel
          (Model.addElementSet
            { st2.model with
              mesh := Mesh.allowDOFS
                (Mesh.allowDOFS st2.model.mesh rowNode.position
                  (if segmentHasRotations [] then DOFS.ALL_DOFS else DOFS.TRANSLATIONS))
                colNode.position
                (if segmentHasRotations [] then DOFS.ALL_DOFS else DOFS.TRANSLATIONS) }
            { id := st.model.elementSet_auto_id, original_id := none,
              type := E.ElementSet_DISCRETE_1D,
              data := { kind := ElementSetKind.DiscreteSegment
                          (segmentStiffness E type divide submatrixByNodes pair).state,
                        cellGroup := some
                          (st.model.mesh.createCellGroup
                            ("MTL" ++ toString st.matrix_count)).1,
                        material := st2.model.virtualMaterial } })
  | _, _ => Outcome.throw st "Node position not found"

/-- The body of the loop over the node pairs of a matrix, Model.cpp lines
1200-1315. -/
def replacePair (E : Enumerators) (type : Nat) (divide : ℚ → Nat → ℚ)
    (submatrixByNodes : KeyMap (Int × Int) DOFMatrix) (st : ReplaceState Lg LSd Cg CSd)
    (pair : Int × Int) : Outcome (ReplaceState Lg LSd Cg CSd) :=
  if pair.1 = pair.2 then
    if (MatrixElement.findInPairs submatrixByNodes pair.1).length ≠ 0 then Outcome.ok st
    else replaceSingleNode E type submatrixByNodes st pair.1
  else replaceNodeCouple E type divide submatrixByNodes st pair

/-- The body of the first loop of `Model::replaceDirectMatrices`, Model.cpp lines
1172-1317, for the element set behind `ptr`. -/
def replaceMatrix (E : Enumerators) (divide : ℚ → Nat → ℚ)
    (st : ReplaceState Lg LSd Cg CSd) (ptr : Nat) :
    Outcome (ReplaceState Lg LSd Cg CSd) :=
  match st.model.elementSets.objs[ptr]? with
  | none => Outcome.ok st
  | some elementSetM =>
    if ¬ elementSetM.data.isMatrixElement then Outcome.ok st
    else
      (((MatrixElement.nodePositions elementSetM.data.submatrixByNodes).foldl
          (fun r nodePosition => r.andThen fun st2 => recordOwnedDOFS st2 nodePosition)
          (Outcome.ok st)).andThen fun st2 =>
        (MatrixElement.nodePairs elementSetM.data.submatrixByNodes).foldl
          (fun r pair => r.andThen fun st3 =>
            replacePair E elementSetM.type divide elementSetM.data.submatrixByNodes st3
              pair)
          (Outcome.ok st2)).andThen fun st4 =>
        Outcome.ok { st4 with elementSetsToRemove := st4.elementSetsToRemove ++ [ptr] }

/-- The value of `required` after the loops of Model.cpp lines 1338-1349: the loop
over the loadings adds the DOFs of every loading at every node of the loading, its
variable `nodePosition` hiding the node of the outer loop; the loop over the
constraints keeps to the constraints that hold the node. -/
def requiredDOFS (F : NodalFunctions Lg Cg) (m : Model Lg LSd Cg CSd) (required : DOFS)
    (nodePosition : Int) : DOFS :=
  (registered m.constraints).foldl
    (fun required2 constraint =>
      if nodePosition ∈ F.constraintNodePositions constraint.data then
        required2 ∪ F.constraintDOFSForNode constraint.data nodePosition
      else required2)
    ((registered m.loadings).foldl
      (fun required2 loading =>
        (F.loadingNodePositions loading.data).foldl
          (fun required3 nodePosition2 =>
            required3 ∪ F.loadingDOFSForNode loading.data nodePosition2)
          required2)
      required)

/-- The value of `extra`, Model.cpp lines 1318-1350, for an entry of
`addedDofsByNode`. -/
def extraDOFS (F : NodalFunctions Lg Cg) (st : ReplaceState Lg LSd Cg CSd)
    (kv : Int × DOFS) : DOFS :=
  (kv.2 \ (st.ownedDofsByNode.find kv.1).getD DOFS.NO_DOFS)
    \ requiredDOFS F st.model ((st.requiredDofsByNode.find kv.1).getD DOFS.NO_DOFS) kv.1

/-- The body of the loop over `addedDofsByNode`, Model.cpp lines 1318-1361. Modelled
from the spec: the constructor `SinglePointConstraint(model, dofs)` is absent from
the sources; the constraint has the next id of its kind. -/
def addReplacementSpc (E : Enumerators) (F : NodalFunctions Lg Cg)
    (st : ReplaceState Lg LSd Cg CSd) (kv : Int × DOFS) :
    Outcome (ReplaceState Lg LSd Cg CSd) :=
  match st.model.mesh.findNode kv.1 with
  | none => Outcome.throw st "Node position not found"
  | some node =>
    if extraDOFS F st kv ≠ DOFS.NO_DOFS then
      st.withModel
        ((Model.addConstraint
            { st.model with constraint_auto_id := st.model.constraint_auto_id + 1 }
            { id := st.model.constraint_auto_id, original_id := none,
              type := E.Constraint_SPC,
              data := F.newSPC (extraDOFS F st kv) node.id }).andThen fun m2 =>
          m2.addConstraintIntoConstraintSet
            { type := E.Constraint_SPC, original_id := none,
              id := some st.model.constraint_auto_id }
            m2.commonConstraintSet.getReference)
    else Outcome.ok st

/-- The run of `Model::replaceDirectMatrices` up to its last loop, Model.cpp lines
1165-1361. The first loop goes over the element sets registered under an internal
id when the pass starts; the element sets that the pass adds are no matrix. -/
def replaceDirectMatricesRun (E : Enumerators) (F : NodalFunctions Lg Cg)
    (m : Model Lg LSd Cg CSd) : Outcome (ReplaceState Lg LSd Cg CSd) :=
  (m.elementSets.by_id.foldl
      (fun r entry => r.andThen fun st => replaceMatrix E F.divide st entry.2)
      (Outcome.ok
        { model := m, elementSetsToRemove := [], matrix_count := 0, addedDofsByNode := [],
          requiredDofsByNode := [], ownedDofsByNode := [] })).andThen fun st =>
    st.addedDofsByNode.foldl
      (fun r kv => r.andThen fun st2 => addReplacementSpc E F st2 kv)
      (Outcome.ok st)

/-- `Model::replaceDirectMatrices`, Model.cpp lines 1165-1368. -/
def replaceDirectMatrices (E : Enumerators) (F : NodalFunctions Lg Cg)
    (m : Model Lg LSd Cg CSd) : Outcome (Model Lg LSd Cg CSd) :=
  ((replaceDirectMatricesRun E F m).andThen fun st =>
    Outcome.ok
      { st with
        model := st.elementSetsToRemove.foldl
          (fun m2 ptr =>
            match m2.elementSets.objs[ptr]? with
            | some elementSet =>
              { m2 with elementSets := m2.elementSets.erase elementSet.getReference }
            | none => m2)
          st.model }).mapState fun st => st.model

/-! ### The stiffness of the discrete elements, in the words of the specification -/

/-- The stiffness term that a discrete element set carries for the entry (node A,
DOF a, node B, DOF b), the nodes being given by id: for each cell of its group, the
term of the pair of DOFs of a discrete point whose cell lies on A = B, and the terms
of the pairs of row and column indices of a discrete segment whose cell has A at
the row index and B at the column index. -/
def stiffnessContribution (mesh : Mesh) (elementSet : Identifiable Nat ElementSetData)
    (nodeA : Int) (dofA : DOF) (nodeB : Int) (dofB : DOF) : ℚ :=
  match elementSet.data.cellGroup with
  | none => 0
  | some group =>
    ((mesh.getCells group).map fun cell =>
      match elementSet.data.kind with
      | ElementSetKind.DiscretePoint _ componentByDofs =>
        if cell.nodeIds[0]? = some nodeA ∧ nodeA = nodeB then
          (componentByDofs.find (dofA, dofB)).getD 0
        else 0
      | ElementSetKind.DiscreteSegment componentByIndicesAndDofs =>
        ([(0, 0), (0, 1), (1, 0), (1, 1)].map fun (index : Nat × Nat) =>
          if cell.nodeIds[index.1]? = some nodeA ∧ cell.nodeIds[index.2]? = some nodeB then
            (componentByIndicesAndDofs.find (index, (dofA, dofB))).getD 0
          else 0).sum
      | _ => 0).sum

/-- The sum over the element sets of a catalog of their stiffness term for an
entry. -/
def stiffnessSum (m : Model Lg LSd Cg CSd) (nodeA : Int) (dofA : DOF) (nodeB : Int)
    (dofB : DOF) : ℚ :=
  ((registered m.elementSets).map fun elementSet =>
    stiffnessContribution m.mesh elementSet nodeA dofA nodeB dofB).sum

/-! ### Removal of the redundant SPCs -/

/-- Modelled from the spec: `Analysis::getConstraintSets` is absent from the
sources; an analysis "owns references to the load-sets/constraint-sets it
exercises", and hands out the constraint sets that its references resolve. -/
def getConstraintSets (m : Model Lg LSd Cg CSd) (analysis : Analysis) :
    List (Identifiable Nat CSd) :=
  analysis.data.constraintSet_references.filterMap fun reference =>
    m.constraintSets.deref (m.constraintSets.find reference)

/-- Modelled from the spec: `ConstraintSet::getConstraintsByType(type)` is absent
from the sources; the members of a set are "resolved through the Membership Index",
under the reference of the set, and those of the given type are handed out. A member
reference that does not resolve designates no constraint. -/
def getConstraintsByType (m : Model Lg LSd Cg CSd) (constraintSet : Identifiable Nat CSd)
    (type : Nat) : List Nat :=
  (m.getConstraintsByConstraintSet constraintSet.getReference).filterMap fun constraint =>
    match constraint with
    | some ptr =>
      match m.constraints.objs[ptr]? with
      | some c => if c.type = type then some ptr else none
      | none => none
    | none => none

/-- The local variable `spcvalueByNodeAndDof` of the turn of
`Model::removeRedundantSpcs` for one analysis, with the model. -/
structure SpcScan (Lg LSd CSd : Type) where
  model : Model Lg LSd ConstraintData CSd
  spcvalueByNodeAndDof : KeyMap (Int × DOF) ℚ

/-- The body of the loop over the blocked DOFs, Model.cpp lines 1386-1403, on the
pair of `spcvalueByNodeAndDof` and `dofsToRemove`. Modelled from the spec: `is_equal`
is declared in a header absent from the sources; two values are equal when they are
the same. -/
def scanDof (spc : ConstraintData) (nodePosition : Int) (acc : KeyMap (Int × DOF) ℚ × DOFS)
    (dof : DOF) : Outcome (KeyMap (Int × DOF) ℚ × DOFS) :=
  match acc.1.find (nodePosition, dof) with
  | none => Outcome.ok (acc.1.assign (nodePosition, dof) (spc.getDoubleForDOF dof), acc.2)
  | some entry =>
    if spc.getDoubleForDOF dof ≠ entry then
      Outcome.throw acc "spc value different by other spc value on same node and dof"
    else Outcome.ok (acc.1, acc.2 ∪ {dof})

/-- The loop over the blocked DOFs of a constraint at a node, Model.cpp lines
1384-1403. -/
def scanDofs (spc : ConstraintData) (nodePosition : Int)
    (spcvalueByNodeAndDof : KeyMap (Int × DOF) ℚ) : Outcome (KeyMap (Int × DOF) ℚ × DOFS) :=
  (DOFS.toList (spc.getDOFSForNode nodePosition)).foldl
    (fun r dof => r.andThen fun acc => scanDof spc nodePosition acc dof)
    (Outcome.ok (spcvalueByNodeAndDof, DOFS.NO_DOFS))

/-- The effect of `analysis->removeSPCNodeDofs(*spc, nodePosition, dofsToRemove)` on
the model: the constraint behind the pointer is trimmed, for every holder of the
pointer. -/
def removeSPCNodeDofs (m : Model Lg LSd ConstraintData CSd) (ptr : Nat) (nodePosition : Int)
    (dofsToRemove : DOFS) : Model Lg LSd ConstraintData CSd :=
  { m with
    constraints := { m.constraints with
      objs := m.constraints.objs.modify
        (fun c => { c with data := c.data.removeNodeDofs nodePosition dofsToRemove }) ptr } }

/-- The body of the loop over the nodes of an SPC, Model.cpp lines 1383-1411, for
the constraint behind `ptr`. -/
def scanNode (st : SpcScan Lg LSd CSd) (ptr : Nat) (nodePosition : Int) :
    Outcome (SpcScan Lg LSd CSd) :=
  match st.model.constraints.objs[ptr]? with
  | none => Outcome.ok st
  | some spc =>
    match (scanDofs spc.data nodePosition st.spcvalueByNodeAndDof).error with
    | some msg =>
      Outcome.throw
        { st with
          spcvalueByNodeAndDof :=
            (scanDofs spc.data nodePosition st.spcvalueByNodeAndDof).state.1 }
        msg
    | none =>
      Outcome.ok
        { model :=
            if (scanDofs spc.data nodePosition st.spcvalueByNodeAndDof).state.2.size ≥ 1 then
              removeSPCNodeDofs st.model ptr nodePosition
                (scanDofs spc.data nodePosition st.spcvalueByNodeAndDof).state.2
            else st.model,
          spcvalueByNodeAndDof :=
            (scanDofs spc.data nodePosition st.spcvalueByNodeAndDof).state.1 }

/-- The body of the loop over the SPCs of a constraint set, Model.cpp lines
1380-1412, for the constraint behind `ptr`. -/
def scanSpc (st : SpcScan Lg LSd CSd) (ptr : Nat) : Outcome (SpcScan Lg LSd CSd) :=
  match st.model.constraints.objs[ptr]? with
  | none => Outcome.ok st
  | some spc =>
    spc.data.nodePositions.foldl
      (fun r nodePosition => r.andThen fun st2 => scanNode st2 ptr nodePosition)
      (Outcome.ok st)

/-- The body of the loop over the constraint sets of an analysis, Model.cpp lines
1374-1413. -/
def scanConstraintSet (E : Enumerators) (st : SpcScan Lg LSd CSd)
    (constraintSet : Identifiable Nat CSd) : Outcome (SpcScan Lg LSd CSd) :=
  (getConstraintsByType st.model constraintSet E.Constraint_SPC).foldl
    (fun r ptr => r.andThen fun st2 => scanSpc st2 ptr)
    (Outcome.ok st)

/-- The turn of the loop of `Model::removeRedundantSpcs` for one analysis, with its
local variable, Model.cpp lines 1373-1413. -/
def scanAnalysis (E : Enumerators) (m : Model Lg LSd ConstraintData CSd) (analysis : Analysis) :
    Outcome (SpcScan Lg LSd CSd) :=
  (getConstraintSets m analysis).foldl
    (fun r constraintSet => r.andThen fun st => scanConstraintSet E st constraintSet)
    (Outcome.ok { model := m, spcvalueByNodeAndDof := [] })

/-- The body of the loop of `Model::removeRedundantSpcs`, Model.cpp lines 1372-1414,
for the analysis behind `ptr`. -/
def removeRedundantSpcsOf (E : Enumerators) (m : Model Lg LSd ConstraintData CSd) (ptr : Nat) :
    Outcome (Model Lg LSd ConstraintData CSd) :=
  match m.analyses.objs[ptr]? with
  | none => Outcome.ok m
  | some analysis => (scanAnalysis E m analysis).mapState fun st => st.model

/-- `Model::removeRedundantSpcs`, Model.cpp lines 1370-1415. -/
def removeRedundantSpcs (E : Enumerators) (m : Model Lg LSd ConstraintData CSd) :
    Outcome (Model Lg LSd ConstraintData CSd) :=
  m.analyses.by_id.foldl
    (fun r entry => r.andThen fun m2 => removeRedundantSpcsOf E m2 entry.2)
    (Outcome.ok m)

/-! ### The SPC entries of an analysis, in the words of the specification -/

/-- Modelled from the spec: `Analysis::getConstraintSets` hands out shared pointers;
the pointers to the constraint sets that the references of the analysis resolve
(`getConstraintSets` hands out the objects behind them). -/
def getConstraintSetPointers (m : Model Lg LSd Cg CSd) (analysis : Analysis) : List Nat :=
  analysis.data.constraintSet_references.filterMap fun reference =>
    match m.constraintSets.find reference with
    | some ptr => if (m.constraintSets.objs[ptr]?).isSome then some ptr else none
    | none => none

/-- `Model::getCommonConstraintSets`, Model.cpp lines 611-625: `counted` lists the
keys of the local `map`, each as many times as it was counted. Modelled from the
spec: `Container<T>::size` is absent from the sources; the catalog counts the
entities registered under an internal id. -/
def getCommonConstraintSets (m : Model Lg LSd Cg CSd) : List (Identifiable Nat CSd) :=
  m.constraintSets.by_id.filterMap fun entry =>
    match m.constraintSets.objs[entry.2]? with
    | some constraintSet =>
      if ((registered m.analyses).flatMap fun analyse =>
            getConstraintSetPointers m analyse).count entry.2 ≠ 0
          ∧ ((registered m.analyses).flatMap fun analyse =>
            getConstraintSetPointers m analyse).count entry.2 = m.analyses.by_id.length then
        some constraintSet
      else none
    | none => none

/-- `Model::remove(refC, idCS, originalIdCS, csT)`, Model.cpp lines 341-358: the
member references equal to `refC` leave the set of internal id `idCS` and, when the
set has an original id, the set of type `csT` and original id `originalIdCS`; the
constraint is erased from the catalog. -/
def removeConstraintOfSet (m : Model Lg LSd Cg CSd) (refC : Reference Nat) (idCS : Int)
    (originalIdCS : Option Int) (csT : Nat) : Model Lg LSd Cg CSd :=
  { m with
    constraintReferences_by_constraintSet_ids :=
      m.constraintReferences_by_constraintSet_ids.assign idCS
        ((KeyMap.atOrEmpty m.constraintReferences_by_constraintSet_ids idCS).filter
          (fun it2 => decide (it2 ≠ refC))),
    constraintReferences_by_constraintSet_original_ids_by_constraintSet_type :=
      match originalIdCS with
      | some originalIdCS =>
        m.constraintReferences_by_constraintSet_original_ids_by_constraintSet_type.assign csT
          (KeyMap.assign
            (KeyMap.atOrEmpty
              m.constraintReferences_by_constraintSet_original_ids_by_constraintSet_type csT)
            originalIdCS
            ((KeyMap.atOrEmpty
                (KeyMap.atOrEmpty
                  m.constraintReferences_by_constraintSet_original_ids_by_constraintSet_type
                  csT)
                originalIdCS).filter
              (fun it3 => decide (it3 ≠ refC))))
      | none => m.constraintReferences_by_constraintSet_original_ids_by_constraintSet_type,
    constraints := m.constraints.erase refC }

/-- The text of `std::to_string(constraint->getOriginalId())` in the name of a cell
group. Modelled from the spec: the value of `NO_ORIGINAL_ID` is declared in a header
absent from the sources; it is written by its name. -/
def originalIdLabel (original_id : Option Int) : String :=
  match original_id with
  | some id => toString id
  | none => "NO_ORIGINAL_ID"

/-- The "dummy rigid material" of `Model::makeCellsFromRBE`, Model.cpp lines
1692-1694, 1732-1734 and 1795-1797: `new Material(this)`, `addNature(...)` and
`this->add(material)`. The result is the pointer to the material and the outcome of
the calls. Modelled from the spec: the constructor `Material(model)` is absent from
the sources; the material has the next id of its kind. -/
def addRigidMaterial (E : Enumerators) (m : Model Lg LSd Cg CSd) (nature : Nature) :
    Nat × Outcome (Model Lg LSd Cg CSd) :=
  (m.materials.objs.length,
   ({ m with material_auto_id := m.material_auto_id + 1 } : Model Lg LSd Cg CSd).addMaterial
     { id := m.material_auto_id, original_id := none, type := E.Material_MATERIAL,
       data := { natures := [nature] } })

/-- The construction of a rigid element set, `assignCellGroup(group)`,
`assignMaterial(material)` and `this->add(elementset)`, Model.cpp lines 1697-1700,
1741-1744 and 1800-1803. Modelled from the spec: the constructors `Rbar(model, ...)`
and `Rbe3(model, ...)` are absent from the sources; the element set has the next id
of its kind. -/
def addRigidElementSet (m : Model Lg LSd Cg CSd) (type : Nat) (kind : ElementSetKind)
    (group material : Nat) : Outcome (Model Lg LSd Cg CSd) :=
  ({ m with elementSet_auto_id := m.elementSet_auto_id + 1 } : Model Lg LSd Cg CSd).addElementSet
    { id := m.elementSet_auto_id, original_id := none, type := type,
      data := { kind := kind, cellGroup := some group, material := some material } }

/-- The body of the loop over the slaves of a RIGID constraint, Model.cpp lines
1706-1711. -/
def addRigidCell (master : Node) (group : Nat) (m : Model Lg LSd Cg CSd) (position : Int) :
    Outcome (Model Lg LSd Cg CSd) :=
  match m.mesh.findNode position with
  | none => Outcome.throw m "Node position not found"
  | some slave =>
    Outcome.ok
      { m with mesh := m.mesh.addCellInto group CellType.SEG2 [master.id, slave.id] }

/-- The body of the loop over the RIGID constraints of a common constraint set,
Model.cpp lines 1689-1718, for the constraint behind `ptr`. -/
def makeCellsFromRigid (E : Enumerators) (m : Model Lg LSd ConstraintData CSd)
    (constraintSet : Identifiable Nat CSd) (ptr : Nat) :
    Outcome (Model Lg LSd ConstraintData CSd) :=
  match m.constraints.objs[ptr]? with
  | none => Outcome.throw m "null pointer dereference"
  | some constraint =>
    (addRigidMaterial E m (Nature.Rigid (some 1) none)).2.andThen fun m1 =>
      match m1.mesh.findNode constraint.data.getMaster with
      | none =>
        Outcome.throw
          { m1 with
            mesh := (m1.mesh.createCellGroup
              ("RBE2_" ++ originalIdLabel constraint.original_id)).2 }
          "Node position not found"
      | some master =>
        (addRigidElementSet
          { m1 with
            mesh := (m1.mesh.createCellGroup
              ("RBE2_" ++ originalIdLabel constraint.original_id)).2 }
          E.ElementSet_RBAR (ElementSetKind.Rbar master.id)
          (m1.mesh.createCellGroup ("RBE2_" ++ originalIdLabel constraint.original_id)).1
          (addRigidMaterial E m (Nature.Rigid (some 1) none)).1).andThen fun m2 =>
          (constraint.data.getSlaves.foldl
            (fun r position => r.andThen fun m3 =>
              addRigidCell master
                (m1.mesh.createCellGroup
                  ("RBE2_" ++ originalIdLabel constraint.original_id)).1
                m3 position)
            (Outcome.ok m2)).andThen fun m4 =>
            Outcome.ok
              (removeConstraintOfSet m4 constraint.getReference constraintSet.id
                constraintSet.original_id constraintSet.type)

/-- The body of the loop over the QUASI_RIGID constraints of a common constraint
set, Model.cpp lines 1722-1756, for the constraint behind `ptr`. The test on
`isCompletelyRigid()` of lines 1725-1727 only writes to `cerr`. The master node is
the first slave of the constraint and the slave node its last one. -/
def makeCellsFromQuasiRigid (E : Enumerators) (m : Model Lg LSd ConstraintData CSd)
    (constraintSet : Identifiable Nat CSd) (ptr : Nat) :
    Outcome (Model Lg LSd ConstraintData CSd) :=
  match m.constraints.objs[ptr]? with
  | none => Outcome.throw m "null pointer dereference"
  | some constraint =>
    if constraint.data.getSlaves.length ≠ 2 then
      Outcome.throw m "QUASI_RIDID constraint must have exactly two slaves."
    else
      (addRigidMaterial E m (Nature.Rigid (some 1) none)).2.andThen fun m1 =>
        match constraint.data.getSlaves.head?.bind m1.mesh.findNode,
            constraint.data.getSlaves.getLast?.bind m1.mesh.findNode with
        | some masterNode, some slaveNode =>
          (addRigidElementSet
            { m1 with
              mesh := (m1.mesh.createCellGroup
                ("RBAR_" ++ originalIdLabel constraint.original_id)).2 }
            E.ElementSet_RBAR (ElementSetKind.Rbar masterNode.id)
            (m1.mesh.createCellGroup ("RBAR_" ++ originalIdLabel constraint.original_id)).1
            (addRigidMaterial E m (Nature.Rigid (some 1) none)).1).andThen fun m2 =>
            Outcome.ok
              (removeConstraintOfSet
                { m2 with
                  mesh := m2.mesh.addCellInto
                    (m1.mesh.createCellGroup
                      ("RBAR_" ++ originalIdLabel constraint.original_id)).1
                    CellType.SEG2 [masterNode.id, slaveNode.id] }
                constraint.getReference constraintSet.id constraintSet.original_id
                constraintSet.type)
        | _, _ => Outcome.throw m1 "Node position not found"

/-- The local variables `nbParts` and `groupByCoefByDOFS` of the turn of the loop
over the RBE3 constraints, with the model. -/
structure Rbe3State (Lg LSd CSd : Type) where
  model : Model Lg LSd ConstraintData CSd
  nbParts : Nat
  groupByCoefByDOFS : KeyMap DOFS (KeyMap ℚ Nat)

/-- Modelled from the spec: the id of `mesh->findCell(cellPosition)`. -/
def findCellId (mesh : Mesh) (cellPosition : Nat) : Option Int :=
  (mesh.cells[cellPosition]?).map fun cell => cell.id

/-- The creation of a part of an RBE3, Model.cpp lines 1792-1808, after `nbParts++`:
the material of the coefficient of the slave, the cell group and the element set of
the DOFs of the slave. The result is the new `CellGroup*` and the outcome of the
calls. -/
def addRbe3Part (E : Enumerators) (constraint : Constraint) (master : Node) (position : Int)
    (nbParts : Nat) (m : Model Lg LSd ConstraintData CSd) :
    Nat × Outcome (Model Lg LSd ConstraintData CSd) :=
  (m.mesh.cellGroups.length,
   (addRigidMaterial E m
      (Nature.Rigid none (some (constraint.data.getCoefForNode position)))).2.andThen fun m1 =>
     addRigidElementSet
       { m1 with
         mesh := (m1.mesh.createCellGroup
           ("RBE3_" ++ toString nbParts ++ "_" ++ originalIdLabel constraint.original_id)).2 }
       E.ElementSet_RBE3
       (ElementSetKind.Rbe3 master.id constraint.data.getDOFS
         (constraint.data.getSlaveDOFSForNode position))
       (m1.mesh.createCellGroup
         ("RBE3_" ++ toString nbParts ++ "_" ++ originalIdLabel constraint.original_id)).1
       (addRigidMaterial E m
         (Nature.Rigid none (some (constraint.data.getCoefForNode position)))).1)

/-- The call `groupRBE3->addCell(mesh->findCell(cellPosition).id)`, Model.cpp line
1810. -/
def addCellOfPosition (mesh : Mesh) (group : Nat) (cellPosition : Nat) : Mesh :=
  match findCellId mesh cellPosition with
  | some cellId => mesh.addCellToGroup group cellId
  | none => mesh

/-- The body of the loop over the slaves of an RBE3, Model.cpp lines 1774-1811. -/
def makeCellFromSlave (E : Enumerators) (constraint : Constraint) (master : Node)
    (st : Rbe3State Lg LSd CSd) (position : Int) : Outcome (Rbe3State Lg LSd CSd) :=
  match st.model.mesh.findNode position with
  | none => Outcome.throw st "Node position not found"
  | some slave =>
    match (st.groupByCoefByDOFS.find (constraint.data.getSlaveDOFSForNode position)).bind
        fun byCoef => byCoef.find (constraint.data.getCoefForNode position) with
    | some groupRBE3 =>
      Outcome.ok
        { st with
          model := { st.model with
            mesh := addCellOfPosition
              (st.model.mesh.addCell CellType.SEG2 [master.id, slave.id] true).2 groupRBE3
              (st.model.mesh.addCell CellType.SEG2 [master.id, slave.id] true).1 } }
    | none =>
      ((addRbe3Part E constraint master position (st.nbParts + 1)
          { st.model with
            mesh := (st.model.mesh.addCell CellType.SEG2 [master.id, slave.id] true).2 }).2.mapState
        fun m2 => ({ st with model := m2, nbParts := st.nbParts + 1 } :
          Rbe3State Lg LSd CSd)).andThen fun st2 =>
        Outcome.ok
          { st2 with
            model := { st2.model with
              mesh := addCellOfPosition st2.model.mesh
                (addRbe3Part E constraint master position (st.nbParts + 1)
                  { st.model with
                    mesh := (st.model.mesh.addCell CellType.SEG2
                      [master.id, slave.id] true).2 }).1
                (st.model.mesh.addCell CellType.SEG2 [master.id, slave.id] true).1 },
            groupByCoefByDOFS :=
              st.groupByCoefByDOFS.assign (constraint.data.getSlaveDOFSForNode position)
                (KeyMap.assign
                  ((st.groupByCoefByDOFS.find
                    (constraint.data.getSlaveDOFSForNode position)).getD [])
                  (constraint.data.getCoefForNode position)
                  (addRbe3Part E constraint master position (st.nbParts + 1)
                    { st.model with
                      mesh := (st.model.mesh.addCell CellType.SEG2
                        [master.id, slave.id] true).2 }).1) }

/-- The body of the loop over the RBE3 constraints of a common constraint set,
Model.cpp lines 1765-1816, for the constraint behind `ptr`. -/
def makeCellsFromRBE3 (E : Enumerators) (m : Model Lg LSd ConstraintData CSd)
    (constraintSet : Identifiable Nat CSd) (ptr : Nat) :
    Outcome (Model Lg LSd ConstraintData CSd) :=
  match m.constraints.objs[ptr]? with
  | none => Outcome.throw m "null pointer dereference"
  | some constraint =>
    match m.mesh.findNode constraint.data.getMaster with
    | none => Outcome.throw m "Node position not found"
    | some master =>
      ((constraint.data.getSlaves.foldl
          (fun r position => r.andThen fun st =>
            makeCellFromSlave E constraint master st position)
          (Outcome.ok { model := m, nbParts := 0, groupByCoefByDOFS := [] })).mapState
        fun st => st.model).andThen fun m2 =>
        Outcome.ok
          (removeConstraintOfSet m2 constraint.getReference constraintSet.id
            constraintSet.original_id constraintSet.type)

/-- The turn of the loop of `Model::makeCellsFromRBE` for one common constraint set,
Model.cpp lines 1680-1818: the RIGID constraints of the set, then its QUASI_RIGID
constraints, then its RBE3 constraints, each list being read when its loop starts. -/
def makeCellsFromRBEOf (E : Enumerators) (m : Model Lg LSd ConstraintData CSd)
    (constraintSet : Identifiable Nat CSd) : Outcome (Model Lg LSd ConstraintData CSd) :=
  ((getConstraintsByType m constraintSet E.Constraint_RIGID).foldl
      (fun r ptr => r.andThen fun m2 => makeCellsFromRigid E m2 constraintSet ptr)
      (Outcome.ok m)).andThen fun m1 =>
    ((getConstraintsByType m1 constraintSet E.Constraint_QUASI_RIGID).foldl
        (fun r ptr => r.andThen fun m2 => makeCellsFromQuasiRigid E m2 constraintSet ptr)
        (Outcome.ok m1)).andThen fun m2 =>
      (getConstraintsByType m2 constraintSet E.Constraint_RBE3).foldl
        (fun r ptr => r.andThen fun m3 => makeCellsFromRBE3 E m3 constraintSet ptr)
        (Outcome.ok m2)

/-- `Model::makeCellsFromRBE`, Model.cpp lines 1675-1819. -/
def makeCellsFromRBE (E : Enumerators) (m : Model Lg LSd ConstraintData CSd) :
    Outcome (Model Lg LSd ConstraintData CSd) :=
  (getCommonConstraintSets m).foldl
    (fun r constraintSet => r.andThen fun m2 => makeCellsFromRBEOf E m2 constraintSet)
    (Outcome.ok m)

/-- The catalog of constraints resolves the own reference of a constraint to no
other constraint: what `Container<T>::add` establishes. -/
def OwnReferences (m : Model Lg LSd Cg CSd) : Prop :=
  ∀ (ptr : Nat) (constraint : Identifiable Nat Cg) (ptr2 : Nat),
    m.constraints.objs[ptr]? = some constraint →
    m.constraints.find constraint.getReference = some ptr2 → ptr2 = ptr

/-- What the steps of `makeCellsFromRBE` other than `remove` keep of a model: the
catalog of constraints and the membership index of the constraint sets. -/
def ConstraintsKept (m m2 : Model Lg LSd Cg CSd) : Prop :=
  m2.constraints = m.constraints
    ∧ m2.constraintReferences_by_constraintSet_ids = m.constraintReferences_by_constraintSet_ids
    ∧ m2.constraintReferences_by_constraintSet_original_ids_by_constraintSet_type
        = m.constraintReferences_by_constraintSet_original_ids_by_constraintSet_type

/-- The constraint set hands out the constraint `constraint`, behind `ptr`, among its
constraints of the given type, from a catalog that resolves own references to no
other constraint. -/
def HandsOut (m : Model Lg LSd Cg CSd) (constraintSet : Identifiable Nat CSd) (type : Nat)
    (ptr : Nat) (constraint : Identifiable Nat Cg) : Prop :=
  OwnReferences m ∧ m.constraints.objs[ptr]? = some constraint
    ∧ ptr ∈ getConstraintsByType m constraintSet type

/-! ### Sets common to the analyses -/

/-- Modelled from the spec: `Analysis::getLoadSets` is absent from the sources; an
analysis "owns references to the load-sets/constraint-sets it exercises", and hands
out the pointers to the load sets that its references resolve. -/
def getLoadSetPointers (m : Model Lg LSd Cg CSd) (analysis : Analysis) : List Nat :=
  analysis.data.loadSet_references.filterMap fun reference =>
    match m.loadSets.find reference with
    | some ptr => if (m.loadSets.objs[ptr]?).isSome then some ptr else none
    | none => none

/-- The keys of the local `map` of the four functions on load sets below, each as
many times as the loop over the analyses counts it (`map[loadSet] += 1`). -/
def countedLoadSets (m : Model Lg LSd Cg CSd) : List Nat :=
  (registered m.analyses).flatMap fun analyse => getLoadSetPointers m analyse

/-- The keys of the local `map` of the functions on constraint sets, each as many
times as the loop over the analyses counts it (`map[constraintSet] += 1`). -/
def countedConstraintSets (m : Model Lg LSd Cg CSd) : List Nat :=
  (registered m.analyses).flatMap fun analyse => getConstraintSetPointers m analyse

/-- `Model::getActiveConstraintSets`, Model.cpp lines 583-595: the pointers handed
out by the analyses, each at its first occurrence. -/
def getActiveConstraintSets (m : Model Lg LSd Cg CSd) : List Nat :=
  (countedConstraintSets m).foldl (fun result constraintSet =>
    KeyMap.setInsert result constraintSet) []

/-- `Model::getActiveLoadSets`, Model.cpp lines 597-609. -/
def getActiveLoadSets (m : Model Lg LSd Cg CSd) : List Nat :=
  (countedLoadSets m).foldl (fun result loadSet => KeyMap.setInsert result loadSet) []

/-- The pointers that `Model::getCommonConstraintSets` (Model.cpp lines 611-625)
pushes to its result, one for each entry of the catalog that passes the test. -/
def getCommonConstraintSetPointers (m : Model Lg LSd Cg CSd) : List Nat :=
  m.constraintSets.by_id.filterMap fun entry =>
    match m.constraintSets.objs[entry.2]? with
    | some _ =>
      if (countedConstraintSets m).count entry.2 ≠ 0
          ∧ (countedConstraintSets m).count entry.2 = m.analyses.by_id.length then
        some entry.2
      else none
    | none => none

/-- The pointers that `Model::getCommonLoadSets` (Model.cpp lines 627-642) pushes to
its result, one for each entry of the catalog that passes the test. -/
def getCommonLoadSetPointers (E : Enumerators) (m : Model Lg LSd Cg CSd) : List Nat :=
  m.loadSets.by_id.filterMap fun entry =>
    match m.loadSets.objs[entry.2]? with
    | some loadSet =>
      if (countedLoadSets m).count entry.2 ≠ 0
          ∧ (countedLoadSets m).count entry.2 = m.analyses.by_id.length
          ∧ loadSet.type ≠ E.LoadSet_DLOAD then
        some entry.2
      else none
    | none => none

/-- `Model::getCommonLoadSets`, Model.cpp lines 627-642: the load sets behind the
pointers of the result. Modelled from the spec: `Container<T>::size` is absent from
the sources; the catalog counts the entities registered under an internal id. -/
def getCommonLoadSets (E : Enumerators) (m : Model Lg LSd Cg CSd) :
    List (Identifiable Nat LSd) :=
  m.loadSets.by_id.filterMap fun entry =>
    match m.loadSets.objs[entry.2]? with
    | some loadSet =>
      if (countedLoadSets m).count entry.2 ≠ 0
          ∧ (countedLoadSets m).count entry.2 = m.analyses.by_id.length
          ∧ loadSet.type ≠ E.LoadSet_DLOAD then
        some loadSet
      else none
    | none => none

/-- `Model::getUncommonConstraintSets`, Model.cpp lines 644-658: the result is a set
of pointers, kept as a list without repetition. -/
def getUncommonConstraintSets (m : Model Lg LSd Cg CSd) : List Nat :=
  m.constraintSets.by_id.foldl
    (fun result entry =>
      match m.constraintSets.objs[entry.2]? with
      | some _ =>
        if (countedConstraintSets m).count entry.2 ≠ 0
            ∧ (countedConstraintSets m).count entry.2 < m.analyses.by_id.length then
          KeyMap.setInsert result entry.2
        else result
      | none => result)
    []

/-- `Model::getUncommonLoadSets`, Model.cpp lines 660-674. -/
def getUncommonLoadSets (E : Enumerators) (m : Model Lg LSd Cg CSd) : List Nat :=
  m.loadSets.by_id.foldl
    (fun result entry =>
      match m.loadSets.objs[entry.2]? with
      | some loadSet =>
        if ((countedLoadSets m).count entry.2 ≠ 0
            ∧ (countedLoadSets m).count entry.2 < m.analyses.by_id.length)
            ∧ loadSet.type ≠ E.LoadSet_DLOAD then
          KeyMap.setInsert result entry.2
        else result
      | none => result)
    []

/-! ### Provenance of the loadings that a load set receives -/

/-- The membership index files a member declared in the set `a` under a key that it
reads for the set `b`: the internal id of `b`, or its type and original id. -/
def SameKey (a b : Reference Nat) : Prop :=
  (b.id.isSome = true ∧ a.id = b.id)
    ∨ (b.original_id.isSome = true ∧ a.original_id = b.original_id ∧ a.type = b.type)

/-- The membership index of `m` holds the loading reference `r` for the load set
`s`. -/
def MemberReference (m : Model Lg LSd Cg CSd) (s r : Reference Nat) : Prop :=
  r ∈ membersById m.loadingReferences_by_loadSet_ids s
    ∨ r ∈ membersByOriginalId m.loadingReferences_by_loadSet_original_ids_by_loadSet_type s

/-- The loading `x` is a clone of the loading `l` scaled by `c`: it has no id of the
source format, the kind of `l` and the attributes of `l` scaled by `c`. -/
def IsClone (scale : ℚ → Lg → Lg) (x l : Identifiable Nat Lg) (c : ℚ) : Prop :=
  x.original_id = none ∧ x.type = l.type ∧ x.data = scale c l.data

/-- The member reference `r` resolves in `m2` to a loading that `m` did not have and
that is a clone, scaled by `c`, of a loading that was in `m` a member of the load
set that a record `(S', c)` of the load set `S` designated in `m`: a clone of a
direct member of an embedded load set. -/
def SingleLevelClone (scale : ℚ → Lg → Lg) (m m2 : Model Lg LoadSetData Cg CSd)
    (S : Identifiable Nat LoadSetData) (r : Reference Nat) : Prop :=
  ∃ (q : Nat) (x : Identifiable Nat Lg) (kv : Reference Nat × ℚ)
      (other : Identifiable Nat LoadSetData) (lp : Option Nat) (l : Identifiable Nat Lg),
    m2.loadings.find r = some q ∧ m2.loadings.objs[q]? = some x
      ∧ m.loadings.objs.length ≤ q ∧ kv ∈ S.data.embedded_loadsets
      ∧ m.loadSets.deref (m.loadSets.find kv.1) = some other
      ∧ lp ∈ m.getLoadingsByLoadSet other.getReference ∧ m.loadings.deref lp = some l
      ∧ IsClone scale x l kv.2

/-- What the pass has kept of the catalog of load sets and of the loadings after the
turns of the entries `done`, from the model `m` to the model `m2`: the indices of the
load sets and their references are those of `m`, the load sets whose turn has not
come are untouched, those whose turn has come embed nothing, the loadings have only
grown, the next ids of loadings are unused and the members that resolved still do. -/
def PassBase (m m2 : Model Lg LoadSetData Cg CSd) (done : List (Int × Nat)) : Prop :=
  m2.loadSets.by_id = m.loadSets.by_id
    ∧ m2.loadSets.by_original_ids_by_type = m.loadSets.by_original_ids_by_type
    ∧ (∀ i : Nat, (m2.loadSets.objs[i]?).map Identifiable.getReference
        = (m.loadSets.objs[i]?).map Identifiable.getReference)
    ∧ (∀ i : Nat, i ∉ done.map Prod.snd → m2.loadSets.objs[i]? = m.loadSets.objs[i]?)
    ∧ (∀ i ∈ done.map Prod.snd, ∀ loadSet, m2.loadSets.objs[i]? = some loadSet →
        loadSet.data.embedded_loadsets = [])
    ∧ LoadingsGrow m m2 ∧ FreshLoadingIds m2
    ∧ (∀ s, MembersResolve m s → MembersResolve m2 s)

/-! ### The parts of an RBE3, in the words of the specification -/

/-- The pair (slave DOF set, slave coefficient) that the RBE3 gives to the slave at
the position. -/
def rbe3Key (constraint : Constraint) (position : Int) : DOFS × ℚ :=
  (constraint.data.getSlaveDOFSForNode position, constraint.data.getCoefForNode position)

/-- The position, among the entries of an associative list, of the entry of a key. -/
def keyIndex {K V : Type} [DecidableEq K] : KeyMap K V → K → Option Nat
  | [], _ => none
  | (k', _) :: rest, k => if k' = k then some 0 else (keyIndex rest k).map (· + 1)

/-- The slaves of an RBE3 "are grouped by the distinct (slave-DOF-set,
slave-coefficient) pairs observed among their slaves": the pairs in the order in
which the slaves show them, each with the ids of the cells of its slaves, after the
slaves at `positions`, whose cells receive the ids from `cellId` on; the second
component is the id of the next cell. -/
def rbe3Parts (constraint : Constraint) (cellId : Int) (positions : List Int) :
    KeyMap (DOFS × ℚ) (List Int) × Int :=
  positions.foldl
    (fun acc position =>
      (acc.1.assign (rbe3Key constraint position)
        (KeyMap.atOrEmpty acc.1 (rbe3Key constraint position) ++ [acc.2]), acc.2 + 1))
    ([], cellId)

/-- "Each distinct pair gets its own ... material": one rigid material by pair, with
the coefficient of the pair, the ids going up from `id`. -/
def rbe3Materials (E : Enumerators) : Int → List (DOFS × ℚ) → List (Identifiable Nat MaterialData)
  | _, [] => []
  | id, key :: rest =>
    { id := id, original_id := none, type := E.Material_MATERIAL,
      data := { natures := [Nature.Rigid none (some key.2)] } }
      :: rbe3Materials E (id + 1) rest

/-- "Each distinct pair gets its own element set": one RBE3 element set by pair, on
the master and with the DOFs of the pair, the ids going up from `id`, the cell
groups from `group` and the materials from `material`. -/
def rbe3ElementSets (E : Enumerators) (masterId : Int) (mDOFS : DOFS) :
    Int → Nat → Nat → List (DOFS × ℚ) → List (Identifiable Nat ElementSetData)
  | _, _, _, [] => []
  | id, group, material, key :: rest =>
    { id := id, original_id := none, type := E.ElementSet_RBE3,
      data := { kind := ElementSetKind.Rbe3 masterId mDOFS key.1, cellGroup := some group,
                material := some material } }
      :: rbe3ElementSets E masterId mDOFS (id + 1) (group + 1) (material + 1) rest

/-- "Each distinct pair gets its own ... cell-group": one cell group by pair, named
after the number of the part and the original id of the constraint, with the cells
of the slaves of the pair. -/
def rbe3CellGroups (label : String) : Nat → KeyMap (DOFS × ℚ) (List Int) → List CellGroup
  | _, [] => []
  | part, entry :: rest =>
    { name := "RBE3_" ++ toString part ++ "_" ++ label, cellIds := entry.2 }
      :: rbe3CellGroups label (part + 1) rest

/-- One two-node cell (master, slave) by slave, the ids going up from `id`. -/
def rbe3Cells (masterId : Int) : Int → List Node → List Cell
  | _, [] => []
  | id, slave :: rest =>
    { id := id, type := CellType.SEG2, nodeIds := [masterId, slave.id], isVirtual := true }
      :: rbe3Cells masterId (id + 1) rest

/-- The state of the turn of an RBE3 after the slaves at the positions `done`, from
the model `m`: the local variables agree with the parts of these slaves, and the
catalogs and the mesh hold, after what `m` held, the materials, the element sets,
the cell groups and the cells of these parts; the ids that the model is about to
give to materials and element sets are unused, and each of these slaves is a node of
the mesh. -/
def Rbe3Turn (E : Enumerators) (m : Model Lg LSd ConstraintData CSd) (constraint : Constraint)
    (master : Node) (done : List Int) (st : Rbe3State Lg LSd CSd) : Prop :=
  st.model.mesh.nodes = m.mesh.nodes
    ∧ st.nbParts = (rbe3Parts constraint m.mesh.cell_auto_id done).1.length
    ∧ (∀ key : DOFS × ℚ,
        (st.groupByCoefByDOFS.find key.1).bind (fun byCoef => byCoef.find key.2)
          = (keyIndex (rbe3Parts constraint m.mesh.cell_auto_id done).1 key).map
              (fun i => m.mesh.cellGroups.length + i))
    ∧ st.model.materials.objs
        = m.materials.objs ++ rbe3Materials E m.material_auto_id
            ((rbe3Parts constraint m.mesh.cell_auto_id done).1.map Prod.fst)
    ∧ st.model.material_auto_id
        = m.material_auto_id + (rbe3Parts constraint m.mesh.cell_auto_id done).1.length
    ∧ (∀ k, st.model.material_auto_id ≤ k → st.model.materials.by_id.find k = none)
    ∧ st.model.elementSets.objs
        = m.elementSets.objs ++ rbe3ElementSets E master.id constraint.data.getDOFS
            m.elementSet_auto_id m.mesh.cellGroups.length m.materials.objs.length
            ((rbe3Parts constraint m.mesh.cell_auto_id done).1.map Prod.fst)
    ∧ st.model.elementSet_auto_id
        = m.elementSet_auto_id + (rbe3Parts constraint m.mesh.cell_auto_id done).1.length
    ∧ (∀ k, st.model.elementSet_auto_id ≤ k → st.model.elementSets.by_id.find k = none)
    ∧ st.model.mesh.cells
        = m.mesh.cells ++ rbe3Cells master.id m.mesh.cell_auto_id
            (done.filterMap m.mesh.findNode)
    ∧ st.model.mesh.cell_auto_id = m.mesh.cell_auto_id + done.length
    ∧ st.model.mesh.cellGroups
        = m.mesh.cellGroups ++ rbe3CellGroups (originalIdLabel constraint.original_id) 1
            (rbe3Parts constraint m.mesh.cell_auto_id done).1
    ∧ (done.filterMap m.mesh.findNode).length = done.length

/-- The element set behind `ptr` in the model `m` is a matrix element set without a
cell group and with one node at least: what the loop of
`Model::makeCellsFromDirectMatrices` gives a cell group to. -/
def LacksCells (m : Model Lg LSd Cg CSd) (ptr : Nat) : Prop :=
  ∃ es, m.elementSets.objs[ptr]? = some es ∧ es.data.isMatrixElement = true
    ∧ es.data.cellGroup = none
    ∧ 1 ≤ (MatrixElement.nodePositions es.data.submatrixByNodes).length

/-- What the loop of `Model::makeCellsFromDirectMatrices` has made of the model `m`
when it has gone through the entries `entries` of the catalog, in the words of the
specification. `made` lists, in the order of the loop and once each, the pointers of
the entries behind which `m` holds a matrix element set without a cell group and with
one node at least; the other element sets are as in `m`; the mesh of `model` is that
of `m` with the cell groups `groups` and the cells `cells` after those of `m`, one of
each by pointer of `made`: the matrix of rank `k` in `made` has 20 nodes at most, it
is assigned the cell group of rank `k` of `groups`, which holds the id of the cell of
rank `k` of `cells` and nothing else, and this cell has the type of the number of
nodes of the matrix (POINT1, SEG2, POLY`n`) and the ids of the nodes of the matrix. -/
def MatrixCellsMade (m : Model Lg LSd Cg CSd) (entries : List (Int × Nat))
    (model : Model Lg LSd Cg CSd) (made : List Nat) (groups : List CellGroup)
    (cells : List Cell) : Prop :=
  made.Nodup
    ∧ (∀ ptr, ptr ∈ made ↔ ∃ entry ∈ entries, entry.2 = ptr ∧ LacksCells m ptr)
    ∧ model.mesh.nodes = m.mesh.nodes
    ∧ model.mesh.cellGroups = m.mesh.cellGroups ++ groups ∧ groups.length = made.length
    ∧ model.mesh.cells = m.mesh.cells ++ cells ∧ cells.length = made.length
    ∧ (∀ ptr, ptr ∉ made → model.elementSets.objs[ptr]? = m.elementSets.objs[ptr]?)
    ∧ ∀ (k : Nat) (ptr : Nat), made[k]? = some ptr →
        ∃ es ids, m.elementSets.objs[ptr]? = some es
          ∧ (MatrixElement.nodePositions es.data.submatrixByNodes).length ≤ 20
          ∧ nodeIdsOf m.mesh (MatrixElement.nodePositions es.data.submatrixByNodes) = some ids
          ∧ model.elementSets.objs[ptr]?
              = some { es with data := { es.data with
                  cellGroup := some (m.mesh.cellGroups.length + k) } }
          ∧ groups[k]?
              = some { name := "DM" ++ toString (k + 1),
                       cellIds := [m.mesh.cell_auto_id + (k : Int)] }
          ∧ cells[k]?
              = some { id := m.mesh.cell_auto_id + (k : Int),
                       type :=
                         if (MatrixElement.nodePositions es.data.submatrixByNodes).length = 1
                           then CellType.POINT1
                         else if
                           (MatrixElement.nodePositions es.data.submatrixByNodes).length = 2
                           then CellType.SEG2
                         else CellType.POLY
                           (MatrixElement.nodePositions es.data.submatrixByNodes).length,
                       nodeIds := ids, isVirtual := true }

/-- What the steps of `Model::makeCellsFromRBE` keep of a model: the nodes of the
mesh; the cells, the materials and the element sets, after which the new ones come;
and the cell groups of the first `groups` positions, the steps adding cells to the
groups of later positions only. -/
def RbeGrows (groups : Nat) (m m2 : Model Lg LSd Cg CSd) : Prop :=
  m2.mesh.nodes = m.mesh.nodes
    ∧ m.mesh.cells <+: m2.mesh.cells
    ∧ m.materials.objs <+: m2.materials.objs
    ∧ m.elementSets.objs <+: m2.elementSets.objs
    ∧ m.mesh.cellGroups.length ≤ m2.mesh.cellGroups.length
    ∧ ∀ i, i < groups → m2.mesh.cellGroups[i]? = m.mesh.cellGroups[i]?

/-- The model `model` holds what `Model::makeCellsFromRBE` creates for the QUASI_RIGID
constraint `constraint`, whose two slaves are the nodes `n1` and `n2`, none of it
being in the model `m`: a rigid material, an RBAR element set on the first slave
with this material and a cell group, and in this cell group one cell and no more, a
SEG2 that joins the two slaves. -/
def QuasiRigidMade (E : Enumerators) (m : Model Lg LSd Cg CSd)
    (constraint : Identifiable Nat Cg) (n1 n2 : Node) (model : Model Lg LSd Cg CSd) : Prop :=
  ∃ (material elementSet group cell : Nat) (materialId elementSetId cellId : Int),
    m.materials.objs.length ≤ material
      ∧ model.materials.objs[material]?
          = some { id := materialId, original_id := none, type := E.Material_MATERIAL,
                   data := { natures := [Nature.Rigid (some 1) none] } }
      ∧ m.elementSets.objs.length ≤ elementSet
      ∧ model.elementSets.objs[elementSet]?
          = some { id := elementSetId, original_id := none, type := E.ElementSet_RBAR,
                   data := { kind := ElementSetKind.Rbar n1.id, cellGroup := some group,
                             material := some material } }
      ∧ m.mesh.cellGroups.length ≤ group
      ∧ model.mesh.cellGroups[group]?
          = some { name := "RBAR_" ++ originalIdLabel constraint.original_id,
                   cellIds := [cellId] }
      ∧ m.mesh.cells.length ≤ cell
      ∧ model.mesh.cells[cell]?
          = some { id := cellId, type := CellType.SEG2, nodeIds := [n1.id, n2.id],
                   isVirtual := true }

end Model

/-! ## Concrete catalogs and models -/

namespace Sample

/-- An entity with an original id. -/
def e0 : Identifiable Nat Unit := { id := 1, original_id := some 5, type := 0, data := () }

/-- An entity without original id. -/
def e1 : Identifiable Nat Unit := { id := 1, original_id := none, type := 0, data := () }

/-- An entity with an original id, other than `e0`. -/
def e2 : Identifiable Nat Unit := { id := 2, original_id := some 7, type := 0, data := () }

/-- The catalog that holds `e0` only. -/
def c0 : Container Nat Unit := (Container.empty.add e0).state

/-- The catalog that holds `e1` only. -/
def c1 : Container Nat Unit := (Container.empty.add e1).state

/-- The catalog where `e0` was added and then erased through the reference made of
its type and original id. -/
def c0erased : Container Nat Unit :=
  c0.erase { type := 0, original_id := some 5, id := none }

/-- The catalog that holds `e0` and `e2`. -/
def c02 : Container Nat Unit := (c0.add e2).state

/-- A placeholder value with original id 5. -/
def vPlaceHolder : Identifiable Nat ValueData :=
  { id := 3, original_id := some 5, type := 0,
    data := { isPlaceHolder := true, paraX := some 1, paraY := none } }

/-- A real value with original id 5. -/
def vReal : Identifiable Nat ValueData :=
  { id := 4, original_id := some 5, type := 0,
    data := { isPlaceHolder := false, paraX := none, paraY := none } }

/-- The catalog of values that holds the real value `vReal`. -/
def cReal : Container Nat ValueData := (Container.empty.addValue vReal).state

/-- The common load set handed to the constructor of the model. -/
def commonLoadSet : Identifiable Nat Unit :=
  { id := 0, original_id := some 0, type := 9, data := () }

/-- The common constraint set handed to the constructor of the model. -/
def commonConstraintSet : Identifiable Nat Unit :=
  { id := 0, original_id := some 0, type := 9, data := () }

/-- A freshly constructed model. -/
def m0 : Model Unit Unit Unit Unit := Model.init commonLoadSet commonConstraintSet 100

/-- A set reference that carries an internal id only. -/
def sId : Reference Nat := { type := 1, original_id := none, id := some 7 }

/-- A set reference that carries an original id only. -/
def sOrig : Reference Nat := { type := 1, original_id := some 5, id := none }

/-- A member reference. -/
def lRef : Reference Nat := { type := 0, original_id := some 1, id := none }

/-- A loading, designated by `lRef`. -/
def loading0 : Identifiable Nat Unit := { id := 11, original_id := some 1, type := 0, data := () }

/-- A model whose catalogs hold the loading and the constraint `loading0`. -/
def mLoaded : Model Unit Unit Unit Unit :=
  { m0 with loadings := (Container.empty.add loading0).state,
            constraints := (Container.empty.add loading0).state }

/-- An analysis that exercises the set `sOrig`, as load set and as constraint set. -/
def analysis0 : Analysis :=
  { id := 21, original_id := some 1, type := 0,
    data := { loadSet_references := [sOrig, sId, sOrig], constraintSet_references := [sOrig],
              objectiveReferences := [], boundaryDOFSByNodePosition := [] } }

/-- A model with the analysis `analysis0`, in which the loading and the constraint
`lRef` were declared in the set `sOrig`, and the constraint set was added. -/
def mSets : Model Unit Unit Unit Unit :=
  ({ ((m0.addLoadingIntoLoadSet lRef sOrig).state.addConstraintIntoConstraintSet lRef
        sOrig).state with
      analyses := (Container.empty.add analysis0).state }.addConstraintSet
    { id := 31, original_id := some 5, type := 1, data := () }).state

/-- A frequency band, an analysis parameter, with original id 3. -/
def band0 : Objective :=
  { id := 41, original_id := some 3, type := ObjectiveType.FREQUENCY_BAND,
    data := ObjectiveData.FrequencyBand 0 100 10 "MASS" }

/-- A frequency assertion with original id 4. -/
def assertion0 : Objective :=
  { id := 42, original_id := some 4, type := ObjectiveType.FREQUENCY_ASSERTION,
    data := ObjectiveData.FrequencyAssertion 1 50 1 }

/-- The reference of `band0`. -/
def bandRef : Reference ObjectiveType :=
  { type := ObjectiveType.FREQUENCY_BAND, original_id := some 3, id := none }

/-- The reference of `assertion0`. -/
def assertionRef : Reference ObjectiveType :=
  { type := ObjectiveType.FREQUENCY_ASSERTION, original_id := some 4, id := none }

/-- An analysis that holds the frequency band and the frequency assertion. -/
def analysisObj : Analysis :=
  { id := 22, original_id := none, type := 0,
    data := { loadSet_references := [], constraintSet_references := [],
              objectiveReferences := [bandRef, assertionRef],
              boundaryDOFSByNodePosition := [] } }

/-- A model with the analysis `analysisObj` and its two objectives. -/
def mObj : Model Unit Unit Unit Unit :=
  { m0 with
    analyses := (Container.empty.add analysisObj).state,
    objectives := ((Container.empty.add band0).state.add assertion0).state }

/-- An ineffective loading with original id 1 (the attribute of a loading is its
flag `ineffective`). -/
def idleLoading : Identifiable Nat Bool :=
  { id := 11, original_id := some 1, type := 0, data := true }

/-- A model with the ineffective loading `idleLoading`, declared in the load set
`sOrig`, which `addLoadingIntoLoadSet` has put in the catalog. -/
def mIdle : Model Bool Unit Bool Unit :=
  (((Model.init commonLoadSet commonConstraintSet 100 :
      Model Bool Unit Bool Unit).addLoading idleLoading).state.addLoadingIntoLoadSet
    lRef sOrig).state

/-- The common load set of the models of combined load sets. -/
def commonCombined : Identifiable Nat LoadSetData :=
  { id := 0, original_id := some 0, type := 9, data := { embedded_loadsets := [] } }

/-- A loading without original id; its attributes are the list of the coefficients
applied to it. -/
def loadingA : Identifiable Nat (List ℚ) :=
  { id := 60, original_id := none, type := 0, data := [] }

/-- The reference of `loadingA`. -/
def loadingARef : Reference Nat := { type := 0, original_id := none, id := some 60 }

/-- The scaling of the attributes of a loading: the coefficient is recorded. -/
def recordScale (coefficient : ℚ) (data : List ℚ) : List ℚ := coefficient :: data

/-- The reference of the inner load set `(type 1, original id 2)`. -/
def innerRef : Reference Nat := { type := 1, original_id := some 2, id := none }

/-- The reference of the outer load set `(type 1, original id 1)`. -/
def outerRef : Reference Nat := { type := 1, original_id := some 1, id := none }

/-- The inner load set, which embeds nothing. -/
def innerSet : Identifiable Nat LoadSetData :=
  { id := 52, original_id := some 2, type := 1, data := { embedded_loadsets := [] } }

/-- The outer load set, which embeds the inner one with coefficient 2. -/
def outerSet : Identifiable Nat LoadSetData :=
  { id := 51, original_id := some 1, type := 1,
    data := { embedded_loadsets := [(innerRef, 2)] } }

/-- A model whose outer load set embeds a load set that is not in the catalog. -/
def mMissingEmbedded : Model (List ℚ) LoadSetData Unit Unit :=
  ((Model.init commonCombined commonConstraintSet 100 :
      Model (List ℚ) LoadSetData Unit Unit).addLoadSet outerSet).state

/-- A model whose outer load set embeds the inner one, of which `loadingA` is a
member. -/
def mCombined : Model (List ℚ) LoadSetData Unit Unit :=
  ((((mMissingEmbedded.addLoadSet innerSet).state.addLoading loadingA).state.addLoadingIntoLoadSet
    loadingARef innerRef).state)

/-- As `mCombined`, but the member declared in the inner load set is a loading that
is not in the catalog. -/
def mDanglingMember : Model (List ℚ) LoadSetData Unit Unit :=
  ((mMissingEmbedded.addLoadSet innerSet).state.addLoadingIntoLoadSet lRef innerRef).state

/-- The values of the enumerators in the concrete models. -/
def enumerators : Model.Enumerators :=
  { ConstraintSet_SPC := 3, Constraint_SPC := 4, ElementSet_DISCRETE_0D := 5,
    Material_MATERIAL := 6, Constraint_RIGID := 7, Constraint_QUASI_RIGID := 8,
    Constraint_RBE3 := 9, ElementSet_DISCRETE_1D := 10, ElementSet_STIFFNESS_MATRIX := 11,
    ElementSet_RBAR := 12, ElementSet_RBE3 := 13, LoadSet_DLOAD := 14 }

/-- An analysis whose boundary conditions require the rotation RX at the node of
position 0. -/
def analysisRX : Analysis :=
  { id := 21, original_id := none, type := 0,
    data := { loadSet_references := [], constraintSet_references := [],
              objectiveReferences := [], boundaryDOFSByNodePosition := [(0, {DOF.RX})] } }

/-- An analysis whose boundary conditions require the rotation RY at the node of
position 0. -/
def analysisRY : Analysis :=
  { id := 22, original_id := none, type := 0,
    data := { loadSet_references := [], constraintSet_references := [],
              objectiveReferences := [], boundaryDOFSByNodePosition := [(0, {DOF.RY})] } }

/-- A model with the two analyses `analysisRX` and `analysisRY` and one node, of id 1,
whose native DOFs are the translations. The attributes of a constraint are the DOFs
it blocks and the id of its node. -/
def mTwoAnalyses : Model Unit Unit (DOFS × Int) Unit :=
  { (Model.init commonLoadSet commonConstraintSet 100 : Model Unit Unit (DOFS × Int) Unit) with
    analyses := ((Container.empty.add analysisRX).state.add analysisRY).state,
    mesh := { Mesh.empty with nodes := [{ id := 1, dofs := DOFS.TRANSLATIONS }] } }

/-- An assertion on the rotation RX of the node of position 0, with original id 7. -/
def assertionRX : Objective :=
  { id := 43, original_id := some 7, type := ObjectiveType.NODAL_DISPLACEMENT_ASSERTION,
    data := ObjectiveData.NodalDisplacementAssertion 1 0 DOF.RX 0 0 }

/-- An assertion on the translation DX of the node of position 0, without original
id. -/
def assertionDX : Objective :=
  { id := 44, original_id := none, type := ObjectiveType.NODAL_DISPLACEMENT_ASSERTION,
    data := ObjectiveData.NodalDisplacementAssertion 1 0 DOF.DX 0 0 }

/-- An analysis without boundary DOFs that holds the frequency assertion `assertion0`
and the two nodal assertions. -/
def analysisAssertions : Analysis :=
  { id := 23, original_id := none, type := 0,
    data := { loadSet_references := [], constraintSet_references := [],
              objectiveReferences :=
                [assertionRef, assertionRX.getReference, assertionDX.getReference],
              boundaryDOFSByNodePosition := [] } }

/-- A model with the analysis `analysisAssertions`, its three assertions and one
node, whose DOFs are the translations. -/
def mAssertions : Model Unit Unit Unit Unit :=
  { m0 with
    analyses := (Container.empty.add analysisAssertions).state,
    objectives :=
      (((Container.empty.add assertion0).state.add assertionRX).state.add assertionDX).state,
    mesh := { Mesh.empty with nodes := [{ id := 1, dofs := DOFS.TRANSLATIONS }] } }

/-- Collaborators that do nothing: no element set and no analysis has DOFs to give,
the mesh is left as it is, and the passes that are not embedded return at once. -/
def idleCollaborators : Model.Collaborators Unit Unit Unit :=
  { scale := fun _ data => data,
    ineffectiveLoading := fun _ => false,
    ineffectiveConstraint := fun _ => false,
    newSPC := fun _ _ => (),
    enumerators := enumerators,
    Analysis_LINEAR_MECA_STAT := 0,
    elementSetDOFS := fun _ _ => [],
    boundaryConditionDOFS := fun _ _ => [],
    assignElementId := fun mesh _ _ => mesh,
    meshFinish := fun mesh => mesh,
    emulateLocalDisplacementConstraint := Outcome.ok,
    generateBeamsToDisplayHomogeneousConstraint := Outcome.ok,
    generateSkin := Outcome.ok,
    emulateAdditionalMass := Outcome.ok,
    replaceDirectMatrices := Outcome.ok,
    removeRedundantSpcs := Outcome.ok,
    splitDirectMatrices := fun _ => Outcome.ok,
    makeCellsFromDirectMatrices := Outcome.ok,
    makeCellsFromRBE := Outcome.ok,
    splitElementsByDOFS := Outcome.ok }

/-- A model, with every optional step of the pipeline off, whose catalog holds the
constraint `loading0`, declared in the constraint set `sOrig`; no constraint set was
added to the model. -/
def mIntegrity : Model Unit LoadSetData Unit Unit :=
  (((Model.init commonCombined commonConstraintSet 100 :
      Model Unit LoadSetData Unit Unit).addConstraint loading0).state.addConstraintIntoConstraintSet
    lRef sOrig).state

/-- A mesh of three nodes, of ids 101, 102 and 103, with translations only. -/
def mesh3 : Mesh :=
  { nodes := [{ id := 101, dofs := DOFS.TRANSLATIONS }, { id := 102, dofs := DOFS.TRANSLATIONS },
      { id := 103, dofs := DOFS.TRANSLATIONS }],
    cells := [], cellGroups := [], cell_auto_id := 0 }

/-- A stiffness matrix of internal id 5 and original id 9 over the three nodes of
`mesh3`, a chain 0 - 1 - 2. -/
def bigMatrix : Identifiable Nat ElementSetData :=
  { id := 5, original_id := some 9, type := enumerators.ElementSet_STIFFNESS_MATRIX,
    data := { kind := ElementSetKind.MatrixElement
                [((0, 0), [((DOF.DX, DOF.DX), 2)]), ((0, 1), [((DOF.DX, DOF.DX), -1)]),
                 ((1, 1), [((DOF.DX, DOF.DX), 2)]), ((1, 2), [((DOF.DX, DOF.DX), -1)]),
                 ((2, 2), [((DOF.DX, DOF.DX), 1)])],
              cellGroup := none, material := none } }

/-- A model whose element-set catalog holds `bigMatrix` alone, on `mesh3`. -/
def mBigMatrix : Model Unit Unit Unit Unit :=
  (Model.addElementSet { m0 with mesh := mesh3 } bigMatrix).state

/-- The virtual functions of the loadings and constraints of the models below: a
loading is (node position, DOFs), a constraint is (DOFs, node id), the node of id
`101 + k` being at position `k`. The terms of the matrices below are small integers
divided by 1 or 2, quotients that the machine computes exactly. -/
def nodalFunctions : Model.NodalFunctions (Int × DOFS) (DOFS × Int) :=
  { loadingNodePositions := fun loading => [loading.1],
    loadingDOFSForNode := fun loading _ => loading.2,
    constraintNodePositions := fun constraint => [constraint.2 - 101],
    constraintDOFSForNode := fun constraint _ => constraint.1,
    newSPC := Prod.mk,
    divide := fun value n => value / (n : ℚ) }

/-- The model built by the constructor, on the mesh `mesh3`. -/
def mMesh3 : Model (Int × DOFS) Unit (DOFS × Int) Unit :=
  { (Model.init commonLoadSet commonConstraintSet 100 :
      Model (Int × DOFS) Unit (DOFS × Int) Unit) with mesh := mesh3 }

/-- A stiffness matrix without original id that couples the node of position 0 with
the nodes of positions 1 and 2: the term (DX, DX) is 6 for the pair (0, 1) and 4 for
the pair (0, 2). -/
def chainMatrix : Identifiable Nat ElementSetData :=
  { id := 5, original_id := none, type := enumerators.ElementSet_STIFFNESS_MATRIX,
    data := { kind := ElementSetKind.MatrixElement
                [((0, 1), [((DOF.DX, DOF.DX), 6)]), ((0, 2), [((DOF.DX, DOF.DX), 4)])],
              cellGroup := none, material := none } }

/-- A model whose element-set catalog holds `chainMatrix` alone. -/
def mChain : Model (Int × DOFS) Unit (DOFS × Int) Unit :=
  (Model.addElementSet mMesh3 chainMatrix).state

/-- A stiffness matrix on the node of position 0 alone, with a term on the rotation
RX. -/
def pointMatrix : Identifiable Nat ElementSetData :=
  { id := 5, original_id := none, type := enumerators.ElementSet_STIFFNESS_MATRIX,
    data := { kind := ElementSetKind.MatrixElement [((0, 0), [((DOF.RX, DOF.RX), 1)])],
              cellGroup := none, material := none } }

/-- A loading applied to the node of position 1, on the rotation RY. -/
def momentLoading : Identifiable Nat (Int × DOFS) :=
  { id := 31, original_id := none, type := 0, data := (1, {DOF.RY}) }

/-- A model with `pointMatrix` on the node of position 0 and `momentLoading` on the
node of position 1, without any constraint. -/
def mPointMatrix : Model (Int × DOFS) Unit (DOFS × Int) Unit :=
  (Model.addLoading (Model.addElementSet mMesh3 pointMatrix).state momentLoading).state

/-- A mass matrix (its type is not `STIFFNESS_MATRIX`) on the node of position 0,
whose only term is zero. -/
def zeroMassMatrix : Identifiable Nat ElementSetData :=
  { id := 5, original_id := none, type := 99,
    data := { kind := ElementSetKind.MatrixElement [((0, 0), [((DOF.DX, DOF.DX), 0)])],
              cellGroup := none, material := none } }

/-- A model whose element-set catalog holds `zeroMassMatrix` alone. -/
def mZeroMass : Model (Int × DOFS) Unit (DOFS × Int) Unit :=
  (Model.addElementSet mMesh3 zeroMassMatrix).state

/-- The reference by internal id of the constraint set of id `id`. -/
def spcSetRef (id : Int) : Reference Nat :=
  { type := enumerators.ConstraintSet_SPC, original_id := none, id := some id }

/-- A constraint set of type SPC, of internal id `id`, without original id. -/
def spcSet (id : Int) : Identifiable Nat Unit :=
  { id := id, original_id := none, type := enumerators.ConstraintSet_SPC, data := () }

/-- An analysis of internal id `id` that exercises the constraint sets of the given
ids. -/
def analysisOf (id : Int) (constraintSets : List Int) : Analysis :=
  { id := id, original_id := none, type := 0,
    data := { loadSet_references := [], constraintSet_references := constraintSets.map spcSetRef,
              objectiveReferences := [], boundaryDOFSByNodePosition := [] } }

/-- A QUASI_RIGID constraint of internal id `id` that bears on the translations,
between the nodes of the given positions. -/
def quasiRigid (id : Int) (slaves : List Int) : Constraint :=
  { id := id, original_id := none, type := enumerators.Constraint_QUASI_RIGID,
    data := ConstraintData.QuasiRigidConstraint DOFS.TRANSLATIONS slaves }

/-- The reference by internal id of the QUASI_RIGID constraint of id `id`. -/
def quasiRigidRef (id : Int) : Reference Nat :=
  { type := enumerators.Constraint_QUASI_RIGID, original_id := none, id := some id }

/-- A model on `mesh3` whose only analysis exercises the constraint set 51, which
holds the QUASI_RIGID constraint 71 between the nodes of the given positions. -/
def mQuasiRigid (slaves : List Int) : Model Unit Unit ConstraintData Unit :=
  ((((({ (Model.init commonLoadSet commonConstraintSet 100 :
      Model Unit Unit ConstraintData Unit) with mesh := mesh3 }).addConstraint
        (quasiRigid 71 slaves)).state.addConstraintSet (spcSet 51)).state
      |>.addConstraintIntoConstraintSet (quasiRigidRef 71) (spcSetRef 51)).state.addAnalysis
        (analysisOf 21 [51])).state

/-- A placeholder value with original id 5 that has a Y parameter and no X
parameter. -/
def vPlaceHolderY : Identifiable Nat ValueData :=
  { id := 6, original_id := some 5, type := 0,
    data := { isPlaceHolder := true, paraX := none, paraY := some 7 } }

/-- An entity of another type with the original id of `e0`. -/
def e0Other : Identifiable Nat Unit := { id := 8, original_id := some 5, type := 1, data := () }

/-- The catalog that holds `e0`, then `e2`, then `e0Other`: two types register the
original id 5. -/
def cTwoTypes : Container Nat Unit := (((Container.empty.add e0).state.add e2).state.add e0Other).state

/-- A load set of internal id `id` and of the given type, without original id. -/
def loadSetOf (id : Int) (type : Nat) : Identifiable Nat Unit :=
  { id := id, original_id := none, type := type, data := () }

/-- The reference by internal id of the set of id `id`. -/
def setRef (id : Int) : Reference Nat := { type := 0, original_id := none, id := some id }

/-- An analysis of internal id `id` that exercises the load sets and the constraint
sets of the given ids. -/
def analysisOn (id : Int) (loadSets constraintSets : List Int) : Analysis :=
  { id := id, original_id := none, type := 0,
    data := { loadSet_references := loadSets.map setRef,
              constraintSet_references := constraintSets.map setRef,
              objectiveReferences := [], boundaryDOFSByNodePosition := [] } }

/-- A model with the load sets 61 (of type DLOAD), 62 and 63 (of type 2) and the
constraint sets 51 and 52. The analysis 21 exercises the load sets 61, 62, 63 and
the constraint sets 51, 52; the analysis 22 exercises the load sets 61, 62 and the
constraint set 51. -/
def mAnalyses : Model Unit Unit Unit Unit :=
  (((((((m0.addLoadSet (loadSetOf 61 enumerators.LoadSet_DLOAD)).state.addLoadSet
      (loadSetOf 62 2)).state.addLoadSet (loadSetOf 63 2)).state.addConstraintSet
      (loadSetOf 51 3)).state.addConstraintSet (loadSetOf 52 3)).state.addAnalysis
      (analysisOn 21 [61, 62, 63] [51, 52])).state.addAnalysis
      (analysisOn 22 [61, 62] [51])).state

/-- The reference of the innermost load set `(type 1, original id 3)`. -/
def innermostRef : Reference Nat := { type := 1, original_id := some 3, id := none }

/-- The innermost load set, which embeds nothing. -/
def innermostSet : Identifiable Nat LoadSetData :=
  { id := 53, original_id := some 3, type := 1, data := { embedded_loadsets := [] } }

/-- The middle load set `(type 1, original id 2)`, which embeds the innermost one
with coefficient 3. -/
def middleSet : Identifiable Nat LoadSetData :=
  { id := 52, original_id := some 2, type := 1,
    data := { embedded_loadsets := [(innermostRef, 3)] } }

/-- A loading without original id, other than `loadingA`. -/
def loadingB : Identifiable Nat (List ℚ) :=
  { id := 61, original_id := none, type := 0, data := [] }

/-- The reference of `loadingB`. -/
def loadingBRef : Reference Nat := { type := 0, original_id := none, id := some 61 }

/-- The loadings and memberships of the nested models: `loadingA` is a member of the
middle load set, `loadingB` of the innermost one. -/
def withNestedLoadings (m : Model (List ℚ) LoadSetData Unit Unit) :
    Model (List ℚ) LoadSetData Unit Unit :=
  ((((m.addLoading loadingA).state.addLoading loadingB).state.addLoadingIntoLoadSet
    loadingARef innerRef).state.addLoadingIntoLoadSet loadingBRef innermostRef).state

/-- A model whose outer load set embeds the middle one, which embeds the innermost
one; the catalog holds the outer load set before the middle one. -/
def mNestedOuterFirst : Model (List ℚ) LoadSetData Unit Unit :=
  withNestedLoadings
    (((mMissingEmbedded.addLoadSet middleSet).state.addLoadSet innermostSet).state)

/-- The outer load set with an internal id greater than those of the middle and
innermost load sets. -/
def outerSetLate : Identifiable Nat LoadSetData :=
  { id := 54, original_id := some 1, type := 1,
    data := { embedded_loadsets := [(innerRef, 2)] } }

/-- The same loadings and memberships; the catalog holds the middle load set, then
the innermost one, then the outer one, whose internal ids go up in this order. -/
def mNestedMiddleFirst : Model (List ℚ) LoadSetData Unit Unit :=
  withNestedLoadings
    (((((Model.init commonCombined commonConstraintSet 100 :
      Model (List ℚ) LoadSetData Unit Unit).addLoadSet middleSet).state.addLoadSet
      innermostSet).state.addLoadSet outerSetLate).state)

/-- A model whose element-set catalog holds `pointMatrix` alone, on `mesh3`: no
loading, no constraint and no cell. -/
def mPointOnly : Model (Int × DOFS) Unit (DOFS × Int) Unit :=
  (Model.addElementSet mMesh3 pointMatrix).state

/-- A mesh of five nodes, of ids 101 to 105, with translations only. -/
def mesh5 : Mesh :=
  { nodes := [{ id := 101, dofs := DOFS.TRANSLATIONS }, { id := 102, dofs := DOFS.TRANSLATIONS },
      { id := 103, dofs := DOFS.TRANSLATIONS }, { id := 104, dofs := DOFS.TRANSLATIONS },
      { id := 105, dofs := DOFS.TRANSLATIONS }],
    cells := [], cellGroups := [], cell_auto_id := 0 }

/-- An RBE3 of internal id 81 and original id 7, with the node of position 0 as its
master and four slaves: those of positions 1 and 3 have the translations and the
coefficient 1/2, that of position 2 the translations and the coefficient 1/4, that of
position 4 the DOF DX and the coefficient 1/2. -/
def rbe3 : Constraint :=
  { id := 81, original_id := some 7, type := enumerators.Constraint_RBE3,
    data := ConstraintData.RBE3 0 DOFS.ALL_DOFS
      [(1, DOFS.TRANSLATIONS, 1 / 2), (2, DOFS.TRANSLATIONS, 1 / 4),
       (3, DOFS.TRANSLATIONS, 1 / 2), (4, {DOF.DX}, 1 / 2)] }

/-- The reference of `rbe3`, by its type and original id. -/
def rbe3Ref : Reference Nat :=
  { type := enumerators.Constraint_RBE3, original_id := some 7, id := none }

/-- A model on `mesh5` whose only analysis exercises the constraint set 51, which
holds the constraint `rbe3`. -/
def mRbe3 : Model Unit Unit ConstraintData Unit :=
  ((((({ (Model.init commonLoadSet commonConstraintSet 100 :
      Model Unit Unit ConstraintData Unit) with mesh := mesh5 }).addConstraint
        rbe3).state.addConstraintSet (spcSet 51)).state
      |>.addConstraintIntoConstraintSet rbe3Ref (spcSetRef 51)).state.addAnalysis
        (analysisOf 21 [51])).state

/-- A constraint set of internal id `id`, of type 3, with the original id
`originalId`. -/
def originalSetOf (id originalId : Int) : Identifiable Nat Unit :=
  { id := id, original_id := some originalId, type := 3, data := () }

/-- The reference by type and original id of a constraint set of type 3. -/
def originalSetRef (originalId : Int) : Reference Nat :=
  { type := 3, original_id := some originalId, id := none }

/-- An analysis of internal id 21 that designates the constraint set 51 twice, by
its internal id and by its original id 5, and likewise the constraint set 53, of
original id 7. -/
def analysisTwice : Analysis :=
  { id := 21, original_id := none, type := 0,
    data := { loadSet_references := [],
              constraintSet_references :=
                [setRef 51, originalSetRef 5, setRef 53, originalSetRef 7],
              objectiveReferences := [], boundaryDOFSByNodePosition := [] } }

/-- A model with the constraint sets 51 (original id 5), 52 and 53 (original id 7).
The analysis 21 designates the sets 51 and 53, each through two references; the
analysis 22 designates the sets 52 and 53, each through one reference. -/
def mTwice : Model Unit Unit Unit Unit :=
  (((((m0.addConstraintSet (originalSetOf 51 5)).state.addConstraintSet
      (loadSetOf 52 3)).state.addConstraintSet (originalSetOf 53 7)).state.addAnalysis
      analysisTwice).state.addAnalysis (analysisOn 22 [] [52, 53])).state

/-- The reference of `rbe3` by its internal id alone. -/
def rbe3IdRef : Reference Nat :=
  { type := enumerators.Constraint_RBE3, original_id := none, id := some 81 }

/-- The model `mRbe3`, except that the constraint `rbe3` was declared a member of the
constraint set 51 through the reference by its internal id. -/
def mRbe3ById : Model Unit Unit ConstraintData Unit :=
  ((((({ (Model.init commonLoadSet commonConstraintSet 100 :
      Model Unit Unit ConstraintData Unit) with mesh := mesh5 }).addConstraint
        rbe3).state.addConstraintSet (spcSet 51)).state
      |>.addConstraintIntoConstraintSet rbe3IdRef (spcSetRef 51)).state.addAnalysis
        (analysisOf 21 [51])).state

end Sample

/-! ## Lemmas on associative containers -/

namespace KeyMap

variable {K V : Type} [DecidableEq K]

theorem find_assign_self (m : KeyMap K V) (k : K) (v : V) : (m.assign k v).find k = some v := by
  induction m with
  | nil => simp [assign, find]
  | cons hd tl ih =>
    obtain ⟨k0, v0⟩ := hd
    by_cases h : k0 = k
    · simp [assign, find, h]
    · simp [assign, find, h, ih]

theorem find_assign_ne (m : KeyMap K V) (k k2 : K) (v : V) (h : k ≠ k2) :
    (m.assign k v).find k2 = m.find k2 := by
  induction m with
  | nil => simp [assign, find, h]
  | cons hd tl ih =>
    obtain ⟨k0, v0⟩ := hd
    by_cases h0 : k0 = k
    · subst h0
      simp [assign, find, h]
    · by_cases h1 : k0 = k2
      · subst h1
        simp [assign, find, h0]
      · simp [assign, find, h0, h1, ih]

theorem find_erase_self (m : KeyMap K V) (k : K) : (m.erase k).find k = none := by
  induction m with
  | nil => simp [erase, find]
  | cons hd tl ih =>
    obtain ⟨k0, v0⟩ := hd
    by_cases h : k0 = k
    · simp [erase, h, ih]
    · simp [erase, find, h, ih]

theorem find_erase_ne (m : KeyMap K V) (k k2 : K) (h : k ≠ k2) :
    (m.erase k).find k2 = m.find k2 := by
  induction m with
  | nil => simp [erase, find]
  | cons hd tl ih =>
    obtain ⟨k0, v0⟩ := hd
    by_cases h0 : k0 = k
    · subst h0
      simp [erase, find, h, ih]
    · by_cases h1 : k0 = k2
      · subst h1
        simp [erase, find, h0]
      · simp [erase, find, h0, h1, ih]

end KeyMap

/-! ## The entity catalog -/

namespace Container

variable {τ α : Type} [DecidableEq τ]

theorem find_of_original_id (c : Container τ α) (r : Reference τ) (o : Int)
    (ho : r.original_id = some o) :
    c.find r = (c.by_original_ids_by_type.find r.type).bind (fun inner => inner.find o) := by
  unfold find
  rw [ho]
  cases c.by_original_ids_by_type.find r.type <;> rfl

theorem find_of_id_only (c : Container τ α) (r : Reference τ) (i : Int)
    (ho : r.original_id = none) (hi : r.id = some i) : c.find r = c.by_id.find i := by
  unfold find
  rw [ho, hi]

/-- C1 (counterexample). In the catalog where `e0` was added and then erased through
the reference `(type 0, original id 5)`, `e0` is still registered under its internal
id, and yet `add(e0)` does not throw and changes the catalog. -/
theorem add_registered_id_counterexample :
    Sample.c0erased.deref (Sample.c0erased.get Sample.e0.getId) = some Sample.e0
      ∧ (Sample.c0erased.add Sample.e0).error = none
      ∧ (Sample.c0erased.add Sample.e0).state ≠ Sample.c0erased := by
  decide

/-- C1 (amended). For every catalog and every entity `e` whose reference resolves in
it, that is an entity registered under `(e.type, e.original_id)` when `e` has an
original id, and under the internal id of `e` when it has none, `add(e)` throws and
leaves the catalog unchanged. -/
theorem add_throws_of_reference_resolved (c : Container τ α) (e : Identifiable τ α)
    (h : (∃ o, e.getOriginalId = some o
            ∧ (c.find { type := e.type, original_id := some o, id := none }).isSome = true)
          ∨ (e.getOriginalId = none ∧ (c.get e.getId).isSome = true)) :
    (c.add e).error = some "is already in the model" ∧ (c.add e).state = c := by
  have hres : (c.find e.getReference).isSome = true := by
    rcases h with ⟨o, ho, hf⟩ | ⟨ho, hg⟩
    · have hr : e.getReference = { type := e.type, original_id := some o, id := none } := by
        simp only [Identifiable.getOriginalId] at ho
        simp [Identifiable.getReference, Identifiable.isOriginal, ho]
      rw [hr]
      exact hf
    · simp only [Identifiable.getOriginalId] at ho
      rw [find_of_id_only c e.getReference e.getId
        (by simp [Identifiable.getReference, ho])
        (by simp [Identifiable.getReference, Identifiable.isOriginal, Identifiable.getId, ho])]
      exact hg
  simp [add, hres, Outcome.throw]

theorem add_throws_of_reference_resolved_witness :
    (Sample.e0.getOriginalId = some 5
        ∧ (Sample.c0.find { type := Sample.e0.type, original_id := some 5, id := none }).isSome
            = true)
      ∧ (Sample.c0.add Sample.e0).error = some "is already in the model"
      ∧ (Sample.c0.add Sample.e0).state = Sample.c0 :=
  ⟨⟨by decide, by decide⟩,
    add_throws_of_reference_resolved Sample.c0 Sample.e0 (Or.inl ⟨5, by decide, by decide⟩)⟩

theorem find_register_by_id (c : Container τ α) (t : Identifiable τ α) (ptr : Nat) :
    (c.register t ptr).by_id.find t.getId = some ptr := by
  simp [register, KeyMap.find_assign_self]

theorem find_register_by_original_id (c : Container τ α) (t : Identifiable τ α) (ptr : Nat)
    (o : Int) (ho : t.getOriginalId = some o) (i : Option Int) :
    (c.register t ptr).find { type := t.type, original_id := some o, id := i } = some ptr := by
  rw [find_of_original_id _ _ o rfl]
  simp [register, ho, KeyMap.find_assign_self]

/-- C2. Add/lookup round trip: when the reference of `e` does not resolve in the
catalog, `add(e)` returns normally and afterwards `get(e.id)` points to `e`, `find`
with a reference carrying only the internal id of `e` points to `e`, and, when `e`
has an original id, `find` with `(e.type, e.original_id)` points to `e`. -/
theorem add_lookup_round_trip (c : Container τ α) (e : Identifiable τ α)
    (h : c.find e.getReference = none) :
    (c.add e).error = none
      ∧ (c.add e).state.deref ((c.add e).state.get e.getId) = some e
      ∧ (∀ t : τ, (c.add e).state.deref
          ((c.add e).state.find { type := t, original_id := none, id := some e.getId }) = some e)
      ∧ (∀ o : Int, e.getOriginalId = some o → ∀ i : Option Int,
          (c.add e).state.deref
            ((c.add e).state.find { type := e.type, original_id := some o, id := i })
            = some e) := by
  have hadd : c.add e
      = Outcome.ok (register { c with objs := c.objs ++ [e] } e c.objs.length) := by
    simp [add, h]
  have hobj : ∀ c2 : Container τ α, c2.objs = c.objs ++ [e] →
      c2.deref (some c.objs.length) = some e := by
    intro c2 h2
    simp [deref, h2]
  rw [hadd]
  refine ⟨rfl, ?_, ?_, ?_⟩
  · simp only [Outcome.ok, get, find_register_by_id]
    exact hobj _ rfl
  · intro t
    rw [find_of_id_only _ _ e.getId rfl rfl]
    simp only [Outcome.ok, find_register_by_id]
    exact hobj _ rfl
  · intro o ho i
    simp only [Outcome.ok, find_register_by_original_id _ _ _ o ho i]
    exact hobj _ rfl

theorem add_lookup_round_trip_witness :
    Sample.c0.find Sample.e2.getReference = none
      ∧ (Sample.c0.add Sample.e2).error = none
      ∧ (Sample.c0.add Sample.e2).state.deref
          ((Sample.c0.add Sample.e2).state.get Sample.e2.getId) = some Sample.e2
      ∧ (Sample.c0.add Sample.e2).state.deref
          ((Sample.c0.add Sample.e2).state.find
            { type := Sample.e2.type, original_id := none, id := some Sample.e2.getId })
          = some Sample.e2
      ∧ (Sample.c0.add Sample.e2).state.deref
          ((Sample.c0.add Sample.e2).state.find
            { type := Sample.e2.type, original_id := some 7, id := none })
          = some Sample.e2 :=
  have h := add_lookup_round_trip Sample.c0 Sample.e2 (by decide)
  ⟨by decide, h.1, h.2.1, h.2.2.1 Sample.e2.type, h.2.2.2 7 (by decide) none⟩

/-- C3 (counterexample). In the catalog holding `e1` under the internal id 1, the
reference that carries the internal id 1 and the original id 9 is not resolved,
although `get(1)` points to `e1`; and in the catalog holding `e0` (internal id 1) and
`e2` (original id 7), the reference that carries the internal id 1 and the original
id 7 resolves to `e2`, not to the entity registered under the internal id 1. -/
theorem find_prefers_id_counterexample :
    (Sample.c1.deref (Sample.c1.get 1) = some Sample.e1
        ∧ Sample.c1.find { type := 0, original_id := some 9, id := some 1 } = none)
      ∧ (Sample.c02.deref (Sample.c02.get 1) = some Sample.e0
        ∧ Sample.c02.deref (Sample.c02.find { type := 0, original_id := some 7, id := some 1 })
            = some Sample.e2) := by
  decide

/-- C3 (amended). A reference that carries both an internal id and an original id is
resolved by `(type, original_id)`: `find` returns what is registered under that pair,
the null pointer when nothing is, whatever the index by internal id holds and
whatever internal id the reference carries. -/
theorem find_resolves_by_original_id (c : Container τ α) (r : Reference τ) (o i : Int)
    (ho : r.original_id = some o) (hi : r.id = some i) :
    c.find r = (c.by_original_ids_by_type.find r.type).bind (fun inner => inner.find o)
      ∧ (∀ by_id : KeyMap Int Nat, ∀ j : Option Int,
          ({ c with by_id := by_id } : Container τ α).find { r with id := j } = c.find r) := by
  have _ := hi
  refine ⟨find_of_original_id c r o ho, ?_⟩
  intro by_id j
  rw [find_of_original_id c r o ho]
  exact find_of_original_id _ { r with id := j } o ho

theorem find_resolves_by_original_id_witness :
    Sample.c0.find { type := 0, original_id := some 5, id := some 3 }
        = (Sample.c0.by_original_ids_by_type.find 0).bind (fun inner => inner.find 5)
      ∧ ({ Sample.c0 with by_id := [(3, 7)] } : Container Nat Unit).find
            { type := 0, original_id := some 5, id := none }
          = Sample.c0.find { type := 0, original_id := some 5, id := some 3 } :=
  have h := find_resolves_by_original_id Sample.c0
    { type := 0, original_id := some 5, id := some 3 } 5 3 rfl rfl
  ⟨h.1, h.2 [(3, 7)] none⟩

/-- C4 (the code at the failing input). The reference `(type 0, original id 5)`
resolves to `e0` in the catalog that holds `e0`; after `erase` of that reference
`get(e0.id)` still points to `e0`: only the index by original id was cleared. -/
theorem erase_keeps_by_id_entry :
    Sample.c0.deref (Sample.c0.find { type := 0, original_id := some 5, id := none })
        = some Sample.e0
      ∧ (Sample.c0.erase { type := 0, original_id := some 5, id := none }).deref
          ((Sample.c0.erase { type := 0, original_id := some 5, id := none }).get
            Sample.e0.getId) = some Sample.e0
      ∧ (Sample.c0.erase { type := 0, original_id := some 5, id := none }).find
          { type := 0, original_id := some 5, id := none } = none := by
  decide

end Container

/-! ## The catalog of values -/

namespace ValueData

theorem isPlaceHolder_mergedOld (ptr ptr_old : ValueData) :
    (ptr.mergedOld ptr_old).isPlaceHolder = ptr_old.isPlaceHolder := by
  unfold mergedOld
  dsimp only [setParaX, setParaY]
  split_ifs <;> rfl

theorem isPlaceHolder_mergedNew (ptr ptr_old : ValueData) :
    (ptr.mergedNew ptr_old).isPlaceHolder = ptr.isPlaceHolder := by
  unfold mergedNew
  dsimp only [setParaX, setParaY]
  split_ifs <;> rfl

end ValueData

namespace Container

variable {τ : Type} [DecidableEq τ]

theorem find_registerValue_by_original_id (c : Container τ ValueData)
    (t : Identifiable τ ValueData) (ptr : Nat) (o : Int) (ho : t.getOriginalId = some o) :
    (c.registerValue t ptr).find { type := t.type, original_id := some o, id := none }
      = some ptr := by
  rw [find_of_original_id _ _ o rfl]
  simp [registerValue, ho, KeyMap.find_assign_self]

/-- C5. In the catalog of values, when the reference of `v` resolves to an existing
value `w`, `add(v)` throws if and only if neither `v` nor `w` is a placeholder, and
it then leaves the catalog unchanged; when `v` or `w` is a placeholder the call
returns normally, and afterwards, if one of `v`, `w` was not a placeholder, the
`(type, original_id)` of `v` resolves to a value that is not a placeholder. -/
theorem addValue_merge (c : Container τ ValueData) (v w : Identifiable τ ValueData) (p : Nat)
    (hfind : c.find v.getReference = some p) (hobj : c.objs[p]? = some w) :
    ((c.addValue v).error.isSome = true
        ↔ (v.data.isPlaceHolder = false ∧ w.data.isPlaceHolder = false))
      ∧ ((c.addValue v).error.isSome = true → (c.addValue v).state = c)
      ∧ ((v.data.isPlaceHolder = true ∨ w.data.isPlaceHolder = true) →
          (c.addValue v).error = none
          ∧ ((v.data.isPlaceHolder = false ∨ w.data.isPlaceHolder = false) →
              ∀ o : Int, v.getOriginalId = some o →
                ∃ x : Identifiable τ ValueData,
                  (c.addValue v).state.deref
                    ((c.addValue v).state.find
                      { type := v.type, original_id := some o, id := none }) = some x
                  ∧ x.data.isPlaceHolder = false)) := by
  have hderef : c.deref (some p) = some w := hobj
  have hlt : p < c.objs.length := by
    rcases Nat.lt_or_ge p c.objs.length with hl | hl
    · exact hl
    · rw [List.getElem?_eq_none hl] at hobj
      cases hobj
  by_cases hv : v.data.isPlaceHolder = true
  · -- the placeholder `v` is merged into `w`
    have hadd : c.addValue v = Outcome.ok (registerValue
        { c with objs := c.objs.set p { w with data := v.data.mergedOld w.data } } v p) := by
      unfold addValue
      rw [hfind, hderef]
      simp [hv]
    rw [hadd]
    refine ⟨?_, ?_, ?_⟩
    · simp [Outcome.ok, hv]
    · simp [Outcome.ok]
    · intro _
      refine ⟨rfl, ?_⟩
      intro hone o ho
      have hw : w.data.isPlaceHolder = false := by
        rcases hone with h1 | h1
        · rw [hv] at h1
          cases h1
        · exact h1
      refine ⟨{ w with data := v.data.mergedOld w.data }, ?_, ?_⟩
      · simp only [Outcome.ok, find_registerValue_by_original_id _ _ _ o ho]
        simp [deref, registerValue, hlt]
      · simp [ValueData.isPlaceHolder_mergedOld, hw]
  · have hv2 : v.data.isPlaceHolder = false := by
      cases hb : v.data.isPlaceHolder
      · rfl
      · exact absurd hb hv
    by_cases hw : w.data.isPlaceHolder = true
    · -- the real value `v` takes the place of the placeholder `w`
      have hadd : c.addValue v = Outcome.ok (registerValue
          { c with objs := c.objs ++ [{ v with data := v.data.mergedNew w.data }] }
          v c.objs.length) := by
        unfold addValue
        rw [hfind, hderef]
        simp [hv2, hw]
      rw [hadd]
      refine ⟨?_, ?_, ?_⟩
      · simp [Outcome.ok, hw]
      · simp [Outcome.ok]
      · intro _
        refine ⟨rfl, ?_⟩
        intro _ o ho
        refine ⟨{ v with data := v.data.mergedNew w.data }, ?_, ?_⟩
        · simp only [Outcome.ok, find_registerValue_by_original_id _ _ _ o ho]
          simp [deref, registerValue]
        · simp [ValueData.isPlaceHolder_mergedNew, hv2]
    · have hw2 : w.data.isPlaceHolder = false := by
        cases hb : w.data.isPlaceHolder
        · rfl
        · exact absurd hb hw
      have hadd : c.addValue v = Outcome.throw c "is already in the model" := by
        unfold addValue
        rw [hfind, hderef]
        simp [hv2, hw2]
      rw [hadd]
      refine ⟨?_, ?_, ?_⟩
      · simp [Outcome.throw, hv2, hw2]
      · simp [Outcome.throw]
      · intro hor
        rcases hor with h1 | h1
        · exact absurd h1 hv
        · exact absurd h1 hw

theorem addValue_merge_witness :
    (Sample.cReal.find Sample.vPlaceHolder.getReference = some 0
        ∧ Sample.cReal.objs[0]? = some Sample.vReal)
      ∧ (Sample.cReal.addValue Sample.vPlaceHolder).error = none
      ∧ ((Sample.cReal.addValue Sample.vReal).error.isSome = true
          ↔ (Sample.vReal.data.isPlaceHolder = false ∧ Sample.vReal.data.isPlaceHolder = false))
      :=
  ⟨⟨by decide, by decide⟩,
    ((addValue_merge Sample.cReal Sample.vPlaceHolder Sample.vReal 0 (by decide)
      (by decide)).2.2 (Or.inl (by decide))).1,
    (addValue_merge Sample.cReal Sample.vReal Sample.vReal 0 (by decide) (by decide)).1⟩

end Container

/-! ## The membership index -/

namespace Container

variable {τ α : Type} [DecidableEq τ]

theorem find_congr_original_id (c : Container τ α) (r r2 : Reference τ) (o : Int)
    (ho : r.original_id = some o) (ho2 : r2.original_id = some o) (ht : r.type = r2.type) :
    c.find r = c.find r2 := by
  rw [find_of_original_id c r o ho, find_of_original_id c r2 o ho2, ht]

theorem add_of_find_none (c : Container τ α) (e : Identifiable τ α)
    (h : c.find e.getReference = none) :
    c.add e = Outcome.ok (register { c with objs := c.objs ++ [e] } e c.objs.length) := by
  simp [add, h]

theorem find_after_add (c : Container τ α) (e : Identifiable τ α) (r : Reference τ) (o : Int)
    (h : c.find e.getReference = none) (hr : r.original_id = some o)
    (he : e.original_id = some o) (ht : r.type = e.type) :
    (c.add e).error = none ∧ (c.add e).state.find r = some c.objs.length
      ∧ (c.add e).state.deref (some c.objs.length) = some e := by
  rw [add_of_find_none c e h]
  refine ⟨rfl, ?_, ?_⟩
  · rw [find_congr_original_id _ r { type := e.type, original_id := some o, id := none } o hr
      rfl ht]
    exact find_register_by_original_id _ e _ o he none
  · simp [Outcome.ok, deref, register]

end Container

namespace Model

variable {Lg LSd Cg CSd : Type}

theorem addLoadSet_of_find_none (m : Model Lg LSd Cg CSd) (ls : Identifiable Nat LSd)
    (s : Reference Nat) (o : Int) (h : m.loadSets.find ls.getReference = none)
    (hs : s.original_id = some o) (hls : ls.original_id = some o) (ht : s.type = ls.type) :
    (m.addLoadSet ls).error = none
      ∧ (m.addLoadSet ls).state.loadSets.find s = some m.loadSets.objs.length
      ∧ (m.addLoadSet ls).state.loadSets.objs = m.loadSets.objs ++ [ls] := by
  obtain ⟨hA, hB, _⟩ := Container.find_after_add m.loadSets ls s o h hs hls ht
  refine ⟨hA, hB, ?_⟩
  simp only [addLoadSet]
  rw [Container.add_of_find_none _ _ h]
  rfl

theorem addCommonLoadSetIfNeeded_spec (m : Model Lg LSd Cg CSd) (s : Reference Nat) (o : Int)
    (ho : s.original_id = some o) :
    ((m.addCommonLoadSetIfNeeded s).error = none ∧ m.addCommonLoadSetIfNeeded s = Outcome.ok m)
      ∨ ((m.addCommonLoadSetIfNeeded s).error = none
          ∧ m.loadSets.find s = none
          ∧ (m.addCommonLoadSetIfNeeded s).state.loadSets.find s = some m.loadSets.objs.length
          ∧ (m.addCommonLoadSetIfNeeded s).state.loadSets.objs
              = m.loadSets.objs ++ [m.commonLoadSet]
          ∧ m.commonLoadSet.type = s.type
          ∧ m.commonLoadSet.getOriginalId = some o) := by
  unfold addCommonLoadSetIfNeeded
  by_cases hc : s = m.commonLoadSet.getReference
      ∧ (m.loadSets.find m.commonLoadSet.getReference).isNone = true
  · right
    obtain ⟨hs, hnone⟩ := hc
    have hnone2 : m.loadSets.find m.commonLoadSet.getReference = none := by
      simpa using hnone
    have hco : m.commonLoadSet.original_id = some o := by
      have h1 : s.original_id = m.commonLoadSet.original_id := by
        rw [hs]
        rfl
      rw [← h1]
      exact ho
    have hty : s.type = m.commonLoadSet.type := by
      rw [hs]
      rfl
    obtain ⟨hA, hB, hC⟩ := addLoadSet_of_find_none m m.commonLoadSet s o hnone2 ho hco hty
    rw [if_pos ⟨hs, hnone⟩]
    refine ⟨hA, ?_, hB, hC, hty.symm, hco⟩
    rw [hs]
    exact hnone2
  · left
    rw [if_neg hc]
    exact ⟨rfl, rfl⟩

theorem addMissingLoadSet_spec [Inhabited LSd] (m : Model Lg LSd Cg CSd) (s : Reference Nat)
    (o : Int) (ho : s.original_id = some o) :
    (m.addMissingLoadSet s).error = none
      ∧ ((m.addMissingLoadSet s).state.loadSets.find s).isSome = true
      ∧ (m.loadSets.find s = none →
          ∃ ls : Identifiable Nat LSd,
            (m.addMissingLoadSet s).state.loadSets.deref
              ((m.addMissingLoadSet s).state.loadSets.find s) = some ls
            ∧ ls.type = s.type ∧ ls.getOriginalId = some o
            ∧ (m.addMissingLoadSet s).state.loadSets.objs = m.loadSets.objs ++ [ls]) := by
  unfold addMissingLoadSet
  by_cases hf : m.loadSets.find s = none
  · have hnew : (m.newLoadSet s.type s.original_id).2.loadSets.find
        (m.newLoadSet s.type s.original_id).1.getReference = none := by
      rw [← hf]
      exact Container.find_congr_original_id _ _ _ o
        (by simp [Identifiable.getReference, newLoadSet, ho]) ho rfl
    obtain ⟨hA, hB, hC⟩ := addLoadSet_of_find_none (m.newLoadSet s.type s.original_id).2
      (m.newLoadSet s.type s.original_id).1 s o hnew ho ho rfl
    simp only [hf, Option.isNone_none, if_true]
    refine ⟨hA, ?_, ?_⟩
    · rw [hB]
      rfl
    · intro _
      refine ⟨(m.newLoadSet s.type s.original_id).1, ?_, rfl, ho, hC⟩
      rw [hB]
      simp only [Container.deref, hC]
      exact List.getElem?_concat_length _ _
  · have hsome : (m.loadSets.find s).isSome = true := by
      cases hx : m.loadSets.find s with
      | none => exact absurd hx hf
      | some _ => rfl
    have hnn : (m.loadSets.find s).isNone = false := by
      cases hx : m.loadSets.find s with
      | none => exact absurd hx hf
      | some _ => rfl
    simp only [hnn, Bool.false_eq_true, if_false]
    exact ⟨rfl, hsome, fun h => absurd h hf⟩

/-- C6 (counterexample). On a fresh model, for the load-set reference that carries
the internal id 7 only, `addLoadingIntoLoadSet` returns normally and synthesizes a
load set under the next id, but the catalog still does not resolve the reference. -/
theorem addLoadingIntoLoadSet_id_only_counterexample :
    (Sample.m0.addLoadingIntoLoadSet Sample.lRef Sample.sId).error = none
      ∧ (Sample.m0.addLoadingIntoLoadSet Sample.lRef Sample.sId).state.loadSets.objs.length = 1
      ∧ (Sample.m0.addLoadingIntoLoadSet Sample.lRef Sample.sId).state.loadSets.find Sample.sId
          = none := by
  decide

/-- C6 (amended). For every model, loading reference `l` and load-set reference `s`
that carries an original id (with or without an internal id),
`addLoadingIntoLoadSet(l, s)` returns normally and afterwards the load-set catalog
resolves `s`; when it did not resolve `s` before the call, `s` resolves to a load set
of the type and original id of `s`, added by the call. -/
theorem addLoadingIntoLoadSet_resolves [Inhabited LSd] (m : Model Lg LSd Cg CSd)
    (l s : Reference Nat) (o : Int) (ho : s.original_id = some o) :
    (m.addLoadingIntoLoadSet l s).error = none
      ∧ ((m.addLoadingIntoLoadSet l s).state.loadSets.find s).isSome = true
      ∧ (m.loadSets.find s = none →
          ∃ ls : Identifiable Nat LSd,
            (m.addLoadingIntoLoadSet l s).state.loadSets.deref
              ((m.addLoadingIntoLoadSet l s).state.loadSets.find s) = some ls
            ∧ ls.type = s.type ∧ ls.getOriginalId = some o
            ∧ (m.addLoadingIntoLoadSet l s).state.loadSets.objs = m.loadSets.objs ++ [ls]) := by
  have h1 := addMissingLoadSet_spec (m.insertLoadingReference l s) s o ho
  have h2 := addCommonLoadSetIfNeeded_spec (m.insertLoadingReference l s) s o ho
  have hm : (m.insertLoadingReference l s).loadSets = m.loadSets := rfl
  rw [hm] at h1 h2
  unfold addLoadingIntoLoadSet
  rcases h2 with ⟨he, hsame⟩ | ⟨he, hnone, hfind, hobjs, hty, hor⟩
  · -- the common load set was not added
    rw [hsame]
    simp only [Outcome.andThen, Outcome.ok]
    exact h1
  · -- the common load set was added, and is the set that `s` resolves to
    have hstep : ((m.insertLoadingReference l s).addCommonLoadSetIfNeeded s).andThen
        (fun m2 => m2.addMissingLoadSet s)
        = Outcome.ok ((m.insertLoadingReference l s).addCommonLoadSetIfNeeded s).state := by
      simp only [Outcome.andThen, he, addMissingLoadSet, hfind, Option.isNone_some,
        Bool.false_eq_true, if_false]
    rw [hstep]
    simp only [Outcome.ok]
    refine ⟨trivial, ?_, ?_⟩
    · rw [hfind]
      rfl
    · intro _
      refine ⟨(m.insertLoadingReference l s).commonLoadSet, ?_, hty, hor, hobjs⟩
      rw [hfind]
      simp only [Container.deref, hobjs]
      exact List.getElem?_concat_length _ _

theorem addLoadingIntoLoadSet_resolves_witness :
    Sample.sOrig.original_id = some 5
      ∧ (Sample.m0.addLoadingIntoLoadSet Sample.lRef Sample.sOrig).error = none
      ∧ ((Sample.m0.addLoadingIntoLoadSet Sample.lRef Sample.sOrig).state.loadSets.find
          Sample.sOrig).isSome = true :=
  have h := addLoadingIntoLoadSet_resolves Sample.m0 Sample.lRef Sample.sOrig 5 rfl
  ⟨rfl, h.1, h.2.1⟩

/-- C7 (the code at the failing input). On a fresh model, after
`addConstraintIntoConstraintSet` with the constraint-set reference `(type 1, original
id 5)` the membership index holds the member under that reference, and the
constraint-set catalog is still empty and does not resolve the reference; the same
call on the load side, `addLoadingIntoLoadSet`, leaves a load set that resolves. -/
theorem addConstraintIntoConstraintSet_no_set :
    (Sample.m0.addConstraintIntoConstraintSet Sample.lRef Sample.sOrig).error = none
      ∧ membersByOriginalId
          (Sample.m0.addConstraintIntoConstraintSet Sample.lRef Sample.sOrig).state.constraintReferences_by_constraintSet_original_ids_by_constraintSet_type
          Sample.sOrig = [Sample.lRef]
      ∧ (Sample.m0.addConstraintIntoConstraintSet Sample.lRef Sample.sOrig).state.constraintSets.find
          Sample.sOrig = none
      ∧ (Sample.m0.addConstraintIntoConstraintSet Sample.lRef Sample.sOrig).state.constraintSets.objs
          = []
      ∧ ((Sample.m0.addLoadingIntoLoadSet Sample.lRef Sample.sOrig).state.loadSets.find
          Sample.sOrig).isSome = true := by
  decide

/-! ### Members of a set -/

theorem mem_foldl_setInsert {R W : Type} [DecidableEq W] (f : R → W) (refs : List R)
    (init : List W) (x : W) :
    x ∈ refs.foldl (fun acc r => KeyMap.setInsert acc (f r)) init
      ↔ x ∈ init ∨ ∃ r, r ∈ refs ∧ f r = x := by
  induction refs generalizing init with
  | nil => simp
  | cons hd tl ih =>
    rw [List.foldl_cons, ih]
    unfold KeyMap.setInsert
    by_cases hmem : f hd ∈ init
    · rw [if_pos hmem]
      constructor
      · rintro (h | ⟨r, hr, hx⟩)
        · exact Or.inl h
        · exact Or.inr ⟨r, List.mem_cons_of_mem _ hr, hx⟩
      · rintro (h | ⟨r, hr, hx⟩)
        · exact Or.inl h
        · rcases List.mem_cons.mp hr with rfl | hr2
          · left
            rw [← hx]
            exact hmem
          · exact Or.inr ⟨r, hr2, hx⟩
    · rw [if_neg hmem]
      constructor
      · rintro (h | ⟨r, hr, hx⟩)
        · rcases List.mem_append.mp h with h2 | h2
          · exact Or.inl h2
          · right
            refine ⟨hd, List.mem_cons_self _ _, ?_⟩
            exact (List.mem_singleton.mp h2).symm
        · exact Or.inr ⟨r, List.mem_cons_of_mem _ hr, hx⟩
      · rintro (h | ⟨r, hr, hx⟩)
        · exact Or.inl (List.mem_append_left _ h)
        · rcases List.mem_cons.mp hr with rfl | hr2
          · left
            rw [← hx]
            exact List.mem_append_right _ (List.mem_singleton.mpr rfl)
          · exact Or.inr ⟨r, hr2, hx⟩

theorem nodup_foldl_setInsert {R W : Type} [DecidableEq W] (f : R → W) (refs : List R)
    (init : List W) (h : init.Nodup) :
    (refs.foldl (fun acc r => KeyMap.setInsert acc (f r)) init).Nodup := by
  induction refs generalizing init with
  | nil => exact h
  | cons hd tl ih =>
    rw [List.foldl_cons]
    apply ih
    unfold KeyMap.setInsert
    by_cases hmem : f hd ∈ init
    · rw [if_pos hmem]
      exact h
    · rw [if_neg hmem]
      rw [List.nodup_append]
      refine ⟨h, List.nodup_singleton _, ?_⟩
      intro a ha hb
      rw [List.mem_singleton] at hb
      rw [hb] at ha
      exact hmem ha

theorem getLoadingsByLoadSet_eq_foldl (m : Model Lg LSd Cg CSd) (s : Reference Nat) :
    m.getLoadingsByLoadSet s
      = (membersByOriginalId m.loadingReferences_by_loadSet_original_ids_by_loadSet_type s).foldl
          (fun acc r => KeyMap.setInsert acc (m.loadings.find r))
          ((membersById m.loadingReferences_by_loadSet_ids s).foldl
            (fun acc r => KeyMap.setInsert acc (m.loadings.find r)) []) := by
  unfold getLoadingsByLoadSet membersByOriginalId membersById
  cases m.loadingReferences_by_loadSet_ids.findOpt s.id <;>
    cases m.loadingReferences_by_loadSet_original_ids_by_loadSet_type.find s.type with
    | none => rfl
    | some inner =>
      dsimp only
      cases inner.findOpt s.original_id <;> rfl

theorem getConstraintsByConstraintSet_eq_foldl (m : Model Lg LSd Cg CSd) (s : Reference Nat) :
    m.getConstraintsByConstraintSet s
      = (membersByOriginalId
            m.constraintReferences_by_constraintSet_original_ids_by_constraintSet_type s).foldl
          (fun acc r => KeyMap.setInsert acc (m.constraints.find r))
          ((membersById m.constraintReferences_by_constraintSet_ids s).foldl
            (fun acc r => KeyMap.setInsert acc (m.constraints.find r)) []) := by
  unfold getConstraintsByConstraintSet membersByOriginalId membersById
  cases m.constraintReferences_by_constraintSet_ids.findOpt s.id <;>
    cases m.constraintReferences_by_constraintSet_original_ids_by_constraintSet_type.find
        s.type with
    | none => rfl
    | some inner =>
      dsimp only
      cases inner.findOpt s.original_id <;> rfl

theorem mem_members_after_insert (byId : KeyMap Int (List (Reference Nat)))
    (byOriginalId : KeyMap Nat (KeyMap Int (List (Reference Nat)))) (s member : Reference Nat)
    (hs : s.has_id = true ∨ s.has_original_id = true) :
    member ∈ membersById (insertById byId s member) s
      ∨ member ∈ membersByOriginalId (insertByOriginalId byOriginalId s member) s := by
  rcases hs with h | h
  · left
    unfold Reference.has_id at h
    obtain ⟨i, hi⟩ := Option.isSome_iff_exists.mp h
    simp [membersById, insertById, hi, KeyMap.findOpt, KeyMap.find_assign_self]
  · right
    unfold Reference.has_original_id at h
    obtain ⟨o, ho⟩ := Option.isSome_iff_exists.mp h
    simp [membersByOriginalId, insertByOriginalId, ho, KeyMap.findOpt, KeyMap.find_assign_self]

theorem addCommonLoadSetIfNeeded_index (m : Model Lg LSd Cg CSd) (s : Reference Nat) :
    (m.addCommonLoadSetIfNeeded s).state.loadingReferences_by_loadSet_ids
        = m.loadingReferences_by_loadSet_ids
      ∧ (m.addCommonLoadSetIfNeeded s).state.loadingReferences_by_loadSet_original_ids_by_loadSet_type
        = m.loadingReferences_by_loadSet_original_ids_by_loadSet_type
      ∧ (m.addCommonLoadSetIfNeeded s).state.loadings = m.loadings := by
  unfold addCommonLoadSetIfNeeded
  split_ifs <;> exact ⟨rfl, rfl, rfl⟩

theorem addMissingLoadSet_index [Inhabited LSd] (m : Model Lg LSd Cg CSd) (s : Reference Nat) :
    (m.addMissingLoadSet s).state.loadingReferences_by_loadSet_ids
        = m.loadingReferences_by_loadSet_ids
      ∧ (m.addMissingLoadSet s).state.loadingReferences_by_loadSet_original_ids_by_loadSet_type
        = m.loadingReferences_by_loadSet_original_ids_by_loadSet_type
      ∧ (m.addMissingLoadSet s).state.loadings = m.loadings := by
  unfold addMissingLoadSet
  split_ifs <;> exact ⟨rfl, rfl, rfl⟩

theorem addLoadingIntoLoadSet_index [Inhabited LSd] (m : Model Lg LSd Cg CSd)
    (l s : Reference Nat) :
    (m.addLoadingIntoLoadSet l s).state.loadingReferences_by_loadSet_ids
        = insertById m.loadingReferences_by_loadSet_ids s l
      ∧ (m.addLoadingIntoLoadSet l s).state.loadingReferences_by_loadSet_original_ids_by_loadSet_type
        = insertByOriginalId m.loadingReferences_by_loadSet_original_ids_by_loadSet_type s l
      ∧ (m.addLoadingIntoLoadSet l s).state.loadings = m.loadings := by
  obtain ⟨h1, h2, h3⟩ := addCommonLoadSetIfNeeded_index (m.insertLoadingReference l s) s
  unfold addLoadingIntoLoadSet Outcome.andThen
  split
  · exact ⟨h1, h2, h3⟩
  · obtain ⟨k1, k2, k3⟩ := addMissingLoadSet_index
      ((m.insertLoadingReference l s).addCommonLoadSetIfNeeded s).state s
    exact ⟨k1.trans h1, k2.trans h2, k3.trans h3⟩

theorem addConstraintIntoConstraintSet_index (m : Model Lg LSd Cg CSd)
    (c s : Reference Nat) :
    (m.addConstraintIntoConstraintSet c s).state.constraintReferences_by_constraintSet_ids
        = insertById m.constraintReferences_by_constraintSet_ids s c
      ∧ (m.addConstraintIntoConstraintSet c s).state.constraintReferences_by_constraintSet_original_ids_by_constraintSet_type
        = insertByOriginalId
            m.constraintReferences_by_constraintSet_original_ids_by_constraintSet_type s c
      ∧ (m.addConstraintIntoConstraintSet c s).state.constraints = m.constraints := by
  unfold addConstraintIntoConstraintSet addCommonConstraintSetIfNeeded
  split_ifs <;> exact ⟨rfl, rfl, rfl⟩

/-- C8. `getLoadingsByLoadSet(s)` is, without repetition, the set of the pointers
obtained by resolving in the catalog of loadings the member references held under
the internal id of `s` and those held under `(s.type, s.original_id)`; after
`addLoadingIntoLoadSet(l, s)`, with `s` carrying an internal or an original id, what
`l` resolves to (a loading of the catalog, when `l` is in the catalog) is among the
result. The same holds of `getConstraintsByConstraintSet` and
`addConstraintIntoConstraintSet`. -/
theorem getLoadingsByLoadSet_exact [Inhabited LSd] (m : Model Lg LSd Cg CSd)
    (s l : Reference Nat) :
    (∀ x : Option Nat, x ∈ m.getLoadingsByLoadSet s ↔
        ∃ r : Reference Nat,
          (r ∈ membersById m.loadingReferences_by_loadSet_ids s
            ∨ r ∈ membersByOriginalId
                m.loadingReferences_by_loadSet_original_ids_by_loadSet_type s)
          ∧ m.loadings.find r = x)
      ∧ (m.getLoadingsByLoadSet s).Nodup
      ∧ ((s.has_id = true ∨ s.has_original_id = true) →
          (m.addLoadingIntoLoadSet l s).state.loadings.find l = m.loadings.find l
          ∧ m.loadings.find l ∈ (m.addLoadingIntoLoadSet l s).state.getLoadingsByLoadSet s)
      ∧ (∀ x : Option Nat, x ∈ m.getConstraintsByConstraintSet s ↔
        ∃ r : Reference Nat,
          (r ∈ membersById m.constraintReferences_by_constraintSet_ids s
            ∨ r ∈ membersByOriginalId
                m.constraintReferences_by_constraintSet_original_ids_by_constraintSet_type s)
          ∧ m.constraints.find r = x)
      ∧ (m.getConstraintsByConstraintSet s).Nodup
      ∧ ((s.has_id = true ∨ s.has_original_id = true) →
          (m.addConstraintIntoConstraintSet l s).state.constraints.find l = m.constraints.find l
          ∧ m.constraints.find l
              ∈ (m.addConstraintIntoConstraintSet l s).state.getConstraintsByConstraintSet s) := by
  have hL : ∀ (m2 : Model Lg LSd Cg CSd) (x : Option Nat), x ∈ m2.getLoadingsByLoadSet s ↔
      ∃ r : Reference Nat,
        (r ∈ membersById m2.loadingReferences_by_loadSet_ids s
          ∨ r ∈ membersByOriginalId
              m2.loadingReferences_by_loadSet_original_ids_by_loadSet_type s)
        ∧ m2.loadings.find r = x := by
    intro m2 x
    rw [getLoadingsByLoadSet_eq_foldl, mem_foldl_setInsert, mem_foldl_setInsert]
    constructor
    · rintro ((h | ⟨r, hr, hx⟩) | ⟨r, hr, hx⟩)
      · cases h
      · exact ⟨r, Or.inl hr, hx⟩
      · exact ⟨r, Or.inr hr, hx⟩
    · rintro ⟨r, hr | hr, hx⟩
      · exact Or.inl (Or.inr ⟨r, hr, hx⟩)
      · exact Or.inr ⟨r, hr, hx⟩
  have hC : ∀ (m2 : Model Lg LSd Cg CSd) (x : Option Nat),
      x ∈ m2.getConstraintsByConstraintSet s ↔
      ∃ r : Reference Nat,
        (r ∈ membersById m2.constraintReferences_by_constraintSet_ids s
          ∨ r ∈ membersByOriginalId
              m2.constraintReferences_by_constraintSet_original_ids_by_constraintSet_type s)
        ∧ m2.constraints.find r = x := by
    intro m2 x
    rw [getConstraintsByConstraintSet_eq_foldl, mem_foldl_setInsert, mem_foldl_setInsert]
    constructor
    · rintro ((h | ⟨r, hr, hx⟩) | ⟨r, hr, hx⟩)
      · cases h
      · exact ⟨r, Or.inl hr, hx⟩
      · exact ⟨r, Or.inr hr, hx⟩
    · rintro ⟨r, hr | hr, hx⟩
      · exact Or.inl (Or.inr ⟨r, hr, hx⟩)
      · exact Or.inr ⟨r, hr, hx⟩
  refine ⟨hL m, ?_, ?_, hC m, ?_, ?_⟩
  · rw [getLoadingsByLoadSet_eq_foldl]
    exact nodup_foldl_setInsert _ _ _ (nodup_foldl_setInsert _ _ _ List.nodup_nil)
  · intro hs
    obtain ⟨h1, h2, h3⟩ := addLoadingIntoLoadSet_index m l s
    refine ⟨by rw [h3], ?_⟩
    rw [hL]
    refine ⟨l, ?_, by rw [h3]⟩
    rw [h1, h2]
    exact mem_members_after_insert _ _ s l hs
  · rw [getConstraintsByConstraintSet_eq_foldl]
    exact nodup_foldl_setInsert _ _ _ (nodup_foldl_setInsert _ _ _ List.nodup_nil)
  · intro hs
    obtain ⟨h1, h2, h3⟩ := addConstraintIntoConstraintSet_index m l s
    refine ⟨by rw [h3], ?_⟩
    rw [hC]
    refine ⟨l, ?_, by rw [h3]⟩
    rw [h1, h2]
    exact mem_members_after_insert _ _ s l hs

theorem getLoadingsByLoadSet_exact_witness :
    (Sample.sOrig.has_id = true ∨ Sample.sOrig.has_original_id = true)
      ∧ Sample.mLoaded.loadings.deref (Sample.mLoaded.loadings.find Sample.lRef)
          = some Sample.loading0
      ∧ Sample.mLoaded.loadings.find Sample.lRef
          ∈ (Sample.mLoaded.addLoadingIntoLoadSet Sample.lRef
              Sample.sOrig).state.getLoadingsByLoadSet Sample.sOrig
      ∧ Sample.mLoaded.constraints.find Sample.lRef
          ∈ (Sample.mLoaded.addConstraintIntoConstraintSet Sample.lRef
              Sample.sOrig).state.getConstraintsByConstraintSet Sample.sOrig :=
  have h := getLoadingsByLoadSet_exact Sample.mLoaded Sample.sOrig Sample.lRef
  ⟨Or.inr rfl, by decide, (h.2.2.1 (Or.inr rfl)).2, (h.2.2.2.2.2 (Or.inr rfl)).2⟩

/-! ### Removal of a set -/

/-- C9 (counterexample). In the model `mSets` the loading and the constraint `lRef`
are members of the set `sOrig`. After `remove(sOrig)` the catalog no longer
resolves the set, and the membership index still holds the member under the
`(type, original_id)` of the removed set, for load sets and for constraint sets. -/
theorem remove_set_stale_members_counterexample :
    ((Sample.mSets.removeLoadSet Sample.sOrig).loadSets.find Sample.sOrig = none
        ∧ membersByOriginalId
            (Sample.mSets.removeLoadSet
              Sample.sOrig).loadingReferences_by_loadSet_original_ids_by_loadSet_type
            Sample.sOrig = [Sample.lRef])
      ∧ ((Sample.mSets.removeConstraintSet Sample.sOrig).constraintSets.find Sample.sOrig = none
        ∧ membersByOriginalId
            (Sample.mSets.removeConstraintSet
              Sample.sOrig).constraintReferences_by_constraintSet_original_ids_by_constraintSet_type
            Sample.sOrig = [Sample.lRef]) := by
  decide

/-- C9 (amended). `Model::remove` of a load-set or constraint-set reference does not
touch the membership index: after the call the index holds, under the internal id of
the set and under its `(type, original_id)`, exactly the member entries that it held
before the call. -/
theorem remove_set_keeps_index (m : Model Lg LSd Cg CSd) (s : Reference Nat) :
    ((m.removeLoadSet s).loadingReferences_by_loadSet_ids = m.loadingReferences_by_loadSet_ids
        ∧ (m.removeLoadSet s).loadingReferences_by_loadSet_original_ids_by_loadSet_type
            = m.loadingReferences_by_loadSet_original_ids_by_loadSet_type
        ∧ membersById (m.removeLoadSet s).loadingReferences_by_loadSet_ids s
            = membersById m.loadingReferences_by_loadSet_ids s
        ∧ membersByOriginalId
            (m.removeLoadSet s).loadingReferences_by_loadSet_original_ids_by_loadSet_type s
            = membersByOriginalId m.loadingReferences_by_loadSet_original_ids_by_loadSet_type s)
      ∧ ((m.removeConstraintSet s).constraintReferences_by_constraintSet_ids
            = m.constraintReferences_by_constraintSet_ids
        ∧ (m.removeConstraintSet
              s).constraintReferences_by_constraintSet_original_ids_by_constraintSet_type
            = m.constraintReferences_by_constraintSet_original_ids_by_constraintSet_type
        ∧ membersById (m.removeConstraintSet s).constraintReferences_by_constraintSet_ids s
            = membersById m.constraintReferences_by_constraintSet_ids s
        ∧ membersByOriginalId
            (m.removeConstraintSet
              s).constraintReferences_by_constraintSet_original_ids_by_constraintSet_type s
            = membersByOriginalId
                m.constraintReferences_by_constraintSet_original_ids_by_constraintSet_type s) :=
  ⟨⟨rfl, rfl, rfl, rfl⟩, ⟨rfl, rfl, rfl, rfl⟩⟩

theorem getElem?_foldl_modify {A : Type} (f : A → A) (hf : ∀ a, f (f a) = f a)
    (ps : List (Int × Nat)) (objs : List A) (q : Nat) :
    (ps.foldl (fun acc entry => acc.modify f entry.2) objs)[q]?
      = if q ∈ ps.map Prod.snd then (objs[q]?).map f else objs[q]? := by
  induction ps generalizing objs with
  | nil => simp
  | cons hd tl ih =>
    rw [List.foldl_cons, ih]
    by_cases hq : hd.2 = q
    · subst hq
      have hmem : hd.2 ∈ List.map Prod.snd (hd :: tl) := by simp
      rw [if_pos hmem, List.getElem?_modify_eq]
      cases hx : objs[hd.2]? with
      | none => simp
      | some a => simp [hf]
    · rw [List.getElem?_modify_ne _ _ hq]
      have hiff : q ∈ List.map Prod.snd (hd :: tl) ↔ q ∈ List.map Prod.snd tl := by
        simp only [List.map_cons, List.mem_cons]
        constructor
        · rintro (h | h)
          · exact absurd h.symm hq
          · exact h
        · exact Or.inr
      by_cases hm : q ∈ List.map Prod.snd tl
      · rw [if_pos hm, if_pos (hiff.mpr hm)]
      · rw [if_neg hm, if_neg (fun h => hm (hiff.mp h))]

theorem disassociate_no_dangling (contains : Analysis → Reference Nat → Bool)
    (remove : Analysis → Reference Nat → Analysis)
    (hrm : ∀ a r, contains (remove a r) r = false)
    (analyses : Container Nat AnalysisData) (ref : Reference Nat)
    (entry : Int × Nat) (hentry : entry ∈ (disassociate contains remove analyses ref).by_id)
    (a : Analysis)
    (ha : (disassociate contains remove analyses ref).deref (some entry.2) = some a) :
    contains a ref = false := by
  have hstep : ∀ x : Analysis,
      contains (if contains x ref = true then remove x ref else x) ref = false := by
    intro x
    by_cases hx : contains x ref = true
    · rw [if_pos hx]
      exact hrm x ref
    · rw [if_neg hx]
      simpa using hx
  have hidem : ∀ x : Analysis,
      (fun y => if contains y ref = true then remove y ref else y)
        ((fun y => if contains y ref = true then remove y ref else y) x)
        = (fun y => if contains y ref = true then remove y ref else y) x := by
    intro x
    have h := hstep x
    simp only [] at h ⊢
    rw [if_neg (by simp [h])]
  have hmem : entry.2 ∈ List.map Prod.snd analyses.by_id := List.mem_map_of_mem _ hentry
  simp only [disassociate, Container.deref] at ha
  rw [getElem?_foldl_modify _ hidem, if_pos hmem] at ha
  cases hx : analyses.objs[entry.2]? with
  | none =>
    rw [hx] at ha
    cases ha
  | some a0 =>
    rw [hx] at ha
    simp only [Option.map_some', Option.some.injEq] at ha
    rw [← ha]
    exact hstep a0

theorem find_after_erase {τ α : Type} [DecidableEq τ] (c : Container τ α) (r : Reference τ) :
    (c.erase r).find r = none := by
  unfold Container.find Container.erase
  cases ho : r.original_id with
  | some o => simp [KeyMap.find_assign_self, KeyMap.find_erase_self]
  | none =>
    cases hi : r.id with
    | some i => simp [KeyMap.eraseOpt, KeyMap.find_erase_self]
    | none => rfl

/-- C10. After `Model::remove` of a load-set reference `s`, no analysis registered in
the model contains `s` and the catalog of load sets does not resolve `s`; the same
holds of `Model::remove` of a constraint-set reference. -/
theorem remove_set_no_dangling (m : Model Lg LSd Cg CSd) (s : Reference Nat) :
    ((∀ entry : Int × Nat, entry ∈ (m.removeLoadSet s).analyses.by_id →
        ∀ a : Analysis, (m.removeLoadSet s).analyses.deref (some entry.2) = some a →
          a.containsLoadSet s = false)
        ∧ (m.removeLoadSet s).loadSets.find s = none)
      ∧ ((∀ entry : Int × Nat, entry ∈ (m.removeConstraintSet s).analyses.by_id →
        ∀ a : Analysis, (m.removeConstraintSet s).analyses.deref (some entry.2) = some a →
          a.containsConstraintSet s = false)
        ∧ (m.removeConstraintSet s).constraintSets.find s = none) := by
  refine ⟨⟨?_, find_after_erase _ _⟩, ⟨?_, find_after_erase _ _⟩⟩
  · intro entry hentry a ha
    refine disassociate_no_dangling Analysis.containsLoadSet Analysis.removeLoadSet ?_
      m.analyses s entry hentry a ha
    intro x r
    simp [Analysis.containsLoadSet, Analysis.removeLoadSet]
  · intro entry hentry a ha
    refine disassociate_no_dangling Analysis.containsConstraintSet
      Analysis.removeConstraintSet ?_ m.analyses s entry hentry a ha
    intro x r
    simp [Analysis.containsConstraintSet, Analysis.removeConstraintSet]

theorem remove_set_no_dangling_witness :
    Sample.analysis0.containsLoadSet Sample.sOrig = true
      ∧ ((21, 0) ∈ (Sample.mSets.removeLoadSet Sample.sOrig).analyses.by_id
        ∧ (Sample.mSets.removeLoadSet Sample.sOrig).analyses.deref (some 0)
            = some (Sample.analysis0.removeLoadSet Sample.sOrig))
      ∧ (Sample.analysis0.removeLoadSet Sample.sOrig).containsLoadSet Sample.sOrig = false
      ∧ (Sample.mSets.removeLoadSet Sample.sOrig).loadSets.find Sample.sOrig = none :=
  ⟨by decide, ⟨by decide, by decide⟩,
    (remove_set_no_dangling Sample.mSets Sample.sOrig).1.1 (21, 0) (by decide)
      (Sample.analysis0.removeLoadSet Sample.sOrig) (by decide),
    (remove_set_no_dangling Sample.mSets Sample.sOrig).1.2⟩

/-! ### Removal of an objective -/

theorem foldl_modify_establishes {A : Type} (f : A → A) (P : A → Prop)
    (hf : ∀ a, f (f a) = f a) (hP : ∀ a, P (f a))
    (ps : List (Int × Nat)) (objs : List A) (entry : Int × Nat) (hentry : entry ∈ ps)
    (a : A) (ha : (ps.foldl (fun acc e => acc.modify f e.2) objs)[entry.2]? = some a) :
    P a := by
  have hmem : entry.2 ∈ List.map Prod.snd ps := List.mem_map_of_mem _ hentry
  rw [getElem?_foldl_modify f hf, if_pos hmem] at ha
  cases hx : objs[entry.2]? with
  | none =>
    rw [hx] at ha
    cases ha
  | some a0 =>
    rw [hx] at ha
    simp only [Option.map_some', Option.some.injEq] at ha
    rw [← ha]
    exact hP a0

theorem containsObjective_after_step (ref : Reference ObjectiveType) (x : Analysis) :
    Analysis.containsObjective
      (if Analysis.containsObjective x ref = true then Analysis.removeObjective x ref else x)
      ref = false := by
  by_cases hx : x.containsObjective ref = true
  · rw [if_pos hx]
    simp [Analysis.containsObjective, Analysis.removeObjective]
  · rw [if_neg hx]
    simpa using hx

/-- C11 (counterexample). In the model `mObj` the analysis holds the reference of the
frequency band `band0`, an analysis parameter. After `remove` of that reference the
catalog of objectives does not resolve it, and the analysis still contains it. -/
theorem remove_objective_parameter_counterexample :
    (Sample.mObj.objectives.deref (Sample.mObj.objectives.find Sample.bandRef)
        = some Sample.band0
      ∧ Sample.band0.data.isAssertion = false)
      ∧ (Sample.mObj.removeObjective Sample.bandRef).objectives.find Sample.bandRef = none
      ∧ (∃ a : Analysis,
          (Sample.mObj.removeObjective Sample.bandRef).analyses.deref
            ((Sample.mObj.removeObjective Sample.bandRef).analyses.get 22) = some a
          ∧ a.containsObjective Sample.bandRef = true) := by
  refine ⟨by decide, by decide, Sample.analysisObj, by decide, by decide⟩

/-- C11 (amended). After `Model::remove(o)` of an objective reference the catalog of
objectives does not resolve `o`; when `o` designated an assertion, no analysis
registered in the model contains `o` any more; when `o` designated an analysis
parameter, or nothing, the analyses are left as they were. -/
theorem remove_objective_assertion_only (m : Model Lg LSd Cg CSd)
    (o : Reference ObjectiveType) :
    (m.removeObjective o).objectives.find o = none
      ∧ ((∃ obj : Objective, m.objectives.deref (m.objectives.find o) = some obj
            ∧ obj.data.isAssertion = true) →
          ∀ entry : Int × Nat, entry ∈ (m.removeObjective o).analyses.by_id →
            ∀ a : Analysis, (m.removeObjective o).analyses.deref (some entry.2) = some a →
              a.containsObjective o = false)
      ∧ ((∀ obj : Objective, m.objectives.deref (m.objectives.find o) = some obj →
            obj.data.isAssertion = false) →
          (m.removeObjective o).analyses = m.analyses) := by
  refine ⟨find_after_erase _ _, ?_, ?_⟩
  · rintro ⟨obj, hobj, hass⟩ entry hentry a ha
    have hstate : (m.removeObjective o).analyses = disassociateObjective m.analyses o := by
      simp only [removeObjective, hobj, hass, if_true]
    rw [hstate] at hentry ha
    simp only [disassociateObjective, Container.deref] at ha
    refine foldl_modify_establishes
      (fun x => if Analysis.containsObjective x o = true then Analysis.removeObjective x o
        else x)
      (fun x => Analysis.containsObjective x o = false) ?_ (containsObjective_after_step o)
      m.analyses.by_id m.analyses.objs entry hentry a ha
    intro x
    have h := containsObjective_after_step o x
    simp only [] at h ⊢
    rw [if_neg (by simp [h])]
  · intro hpar
    cases hobj : m.objectives.deref (m.objectives.find o) with
    | none => simp only [removeObjective, hobj]
    | some obj =>
      have hass := hpar obj hobj
      simp only [removeObjective, hobj, hass, Bool.false_eq_true, if_false]

theorem remove_objective_assertion_only_witness :
    (Sample.mObj.objectives.deref (Sample.mObj.objectives.find Sample.assertionRef)
        = some Sample.assertion0
      ∧ Sample.assertion0.data.isAssertion = true)
      ∧ Sample.analysisObj.containsObjective Sample.assertionRef = true
      ∧ (22, 0) ∈ (Sample.mObj.removeObjective Sample.assertionRef).analyses.by_id
      ∧ (Sample.mObj.removeObjective Sample.assertionRef).analyses.deref (some 0)
          = some (Sample.analysisObj.removeObjective Sample.assertionRef)
      ∧ (Sample.analysisObj.removeObjective Sample.assertionRef).containsObjective
          Sample.assertionRef = false :=
  ⟨⟨by decide, by decide⟩, by decide, by decide, by decide,
    (remove_objective_assertion_only Sample.mObj Sample.assertionRef).2.1
      ⟨Sample.assertion0, by decide, by decide⟩ (22, 0) (by decide)
      (Sample.analysisObj.removeObjective Sample.assertionRef) (by decide)⟩

/-! ### Flattening of combined load sets -/

/-- C20 (the code at the failing input). In the model `mMissingEmbedded` the outer
load set embeds a reference that the catalog does not resolve. The pass does not
skip the embedding: after the lookup it goes on with the null pointer, and the run
ends there, before the embedding record is cleared. -/
theorem replaceCombinedLoadSets_missing_embedded :
    Sample.mMissingEmbedded.loadSets.find Sample.innerRef = none
      ∧ (Model.replaceCombinedLoadSets Sample.recordScale Sample.mMissingEmbedded).error
          = some "null pointer dereference"
      ∧ (Model.replaceCombinedLoadSets Sample.recordScale
            Sample.mMissingEmbedded).state.loadSets.deref (some 0) = some Sample.outerSet := by
  decide

/-! ### Removal of ineffective entities -/

/-- C18 (the code at the failing input). In the model `mIdle` the only loading is
ineffective and has an original id. After `removeIneffectives` its reference does not
resolve any more and its load set has lost it, but the loading is still registered
under its internal id: the catalog still yields an ineffective loading. The emptied
load set is in the same state: its reference does not resolve, and it is still
registered under its internal id. -/
theorem removeIneffectives_keeps_original_loading :
    (Model.registered Sample.mIdle.loadings = [Sample.idleLoading]
        ∧ Sample.mIdle.getLoadingsByLoadSet Sample.sOrig = [some 0])
      ∧ (Model.removeIneffectives id id Sample.mIdle).loadings.find Sample.lRef = none
      ∧ (Model.removeIneffectives id id Sample.mIdle).getLoadingsByLoadSet Sample.sOrig = []
      ∧ Model.registered (Model.removeIneffectives id id Sample.mIdle).loadings
          = [Sample.idleLoading]
      ∧ (Model.removeIneffectives id id Sample.mIdle).loadSets.find Sample.sOrig = none
      ∧ (Model.registered (Model.removeIneffectives id id Sample.mIdle).loadSets).length
          = 1 := by
  decide

/-! ### Virtual discrete elements -/

/-- C15 (the code at the failing input). In the model `mTwoAnalyses` the node has the
translations as native DOFs, one analysis requires RX there and the other RY. The
node receives the carrier of the group "VDiscrTR", which makes the three rotations
available. For the analysis that requires RX, the only synthetic constraint, the one
of the constraint set 100 with which the analysis is associated, blocks RZ alone: RY,
which the carrier made available and which is neither native nor required by this
analysis, is left free. The same holds of RX for the other analysis. -/
theorem generateDiscrets_leaves_other_required_free :
    (Model.generateDiscrets Sample.enumerators Prod.mk Sample.mTwoAnalyses).error = none
      ∧ (Model.generateDiscrets Sample.enumerators Prod.mk Sample.mTwoAnalyses).state.mesh.nodes
          = [{ id := 1, dofs := DOFS.ALL_DOFS }]
      ∧ (Model.generateDiscrets Sample.enumerators Prod.mk
            Sample.mTwoAnalyses).state.mesh.cellGroups
          = [{ name := "VDiscrTR", cellIds := [0] }]
      ∧ Model.registered
            (Model.generateDiscrets Sample.enumerators Prod.mk Sample.mTwoAnalyses).state.constraints
          = [{ id := 100, original_id := none, type := 4, data := ({DOF.RZ}, 1) },
             { id := 101, original_id := none, type := 4, data := ({DOF.RZ}, 1) }]
      ∧ (Model.registered
            (Model.generateDiscrets Sample.enumerators Prod.mk
              Sample.mTwoAnalyses).state.analyses).map
            (fun a => (a.id, a.data.constraintSet_references))
          = [(21, [{ type := 3, original_id := none, id := some 100 }]),
             (22, [{ type := 3, original_id := none, id := some 101 }])]
      ∧ (Model.generateDiscrets Sample.enumerators Prod.mk
            Sample.mTwoAnalyses).state.getConstraintsByConstraintSet
            { type := 3, original_id := none, id := some 100 } = [some 0]
      ∧ DOF.RY ∉ DOFS.TRANSLATIONS
      ∧ DOF.RY ∉ Analysis.findBoundaryDOFS Sample.analysisRX 0 := by
  decide

end Model

namespace Outcome

variable {σ : Type}

theorem andThen_of_ok (s : σ) (f : σ → Outcome σ) : (Outcome.ok s).andThen f = f s := rfl

theorem andThen_of_error_none (r : Outcome σ) (f : σ → Outcome σ) (h : r.error = none) :
    r.andThen f = f r.state := by
  unfold Outcome.andThen
  rw [h]

theorem andThen_of_error_some (r : Outcome σ) (f : σ → Outcome σ) (e : String)
    (h : r.error = some e) : r.andThen f = r := by
  unfold Outcome.andThen
  rw [h]

theorem error_none_of_andThen (r : Outcome σ) (f : σ → Outcome σ)
    (h : (r.andThen f).error = none) : r.error = none := by
  cases hr : r.error with
  | none => rfl
  | some e => rw [andThen_of_error_some r f e hr, hr] at h; cases h

theorem eq_ok_of_error_none (r : Outcome σ) (h : r.error = none) : r = Outcome.ok r.state := by
  cases r with
  | mk state error => cases h; rfl

theorem foldl_andThen_of_error_some {ι : Type} (f : σ → ι → Outcome σ) (l : List ι)
    (r : Outcome σ) (e : String) (h : r.error = some e) :
    l.foldl (fun r x => r.andThen fun s => f s x) r = r := by
  induction l with
  | nil => rfl
  | cons x xs ih => rw [List.foldl_cons, andThen_of_error_some r _ e h, ih]

theorem error_none_of_foldl_andThen {ι : Type} (f : σ → ι → Outcome σ) (l : List ι)
    (r : Outcome σ) (h : (l.foldl (fun r x => r.andThen fun s => f s x) r).error = none) :
    r.error = none := by
  cases hr : r.error with
  | none => rfl
  | some e => rw [foldl_andThen_of_error_some f l r e hr, hr] at h; cases h

theorem foldl_andThen_invariant {ι : Type} (f : σ → ι → Outcome σ) (Inv : List ι → σ → Prop)
    (hstep : ∀ done x s, Inv done s → (f s x).error = none → Inv (done ++ [x]) (f s x).state) :
    ∀ (l done : List ι) (s : σ), Inv done s →
      (l.foldl (fun r x => r.andThen fun s => f s x) (Outcome.ok s)).error = none →
      Inv (done ++ l) (l.foldl (fun r x => r.andThen fun s => f s x) (Outcome.ok s)).state := by
  intro l
  induction l with
  | nil => intro done s h _; simpa using h
  | cons x xs ih =>
    intro done s h herr
    rw [List.foldl_cons, andThen_of_ok] at herr ⊢
    have hx : (f s x).error = none := error_none_of_foldl_andThen f xs _ herr
    rw [eq_ok_of_error_none _ hx] at herr ⊢
    have := ih (done ++ [x]) (f s x).state (hstep done x s h hx) herr
    simpa using this

end Outcome

namespace Model

variable {Lg LSd Cg CSd : Type}

theorem objs_add_of_error_none {τ α : Type} [DecidableEq τ] (c : Container τ α)
    (t : Identifiable τ α) (h : (c.add t).error = none) :
    (c.add t).state.objs = c.objs ++ [t] ∧ (c.add t).state.by_id = c.by_id.assign t.getId c.objs.length := by
  unfold Container.add at h ⊢
  split at h
  · cases h
  · rw [if_neg (by assumption)]
    exact ⟨rfl, rfl⟩

theorem getOrCreateMaterial_frame (E : Enumerators) (m : Model Lg LSd Cg CSd)
    (material_id : Option Int) :
    (getOrCreateMaterial E m material_id).2.state.mesh = m.mesh
      ∧ (getOrCreateMaterial E m material_id).2.state.analyses = m.analyses
      ∧ (getOrCreateMaterial E m material_id).2.state.elementSets = m.elementSets := by
  unfold getOrCreateMaterial
  split <;> exact ⟨rfl, rfl, rfl⟩

theorem getVirtualMaterial_frame (E : Enumerators) (m : Model Lg LSd Cg CSd) :
    (getVirtualMaterial E m).state.mesh = m.mesh
      ∧ (getVirtualMaterial E m).state.analyses = m.analyses
      ∧ (getVirtualMaterial E m).state.elementSets = m.elementSets := by
  unfold getVirtualMaterial
  split
  · exact ⟨rfl, rfl, rfl⟩
  · cases herr : (getOrCreateMaterial E m none).2.error with
    | none =>
      rw [Outcome.andThen_of_error_none _ _ herr]
      exact getOrCreateMaterial_frame E m none
    | some e =>
      rw [Outcome.andThen_of_error_some _ _ e herr]
      exact getOrCreateMaterial_frame E m none

theorem createVirtualDiscret_spec (E : Enumerators) (m : Model Lg LSd Cg CSd) (groupName : String)
    (stiffness : List ℚ) (h : (createVirtualDiscret E m groupName stiffness).2.error = none) :
    (createVirtualDiscret E m groupName stiffness).2.state.mesh
        = (m.mesh.createCellGroup groupName).2
      ∧ (createVirtualDiscret E m groupName stiffness).2.state.analyses = m.analyses
      ∧ ∃ elementSet : Identifiable Nat ElementSetData,
          (createVirtualDiscret E m groupName stiffness).2.state.elementSets.objs
            = m.elementSets.objs ++ [elementSet]
          ∧ elementSet.data.kind = ElementSetKind.DiscretePoint stiffness []
          ∧ elementSet.data.cellGroup = some m.mesh.cellGroups.length := by
  unfold createVirtualDiscret at h ⊢
  dsimp only at h ⊢
  have h1 := Outcome.error_none_of_andThen _ _ h
  rw [Outcome.andThen_of_error_none _ _ h1] at h ⊢
  obtain ⟨hm, ha, he⟩ := getVirtualMaterial_frame E
    { m with elementSet_auto_id := m.elementSet_auto_id + 1,
             mesh := (m.mesh.createCellGroup groupName).2 }
  unfold addElementSet at h ⊢
  dsimp only at h ⊢
  have h2 := (objs_add_of_error_none _ _ h).1
  exact ⟨hm, ha, _, h2.trans (by rw [he]), rfl, rfl⟩

end Model

namespace Outcome
variable {σ : Type}

theorem andThen_induction (P : σ → Prop) (r : Outcome σ) (f : σ → Outcome σ)
    (hr : P r.state) (hf : ∀ s, P s → P (f s).state) : P (r.andThen f).state := by
  cases h : r.error with
  | none => rw [andThen_of_error_none r f h]; exact hf _ hr
  | some e => rw [andThen_of_error_some r f e h]; exact hr

theorem foldl_andThen_induction {ι : Type} (P : σ → Prop) (f : σ → ι → Outcome σ)
    (hf : ∀ s x, P s → P (f s x).state) (l : List ι) :
    ∀ r : Outcome σ, P r.state →
      P (l.foldl (fun r x => r.andThen fun s => f s x) r).state := by
  induction l with
  | nil => intro r hr; exact hr
  | cons x xs ih =>
    intro r hr
    rw [List.foldl_cons]
    exact ih _ (andThen_induction P r _ hr (fun s hs => hf s x hs))

end Outcome

namespace Model

variable {Lg LSd Cg CSd : Type}

theorem map_modify_of_invariant {A B : Type} (g : A → B) (f : A → A) (hg : ∀ a, g (f a) = g a)
    (l : List A) (i : Nat) : (l.modify f i).map g = l.map g := by
  apply List.ext_getElem?
  intro n
  rw [List.getElem?_map, List.getElem?_map, List.getElem?_modify]
  cases l[n]? with
  | none => rfl
  | some a =>
    by_cases h : i = n
    · simp [h, hg]
    · simp [h]

theorem SpcFrame.frame_refl (m : Model Lg LSd Cg CSd) : SpcFrame m m := ⟨rfl, rfl, rfl, rfl⟩

theorem SpcFrame.frame_trans {m m2 m3 : Model Lg LSd Cg CSd} (h : SpcFrame m m2) (h2 : SpcFrame m2 m3) :
    SpcFrame m m3 :=
  ⟨h2.1.trans h.1, h2.2.1.trans h.2.1, h2.2.2.1.trans h.2.2.1, h2.2.2.2.trans h.2.2.2⟩

theorem addConstraintIntoConstraintSet_frame (m : Model Lg LSd Cg CSd)
    (constraintReference constraintSetReference : Reference Nat) :
    SpcFrame m (m.addConstraintIntoConstraintSet constraintReference constraintSetReference).state := by
  unfold addConstraintIntoConstraintSet addCommonConstraintSetIfNeeded
  split
  · exact ⟨rfl, rfl, rfl, rfl⟩
  · exact ⟨rfl, rfl, rfl, rfl⟩

theorem addVirtualSpc_frame [Inhabited CSd] (E : Enumerators) (newSPC : DOFS → Int → Cg)
    (node : Node) (addedDOFS : DOFS) (m : Model Lg LSd Cg CSd) (analysisPtr : Nat) :
    SpcFrame m (addVirtualSpc E newSPC node addedDOFS m analysisPtr).state := by
  unfold addVirtualSpc
  split
  · exact SpcFrame.frame_refl m
  · split
    · split
      · refine Outcome.andThen_induction (SpcFrame m) _ _ ⟨rfl, rfl, rfl, rfl⟩ ?_
        intro m2 h2
        refine Outcome.andThen_induction (SpcFrame m) _ _ (h2.frame_trans ⟨rfl, rfl, rfl, rfl⟩) ?_
        intro m3 h3
        refine Outcome.andThen_induction (SpcFrame m) _ _
          (h3.frame_trans (addConstraintIntoConstraintSet_frame _ _ _)) ?_
        intro m4 h4
        refine h4.frame_trans ⟨rfl, rfl, rfl, ?_⟩
        exact map_modify_of_invariant (fun a : Analysis => a.data.boundaryDOFSByNodePosition)
          (fun a => Analysis.addConstraintSet a
            { type := E.ConstraintSet_SPC, original_id := none,
              id := some m.constraintSet_auto_id })
          (fun a => rfl) m4.analyses.objs analysisPtr
      · exact SpcFrame.frame_refl m
    · exact SpcFrame.frame_refl m

theorem addVirtualSpc_fold_frame [Inhabited CSd] (E : Enumerators) (newSPC : DOFS → Int → Cg)
    (node : Node) (addedDOFS : DOFS) (m : Model Lg LSd Cg CSd) (entries : KeyMap Int Nat) :
    SpcFrame m (entries.foldl
      (fun r entry => r.andThen fun m2 => addVirtualSpc E newSPC node addedDOFS m2 entry.2)
      (Outcome.ok m)).state :=
  Outcome.foldl_andThen_induction (SpcFrame m)
    (fun m2 (entry : Int × Nat) => addVirtualSpc E newSPC node addedDOFS m2 entry.2)
    (fun s x hs => hs.frame_trans (addVirtualSpc_frame E newSPC node addedDOFS s x.2)) entries
    (Outcome.ok m) (SpcFrame.frame_refl m)

theorem addVirtualCell_eq (mesh : Mesh) (group : Nat) (node : Node) :
    addVirtualCell mesh group node =
      { nodes := mesh.nodes,
        cells := mesh.cells ++
          [{ id := mesh.cell_auto_id, type := CellType.POINT1, nodeIds := [node.id],
             isVirtual := true }],
        cellGroups := mesh.cellGroups.modify
          (fun g => { g with cellIds := g.cellIds ++ [mesh.cell_auto_id] }) group,
        cell_auto_id := mesh.cell_auto_id + 1 } := by
  unfold addVirtualCell Mesh.addCell
  simp [Mesh.addCellToGroup]

theorem allowDOFS_frame (mesh : Mesh) (nodePosition : Int) (dofs : DOFS) :
    (mesh.allowDOFS nodePosition dofs).cells = mesh.cells
      ∧ (mesh.allowDOFS nodePosition dofs).cellGroups = mesh.cellGroups
      ∧ (mesh.allowDOFS nodePosition dofs).cell_auto_id = mesh.cell_auto_id := by
  unfold Mesh.allowDOFS
  split <;> exact ⟨rfl, rfl, rfl⟩

theorem allowDOFS_nodes_congr (mesh mesh2 : Mesh) (h : mesh.nodes = mesh2.nodes)
    (nodePosition : Int) (dofs : DOFS) :
    (mesh.allowDOFS nodePosition dofs).nodes = (mesh2.allowDOFS nodePosition dofs).nodes := by
  unfold Mesh.allowDOFS
  split
  · simp only [h]
  · exact h

theorem attachCarrierTR_spec (E : Enumerators) (st : DiscretsState Lg LSd Cg CSd) (node : Node)
    (h : (attachCarrierTR E st node).error = none) :
    CarrierAttached "VDiscrTR" [0, 0, 0, 0, 0, 0] DOFS.ALL_DOFS st.virtualDiscretTRGroup
        (attachCarrierTR E st node).state.virtualDiscretTRGroup st.model
        (attachCarrierTR E st node).state.model node
      ∧ (attachCarrierTR E st node).state.virtualDiscretTGroup = st.virtualDiscretTGroup
      ∧ (attachCarrierTR E st node).state.model.analyses = st.model.analyses := by
  unfold attachCarrierTR at h ⊢
  cases hp : st.virtualDiscretTRGroup with
  | some g =>
    simp only [hp]
    rw [Outcome.andThen_of_ok]
    simp only [hp, Outcome.ok, CarrierAttached, addVirtualCell_eq,
      allowDOFS_frame, Option.isSome_some, if_true, Option.getD_some, and_self]
  | none =>
    simp only [hp] at h ⊢
    have h1 := Outcome.error_none_of_andThen _ _ h
    rw [Outcome.andThen_of_error_none _ _ h1]
    obtain ⟨hm, ha, es, hes, hk, hg⟩ := createVirtualDiscret_spec E st.model "VDiscrTR"
      [0, 0, 0, 0, 0, 0] h1
    have hfst : (createVirtualDiscret E st.model "VDiscrTR" [0, 0, 0, 0, 0, 0]).1
        = st.model.mesh.cellGroups.length := rfl
    generalize createVirtualDiscret E st.model "VDiscrTR" [0, 0, 0, 0, 0, 0] = cv at *
    simp only [Outcome.mapState, Outcome.ok, CarrierAttached, addVirtualCell_eq,
      allowDOFS_frame, Option.isSome_none, Option.getD_none, hm, ha, hfst, Mesh.createCellGroup]
    refine ⟨⟨?_, trivial, trivial, ?_, es, hes, hk, hg⟩, trivial, trivial⟩
    · apply allowDOFS_nodes_congr
      rfl
    · simp

theorem attachCarrierT_spec (E : Enumerators) (st : DiscretsState Lg LSd Cg CSd) (node : Node)
    (h : (attachCarrierT E st node).error = none) :
    CarrierAttached "VDiscrT" [0, 0, 0] DOFS.TRANSLATIONS st.virtualDiscretTGroup
        (attachCarrierT E st node).state.virtualDiscretTGroup st.model
        (attachCarrierT E st node).state.model node
      ∧ (attachCarrierT E st node).state.virtualDiscretTRGroup = st.virtualDiscretTRGroup
      ∧ (attachCarrierT E st node).state.model.analyses = st.model.analyses := by
  unfold attachCarrierT at h ⊢
  cases hp : st.virtualDiscretTGroup with
  | some g =>
    simp only [hp]
    rw [Outcome.andThen_of_ok]
    simp only [hp, Outcome.ok, CarrierAttached, allowDOFS_frame, addVirtualCell_eq,
      Option.isSome_some, if_true, Option.getD_some, and_self, and_true, true_and]
    apply allowDOFS_nodes_congr
    rfl
  | none =>
    simp only [hp] at h ⊢
    have h1 := Outcome.error_none_of_andThen _ _ h
    rw [Outcome.andThen_of_error_none _ _ h1]
    obtain ⟨hm, ha, es, hes, hk, hg⟩ := createVirtualDiscret_spec E st.model "VDiscrT"
      [0, 0, 0] h1
    have hfst : (createVirtualDiscret E st.model "VDiscrT" [0, 0, 0]).1
        = st.model.mesh.cellGroups.length := rfl
    generalize createVirtualDiscret E st.model "VDiscrT" [0, 0, 0] = cv at *
    simp only [Outcome.mapState, Outcome.ok, CarrierAttached, allowDOFS_frame, addVirtualCell_eq,
      Option.isSome_none, Option.getD_none, hm, ha, hfst, Mesh.createCellGroup]
    refine ⟨⟨?_, trivial, trivial, ?_, es, hes, hk, hg⟩, trivial, trivial⟩
    · apply allowDOFS_nodes_congr
      rfl
    · simp

theorem mem_registered {τ α : Type} (c : Container τ α) (t : Identifiable τ α) :
    t ∈ registered c ↔ ∃ entry ∈ c.by_id, c.objs[entry.2]? = some t := by
  unfold registered
  rw [List.mem_filterMap]

theorem mem_foldr_union (l : List DOFS) (x : DOF) :
    x ∈ l.foldr (fun s t => s ∪ t) ∅ ↔ ∃ s ∈ l, x ∈ s := by
  induction l with
  | nil => simp
  | cons s l ih => simp [ih]

theorem mem_missingOfNode (analyses : Container Nat AnalysisData) (node : Node) (x : DOF) :
    x ∈ missingOfNode analyses node
      ↔ ∃ a ∈ registered analyses, x ∈ Analysis.findBoundaryDOFS a node.position ∧ x ∉ node.dofs := by
  unfold missingOfNode
  rw [mem_foldr_union]
  constructor
  · rintro ⟨s, hs, hx⟩
    obtain ⟨a, ha, rfl⟩ := List.mem_map.1 hs
    exact ⟨a, ha, (Finset.mem_sdiff.1 hx).1, (Finset.mem_sdiff.1 hx).2⟩
  · rintro ⟨a, ha, hx, hn⟩
    exact ⟨_, List.mem_map.2 ⟨a, ha, rfl⟩, Finset.mem_sdiff.2 ⟨hx, hn⟩⟩

theorem mem_missingDOFS_foldl (objs : List Analysis) (node : Node) (x : DOF) :
    ∀ (entries : KeyMap Int Nat) (acc : DOFS), (∀ y ∈ acc, y ∉ node.dofs) →
      (x ∈ entries.foldl
        (fun missingDOFS entry =>
          match objs[entry.2]? with
          | some analysis =>
            if ¬ node.dofs.containsAll (Analysis.findBoundaryDOFS analysis node.position) then
              (missingDOFS ∪ Analysis.findBoundaryDOFS analysis node.position) \ node.dofs
            else missingDOFS
          | none => missingDOFS)
        acc
      ↔ x ∈ acc ∨ ∃ entry ∈ entries, ∃ a, objs[entry.2]? = some a
          ∧ x ∈ Analysis.findBoundaryDOFS a node.position ∧ x ∉ node.dofs) := by
  intro entries
  induction entries with
  | nil => intro acc _; simp
  | cons entry rest ih =>
    intro acc hacc
    rw [List.foldl_cons]
    cases ha : objs[entry.2]? with
    | none =>
      simp only [ha]
      rw [ih acc hacc]
      simp [ha]
    | some a =>
      simp only [ha]
      by_cases hc : node.dofs.containsAll (Analysis.findBoundaryDOFS a node.position) = true
      · rw [if_neg (by simpa using hc), ih acc hacc]
        have hsub : Analysis.findBoundaryDOFS a node.position ⊆ node.dofs := by
          simpa [DOFS.containsAll] using hc
        constructor
        · rintro (h | ⟨e, he, b, hb, hx, hn⟩)
          · exact Or.inl h
          · exact Or.inr ⟨e, List.mem_cons_of_mem _ he, b, hb, hx, hn⟩
        · rintro (h | ⟨e, he, b, hb, hx, hn⟩)
          · exact Or.inl h
          · rcases List.mem_cons.1 he with rfl | he
            · rw [ha] at hb
              cases hb
              exact absurd (hsub hx) hn
            · exact Or.inr ⟨e, he, b, hb, hx, hn⟩
      · rw [if_pos (by simpa using hc), ih _ (by
          intro y hy
          exact (Finset.mem_sdiff.1 hy).2)]
        constructor
        · rintro (h | ⟨e, he, b, hb, hx, hn⟩)
          · rcases Finset.mem_sdiff.1 h with ⟨h1, h2⟩
            rcases Finset.mem_union.1 h1 with h1 | h1
            · exact Or.inl h1
            · exact Or.inr ⟨entry, List.mem_cons_self _ _, a, ha, h1, h2⟩
          · exact Or.inr ⟨e, List.mem_cons_of_mem _ he, b, hb, hx, hn⟩
        · rintro (h | ⟨e, he, b, hb, hx, hn⟩)
          · exact Or.inl (Finset.mem_sdiff.2 ⟨Finset.mem_union_left _ h, hacc x h⟩)
          · rcases List.mem_cons.1 he with rfl | he
            · rw [ha] at hb
              cases hb
              exact Or.inl (Finset.mem_sdiff.2 ⟨Finset.mem_union_right _ hx, hn⟩)
            · exact Or.inr ⟨e, he, b, hb, hx, hn⟩

theorem missingDOFS_eq_missingOfNode (analyses : Container Nat AnalysisData) (node : Node) :
    missingDOFS analyses node = missingOfNode analyses node := by
  ext x
  unfold missingDOFS
  rw [mem_missingDOFS_foldl analyses.objs node x analyses.by_id DOFS.NO_DOFS (by simp [DOFS.NO_DOFS]),
    mem_missingOfNode]
  constructor
  · rintro (h | ⟨e, he, a, ha, hx, hn⟩)
    · simp [DOFS.NO_DOFS] at h
    · exact ⟨a, (mem_registered _ _).2 ⟨e, he, ha⟩, hx, hn⟩
  · rintro ⟨a, ha, hx, hn⟩
    obtain ⟨e, he, hea⟩ := (mem_registered _ _).1 ha
    exact Or.inr ⟨e, he, a, hea, hx, hn⟩

theorem required_subset_carrier (analyses : Container Nat AnalysisData) (node : Node)
    (a : Analysis) (ha : a ∈ registered analyses) :
    Analysis.findBoundaryDOFS a node.position
      ⊆ node.dofs ∪ carrierDOFS (missingDOFS analyses node) := by
  intro x hx
  by_cases hn : x ∈ node.dofs
  · exact Finset.mem_union_left _ hn
  · apply Finset.mem_union_right
    have hmiss : x ∈ missingDOFS analyses node := by
      rw [missingDOFS_eq_missingOfNode, mem_missingOfNode]
      exact ⟨a, ha, hx, hn⟩
    unfold carrierDOFS
    have hsize : (missingDOFS analyses node).size ≠ 0 := by
      unfold DOFS.size
      exact Finset.card_ne_zero_of_mem hmiss
    rw [if_pos hsize]
    split
    · exact Finset.mem_univ x
    · rename_i hrot
      have hx2 : x ∉ DOFS.ROTATIONS := by
        intro hx2
        apply hrot
        unfold DOFS.containsAnyOf
        exact decide_eq_true ⟨x, Finset.mem_inter.2 ⟨hmiss, hx2⟩⟩
      revert hx2
      cases x <;> decide

theorem allowDOFS_nodes_cast (mesh : Mesh) (k : Nat) (dofs : DOFS) :
    (mesh.allowDOFS (k : Int) dofs).nodes
      = mesh.nodes.modify (fun n => { n with dofs := n.dofs ∪ dofs }) k := by
  simp [Mesh.allowDOFS]

theorem findNode_cast (mesh : Mesh) (k : Nat) (node : Node)
    (h : mesh.findNode (k : Int) = some node) :
    node.position = (k : Int) ∧ mesh.nodes[k]? = some { id := node.id, dofs := node.dofs } := by
  unfold Mesh.findNode at h
  rw [if_pos (Int.natCast_nonneg k), Int.toNat_natCast] at h
  cases hk : mesh.nodes[k]? with
  | none => rw [hk] at h; cases h
  | some n =>
    rw [hk] at h
    cases h
    exact ⟨rfl, rfl⟩

theorem attachCarrier_nodes (E : Enumerators) (st : DiscretsState Lg LSd Cg CSd) (node : Node)
    (missingDOFS : DOFS) (h : (attachCarrier E st node missingDOFS).error = none) :
    (attachCarrier E st node missingDOFS).state.model.analyses = st.model.analyses
      ∧ (attachCarrier E st node missingDOFS).state.model.mesh.nodes
          = (st.model.mesh.allowDOFS node.position (carrierDOFS missingDOFS)).nodes := by
  unfold attachCarrier carrierDOFS at *
  split at h
  · split at h
    · rename_i h1 h2
      rw [if_pos h1, if_pos h2, if_pos h1, if_pos h2]
      exact ⟨(attachCarrierTR_spec E st node h).2.2, (attachCarrierTR_spec E st node h).1.1⟩
    · rename_i h1 h2
      rw [if_pos h1, if_neg h2, if_pos h1, if_neg h2]
      exact ⟨(attachCarrierT_spec E st node h).2.2, (attachCarrierT_spec E st node h).1.1⟩
  · rename_i h1
    rw [if_neg h1, if_neg h1]
    refine ⟨rfl, ?_⟩
    unfold Mesh.allowDOFS
    split
    · apply List.ext_getElem?
      intro n
      simp only [Outcome.ok, List.getElem?_modify, DOFS.NO_DOFS, Finset.union_empty]
      cases st.model.mesh.nodes[n]? with
      | none => rfl
      | some a => simp
    · rfl

theorem generateDiscretsNode_nodes [Inhabited CSd] (E : Enumerators) (newSPC : DOFS → Int → Cg)
    (st : DiscretsState Lg LSd Cg CSd) (k : Nat) (node : Node)
    (hn : st.model.mesh.findNode (k : Int) = some node)
    (h : (generateDiscretsNode E newSPC st k).error = none) :
    (generateDiscretsNode E newSPC st k).state.model.analyses.by_id = st.model.analyses.by_id
      ∧ boundaries (generateDiscretsNode E newSPC st k).state.model.analyses
          = boundaries st.model.analyses
      ∧ (generateDiscretsNode E newSPC st k).state.model.mesh.nodes
          = st.model.mesh.nodes.modify
              (fun n => { n with dofs := n.dofs ∪ carrierDOFS (missingDOFS st.model.analyses node) })
              k := by
  unfold generateDiscretsNode at h ⊢
  simp only [hn] at h ⊢
  have h1 := Outcome.error_none_of_andThen _ _ h
  rw [Outcome.andThen_of_error_none _ _ h1]
  obtain ⟨ha, hnodes⟩ := attachCarrier_nodes E st node _ h1
  have hf := addVirtualSpc_fold_frame E newSPC node
    (addedDOFS node (missingDOFS st.model.analyses node))
    (attachCarrier E st node (missingDOFS st.model.analyses node)).state.model
    (attachCarrier E st node (missingDOFS st.model.analyses node)).state.model.analyses.by_id
  obtain ⟨hf1, -, hf3, hf4⟩ := hf
  simp only [Outcome.mapState]
  refine ⟨hf3.trans (by rw [ha]), hf4.trans (by rw [ha]), ?_⟩
  rw [hf1, hnodes, (findNode_cast _ _ _ hn).1, allowDOFS_nodes_cast]

theorem generateDiscretsNode_of_no_node [Inhabited CSd] (E : Enumerators)
    (newSPC : DOFS → Int → Cg) (st : DiscretsState Lg LSd Cg CSd) (k : Nat)
    (hn : st.model.mesh.findNode (k : Int) = none) :
    generateDiscretsNode E newSPC st k = Outcome.ok st := by
  unfold generateDiscretsNode
  simp only [hn]

theorem registered_boundary_transfer (c c2 : Container Nat AnalysisData)
    (hid : c2.by_id = c.by_id) (hb : boundaries c2 = boundaries c) (a : Analysis)
    (ha : a ∈ registered c) :
    ∃ a2 ∈ registered c2, a2.data.boundaryDOFSByNodePosition = a.data.boundaryDOFSByNodePosition := by
  obtain ⟨e, he, hea⟩ := (mem_registered c a).1 ha
  have h1 : (boundaries c2)[e.2]? = (boundaries c)[e.2]? := by rw [hb]
  unfold boundaries at h1
  rw [List.getElem?_map, List.getElem?_map, hea] at h1
  cases h2 : c2.objs[e.2]? with
  | none => rw [h2] at h1; cases h1
  | some a2 =>
    rw [h2] at h1
    refine ⟨a2, (mem_registered c2 a2).2 ⟨e, hid ▸ he, h2⟩, ?_⟩
    simpa using h1

theorem findBoundaryDOFS_congr (a a2 : Analysis)
    (h : a2.data.boundaryDOFSByNodePosition = a.data.boundaryDOFSByNodePosition)
    (nodePosition : Int) :
    Analysis.findBoundaryDOFS a2 nodePosition = Analysis.findBoundaryDOFS a nodePosition := by
  unfold Analysis.findBoundaryDOFS
  rw [h]

theorem generateDiscretsUpTo_covers [Inhabited CSd] (E : Enumerators) (newSPC : DOFS → Int → Cg)
    (m : Model Lg LSd Cg CSd) (turns : Nat)
    (h : (generateDiscretsUpTo E newSPC m turns).error = none) :
    (generateDiscretsUpTo E newSPC m turns).state.model.analyses.by_id = m.analyses.by_id
      ∧ boundaries (generateDiscretsUpTo E newSPC m turns).state.model.analyses
          = boundaries m.analyses
      ∧ (generateDiscretsUpTo E newSPC m turns).state.model.mesh.nodes.length
          = m.mesh.nodes.length
      ∧ ∀ k ∈ List.range turns, ∀ nd,
          (generateDiscretsUpTo E newSPC m turns).state.model.mesh.nodes[k]? = some nd →
          ∀ a ∈ registered m.analyses, Analysis.findBoundaryDOFS a (k : Int) ⊆ nd.dofs := by
  have key := Outcome.foldl_andThen_invariant
    (fun (st : DiscretsState Lg LSd Cg CSd) (position : Nat) =>
      generateDiscretsNode E newSPC st position)
    (fun done st =>
      st.model.analyses.by_id = m.analyses.by_id
        ∧ boundaries st.model.analyses = boundaries m.analyses
        ∧ st.model.mesh.nodes.length = m.mesh.nodes.length
        ∧ ∀ k ∈ done, ∀ nd, st.model.mesh.nodes[k]? = some nd →
            ∀ a ∈ registered m.analyses, Analysis.findBoundaryDOFS a (k : Int) ⊆ nd.dofs)
    (by
      intro done x st ⟨hid, hb, hlen, hcov⟩ herr
      dsimp only at herr ⊢
      cases hn : st.model.mesh.findNode (x : Int) with
      | none =>
        rw [generateDiscretsNode_of_no_node E newSPC st x hn]
        refine ⟨hid, hb, hlen, ?_⟩
        intro k hk nd hnd a ha
        rcases List.mem_append.1 hk with hk | hk
        · exact hcov k hk nd hnd a ha
        · rw [List.mem_singleton] at hk
          subst hk
          unfold Mesh.findNode at hn
          rw [if_pos (Int.natCast_nonneg k), Int.toNat_natCast] at hn
          simp only [Outcome.ok] at hnd
          rw [hnd] at hn
          cases hn
      | some node =>
        obtain ⟨hid2, hb2, hnodes⟩ := generateDiscretsNode_nodes E newSPC st x node hn herr
        refine ⟨hid2.trans hid, hb2.trans hb, ?_, ?_⟩
        · rw [hnodes, List.length_modify, hlen]
        · intro k hk nd hnd a ha
          rw [hnodes, List.getElem?_modify] at hnd
          cases hold : st.model.mesh.nodes[k]? with
          | none => rw [hold] at hnd; cases hnd
          | some nd0 =>
            rw [hold] at hnd
            simp only [Option.map_eq_map, Option.map_some', Option.some.injEq] at hnd
            by_cases hxk : x = k
            · subst hxk
              rw [if_pos rfl] at hnd
              obtain ⟨a2, ha2, hbd⟩ := registered_boundary_transfer m.analyses st.model.analyses
                hid hb a ha
              have hreq := required_subset_carrier st.model.analyses node a2 ha2
              rw [findBoundaryDOFS_congr a a2 hbd, (findNode_cast _ _ _ hn).1] at hreq
              have hnd0 := (findNode_cast _ _ _ hn).2
              rw [hold] at hnd0
              cases hnd0
              rw [← hnd]
              exact hreq
            · rw [if_neg hxk] at hnd
              rcases List.mem_append.1 hk with hk | hk
              · rw [← hnd]
                exact hcov k hk nd0 hold a ha
              · exact absurd (List.mem_singleton.1 hk).symm hxk)
    (List.range turns) []
    { model := m, virtualDiscretTRGroup := none, virtualDiscretTGroup := none }
    ⟨rfl, rfl, rfl, by intro k hk; cases hk⟩ h
  simpa using key

/-- C14. DOF coverage: when `generateDiscrets` completes, the DOFs allowed on a node
of the mesh contain the boundary DOFs that any analysis of the model requires at this
node. -/
theorem generateDiscrets_covers_boundary [Inhabited CSd] (E : Enumerators)
    (newSPC : DOFS → Int → Cg) (m : Model Lg LSd Cg CSd)
    (h : (generateDiscrets E newSPC m).error = none) (position : Int) (node : Node)
    (hnode : (generateDiscrets E newSPC m).state.mesh.findNode position = some node)
    (analysis : Analysis)
    (ha : analysis ∈ registered (generateDiscrets E newSPC m).state.analyses) :
    Analysis.findBoundaryDOFS analysis position ⊆ node.dofs := by
  unfold generateDiscrets generateDiscretsRun at h hnode ha
  simp only [Outcome.mapState] at h hnode ha
  obtain ⟨hid, hb, hlen, hcov⟩ := generateDiscretsUpTo_covers E newSPC m m.mesh.nodes.length h
  obtain ⟨a0, ha0, hbd⟩ := registered_boundary_transfer _ m.analyses hid.symm hb.symm analysis ha
  rw [← findBoundaryDOFS_congr analysis a0 hbd]
  unfold Mesh.findNode at hnode
  split at hnode
  · rename_i hpos
    cases hk : (generateDiscretsUpTo E newSPC m m.mesh.nodes.length).state.model.mesh.nodes[
        position.toNat]? with
    | none => rw [hk] at hnode; cases hnode
    | some nd =>
      rw [hk] at hnode
      cases hnode
      have hlt : position.toNat < m.mesh.nodes.length := by
        rw [← hlen]
        exact (List.getElem?_eq_some_iff.1 hk).1
      have := hcov position.toNat (List.mem_range.2 hlt) nd hk a0 ha0
      rwa [Int.toNat_of_nonneg hpos] at this
  · cases hnode

theorem generateDiscrets_covers_boundary_witness :
    (generateDiscrets Sample.enumerators Prod.mk Sample.mTwoAnalyses).error = none
      ∧ (generateDiscrets Sample.enumerators Prod.mk Sample.mTwoAnalyses).state.mesh.findNode 0
          = some { position := 0, id := 1, dofs := DOFS.ALL_DOFS }
      ∧ Analysis.findBoundaryDOFS
          (Analysis.addConstraintSet Sample.analysisRX
            { type := 3, original_id := none, id := some 100 }) 0 ⊆ DOFS.ALL_DOFS :=
  ⟨by decide, by decide,
    generateDiscrets_covers_boundary Sample.enumerators Prod.mk Sample.mTwoAnalyses (by decide) 0
      { position := 0, id := 1, dofs := DOFS.ALL_DOFS } (by decide)
      (Analysis.addConstraintSet Sample.analysisRX
        { type := 3, original_id := none, id := some 100 }) (by decide)⟩

theorem carrierAttached_receives (groupName : String) (stiffness : List ℚ) (dofs : DOFS)
    (group group2 : Option Nat) (m m2 : Model Lg LSd Cg CSd) (node : Node)
    (h : CarrierAttached groupName stiffness dofs group group2 m m2 node)
    (hg : CarrierGroup groupName stiffness group m.mesh m.elementSets.objs) :
    ReceivesCell groupName stiffness m.mesh m2.mesh m2.elementSets.objs node
      ∧ CarrierGroup groupName stiffness group2 m2.mesh m2.elementSets.objs := by
  obtain ⟨-, hcells, hptr, hgroups, hes⟩ := h
  cases hgroup : group with
  | some g0 =>
    subst hgroup
    simp only [Option.isSome_some, if_true, Option.getD_some] at hptr hgroups hes
    obtain ⟨⟨grp, hgrp, hname⟩, es, hesmem, hkind, hcg⟩ := hg g0 rfl
    have hnew : m2.mesh.cellGroups[g0]?
        = some { grp with cellIds := grp.cellIds ++ [m.mesh.cell_auto_id] } := by
      rw [hgroups, List.getElem?_modify, hgrp]
      simp
    have hother : ∀ g2, g2 ≠ g0 → m2.mesh.cellGroups[g2]? = m.mesh.cellGroups[g2]? := by
      intro g2 hne
      rw [hgroups, List.getElem?_modify]
      cases m.mesh.cellGroups[g2]? with
      | none => rfl
      | some a => simp [Ne.symm hne]
    refine ⟨⟨_, g0, _, hcells, rfl, rfl, rfl, hnew, hname, ?_, hother, es, hes ▸ hesmem, hkind,
      hcg⟩, ?_⟩
    · rw [hgrp]
      rfl
    · intro g hg2
      rw [hptr] at hg2
      cases hg2
      exact ⟨⟨_, hnew, hname⟩, es, hes ▸ hesmem, hkind, hcg⟩
  | none =>
    subst hgroup
    simp only [Option.isSome_none, Bool.false_eq_true, if_false, Option.getD_none] at hptr hgroups hes
    obtain ⟨es, hobjs, hkind, hcg⟩ := hes
    have hnew : m2.mesh.cellGroups[m.mesh.cellGroups.length]?
        = some { name := groupName, cellIds := [m.mesh.cell_auto_id] } := by
      rw [hgroups, List.getElem?_modify]
      simp
    have hother : ∀ g2, g2 ≠ m.mesh.cellGroups.length →
        m2.mesh.cellGroups[g2]? = m.mesh.cellGroups[g2]? := by
      intro g2 hne
      rw [hgroups, List.getElem?_modify]
      rcases Nat.lt_or_gt_of_ne hne with hlt | hgt
      · rw [List.getElem?_append_left hlt]
        cases m.mesh.cellGroups[g2]? with
        | none => rfl
        | some a => simp [Ne.symm hne]
      · rw [List.getElem?_eq_none (l := m.mesh.cellGroups) (Nat.le_of_lt hgt),
          List.getElem?_eq_none (by simp; omega)]
        rfl
    have hmem : es ∈ m2.elementSets.objs := by
      rw [hobjs]
      exact List.mem_append_right _ (List.mem_singleton_self es)
    refine ⟨⟨_, m.mesh.cellGroups.length, _, hcells, rfl, rfl, rfl, hnew, rfl, ?_, hother, es,
      hmem, hkind, hcg⟩, ?_⟩
    · rw [List.getElem?_eq_none (Nat.le_refl _)]
      rfl
    · intro g hg2
      rw [hptr] at hg2
      cases hg2
      exact ⟨⟨_, hnew, rfl⟩, es, hmem, hkind, hcg⟩

theorem carrierAttached_keeps_group (groupName : String) (stiffness : List ℚ) (dofs : DOFS)
    (group group2 : Option Nat) (m m2 : Model Lg LSd Cg CSd) (node : Node)
    (h : CarrierAttached groupName stiffness dofs group group2 m m2 node)
    (groupName2 : String) (stiffness2 : List ℚ) (other : Option Nat)
    (hg : CarrierGroup groupName2 stiffness2 other m.mesh m.elementSets.objs) :
    CarrierGroup groupName2 stiffness2 other m2.mesh m2.elementSets.objs := by
  obtain ⟨-, -, -, hgroups, hes⟩ := h
  intro g hog
  obtain ⟨⟨grp, hgrp, hname⟩, es, hesmem, hkind, hcg⟩ := hg g hog
  have hlt : g < m.mesh.cellGroups.length := (List.getElem?_eq_some_iff.1 hgrp).1
  have h0 : (if group.isSome = true then m.mesh.cellGroups
      else m.mesh.cellGroups ++ [{ name := groupName, cellIds := [] }])[g]? = some grp := by
    split
    · exact hgrp
    · rw [List.getElem?_append_left hlt]
      exact hgrp
  refine ⟨?_, es, ?_, hkind, hcg⟩
  · rw [hgroups, List.getElem?_modify, h0]
    by_cases hgg : group.getD m.mesh.cellGroups.length = g
    · exact ⟨{ grp with cellIds := grp.cellIds ++ [m.mesh.cell_auto_id] }, by simp [hgg], hname⟩
    · exact ⟨grp, by simp [hgg], hname⟩
  · split at hes
    · rw [hes]
      exact hesmem
    · obtain ⟨es2, hobjs, -, -⟩ := hes
      rw [hobjs]
      exact List.mem_append_left _ hesmem

theorem carrierAttached_elementSets (groupName : String) (stiffness : List ℚ) (dofs : DOFS)
    (group group2 : Option Nat) (m m2 : Model Lg LSd Cg CSd) (node : Node)
    (h : CarrierAttached groupName stiffness dofs group group2 m m2 node) :
    group2.isSome = true
      ∧ ∃ added, m2.elementSets.objs = m.elementSets.objs ++ added
          ∧ (∀ es ∈ added, es.data.kind = ElementSetKind.DiscretePoint stiffness [])
          ∧ added.length = (if group.isSome then 0 else 1) := by
  obtain ⟨-, -, hptr, -, hes⟩ := h
  refine ⟨by rw [hptr]; rfl, ?_⟩
  split at hes
  · rename_i hsome
    refine ⟨[], by rw [hes, List.append_nil], ?_, by rw [if_pos hsome]; rfl⟩
    intro es h
    cases h
  · rename_i hnone
    obtain ⟨es, hobjs, hkind, -⟩ := hes
    refine ⟨[es], hobjs, ?_, by rw [if_neg hnone]; rfl⟩
    intro es2 h2
    rw [List.mem_singleton.1 h2]
    exact hkind

theorem countP_of_kind (stiffness stiffness2 : List ℚ)
    (added : List (Identifiable Nat ElementSetData))
    (h : ∀ es ∈ added, es.data.kind = ElementSetKind.DiscretePoint stiffness []) :
    added.countP (isDiscretePoint stiffness2)
      = if stiffness = stiffness2 then added.length else 0 := by
  induction added with
  | nil => simp
  | cons es rest ih =>
    have hes := h es (List.mem_cons_self _ _)
    have ih2 := ih (fun e he => h e (List.mem_cons_of_mem _ he))
    by_cases hs : stiffness = stiffness2
    · rw [if_pos hs] at ih2 ⊢
      rw [List.countP_cons_of_pos _ _ (by simp [isDiscretePoint, hes, hs]), ih2]
      rfl
    · rw [if_neg hs] at ih2 ⊢
      rw [List.countP_cons_of_neg _ _ (by simp [isDiscretePoint, hes, hs]), ih2]

theorem attachCarrier_effect (E : Enumerators) (st : DiscretsState Lg LSd Cg CSd) (node : Node)
    (missingDOFS : DOFS) (h : (attachCarrier E st node missingDOFS).error = none)
    (hTR : CarrierGroup "VDiscrTR" [0, 0, 0, 0, 0, 0] st.virtualDiscretTRGroup st.model.mesh
      st.model.elementSets.objs)
    (hT : CarrierGroup "VDiscrT" [0, 0, 0] st.virtualDiscretTGroup st.model.mesh
      st.model.elementSets.objs) :
    TurnEffect missingDOFS node st (attachCarrier E st node missingDOFS).state := by
  unfold attachCarrier at h ⊢
  by_cases hsize : missingDOFS.size ≠ 0
  · rw [if_pos hsize] at h ⊢
    by_cases hrot : missingDOFS.containsAnyOf DOFS.ROTATIONS = true
    · rw [if_pos hrot] at h ⊢
      obtain ⟨hatt, hother, -⟩ := attachCarrierTR_spec E st node h
      obtain ⟨hrc, hg2⟩ := carrierAttached_receives _ _ _ _ _ _ _ _ hatt hTR
      have hk := carrierAttached_keeps_group _ _ _ _ _ _ _ _ hatt _ _ _ hT
      obtain ⟨hsome, added, hobjs, hkind, hlen⟩ := carrierAttached_elementSets _ _ _ _ _ _ _ _ hatt
      refine ⟨hg2, hother ▸ hk, ⟨added, hobjs, ?_, ?_, ?_⟩, fun _ _ => hrc, ?_, ?_⟩
      · rw [countP_of_kind _ _ added hkind, if_pos rfl, hlen, hsome]
        split <;> rfl
      · rw [countP_of_kind _ _ added hkind, if_neg (by decide), hother]
        omega
      · intro es hes
        left
        simp [isDiscretePoint, hkind es hes]
      · intro _ hf
        rw [hrot] at hf
        cases hf
      · intro h0
        exact absurd h0 hsize
    · rw [if_neg hrot] at h ⊢
      obtain ⟨hatt, hother, -⟩ := attachCarrierT_spec E st node h
      obtain ⟨hrc, hg2⟩ := carrierAttached_receives _ _ _ _ _ _ _ _ hatt hT
      have hk := carrierAttached_keeps_group _ _ _ _ _ _ _ _ hatt _ _ _ hTR
      obtain ⟨hsome, added, hobjs, hkind, hlen⟩ := carrierAttached_elementSets _ _ _ _ _ _ _ _ hatt
      refine ⟨hother ▸ hk, hg2, ⟨added, hobjs, ?_, ?_, ?_⟩, ?_, fun _ _ => hrc, ?_⟩
      · rw [countP_of_kind _ _ added hkind, if_neg (by decide), hother]
        omega
      · rw [countP_of_kind _ _ added hkind, if_pos rfl, hlen, hsome]
        split <;> rfl
      · intro es hes
        right
        simp [isDiscretePoint, hkind es hes]
      · intro _ hf
        exact absurd hf hrot
      · intro h0
        exact absurd h0 hsize
  · rw [if_neg hsize] at h ⊢
    refine ⟨hTR, hT, ⟨[], by simp [Outcome.ok], by simp [Outcome.ok], by simp [Outcome.ok], ?_⟩,
      ?_, ?_, fun _ => ⟨rfl, rfl⟩⟩
    · intro es hes
      cases hes
    · intro h0
      exact absurd h0 hsize
    · intro h0
      exact absurd h0 hsize

theorem generateDiscretsNode_effect [Inhabited CSd] (E : Enumerators) (newSPC : DOFS → Int → Cg)
    (st : DiscretsState Lg LSd Cg CSd) (k : Nat) (node : Node)
    (hn : st.model.mesh.findNode (k : Int) = some node)
    (h : (generateDiscretsNode E newSPC st k).error = none)
    (hTR : CarrierGroup "VDiscrTR" [0, 0, 0, 0, 0, 0] st.virtualDiscretTRGroup st.model.mesh
      st.model.elementSets.objs)
    (hT : CarrierGroup "VDiscrT" [0, 0, 0] st.virtualDiscretTGroup st.model.mesh
      st.model.elementSets.objs) :
    TurnEffect (missingDOFS st.model.analyses node) node st
      (generateDiscretsNode E newSPC st k).state := by
  unfold generateDiscretsNode at h ⊢
  simp only [hn] at h ⊢
  have h1 := Outcome.error_none_of_andThen _ _ h
  rw [Outcome.andThen_of_error_none _ _ h1]
  have eff := attachCarrier_effect E st node _ h1 hTR hT
  obtain ⟨hf1, hf2, -, -⟩ := addVirtualSpc_fold_frame E newSPC node
    (addedDOFS node (missingDOFS st.model.analyses node))
    (attachCarrier E st node (missingDOFS st.model.analyses node)).state.model
    (attachCarrier E st node (missingDOFS st.model.analyses node)).state.model.analyses.by_id
  unfold TurnEffect at eff ⊢
  simp only [Outcome.mapState]
  rw [hf1, hf2]
  exact eff

theorem generateDiscretsUpTo_succ [Inhabited CSd] (E : Enumerators) (newSPC : DOFS → Int → Cg)
    (m : Model Lg LSd Cg CSd) (k : Nat) :
    generateDiscretsUpTo E newSPC m (k + 1)
      = (generateDiscretsUpTo E newSPC m k).andThen
          fun st => generateDiscretsNode E newSPC st k := by
  unfold generateDiscretsUpTo
  rw [List.range_succ, List.foldl_append]
  rfl

theorem generateDiscretsUpTo_error_none [Inhabited CSd] (E : Enumerators)
    (newSPC : DOFS → Int → Cg) (m : Model Lg LSd Cg CSd) (d k : Nat)
    (h : (generateDiscretsUpTo E newSPC m (k + d)).error = none) :
    (generateDiscretsUpTo E newSPC m k).error = none := by
  induction d with
  | zero => exact h
  | succ d ih =>
    apply ih
    rw [← Nat.add_assoc, generateDiscretsUpTo_succ] at h
    exact Outcome.error_none_of_andThen _ _ h

theorem receivesCell_name_unique (groupName groupName2 : String) (stiffness stiffness2 : List ℚ)
    (mesh mesh2 : Mesh) (elementSets elementSets2 : List (Identifiable Nat ElementSetData))
    (node : Node) (h : ReceivesCell groupName stiffness mesh mesh2 elementSets node)
    (h2 : ReceivesCell groupName2 stiffness2 mesh mesh2 elementSets2 node) :
    groupName = groupName2 := by
  obtain ⟨cell, g, grp, -, -, -, -, hgrp, hname, -, hother, -⟩ := h
  obtain ⟨cell2, g2, grp2, -, -, -, -, hgrp2, hname2, hids2, -, -⟩ := h2
  by_cases hg : g2 = g
  · subst hg
    rw [hgrp] at hgrp2
    cases hgrp2
    rw [← hname, ← hname2]
  · exfalso
    rw [← hother g2 hg, hgrp2] at hids2
    have := congrArg List.length hids2
    simp at this

theorem generateDiscretsUpTo_carriers [Inhabited CSd] (E : Enumerators)
    (newSPC : DOFS → Int → Cg) (m : Model Lg LSd Cg CSd) (turns : Nat)
    (h : (generateDiscretsUpTo E newSPC m turns).error = none) :
    (generateDiscretsUpTo E newSPC m turns).state.model.analyses.by_id = m.analyses.by_id
      ∧ boundaries (generateDiscretsUpTo E newSPC m turns).state.model.analyses
          = boundaries m.analyses
      ∧ (∀ i, i ∉ List.range turns →
          (generateDiscretsUpTo E newSPC m turns).state.model.mesh.nodes[i]? = m.mesh.nodes[i]?)
      ∧ CarrierGroup "VDiscrTR" [0, 0, 0, 0, 0, 0]
          (generateDiscretsUpTo E newSPC m turns).state.virtualDiscretTRGroup
          (generateDiscretsUpTo E newSPC m turns).state.model.mesh
          (generateDiscretsUpTo E newSPC m turns).state.model.elementSets.objs
      ∧ CarrierGroup "VDiscrT" [0, 0, 0]
          (generateDiscretsUpTo E newSPC m turns).state.virtualDiscretTGroup
          (generateDiscretsUpTo E newSPC m turns).state.model.mesh
          (generateDiscretsUpTo E newSPC m turns).state.model.elementSets.objs
      ∧ ∃ added,
          (generateDiscretsUpTo E newSPC m turns).state.model.elementSets.objs
              = m.elementSets.objs ++ added
            ∧ added.countP (isDiscretePoint [0, 0, 0, 0, 0, 0])
                = (if (generateDiscretsUpTo E newSPC m turns).state.virtualDiscretTRGroup.isSome
                    then 1 else 0)
            ∧ added.countP (isDiscretePoint [0, 0, 0])
                = (if (generateDiscretsUpTo E newSPC m turns).state.virtualDiscretTGroup.isSome
                    then 1 else 0)
            ∧ ∀ es ∈ added, isDiscretePoint [0, 0, 0, 0, 0, 0] es = true
                ∨ isDiscretePoint [0, 0, 0] es = true := by
  have key := Outcome.foldl_andThen_invariant
    (fun (st : DiscretsState Lg LSd Cg CSd) (position : Nat) =>
      generateDiscretsNode E newSPC st position)
    (fun done st =>
      st.model.analyses.by_id = m.analyses.by_id
        ∧ boundaries st.model.analyses = boundaries m.analyses
        ∧ (∀ i, i ∉ done → st.model.mesh.nodes[i]? = m.mesh.nodes[i]?)
        ∧ CarrierGroup "VDiscrTR" [0, 0, 0, 0, 0, 0] st.virtualDiscretTRGroup st.model.mesh
            st.model.elementSets.objs
        ∧ CarrierGroup "VDiscrT" [0, 0, 0] st.virtualDiscretTGroup st.model.mesh
            st.model.elementSets.objs
        ∧ ∃ added, st.model.elementSets.objs = m.elementSets.objs ++ added
            ∧ added.countP (isDiscretePoint [0, 0, 0, 0, 0, 0])
                = (if st.virtualDiscretTRGroup.isSome then 1 else 0)
            ∧ added.countP (isDiscretePoint [0, 0, 0])
                = (if st.virtualDiscretTGroup.isSome then 1 else 0)
            ∧ ∀ es ∈ added, isDiscretePoint [0, 0, 0, 0, 0, 0] es = true
                ∨ isDiscretePoint [0, 0, 0] es = true)
    (by
      intro done x st ⟨hid, hb, hnat, hTR, hT, added, hobjs, hc6, hc3, hkinds⟩ herr
      dsimp only at herr ⊢
      cases hn : st.model.mesh.findNode (x : Int) with
      | none =>
        rw [generateDiscretsNode_of_no_node E newSPC st x hn]
        exact ⟨hid, hb, fun i hi => hnat i (fun hd => hi (List.mem_append_left _ hd)), hTR, hT,
          added, hobjs, hc6, hc3, hkinds⟩
      | some node =>
        obtain ⟨hid2, hb2, hnodes⟩ := generateDiscretsNode_nodes E newSPC st x node hn herr
        obtain ⟨hTR2, hT2, ⟨added2, hobjs2, hc62, hc32, hkinds2⟩, -, -, -⟩ :=
          generateDiscretsNode_effect E newSPC st x node hn herr hTR hT
        refine ⟨hid2.trans hid, hb2.trans hb, ?_, hTR2, hT2, added ++ added2, ?_, ?_, ?_, ?_⟩
        · intro i hi
          have hix : x ≠ i := fun hxi => hi (List.mem_append_right _ (by simp [hxi]))
          rw [hnodes, List.getElem?_modify,
            ← hnat i (fun hd => hi (List.mem_append_left _ hd))]
          cases st.model.mesh.nodes[i]? with
          | none => rfl
          | some a => simp [hix]
        · rw [hobjs2, hobjs, List.append_assoc]
        · rw [List.countP_append, hc6]
          omega
        · rw [List.countP_append, hc3]
          omega
        · intro es hes
          rcases List.mem_append.1 hes with hes | hes
          · exact hkinds es hes
          · exact hkinds2 es hes)
    (List.range turns) []
    { model := m, virtualDiscretTRGroup := none, virtualDiscretTGroup := none }
    ⟨rfl, rfl, fun _ _ => rfl, (by intro g hg; cases hg), (by intro g hg; cases hg), [],
      (by simp), rfl, rfl, (by intro es hes; cases hes)⟩ h
  simpa using key

theorem missingOfNode_congr (c c2 : Container Nat AnalysisData) (hid : c2.by_id = c.by_id)
    (hb : boundaries c2 = boundaries c) (node : Node) :
    missingOfNode c2 node = missingOfNode c node := by
  ext x
  rw [mem_missingOfNode, mem_missingOfNode]
  constructor
  · rintro ⟨a, ha, hx, hn⟩
    obtain ⟨a2, ha2, hbd⟩ := registered_boundary_transfer c2 c hid.symm hb.symm a ha
    exact ⟨a2, ha2, by rw [findBoundaryDOFS_congr a a2 hbd]; exact hx, hn⟩
  · rintro ⟨a, ha, hx, hn⟩
    obtain ⟨a2, ha2, hbd⟩ := registered_boundary_transfer c c2 hid hb a ha
    exact ⟨a2, ha2, by rw [findBoundaryDOFS_congr a a2 hbd]; exact hx, hn⟩

theorem findNode_congr (mesh mesh2 : Mesh) (k : Nat) (h : mesh2.nodes[k]? = mesh.nodes[k]?) :
    mesh2.findNode (k : Int) = mesh.findNode (k : Int) := by
  unfold Mesh.findNode
  rw [if_pos (Int.natCast_nonneg k), if_pos (Int.natCast_nonneg k), Int.toNat_natCast, h]

theorem receivesCell_cells_ne (groupName : String) (stiffness : List ℚ) (mesh mesh2 : Mesh)
    (elementSets : List (Identifiable Nat ElementSetData)) (node : Node)
    (h : ReceivesCell groupName stiffness mesh mesh2 elementSets node) :
    mesh2.cells ≠ mesh.cells := by
  obtain ⟨cell, g, grp, hcells, -⟩ := h
  intro heq
  rw [heq] at hcells
  have := congrArg List.length hcells
  simp at this

theorem containsAnyOf_rotations_iff (dofs : DOFS) :
    dofs.containsAnyOf DOFS.ROTATIONS = true ↔ ∃ x ∈ dofs, x ∈ DOFS.ROTATIONS := by
  unfold DOFS.containsAnyOf
  rw [decide_eq_true_iff]
  constructor
  · rintro ⟨x, hx⟩
    exact ⟨x, (Finset.mem_inter.1 hx).1, (Finset.mem_inter.1 hx).2⟩
  · rintro ⟨x, hx, hr⟩
    exact ⟨x, Finset.mem_inter.2 ⟨hx, hr⟩⟩

theorem subset_translations_iff (dofs : DOFS) :
    dofs ⊆ DOFS.TRANSLATIONS ↔ ¬ ∃ x ∈ dofs, x ∈ DOFS.ROTATIONS := by
  have key : ∀ x : DOF, x ∈ DOFS.TRANSLATIONS ↔ x ∉ DOFS.ROTATIONS := by
    intro x
    cases x <;> decide
  constructor
  · rintro hsub ⟨x, hx, hr⟩
    exact (key x).1 (hsub hx) hr
  · intro hno x hx
    exact (key x).2 (fun hr => hno ⟨x, hx, hr⟩)

theorem turnEffect_cases (missing : DOFS) (node : Node) (st st2 : DiscretsState Lg LSd Cg CSd)
    (eff : TurnEffect missing node st st2) :
    (ReceivesCell "VDiscrTR" [0, 0, 0, 0, 0, 0] st.model.mesh st2.model.mesh
        st2.model.elementSets.objs node ↔ ∃ x ∈ missing, x ∈ DOFS.ROTATIONS)
      ∧ (ReceivesCell "VDiscrT" [0, 0, 0] st.model.mesh st2.model.mesh
          st2.model.elementSets.objs node ↔ missing.Nonempty ∧ missing ⊆ DOFS.TRANSLATIONS)
      ∧ (st2.model.mesh.cells = st.model.mesh.cells
            ∧ st2.model.mesh.cellGroups = st.model.mesh.cellGroups ↔ missing = ∅) := by
  obtain ⟨-, -, -, hTR, hT, hnone⟩ := eff
  have hne : "VDiscrTR" ≠ "VDiscrT" := by decide
  by_cases hsize : missing.size ≠ 0
  · have hnonempty : missing.Nonempty := Finset.card_ne_zero.1 hsize
    have hnotempty : missing ≠ ∅ := Finset.nonempty_iff_ne_empty.1 hnonempty
    by_cases hrot : missing.containsAnyOf DOFS.ROTATIONS = true
    · have hrc := hTR hsize hrot
      have hex := (containsAnyOf_rotations_iff missing).1 hrot
      refine ⟨⟨fun _ => hex, fun _ => hrc⟩, ⟨fun h2 => ?_, fun h2 => ?_⟩, ⟨fun h2 => ?_, fun h2 => ?_⟩⟩
      · exact absurd (receivesCell_name_unique _ _ _ _ _ _ _ _ _ hrc h2) hne
      · exact absurd hex ((subset_translations_iff missing).1 h2.2)
      · exact absurd h2.1 (receivesCell_cells_ne _ _ _ _ _ _ hrc)
      · exact absurd h2 hnotempty
    · have hrotf : missing.containsAnyOf DOFS.ROTATIONS = false := by
        simpa using hrot
      have hrc := hT hsize hrotf
      have hex : ¬ ∃ x ∈ missing, x ∈ DOFS.ROTATIONS :=
        fun hex => hrot ((containsAnyOf_rotations_iff missing).2 hex)
      refine ⟨⟨fun h2 => ?_, fun h2 => ?_⟩, ⟨fun _ => ?_, fun _ => hrc⟩, ⟨fun h2 => ?_, fun h2 => ?_⟩⟩
      · exact absurd (receivesCell_name_unique _ _ _ _ _ _ _ _ _ h2 hrc) hne
      · exact absurd h2 hex
      · exact ⟨hnonempty, (subset_translations_iff missing).2 hex⟩
      · exact absurd h2.1 (receivesCell_cells_ne _ _ _ _ _ _ hrc)
      · exact absurd h2 hnotempty
  · have hzero : missing.size = 0 := by
      simpa using hsize
    have hempty : missing = ∅ := Finset.card_eq_zero.1 hzero
    have hsame := hnone hzero
    refine ⟨⟨fun h2 => ?_, fun h2 => ?_⟩, ⟨fun h2 => ?_, fun h2 => ?_⟩, ⟨fun _ => hempty, fun _ => hsame⟩⟩
    · exact absurd hsame.1 (receivesCell_cells_ne _ _ _ _ _ _ h2)
    · obtain ⟨x, hx, -⟩ := h2
      rw [hempty] at hx
      cases hx
    · exact absurd hsame.1 (receivesCell_cells_ne _ _ _ _ _ _ h2)
    · obtain ⟨⟨x, hx⟩, -⟩ := h2
      rw [hempty] at hx
      cases hx

/-- C16. In a run of `generateDiscrets` that completes, the turn of the loop for a
node gives the node a point cell of the 6-DOF group "VDiscrTR" exactly when the
missing DOFs of the node (the union over the analyses of the required boundary DOFs
at the node that are not native DOFs of the node) contain a rotation, a point cell
of the 3-DOF group "VDiscrT" exactly when they are non-empty and purely
translational, and leaves the cells and the cell groups as they were exactly when
they are empty; and the model gains at most one element set of each of the two
kinds, and no other element set. -/
theorem generateDiscrets_carriers [Inhabited CSd] (E : Enumerators) (newSPC : DOFS → Int → Cg)
    (m : Model Lg LSd Cg CSd) (h : (generateDiscrets E newSPC m).error = none) :
    (∀ (k : Nat) (node : Node), m.mesh.findNode (k : Int) = some node →
      (ReceivesCell "VDiscrTR" [0, 0, 0, 0, 0, 0]
          (generateDiscretsUpTo E newSPC m k).state.model.mesh
          (generateDiscretsUpTo E newSPC m (k + 1)).state.model.mesh
          (generateDiscretsUpTo E newSPC m (k + 1)).state.model.elementSets.objs node
        ↔ ∃ x ∈ missingOfNode m.analyses node, x ∈ DOFS.ROTATIONS)
      ∧ (ReceivesCell "VDiscrT" [0, 0, 0]
          (generateDiscretsUpTo E newSPC m k).state.model.mesh
          (generateDiscretsUpTo E newSPC m (k + 1)).state.model.mesh
          (generateDiscretsUpTo E newSPC m (k + 1)).state.model.elementSets.objs node
        ↔ (missingOfNode m.analyses node).Nonempty
            ∧ missingOfNode m.analyses node ⊆ DOFS.TRANSLATIONS)
      ∧ ((generateDiscretsUpTo E newSPC m (k + 1)).state.model.mesh.cells
            = (generateDiscretsUpTo E newSPC m k).state.model.mesh.cells
          ∧ (generateDiscretsUpTo E newSPC m (k + 1)).state.model.mesh.cellGroups
            = (generateDiscretsUpTo E newSPC m k).state.model.mesh.cellGroups
        ↔ missingOfNode m.analyses node = ∅))
    ∧ ∃ added, (generateDiscrets E newSPC m).state.elementSets.objs = m.elementSets.objs ++ added
        ∧ added.countP (isDiscretePoint [0, 0, 0, 0, 0, 0]) ≤ 1
        ∧ added.countP (isDiscretePoint [0, 0, 0]) ≤ 1
        ∧ ∀ es ∈ added, isDiscretePoint [0, 0, 0, 0, 0, 0] es = true
            ∨ isDiscretePoint [0, 0, 0] es = true := by
  unfold generateDiscrets generateDiscretsRun at h ⊢
  simp only [Outcome.mapState] at h ⊢
  constructor
  · intro k node hnode
    have hlt : k < m.mesh.nodes.length :=
      (List.getElem?_eq_some_iff.1 (findNode_cast _ _ _ hnode).2).1
    have hk1 : (generateDiscretsUpTo E newSPC m (k + 1)).error = none := by
      apply generateDiscretsUpTo_error_none E newSPC m (m.mesh.nodes.length - (k + 1)) (k + 1)
      rw [Nat.add_sub_cancel' hlt]
      exact h
    have hk : (generateDiscretsUpTo E newSPC m k).error = none :=
      generateDiscretsUpTo_error_none E newSPC m 1 k hk1
    obtain ⟨hid, hb, hnat, hTR, hT, -⟩ := generateDiscretsUpTo_carriers E newSPC m k hk
    have hn : (generateDiscretsUpTo E newSPC m k).state.model.mesh.findNode (k : Int)
        = some node := by
      rw [findNode_congr _ _ k (hnat k (by simp)), hnode]
    rw [generateDiscretsUpTo_succ, Outcome.andThen_of_error_none _ _ hk] at hk1 ⊢
    have eff := generateDiscretsNode_effect E newSPC _ k node hn hk1 hTR hT
    rw [missingDOFS_eq_missingOfNode, missingOfNode_congr _ _ hid hb] at eff
    exact turnEffect_cases _ node _ _ eff
  · obtain ⟨-, -, -, -, -, added, hobjs, hc6, hc3, hkinds⟩ :=
      generateDiscretsUpTo_carriers E newSPC m m.mesh.nodes.length h
    refine ⟨added, hobjs, ?_, ?_, hkinds⟩
    · rw [hc6]
      split <;> decide
    · rw [hc3]
      split <;> decide

theorem generateDiscrets_carriers_witness :
    (generateDiscrets Sample.enumerators Prod.mk Sample.mTwoAnalyses).error = none
      ∧ Sample.mTwoAnalyses.mesh.findNode 0
          = some { position := 0, id := 1, dofs := DOFS.TRANSLATIONS }
      ∧ (ReceivesCell "VDiscrTR" [0, 0, 0, 0, 0, 0]
          (generateDiscretsUpTo Sample.enumerators Prod.mk Sample.mTwoAnalyses 0).state.model.mesh
          (generateDiscretsUpTo Sample.enumerators Prod.mk Sample.mTwoAnalyses
            (0 + 1)).state.model.mesh
          (generateDiscretsUpTo Sample.enumerators Prod.mk Sample.mTwoAnalyses
            (0 + 1)).state.model.elementSets.objs
          { position := 0, id := 1, dofs := DOFS.TRANSLATIONS }
        ↔ ∃ x ∈ missingOfNode Sample.mTwoAnalyses.analyses
              { position := 0, id := 1, dofs := DOFS.TRANSLATIONS },
            x ∈ DOFS.ROTATIONS) :=
  ⟨by decide, by decide,
    ((generateDiscrets_carriers Sample.enumerators Prod.mk Sample.mTwoAnalyses (by decide)).1 0
      { position := 0, id := 1, dofs := DOFS.TRANSLATIONS } (by decide)).1⟩

theorem foldl_invariant_of_mem {σ ι : Type} (f : σ → ι → σ) (Inv : List ι → σ → Prop)
    (l : List ι)
    (hstep : ∀ done x s, x ∈ l → Inv done s → Inv (done ++ [x]) (f s x)) (s : σ)
    (h0 : Inv [] s) : Inv l (l.foldl f s) := by
  have key : ∀ (rest done : List ι) (s : σ), done ++ rest = l → Inv done s →
      Inv l (rest.foldl f s) := by
    intro rest
    induction rest with
    | nil =>
      intro done s hl hs
      rw [List.append_nil] at hl
      rw [← hl]
      exact hs
    | cons x xs ih =>
      intro done s hl hs
      rw [List.foldl_cons]
      apply ih (done ++ [x]) (f s x) (by rw [List.append_assoc]; exact hl)
      exact hstep done x s (by rw [← hl]; simp) hs
  exact key l [] s rfl h0

theorem find_erase_of_disjoint {τ α : Type} [DecidableEq τ] (c : Container τ α)
    (r0 r : Reference τ)
    (horig : ∀ o, r.original_id = some o → ¬ (r0.type = r.type ∧ r0.original_id = some o))
    (hid : r.original_id = none → ∀ i, r.id = some i → r0.id ≠ some i) :
    (c.erase r0).find r = c.find r := by
  unfold Container.find Container.erase
  cases ho : r.original_id with
  | some o =>
    dsimp only
    cases ho0 : r0.original_id with
    | none => rfl
    | some o0 =>
      dsimp only
      by_cases ht : r0.type = r.type
      · have hne : o0 ≠ o := by
          intro h
          exact horig o ho ⟨ht, by rw [ho0, h]⟩
        rw [ht, KeyMap.find_assign_self]
        unfold KeyMap.atOrEmpty
        cases hin : KeyMap.find c.by_original_ids_by_type r.type with
        | none => simp [KeyMap.erase, KeyMap.find]
        | some inner => simp [KeyMap.find_erase_ne _ _ _ hne]
      · rw [KeyMap.find_assign_ne _ _ _ _ ht]
  | none =>
    dsimp only
    cases hi : r.id with
    | none => rfl
    | some i =>
      dsimp only
      cases hi0 : r0.id with
      | none => rfl
      | some i0 =>
        have hne : i0 ≠ i := by
          intro h
          exact hid ho i hi (by rw [hi0, h])
        simp only [KeyMap.eraseOpt]
        exact KeyMap.find_erase_ne _ _ _ hne

theorem find_erase_own_reference {τ α : Type} [DecidableEq τ] (c c2 : Container τ α)
    (o0 o : Identifiable τ α) (p0 p : Nat)
    (h0 : c.find o0.getReference = some p0) (h : c.find o.getReference = some p)
    (hne : p0 ≠ p) :
    (c2.erase o0.getReference).find o.getReference = c2.find o.getReference := by
  have hrefne : o0.getReference ≠ o.getReference := by
    intro heq
    rw [heq, h] at h0
    exact hne (Option.some.inj h0).symm
  apply find_erase_of_disjoint
  · intro orig horig hboth
    apply hrefne
    simp only [Identifiable.getReference, Identifiable.isOriginal] at horig hboth ⊢
    obtain ⟨ht, ho0⟩ := hboth
    simp [ht, ho0, horig]
  · intro horig i hi hi0
    apply hne
    have e1 : c.find o0.getReference = c.find o.getReference := by
      simp only [Identifiable.getReference, Identifiable.isOriginal] at horig hi hi0
      cases ho0 : o0.original_id with
      | some x => simp [ho0] at hi0
      | none =>
        simp only [ho0, horig, Option.isSome_none, Bool.false_eq_true, if_false,
          Option.some.injEq] at hi hi0
        unfold Container.find
        simp [Identifiable.getReference, Identifiable.isOriginal, horig, ho0, hi, hi0]
    rw [h0, h] at e1
    exact Option.some.inj e1

theorem containsObjective_step_of_ne (ref ref2 : Reference ObjectiveType) (h : ref2 ≠ ref)
    (x : Analysis) :
    Analysis.containsObjective
      (if Analysis.containsObjective x ref = true then Analysis.removeObjective x ref else x)
      ref2 = Analysis.containsObjective x ref2 := by
  by_cases hx : x.containsObjective ref = true
  · rw [if_pos hx]
    simp [Analysis.containsObjective, Analysis.removeObjective, h]
  · rw [if_neg hx]

theorem containsObjective_step_of_false (ref ref2 : Reference ObjectiveType) (x : Analysis)
    (h : Analysis.containsObjective x ref2 = false) :
    Analysis.containsObjective
      (if Analysis.containsObjective x ref = true then Analysis.removeObjective x ref else x)
      ref2 = false := by
  by_cases h2 : ref2 = ref
  · rw [h2]
    exact containsObjective_after_step ref x
  · rw [containsObjective_step_of_ne ref ref2 h2 x]
    exact h

theorem disassociateObjective_getElem? (analyses : Container Nat AnalysisData)
    (ref : Reference ObjectiveType) (i : Nat) :
    (disassociateObjective analyses ref).objs[i]?
      = if i ∈ analyses.by_id.map Prod.snd then
          (analyses.objs[i]?).map
            (fun a =>
              if Analysis.containsObjective a ref then Analysis.removeObjective a ref else a)
        else analyses.objs[i]? := by
  unfold disassociateObjective
  apply getElem?_foldl_modify
  intro a
  rw [if_neg]
  rw [containsObjective_after_step ref a]
  exact Bool.false_ne_true

theorem removeObjective_analyses_getElem? (m : Model Lg LSd Cg CSd)
    (ref : Reference ObjectiveType) (i : Nat) :
    (m.removeObjective ref).analyses.objs[i]? = m.analyses.objs[i]?
      ∨ (m.removeObjective ref).analyses.objs[i]?
          = (m.analyses.objs[i]?).map
              (fun a =>
                if Analysis.containsObjective a ref then Analysis.removeObjective a ref
                else a) := by
  unfold removeObjective
  dsimp only
  split
  · split
    · rw [disassociateObjective_getElem?]
      split
      · exact Or.inr rfl
      · exact Or.inl rfl
    · exact Or.inl rfl
  · exact Or.inl rfl

theorem removeObjective_analyses_of_assertion (m : Model Lg LSd Cg CSd)
    (ref : Reference ObjectiveType) (ptr : Nat) (objective : Objective)
    (hfind : m.objectives.find ref = some ptr) (hobj : m.objectives.objs[ptr]? = some objective)
    (hass : objective.data.isAssertion = true) (entry : Int × Nat)
    (hentry : entry ∈ m.analyses.by_id) :
    (m.removeObjective ref).analyses.objs[entry.2]?
      = (m.analyses.objs[entry.2]?).map
          (fun a =>
            if Analysis.containsObjective a ref then Analysis.removeObjective a ref else a) := by
  unfold removeObjective
  dsimp only
  rw [hfind]
  simp only [Container.deref, hobj, hass, if_true]
  rw [disassociateObjective_getElem?, if_pos (List.mem_map_of_mem _ hentry)]

theorem removeObjective_analyses_by_id (m : Model Lg LSd Cg CSd)
    (ref : Reference ObjectiveType) :
    (m.removeObjective ref).analyses.by_id = m.analyses.by_id := by
  unfold removeObjective
  dsimp only
  split
  · split
    · rfl
    · rfl
  · rfl

theorem removeObjectiveAt_fold (m : Model Lg LSd Cg CSd) (L : List Nat)
    (hgood : ∀ ptr ∈ L, ∃ o, m.objectives.objs[ptr]? = some o ∧ o.data.isAssertion = true
      ∧ m.objectives.find o.getReference = some ptr) :
    (L.foldl removeObjectiveAt m).objectives.objs = m.objectives.objs
      ∧ (L.foldl removeObjectiveAt m).analyses.by_id = m.analyses.by_id
      ∧ (∀ ptr ∈ L, ∀ o, m.objectives.objs[ptr]? = some o →
          (L.foldl removeObjectiveAt m).objectives.find o.getReference = none
            ∧ ∀ entry ∈ m.analyses.by_id, ∀ a : Analysis,
                (L.foldl removeObjectiveAt m).analyses.objs[entry.2]? = some a →
                Analysis.containsObjective a o.getReference = false)
      ∧ (∀ (p : Nat) (o : Objective), m.objectives.find o.getReference = some p → p ∉ L →
          (L.foldl removeObjectiveAt m).objectives.find o.getReference = some p
            ∧ ∀ (i : Nat) (a : Analysis), m.analyses.objs[i]? = some a →
                ∃ a2 : Analysis, (L.foldl removeObjectiveAt m).analyses.objs[i]? = some a2
                  ∧ Analysis.containsObjective a2 o.getReference
                      = Analysis.containsObjective a o.getReference) := by
  have key := foldl_invariant_of_mem removeObjectiveAt
    (fun done (m2 : Model Lg LSd Cg CSd) =>
      (∀ ptr ∈ done, ptr ∈ L)
        ∧ m2.objectives.objs = m.objectives.objs
        ∧ m2.analyses.by_id = m.analyses.by_id
        ∧ (∀ ptr ∈ done, ∀ o, m.objectives.objs[ptr]? = some o →
            m2.objectives.find o.getReference = none
              ∧ ∀ entry ∈ m.analyses.by_id, ∀ a : Analysis,
                  m2.analyses.objs[entry.2]? = some a →
                  Analysis.containsObjective a o.getReference = false)
        ∧ (∀ (p : Nat) (o : Objective), m.objectives.find o.getReference = some p → p ∉ done →
            m2.objectives.find o.getReference = some p
              ∧ ∀ (i : Nat) (a : Analysis), m.analyses.objs[i]? = some a →
                  ∃ a2 : Analysis, m2.analyses.objs[i]? = some a2
                    ∧ Analysis.containsObjective a2 o.getReference
                        = Analysis.containsObjective a o.getReference)) L
    (by
      intro done x m2 hx ⟨J0, J1, J2, J3, J4⟩
      obtain ⟨ox, hox, hass, hfx⟩ := hgood x hx
      have hstep : removeObjectiveAt m2 x = m2.removeObjective ox.getReference := by
        unfold removeObjectiveAt
        rw [J1, hox]
      rw [hstep]
      have hobjs : (m2.removeObjective ox.getReference).objectives
          = m2.objectives.erase ox.getReference := rfl
      have hmap : ∀ (i : Nat) (a0 a1 : Analysis), m2.analyses.objs[i]? = some a0 →
          (m2.removeObjective ox.getReference).analyses.objs[i]? = some a1 →
          a1 = a0 ∨ a1 = (if Analysis.containsObjective a0 ox.getReference = true then
            Analysis.removeObjective a0 ox.getReference else a0) := by
        intro i a0 a1 h0 h1
        rcases removeObjective_analyses_getElem? m2 ox.getReference i with h | h
        · rw [h, h0] at h1
          exact Or.inl (Option.some.inj h1).symm
        · rw [h, h0] at h1
          exact Or.inr (Option.some.inj h1).symm
      have hex : ∀ (i : Nat) (a1 : Analysis),
          (m2.removeObjective ox.getReference).analyses.objs[i]? = some a1 →
          ∃ a0 : Analysis, m2.analyses.objs[i]? = some a0 := by
        intro i a1 h1
        rcases removeObjective_analyses_getElem? m2 ox.getReference i with h | h
        · exact ⟨a1, by rw [← h]; exact h1⟩
        · rw [h] at h1
          cases h2 : m2.analyses.objs[i]? with
          | none => rw [h2] at h1; cases h1
          | some a0 => exact ⟨a0, rfl⟩
      have hex2 : ∀ (i : Nat) (a0 : Analysis), m2.analyses.objs[i]? = some a0 →
          ∃ a1 : Analysis, (m2.removeObjective ox.getReference).analyses.objs[i]? = some a1
            ∧ (a1 = a0 ∨ a1 = (if Analysis.containsObjective a0 ox.getReference = true then
              Analysis.removeObjective a0 ox.getReference else a0)) := by
        intro i a0 h0
        rcases removeObjective_analyses_getElem? m2 ox.getReference i with h | h
        · exact ⟨a0, by rw [h]; exact h0, Or.inl rfl⟩
        · exact ⟨_, by rw [h, h0]; rfl, Or.inr rfl⟩
      refine ⟨?_, J1, (removeObjective_analyses_by_id m2 _).trans J2, ?_, ?_⟩
      · intro ptr hptr
        rcases List.mem_append.1 hptr with h | h
        · exact J0 ptr h
        · rw [List.mem_singleton.1 h]
          exact hx
      · intro ptr hptr o ho
        by_cases hpx : ptr = x
        · subst hpx
          rw [hox] at ho
          cases ho
          refine ⟨by rw [hobjs]; exact find_after_erase _ _, ?_⟩
          intro entry hentry a ha
          by_cases hdone : ptr ∈ done
          · obtain ⟨a0, h0⟩ := hex entry.2 a ha
            rcases hmap entry.2 a0 a h0 ha with h | h
            · rw [h]
              exact (J3 ptr hdone ox hox).2 entry hentry a0 h0
            · rw [h]
              exact containsObjective_after_step _ a0
          · obtain ⟨hf2, -⟩ := J4 ptr ox hfx hdone
            rw [removeObjective_analyses_of_assertion m2 ox.getReference ptr ox hf2
              (by rw [J1]; exact hox) hass entry (by rw [J2]; exact hentry)] at ha
            cases h2 : m2.analyses.objs[entry.2]? with
            | none => rw [h2] at ha; cases ha
            | some a0 =>
              rw [h2] at ha
              simp only [Option.map_some', Option.some.injEq] at ha
              rw [← ha]
              exact containsObjective_after_step _ a0
        · have hdone : ptr ∈ done := by
            rcases List.mem_append.1 hptr with h | h
            · exact h
            · exact absurd (List.mem_singleton.1 h) hpx
          obtain ⟨hnone, hcont⟩ := J3 ptr hdone o ho
          obtain ⟨o2, ho2, -, hfp⟩ := hgood ptr (J0 ptr hdone)
          rw [ho] at ho2
          cases ho2
          refine ⟨?_, ?_⟩
          · rw [hobjs, find_erase_own_reference m.objectives m2.objectives ox o x ptr hfx hfp
              (Ne.symm hpx)]
            exact hnone
          · intro entry hentry a ha
            obtain ⟨a0, h0⟩ := hex entry.2 a ha
            rcases hmap entry.2 a0 a h0 ha with h | h
            · rw [h]
              exact hcont entry hentry a0 h0
            · rw [h]
              exact containsObjective_step_of_false _ _ a0 (hcont entry hentry a0 h0)
      · intro p o hfind hp
        have hpx : x ≠ p := fun h => hp (List.mem_append_right _ (by simp [h]))
        have hpd : p ∉ done := fun h => hp (List.mem_append_left _ h)
        obtain ⟨hf2, han⟩ := J4 p o hfind hpd
        refine ⟨?_, ?_⟩
        · rw [hobjs, find_erase_own_reference m.objectives m2.objectives ox o x p hfx hfind hpx]
          exact hf2
        · intro i a ha
          obtain ⟨a0, h0, hc0⟩ := han i a ha
          obtain ⟨a1, h1, hor⟩ := hex2 i a0 h0
          refine ⟨a1, h1, ?_⟩
          rw [← hc0]
          rcases hor with h | h
          · rw [h]
          · rw [h]
            apply containsObjective_step_of_ne
            intro heq
            rw [heq, hfx] at hfind
            exact hpx (Option.some.inj hfind))
    m
    ⟨(by intro ptr h; cases h), rfl, rfl, (by intro ptr h; cases h),
      fun p o hfind _ => ⟨hfind, fun i a ha => ⟨a, ha, rfl⟩⟩⟩
  exact ⟨key.2.1, key.2.2.1, key.2.2.2.1, key.2.2.2.2⟩

theorem missesDOFS_iff (m : Model Lg LSd Cg CSd) (analysis : Analysis) (assertion : Objective)
    (nodePosition : Int) :
    missesDOFS m analysis assertion nodePosition = true
      ↔ ∃ dofs, assertion.data.getDOFSForNode nodePosition = some dofs ∧ dofs.Nonempty
          ∧ ¬ dofs ⊆ nodeDOFS m.mesh nodePosition
                ∪ Analysis.findBoundaryDOFS analysis nodePosition := by
  unfold missesDOFS
  cases h : assertion.data.getDOFSForNode nodePosition with
  | none => simp
  | some dofs =>
    simp only [Bool.and_eq_true, decide_eq_true_eq, Bool.not_eq_true', Option.some.injEq,
      exists_eq_left', DOFS.containsAll, decide_eq_false_iff_not, DOFS.size]
    constructor
    · rintro ⟨h1, h2⟩
      exact ⟨Finset.card_pos.1 h1, h2⟩
    · rintro ⟨h1, h2⟩
      exact ⟨Finset.card_pos.2 h1, h2⟩

theorem mem_getAssertions (m : Model Lg LSd Cg CSd) (analysis : Analysis) (ptr : Nat) :
    ptr ∈ m.getAssertions analysis
      ↔ ∃ reference ∈ analysis.data.objectiveReferences,
          m.objectives.find reference = some ptr
            ∧ ∃ o, m.objectives.objs[ptr]? = some o ∧ o.data.isAssertion = true := by
  unfold getAssertions
  rw [List.mem_filterMap]
  constructor
  · rintro ⟨reference, hmem, h⟩
    refine ⟨reference, hmem, ?_⟩
    cases hf : m.objectives.find reference with
    | none => rw [hf] at h; cases h
    | some q =>
      rw [hf] at h
      dsimp only at h
      cases ho : m.objectives.objs[q]? with
      | none => rw [ho] at h; cases h
      | some o =>
        rw [ho] at h
        dsimp only at h
        by_cases hass : o.data.isAssertion = true
        · rw [if_pos hass] at h
          cases h
          exact ⟨rfl, o, ho, hass⟩
        · rw [if_neg hass] at h
          cases h
  · rintro ⟨reference, hmem, hf, o, ho, hass⟩
    refine ⟨reference, hmem, ?_⟩
    rw [hf]
    dsimp only
    rw [ho]
    dsimp only
    rw [if_pos hass]

theorem mem_objectivesToRemove (m : Model Lg LSd Cg CSd) (ptr : Nat) :
    ptr ∈ m.objectivesToRemove
      ↔ ∃ o, m.objectives.objs[ptr]? = some o ∧ Unreachable m ptr o := by
  unfold objectivesToRemove Unreachable
  rw [List.mem_flatMap]
  constructor
  · rintro ⟨analysis, ha, h⟩
    rw [List.mem_flatMap] at h
    obtain ⟨q, hq, hptr⟩ := h
    obtain ⟨reference, hmem, hf, o, ho, hass⟩ := (mem_getAssertions m analysis q).1 hq
    rw [ho] at hptr
    dsimp only at hptr
    rw [List.mem_map] at hptr
    obtain ⟨nodePosition, hpos, rfl⟩ := hptr
    rw [List.mem_filter] at hpos
    obtain ⟨dofs, hd1, hd2, hd3⟩ := (missesDOFS_iff m analysis o nodePosition).1 hpos.2
    exact ⟨o, ho, hass, analysis, ha, ⟨reference, hmem, hf⟩, nodePosition, hpos.1, dofs, hd1, hd2,
      hd3⟩
  · rintro ⟨o, ho, hass, analysis, ha, ⟨reference, hmem, hf⟩, nodePosition, hpos, dofs, hd1, hd2,
      hd3⟩
    refine ⟨analysis, ha, ?_⟩
    rw [List.mem_flatMap]
    refine ⟨ptr, (mem_getAssertions m analysis ptr).2 ⟨reference, hmem, hf, o, ho, hass⟩, ?_⟩
    rw [ho]
    dsimp only
    rw [List.mem_map]
    exact ⟨nodePosition, List.mem_filter.2 ⟨hpos,
      (missesDOFS_iff m analysis o nodePosition).2 ⟨dofs, hd1, hd2, hd3⟩⟩, rfl⟩

/-- Assertion pruning, seen through the references. In a model whose catalog
resolves, through its own reference, every objective that an analysis holds, take an
objective of the catalog. If it is an unreachable assertion (for some analysis
holding it and some node of the assertion, its DOFs at that node are non-empty and
not contained in the native DOFs of the node united with the boundary DOFs of that
analysis at the node), then after `removeAssertionsMissingDOFS` the catalog no longer
resolves its own reference and no analysis contains it; what the catalog keeps of the
objective under its internal id is not stated here. Otherwise its reference resolves
to it as before, and an analysis contains it after the pass exactly when it did
before. -/
theorem removeAssertionsMissingDOFS_spec (m : Model Lg LSd Cg CSd)
    (hown : ∀ analysis ∈ registered m.analyses,
      ∀ reference ∈ analysis.data.objectiveReferences, ∀ (ptr : Nat) (objective : Objective),
        m.objectives.find reference = some ptr → m.objectives.objs[ptr]? = some objective →
        m.objectives.find objective.getReference = some ptr)
    (ptr : Nat) (objective : Objective)
    (hfind : m.objectives.find objective.getReference = some ptr)
    (hobj : m.objectives.objs[ptr]? = some objective) :
    (Unreachable m ptr objective →
        (removeAssertionsMissingDOFS m).objectives.find objective.getReference = none
          ∧ ∀ analysis ∈ registered (removeAssertionsMissingDOFS m).analyses,
              Analysis.containsObjective analysis objective.getReference = false)
      ∧ (¬ Unreachable m ptr objective →
          (removeAssertionsMissingDOFS m).objectives.find objective.getReference = some ptr
            ∧ (removeAssertionsMissingDOFS m).objectives.objs[ptr]? = some objective
            ∧ (removeAssertionsMissingDOFS m).analyses.by_id = m.analyses.by_id
            ∧ ∀ (i : Nat) (analysis : Analysis), m.analyses.objs[i]? = some analysis →
                ∃ analysis2 : Analysis,
                  (removeAssertionsMissingDOFS m).analyses.objs[i]? = some analysis2
                    ∧ Analysis.containsObjective analysis2 objective.getReference
                        = Analysis.containsObjective analysis objective.getReference) := by
  have hgood : ∀ q ∈ m.objectivesToRemove, ∃ o, m.objectives.objs[q]? = some o
      ∧ o.data.isAssertion = true ∧ m.objectives.find o.getReference = some q := by
    intro q hq
    obtain ⟨o, ho, hass, analysis, ha, ⟨reference, hmem, hf⟩, -⟩ :=
      (mem_objectivesToRemove m q).1 hq
    exact ⟨o, ho, hass, hown analysis ha reference hmem q o hf ho⟩
  obtain ⟨hobjs, hby, hremoved, hkept⟩ := removeObjectiveAt_fold m m.objectivesToRemove hgood
  unfold removeAssertionsMissingDOFS
  constructor
  · intro hun
    have hmem : ptr ∈ m.objectivesToRemove := (mem_objectivesToRemove m ptr).2 ⟨objective, hobj, hun⟩
    obtain ⟨h1, h2⟩ := hremoved ptr hmem objective hobj
    refine ⟨h1, ?_⟩
    intro analysis ha
    obtain ⟨entry, hentry, hea⟩ := (mem_registered _ analysis).1 ha
    rw [hby] at hentry
    exact h2 entry hentry analysis hea
  · intro hun
    have hmem : ptr ∉ m.objectivesToRemove := by
      intro hmem
      obtain ⟨o, ho, hun2⟩ := (mem_objectivesToRemove m ptr).1 hmem
      rw [hobj] at ho
      cases ho
      exact hun hun2
    obtain ⟨h1, h2⟩ := hkept ptr objective hfind hmem
    exact ⟨h1, by rw [hobjs]; exact hobj, hby, h2⟩

theorem removeAssertionsMissingDOFS_spec_witness :
    (Sample.mAssertions.objectives.find Sample.assertionRX.getReference = some 1
        ∧ Sample.mAssertions.objectives.objs[1]? = some Sample.assertionRX
        ∧ Unreachable Sample.mAssertions 1 Sample.assertionRX)
      ∧ (removeAssertionsMissingDOFS Sample.mAssertions).objectives.find
            Sample.assertionRX.getReference = none
      ∧ ∀ analysis ∈ registered (removeAssertionsMissingDOFS Sample.mAssertions).analyses,
          Analysis.containsObjective analysis Sample.assertionRX.getReference = false := by
  have hun : Unreachable Sample.mAssertions 1 Sample.assertionRX :=
    ⟨by decide, Sample.analysisAssertions, by decide,
      ⟨Sample.assertionRX.getReference, by decide, by decide⟩, 0, by decide, {DOF.RX}, rfl,
      ⟨DOF.RX, by decide⟩, by decide⟩
  refine ⟨⟨by decide, by decide, hun⟩,
    (removeAssertionsMissingDOFS_spec Sample.mAssertions ?_ 1 Sample.assertionRX (by decide)
      (by decide)).1 hun⟩
  intro analysis ha reference hr ptr objective hf ho
  have hreg : registered Sample.mAssertions.analyses = [Sample.analysisAssertions] := by decide
  rw [hreg, List.mem_singleton] at ha
  subst ha
  have hrefs : Sample.analysisAssertions.data.objectiveReferences
      = [Sample.assertionRef, Sample.assertionRX.getReference,
          Sample.assertionDX.getReference] := rfl
  rw [hrefs] at hr
  simp only [List.mem_cons, List.mem_singleton, List.not_mem_nil, or_false] at hr
  rcases hr with rfl | rfl | rfl
  · have h0 : Sample.mAssertions.objectives.find Sample.assertionRef = some 0 := by decide
    rw [h0] at hf
    cases hf
    have h1 : Sample.mAssertions.objectives.objs[0]? = some Sample.assertion0 := by decide
    rw [h1] at ho
    cases ho
    decide
  · have h0 : Sample.mAssertions.objectives.find Sample.assertionRX.getReference = some 1 := by
      decide
    rw [h0] at hf
    cases hf
    have h1 : Sample.mAssertions.objectives.objs[1]? = some Sample.assertionRX := by decide
    rw [h1] at ho
    cases ho
    exact h0
  · have h0 : Sample.mAssertions.objectives.find Sample.assertionDX.getReference = some 2 := by
      decide
    rw [h0] at hf
    cases hf
    have h1 : Sample.mAssertions.objectives.objs[2]? = some Sample.assertionDX := by decide
    rw [h1] at ho
    cases ho
    exact h0

theorem mem_getLoadingsByLoadSet_iff (m : Model Lg LSd Cg CSd) (s : Reference Nat)
    (x : Option Nat) :
    x ∈ m.getLoadingsByLoadSet s ↔
      ∃ r : Reference Nat,
        (r ∈ membersById m.loadingReferences_by_loadSet_ids s
          ∨ r ∈ membersByOriginalId
              m.loadingReferences_by_loadSet_original_ids_by_loadSet_type s)
        ∧ m.loadings.find r = x := by
  rw [getLoadingsByLoadSet_eq_foldl, mem_foldl_setInsert, mem_foldl_setInsert]
  constructor
  · rintro ((h | ⟨r, hr, hx⟩) | ⟨r, hr, hx⟩)
    · cases h
    · exact ⟨r, Or.inl hr, hx⟩
    · exact ⟨r, Or.inr hr, hx⟩
  · rintro ⟨r, hr | hr, hx⟩
    · exact Or.inl (Or.inr ⟨r, hr, hx⟩)
    · exact Or.inr ⟨r, hr, hx⟩

theorem LoadingsGrow.grow_refl (m : Model Lg LSd Cg CSd) : LoadingsGrow m m :=
  ⟨Nat.le_refl _, fun _ _ h => h, fun _ _ h => h, fun _ _ h => h, fun _ _ h => h, Int.le_refl _⟩

theorem LoadingsGrow.grow_trans {m m2 m3 : Model Lg LSd Cg CSd} (h : LoadingsGrow m m2)
    (h2 : LoadingsGrow m2 m3) : LoadingsGrow m m3 :=
  ⟨Nat.le_trans h.1 h2.1, fun i l hl => h2.2.1 i l (h.2.1 i l hl),
    fun r p hr => h2.2.2.1 r p (h.2.2.1 r p hr),
    fun s r hr => h2.2.2.2.1 s r (h.2.2.2.1 s r hr),
    fun s r hr => h2.2.2.2.2.1 s r (h.2.2.2.2.1 s r hr),
    Int.le_trans h.2.2.2.2.2 h2.2.2.2.2.2⟩

theorem mem_getLoadingsByLoadSet_of_grow {m m2 : Model Lg LSd Cg CSd} (h : LoadingsGrow m m2)
    (s : Reference Nat) (p : Nat) (hp : some p ∈ m.getLoadingsByLoadSet s) :
    some p ∈ m2.getLoadingsByLoadSet s := by
  rw [mem_getLoadingsByLoadSet_iff] at hp ⊢
  obtain ⟨r, hr, hx⟩ := hp
  refine ⟨r, ?_, h.2.2.1 r p hx⟩
  rcases hr with hr | hr
  · exact Or.inl (h.2.2.2.1 s r hr)
  · exact Or.inr (h.2.2.2.2.1 s r hr)

theorem GainedClone.mono (scale : ℚ → Lg → Lg) {m0 m m2 : Model Lg LSd Cg CSd}
    (s : Reference Nat) (l : Identifiable Nat Lg) (c : ℚ) (h : GainedClone scale m0 m s l c)
    (hg : LoadingsGrow m m2) : GainedClone scale m0 m2 s l c := by
  obtain ⟨q, clone, h1, h2, h3, h4, h5, h6, h7⟩ := h
  exact ⟨q, clone, h1, hg.2.1 q clone h2, h3, h4, h5, h6,
    mem_getLoadingsByLoadSet_of_grow hg s q h7⟩

theorem GainedClone.rebase (scale : ℚ → Lg → Lg) {m0 m1 m : Model Lg LSd Cg CSd}
    (s : Reference Nat) (l : Identifiable Nat Lg) (c : ℚ) (h : GainedClone scale m1 m s l c)
    (hg : LoadingsGrow m0 m1) : GainedClone scale m0 m s l c := by
  obtain ⟨q, clone, h1, h2, h3, h4, h5, h6, h7⟩ := h
  exact ⟨q, clone, Nat.le_trans hg.1 h1, h2, h3, Int.le_trans hg.2.2.2.2.2 h4, h5, h6, h7⟩

theorem addLoadingIntoLoadSet_of_resolved [Inhabited LSd] (m : Model Lg LSd Cg CSd)
    (l s : Reference Nat) (hs : (m.loadSets.find s).isSome = true) :
    m.addLoadingIntoLoadSet l s = Outcome.ok (m.insertLoadingReference l s) := by
  unfold addLoadingIntoLoadSet addCommonLoadSetIfNeeded
  have hs2 : ((m.insertLoadingReference l s).loadSets.find s).isSome = true := hs
  by_cases hc : s = (m.insertLoadingReference l s).commonLoadSet.getReference
      ∧ ((m.insertLoadingReference l s).loadSets.find
          (m.insertLoadingReference l s).commonLoadSet.getReference).isNone = true
  · exfalso
    obtain ⟨h1, h2⟩ := hc
    rw [← h1] at h2
    rw [Option.isNone_iff_eq_none] at h2
    rw [h2] at hs2
    cases hs2
  · rw [if_neg hc, Outcome.andThen_of_ok]
    unfold addMissingLoadSet
    rw [if_neg]
    rw [Option.isNone_iff_eq_none]
    intro hnone
    rw [hnone] at hs2
    cases hs2

theorem cloneLoadingInto_state (scale : ℚ → Lg → Lg) (m : Model Lg LoadSetData Cg CSd)
    (loadSet : Identifiable Nat LoadSetData) (c : ℚ) (lp : Option Nat) (l : Identifiable Nat Lg)
    (hfresh : FreshLoadingIds m) (hl : m.loadings.deref lp = some l)
    (hS : (m.loadSets.find loadSet.getReference).isSome = true) :
    (cloneLoadingInto scale m loadSet c lp).error = none
      ∧ (cloneLoadingInto scale m loadSet c lp).state.loadSets = m.loadSets
      ∧ (cloneLoadingInto scale m loadSet c lp).state.loading_auto_id = m.loading_auto_id + 1
      ∧ (cloneLoadingInto scale m loadSet c lp).state.loadings.objs
          = m.loadings.objs ++
              [{ id := m.loading_auto_id, original_id := none, type := l.type,
                 data := scale c l.data }]
      ∧ (cloneLoadingInto scale m loadSet c lp).state.loadings.by_id
          = m.loadings.by_id.assign m.loading_auto_id m.loadings.objs.length
      ∧ (cloneLoadingInto scale m loadSet c lp).state.loadings.by_original_ids_by_type
          = m.loadings.by_original_ids_by_type
      ∧ (cloneLoadingInto scale m loadSet c lp).state.loadingReferences_by_loadSet_ids
          = insertById m.loadingReferences_by_loadSet_ids loadSet.getReference
              { type := l.type, original_id := none, id := some m.loading_auto_id }
      ∧ (cloneLoadingInto scale m loadSet c
            lp).state.loadingReferences_by_loadSet_original_ids_by_loadSet_type
          = insertByOriginalId m.loadingReferences_by_loadSet_original_ids_by_loadSet_type
              loadSet.getReference
              { type := l.type, original_id := none, id := some m.loading_auto_id } := by
  have hadd : ((scaledClone scale m l c).2.addLoading (scaledClone scale m l c).1)
      = Outcome.ok
          { (scaledClone scale m l c).2 with
            loadings := Container.register
              { m.loadings with objs := m.loadings.objs ++ [(scaledClone scale m l c).1] }
              (scaledClone scale m l c).1 m.loadings.objs.length } := by
    unfold addLoading Container.add
    have hnone : ((scaledClone scale m l c).2.loadings.find
        (scaledClone scale m l c).1.getReference).isSome = false := by
      simp only [scaledClone, Identifiable.getReference, Identifiable.isOriginal,
        Container.find, Option.isSome_none, Bool.false_eq_true, if_false]
      rw [hfresh m.loading_auto_id (Int.le_refl _)]
      rfl
    rw [if_neg (by rw [hnone]; exact Bool.false_ne_true)]
    rfl
  unfold cloneLoadingInto
  rw [hl]
  dsimp only
  have key : ∀ (m1 : Model Lg LoadSetData Cg CSd) (r : Reference Nat),
      m1.loadSets = m.loadSets →
      m1.addLoadingIntoLoadSet r loadSet.getReference
        = Outcome.ok (m1.insertLoadingReference r loadSet.getReference) :=
    fun m1 r h => addLoadingIntoLoadSet_of_resolved m1 r _ (by rw [h]; exact hS)
  rw [hadd, Outcome.andThen_of_ok, key]
  · exact ⟨rfl, rfl, rfl, rfl, rfl, rfl, rfl, rfl⟩
  · rfl

theorem mem_membersById_insertById (index : KeyMap Int (List (Reference Nat)))
    (s0 x s r : Reference Nat) :
    r ∈ membersById (insertById index s0 x) s
      ↔ r ∈ membersById index s ∨ (r = x ∧ s.id.isSome = true ∧ s0.id = s.id) := by
  unfold membersById insertById
  cases hs : s.id with
  | none =>
    simp [KeyMap.findOpt]
  | some i =>
    cases hs0 : s0.id with
    | none => simp [KeyMap.findOpt]
    | some i0 =>
      by_cases hi : i0 = i
      · subst hi
        simp [KeyMap.findOpt, KeyMap.find_assign_self, KeyMap.atOrEmpty]
      · simp [KeyMap.findOpt, KeyMap.find_assign_ne _ _ _ _ hi, hi]

theorem mem_membersByOriginalId_insertByOriginalId
    (index : KeyMap Nat (KeyMap Int (List (Reference Nat)))) (s0 x s r : Reference Nat) :
    r ∈ membersByOriginalId (insertByOriginalId index s0 x) s
      ↔ r ∈ membersByOriginalId index s
          ∨ (r = x ∧ s.original_id.isSome = true ∧ s0.original_id = s.original_id
              ∧ s0.type = s.type) := by
  unfold membersByOriginalId insertByOriginalId
  cases hs0 : s0.original_id with
  | none =>
    cases hs : s.original_id with
    | none => simp
    | some o => simp
  | some o0 =>
    dsimp only
    by_cases ht : s0.type = s.type
    · rw [ht, KeyMap.find_assign_self]
      dsimp only
      cases hs : s.original_id with
      | none =>
        simp only [KeyMap.findOpt, Option.getD_none, List.not_mem_nil, Option.isSome_none,
          Bool.false_eq_true, false_and, and_false, or_false, false_iff]
        cases KeyMap.find index s.type <;> simp [KeyMap.findOpt]
      | some o =>
        by_cases ho : o0 = o
        · subst ho
          simp only [KeyMap.findOpt, KeyMap.find_assign_self, Option.getD_some, List.mem_append,
            List.mem_singleton, Option.isSome_some, and_self, and_true, KeyMap.atOrEmpty]
          cases KeyMap.find index s.type with
          | none => simp [KeyMap.find]
          | some inner => simp
        · simp only [KeyMap.findOpt, KeyMap.find_assign_ne _ _ _ _ ho, Option.isSome_some,
            Option.some.injEq, ho, false_and, and_false, or_false, true_and, KeyMap.atOrEmpty]
          cases KeyMap.find index s.type with
          | none => simp [KeyMap.find]
          | some inner => simp
    · rw [KeyMap.find_assign_ne _ _ _ _ ht]
      simp [ht]

theorem getReference_has_key {τ α : Type} (t : Identifiable τ α) :
    t.getReference.has_id = true ∨ t.getReference.has_original_id = true := by
  unfold Identifiable.getReference Reference.has_id Reference.has_original_id
    Identifiable.isOriginal
  cases t.original_id <;> simp

theorem cloneLoadingInto_spec (scale : ℚ → Lg → Lg) (m : Model Lg LoadSetData Cg CSd)
    (loadSet : Identifiable Nat LoadSetData) (c : ℚ) (lp : Option Nat) (l : Identifiable Nat Lg)
    (hfresh : FreshLoadingIds m) (hl : m.loadings.deref lp = some l)
    (hS : (m.loadSets.find loadSet.getReference).isSome = true) :
    (cloneLoadingInto scale m loadSet c lp).error = none
      ∧ (cloneLoadingInto scale m loadSet c lp).state.loadSets = m.loadSets
      ∧ LoadingsGrow m (cloneLoadingInto scale m loadSet c lp).state
      ∧ FreshLoadingIds (cloneLoadingInto scale m loadSet c lp).state
      ∧ (∀ s, MembersResolve m s →
          MembersResolve (cloneLoadingInto scale m loadSet c lp).state s)
      ∧ GainedClone scale m (cloneLoadingInto scale m loadSet c lp).state loadSet.getReference
          l c := by
  obtain ⟨herr, hls, hauto, hobjs, hbyid, hbyorig, hidx, hidx2⟩ :=
    cloneLoadingInto_state scale m loadSet c lp l hfresh hl hS
  generalize cloneLoadingInto scale m loadSet c lp = res at *
  have hfind : ∀ (r : Reference Nat) (p : Nat), m.loadings.find r = some p →
      res.state.loadings.find r = some p := by
    intro r p hr
    unfold Container.find at hr ⊢
    rw [hbyorig, hbyid]
    cases ho : r.original_id with
    | some o => rw [ho] at hr; exact hr
    | none =>
      rw [ho] at hr
      dsimp only at hr ⊢
      cases hi : r.id with
      | none => rw [hi] at hr; cases hr
      | some i =>
        rw [hi] at hr
        dsimp only at hr ⊢
        have hne : m.loading_auto_id ≠ i := by
          intro heq
          rw [← heq, hfresh m.loading_auto_id (Int.le_refl _)] at hr
          cases hr
        rw [KeyMap.find_assign_ne _ _ _ _ hne]
        exact hr
  have hfindclone : res.state.loadings.find
      { type := l.type, original_id := none, id := some m.loading_auto_id }
        = some m.loadings.objs.length := by
    unfold Container.find
    dsimp only
    rw [hbyid, KeyMap.find_assign_self]
  have hgrow : LoadingsGrow m res.state := by
    refine ⟨by rw [hobjs]; simp, ?_, hfind, ?_, ?_, by rw [hauto]; omega⟩
    · intro i l0 hi
      rw [hobjs, List.getElem?_append_left (List.getElem?_eq_some_iff.1 hi).1]
      exact hi
    · intro s r hr
      rw [hidx, mem_membersById_insertById]
      exact Or.inl hr
    · intro s r hr
      rw [hidx2, mem_membersByOriginalId_insertByOriginalId]
      exact Or.inl hr
  refine ⟨herr, hls, hgrow, ?_, ?_, ?_⟩
  · intro k hk
    rw [hauto] at hk
    rw [hbyid, KeyMap.find_assign_ne _ _ _ _ (by omega)]
    exact hfresh k (by omega)
  · intro s hres lp2 hlp2
    rw [mem_getLoadingsByLoadSet_iff] at hlp2
    obtain ⟨r, hr, hx⟩ := hlp2
    have hcases : (r ∈ membersById m.loadingReferences_by_loadSet_ids s
        ∨ r ∈ membersByOriginalId m.loadingReferences_by_loadSet_original_ids_by_loadSet_type s)
        ∨ r = { type := l.type, original_id := none, id := some m.loading_auto_id } := by
      rcases hr with hr | hr
      · rw [hidx, mem_membersById_insertById] at hr
        rcases hr with hr | hr
        · exact Or.inl (Or.inl hr)
        · exact Or.inr hr.1
      · rw [hidx2, mem_membersByOriginalId_insertByOriginalId] at hr
        rcases hr with hr | hr
        · exact Or.inl (Or.inr hr)
        · exact Or.inr hr.1
    rcases hcases with hold | hnew
    · obtain ⟨l0, hl0⟩ := hres (m.loadings.find r)
        ((mem_getLoadingsByLoadSet_iff m s _).2 ⟨r, hold, rfl⟩)
      cases hf : m.loadings.find r with
      | none => rw [hf] at hl0; cases hl0
      | some p =>
        rw [hf] at hl0
        rw [← hx, hfind r p hf]
        exact ⟨l0, hgrow.2.1 p l0 hl0⟩
    · rw [← hx, hnew, hfindclone]
      refine ⟨{ id := m.loading_auto_id, original_id := none, type := l.type,
                data := scale c l.data }, ?_⟩
      unfold Container.deref
      rw [hobjs]
      simp
  · refine ⟨m.loadings.objs.length,
      { id := m.loading_auto_id, original_id := none, type := l.type, data := scale c l.data },
      Nat.le_refl _, ?_, rfl, Int.le_refl _, rfl, rfl, ?_⟩
    · rw [hobjs]
      simp
    · rw [mem_getLoadingsByLoadSet_iff]
      refine ⟨{ type := l.type, original_id := none, id := some m.loading_auto_id }, ?_,
        hfindclone⟩
      rcases getReference_has_key loadSet with hk | hk
      · left
        rw [hidx, mem_membersById_insertById]
        exact Or.inr ⟨rfl, hk, rfl⟩
      · right
        rw [hidx2, mem_membersByOriginalId_insertByOriginalId]
        exact Or.inr ⟨rfl, hk, rfl, rfl⟩

end Model

namespace Outcome
variable {σ : Type}

theorem foldl_andThen_total {ι : Type} (f : σ → ι → Outcome σ) (Inv : List ι → σ → Prop)
    (l : List ι)
    (hstep : ∀ done x s, x ∈ l → Inv done s →
      (f s x).error = none ∧ Inv (done ++ [x]) (f s x).state)
    (s : σ) (h0 : Inv [] s) :
    (l.foldl (fun r x => r.andThen fun s => f s x) (Outcome.ok s)).error = none
      ∧ Inv l (l.foldl (fun r x => r.andThen fun s => f s x) (Outcome.ok s)).state := by
  have key : ∀ (rest done : List ι) (s : σ), done ++ rest = l → Inv done s →
      (rest.foldl (fun r x => r.andThen fun s => f s x) (Outcome.ok s)).error = none
        ∧ Inv l (rest.foldl (fun r x => r.andThen fun s => f s x) (Outcome.ok s)).state := by
    intro rest
    induction rest with
    | nil =>
      intro done s hl hs
      rw [List.append_nil] at hl
      rw [← hl]
      exact ⟨rfl, hs⟩
    | cons x xs ih =>
      intro done s hl hs
      rw [List.foldl_cons, andThen_of_ok]
      obtain ⟨he, hi⟩ := hstep done x s (by rw [← hl]; simp) hs
      rw [eq_ok_of_error_none _ he]
      exact ih (done ++ [x]) (f s x).state (by rw [List.append_assoc]; exact hl) hi
  exact key l [] s rfl h0

end Outcome

namespace Model

variable {Lg LSd Cg CSd : Type}

theorem deref_of_grow {m m2 : Model Lg LSd Cg CSd} (h : LoadingsGrow m m2) (lp : Option Nat)
    (l : Identifiable Nat Lg) (hl : m.loadings.deref lp = some l) :
    m2.loadings.deref lp = some l := by
  cases lp with
  | none => cases hl
  | some p => exact h.2.1 p l hl

theorem flattenEmbedded_spec (scale : ℚ → Lg → Lg) (m : Model Lg LoadSetData Cg CSd)
    (loadSet : Identifiable Nat LoadSetData) (kv : Reference Nat × ℚ)
    (other : Identifiable Nat LoadSetData)
    (hother : m.loadSets.deref (m.loadSets.find kv.1) = some other)
    (hfresh : FreshLoadingIds m)
    (hS : (m.loadSets.find loadSet.getReference).isSome = true)
    (hmem : MembersResolve m other.getReference) :
    (flattenEmbedded scale m loadSet kv).error = none
      ∧ (flattenEmbedded scale m loadSet kv).state.loadSets = m.loadSets
      ∧ LoadingsGrow m (flattenEmbedded scale m loadSet kv).state
      ∧ FreshLoadingIds (flattenEmbedded scale m loadSet kv).state
      ∧ (∀ s, MembersResolve m s → MembersResolve (flattenEmbedded scale m loadSet kv).state s)
      ∧ ∀ lp ∈ m.getLoadingsByLoadSet other.getReference, ∀ l, m.loadings.deref lp = some l →
          GainedClone scale m (flattenEmbedded scale m loadSet kv).state loadSet.getReference
            l kv.2 := by
  unfold flattenEmbedded
  rw [hother]
  dsimp only
  have key := Outcome.foldl_andThen_total
    (fun (m2 : Model Lg LoadSetData Cg CSd) (loading : Option Nat) =>
      cloneLoadingInto scale m2 loadSet kv.2 loading)
    (fun done m2 =>
      m2.loadSets = m.loadSets ∧ LoadingsGrow m m2 ∧ FreshLoadingIds m2
        ∧ (∀ s, MembersResolve m s → MembersResolve m2 s)
        ∧ ∀ lp ∈ done, ∀ l, m.loadings.deref lp = some l →
            GainedClone scale m m2 loadSet.getReference l kv.2)
    (m.getLoadingsByLoadSet other.getReference)
    (by
      intro done x m2 hx ⟨hls, hgrow, hfr, hres, hclones⟩
      dsimp only
      obtain ⟨l, hl⟩ := hmem x hx
      obtain ⟨e1, e2, e3, e4, e5, e6⟩ := cloneLoadingInto_spec scale m2 loadSet kv.2 x l hfr
        (deref_of_grow hgrow x l hl) (by rw [hls]; exact hS)
      refine ⟨e1, e2.trans hls, hgrow.grow_trans e3, e4, fun s hs => e5 s (hres s hs), ?_⟩
      intro lp hlp l2 hl2
      rcases List.mem_append.1 hlp with hd | hd
      · exact (hclones lp hd l2 hl2).mono scale _ _ _ e3
      · rw [List.mem_singleton.1 hd, hl] at hl2
        cases hl2
        exact e6.rebase scale _ _ _ hgrow)
    m ⟨rfl, LoadingsGrow.grow_refl m, hfresh, fun s hs => hs, by intro lp h; cases h⟩
  exact key

theorem flattenLoadSet_spec (scale : ℚ → Lg → Lg) (m : Model Lg LoadSetData Cg CSd) (ptr : Nat)
    (loadSet : Identifiable Nat LoadSetData) (hptr : m.loadSets.objs[ptr]? = some loadSet)
    (hfresh : FreshLoadingIds m)
    (hS : (m.loadSets.find loadSet.getReference).isSome = true)
    (hemb : ∀ kv ∈ loadSet.data.embedded_loadsets,
      ∃ other, m.loadSets.deref (m.loadSets.find kv.1) = some other
        ∧ MembersResolve m other.getReference) :
    (flattenLoadSet scale m ptr).error = none
      ∧ (flattenLoadSet scale m ptr).state.loadSets = (m.clearEmbedded ptr).loadSets
      ∧ LoadingsGrow m (flattenLoadSet scale m ptr).state
      ∧ FreshLoadingIds (flattenLoadSet scale m ptr).state
      ∧ (∀ s, MembersResolve m s → MembersResolve (flattenLoadSet scale m ptr).state s)
      ∧ ∀ kv ∈ loadSet.data.embedded_loadsets, ∀ other,
          m.loadSets.deref (m.loadSets.find kv.1) = some other →
          ∀ lp ∈ m.getLoadingsByLoadSet other.getReference, ∀ l,
            m.loadings.deref lp = some l →
            GainedClone scale m (flattenLoadSet scale m ptr).state loadSet.getReference
              l kv.2 := by
  unfold flattenLoadSet
  rw [hptr]
  dsimp only
  obtain ⟨herr, hls, hgrow, hfr, hres, hclones⟩ := Outcome.foldl_andThen_total
    (fun (m2 : Model Lg LoadSetData Cg CSd) (kv : Reference Nat × ℚ) =>
      flattenEmbedded scale m2 loadSet kv)
    (fun done m2 =>
      m2.loadSets = m.loadSets ∧ LoadingsGrow m m2 ∧ FreshLoadingIds m2
        ∧ (∀ s, MembersResolve m s → MembersResolve m2 s)
        ∧ ∀ kv ∈ done, ∀ other, m.loadSets.deref (m.loadSets.find kv.1) = some other →
            ∀ lp ∈ m.getLoadingsByLoadSet other.getReference, ∀ l,
              m.loadings.deref lp = some l →
              GainedClone scale m m2 loadSet.getReference l kv.2)
    loadSet.data.embedded_loadsets
    (by
      intro done x m2 hx ⟨hls, hgrow, hfr, hres, hclones⟩
      dsimp only
      obtain ⟨other, hother, hmem⟩ := hemb x hx
      obtain ⟨e1, e2, e3, e4, e5, e6⟩ := flattenEmbedded_spec scale m2 loadSet x other
        (by rw [hls]; exact hother) hfr (by rw [hls]; exact hS) (hres _ hmem)
      refine ⟨e1, e2.trans hls, hgrow.grow_trans e3, e4, fun s hs => e5 s (hres s hs), ?_⟩
      intro kv hkv other2 hother2 lp hlp l hl
      rcases List.mem_append.1 hkv with hd | hd
      · exact (hclones kv hd other2 hother2 lp hlp l hl).mono scale _ _ _ e3
      · rw [List.mem_singleton.1 hd] at hother2 ⊢
        rw [hother] at hother2
        cases hother2
        have hlp2 : lp ∈ m2.getLoadingsByLoadSet other.getReference := by
          cases lp with
          | none => cases hl
          | some p => exact mem_getLoadingsByLoadSet_of_grow hgrow _ p hlp
        exact (e6 lp hlp2 l (deref_of_grow hgrow lp l hl)).rebase scale _ _ _ hgrow)
    m ⟨rfl, LoadingsGrow.grow_refl m, hfresh, fun s hs => hs, by intro kv h; cases h⟩
  rw [Outcome.andThen_of_error_none _ _ herr]
  have hclear : ∀ m2 : Model Lg LoadSetData Cg CSd, m2.loadSets = m.loadSets →
      (m2.clearEmbedded ptr).loadSets = (m.clearEmbedded ptr).loadSets := by
    intro m2 h
    unfold clearEmbedded
    dsimp only
    rw [h]
  exact ⟨rfl, hclear _ hls, hgrow, hfr, hres, hclones⟩

theorem find_congr_indices {τ α : Type} [DecidableEq τ] (c c2 : Container τ α)
    (h1 : c2.by_id = c.by_id) (h2 : c2.by_original_ids_by_type = c.by_original_ids_by_type)
    (r : Reference τ) : c2.find r = c.find r := by
  unfold Container.find
  rw [h1, h2]

theorem deref_find_transfer {τ α : Type} [DecidableEq τ] (c c2 : Container τ α)
    (h1 : c2.by_id = c.by_id) (h2 : c2.by_original_ids_by_type = c.by_original_ids_by_type)
    (h4 : ∀ i : Nat, (c2.objs[i]?).map Identifiable.getReference
      = (c.objs[i]?).map Identifiable.getReference)
    (r : Reference τ) (other0 : Identifiable τ α) (h : c.deref (c.find r) = some other0) :
    ∃ other, c2.deref (c2.find r) = some other ∧ other.getReference = other0.getReference := by
  rw [find_congr_indices c c2 h1 h2]
  cases hf : c.find r with
  | none => rw [hf] at h; cases h
  | some p =>
    rw [hf] at h
    unfold Container.deref at h ⊢
    dsimp only at h ⊢
    have h4p := h4 p
    rw [h] at h4p
    cases hc2 : c2.objs[p]? with
    | none => rw [hc2] at h4p; cases h4p
    | some other =>
      rw [hc2] at h4p
      exact ⟨other, rfl, Option.some.inj h4p⟩

theorem replaceCombinedLoadSets_invariant (scale : ℚ → Lg → Lg)
    (m : Model Lg LoadSetData Cg CSd) (hfresh : FreshLoadingIds m)
    (hown : ∀ entry ∈ m.loadSets.by_id, ∀ loadSet, m.loadSets.objs[entry.2]? = some loadSet →
      (m.loadSets.find loadSet.getReference).isSome = true)
    (hemb : ∀ entry ∈ m.loadSets.by_id, ∀ loadSet, m.loadSets.objs[entry.2]? = some loadSet →
      ∀ kv ∈ loadSet.data.embedded_loadsets,
        ∃ other, m.loadSets.deref (m.loadSets.find kv.1) = some other
          ∧ MembersResolve m other.getReference) :
    (replaceCombinedLoadSets scale m).error = none
      ∧ (replaceCombinedLoadSets scale m).state.loadSets.by_id = m.loadSets.by_id
      ∧ (∀ i ∈ m.loadSets.by_id.map Prod.snd, ∀ loadSet,
          (replaceCombinedLoadSets scale m).state.loadSets.objs[i]? = some loadSet →
          loadSet.data.embedded_loadsets = [])
      ∧ LoadingsGrow m (replaceCombinedLoadSets scale m).state
      ∧ (∀ i ∈ m.loadSets.by_id.map Prod.snd, ∀ loadSet, m.loadSets.objs[i]? = some loadSet →
          ∀ kv ∈ loadSet.data.embedded_loadsets, ∀ other,
            m.loadSets.deref (m.loadSets.find kv.1) = some other →
            ∀ lp ∈ m.getLoadingsByLoadSet other.getReference, ∀ l,
              m.loadings.deref lp = some l →
              GainedClone scale m (replaceCombinedLoadSets scale m).state
                loadSet.getReference l kv.2) := by
  unfold replaceCombinedLoadSets
  obtain ⟨herr, hby, -, -, -, hcleared, hgrow, -, -, hclones⟩ := Outcome.foldl_andThen_total
    (fun (m2 : Model Lg LoadSetData Cg CSd) (entry : Int × Nat) =>
      flattenLoadSet scale m2 entry.2)
    (fun done m2 =>
      m2.loadSets.by_id = m.loadSets.by_id
        ∧ m2.loadSets.by_original_ids_by_type = m.loadSets.by_original_ids_by_type
        ∧ (∀ i : Nat, (m2.loadSets.objs[i]?).map Identifiable.getReference
            = (m.loadSets.objs[i]?).map Identifiable.getReference)
        ∧ (∀ i : Nat, i ∉ done.map Prod.snd → m2.loadSets.objs[i]? = m.loadSets.objs[i]?)
        ∧ (∀ i ∈ done.map Prod.snd, ∀ loadSet, m2.loadSets.objs[i]? = some loadSet →
            loadSet.data.embedded_loadsets = [])
        ∧ LoadingsGrow m m2 ∧ FreshLoadingIds m2
        ∧ (∀ s, MembersResolve m s → MembersResolve m2 s)
        ∧ ∀ i ∈ done.map Prod.snd, ∀ loadSet, m.loadSets.objs[i]? = some loadSet →
            ∀ kv ∈ loadSet.data.embedded_loadsets, ∀ other,
              m.loadSets.deref (m.loadSets.find kv.1) = some other →
              ∀ lp ∈ m.getLoadingsByLoadSet other.getReference, ∀ l,
                m.loadings.deref lp = some l →
                GainedClone scale m m2 loadSet.getReference l kv.2)
    m.loadSets.by_id
    (by
      intro done x m2 hx ⟨L1, L1b, L4, L2, L3, hgrow, hfr, hres, hclones⟩
      dsimp only
      have hmemsplit : ∀ i : Nat, i ∈ (done ++ [x]).map Prod.snd →
          i ∈ done.map Prod.snd ∨ i = x.2 := by
        intro i hi
        rw [List.map_append, List.mem_append] at hi
        rcases hi with hi | hi
        · exact Or.inl hi
        · right
          simpa using hi
      cases hS2 : m2.loadSets.objs[x.2]? with
      | none =>
        have hstep : flattenLoadSet scale m2 x.2 = Outcome.ok m2 := by
          unfold flattenLoadSet
          rw [hS2]
        have hnone0 : m.loadSets.objs[x.2]? = none := by
          have := L4 x.2
          rw [hS2] at this
          cases h0 : m.loadSets.objs[x.2]? with
          | none => rfl
          | some a => rw [h0] at this; cases this
        rw [hstep]
        refine ⟨rfl, L1, L1b, L4, ?_, ?_, hgrow, hfr, hres, ?_⟩
        · intro i hi
          exact L2 i (fun h => hi (by rw [List.map_append]; exact List.mem_append_left _ h))
        · intro i hi loadSet hls
          rcases hmemsplit i hi with h | h
          · exact L3 i h loadSet hls
          · rw [h] at hls
            simp only [Outcome.ok] at hls
            rw [hS2] at hls
            cases hls
        · intro i hi loadSet hls
          rcases hmemsplit i hi with h | h
          · exact hclones i h loadSet hls
          · rw [h, hnone0] at hls
            cases hls
      | some S =>
        obtain ⟨S0, hS0, hrefS⟩ : ∃ S0, m.loadSets.objs[x.2]? = some S0
            ∧ S.getReference = S0.getReference := by
          have := L4 x.2
          rw [hS2] at this
          cases h0 : m.loadSets.objs[x.2]? with
          | none => rw [h0] at this; cases this
          | some a =>
            rw [h0] at this
            exact ⟨a, rfl, Option.some.inj this⟩
        have hSres : (m2.loadSets.find S.getReference).isSome = true := by
          rw [find_congr_indices m.loadSets m2.loadSets L1 L1b, hrefS]
          exact hown x hx S0 hS0
        have hemb2 : ∀ kv ∈ S.data.embedded_loadsets,
            ∃ other, m2.loadSets.deref (m2.loadSets.find kv.1) = some other
              ∧ MembersResolve m2 other.getReference := by
          intro kv hkv
          by_cases hdone : x.2 ∈ done.map Prod.snd
          · rw [L3 x.2 hdone S hS2] at hkv
            cases hkv
          · have hSS0 : S = S0 := by
              have := L2 x.2 hdone
              rw [hS2, hS0] at this
              exact Option.some.inj this
            rw [hSS0] at hkv
            obtain ⟨other0, hother0, hmem0⟩ := hemb x hx S0 hS0 kv hkv
            obtain ⟨other, hother, href⟩ := deref_find_transfer m.loadSets m2.loadSets L1 L1b L4
              kv.1 other0 hother0
            exact ⟨other, hother, by rw [href]; exact hres _ hmem0⟩
        obtain ⟨e1, e2, e3, e4, e5, e6⟩ := flattenLoadSet_spec scale m2 x.2 S hS2 hfr hSres hemb2
        have hobjs : ∀ i : Nat, (flattenLoadSet scale m2 x.2).state.loadSets.objs[i]?
            = (m2.loadSets.objs[i]?).map (fun ls =>
                if x.2 = i then { ls with data := { embedded_loadsets := [] } } else ls) := by
          intro i
          rw [e2]
          simp only [clearEmbedded]
          rw [List.getElem?_modify]
          rfl
        refine ⟨e1, by rw [e2]; exact L1, by rw [e2]; exact L1b, ?_, ?_, ?_, hgrow.grow_trans e3, e4,
          fun s hs => e5 s (hres s hs), ?_⟩
        · intro i
          rw [hobjs, ← L4 i]
          cases m2.loadSets.objs[i]? with
          | none => rfl
          | some a =>
            by_cases hi : x.2 = i
            · simp [hi, Identifiable.getReference, Identifiable.isOriginal]
            · simp [hi]
        · intro i hi
          have hne : x.2 ≠ i := by
            intro h
            apply hi
            rw [List.map_append]
            exact List.mem_append_right _ (by simp [h])
          rw [hobjs, ← L2 i (fun h => hi (by
            rw [List.map_append]; exact List.mem_append_left _ h))]
          cases m2.loadSets.objs[i]? with
          | none => rfl
          | some a => simp [hne]
        · intro i hi loadSet hls
          rw [hobjs] at hls
          cases h2 : m2.loadSets.objs[i]? with
          | none => rw [h2] at hls; cases hls
          | some a =>
            rw [h2] at hls
            simp only [Option.map_some', Option.some.injEq] at hls
            by_cases hxi : x.2 = i
            · rw [if_pos hxi] at hls
              rw [← hls]
            · rw [if_neg hxi] at hls
              rcases hmemsplit i hi with h | h
              · rw [← hls]
                exact L3 i h a h2
              · exact absurd h.symm hxi
        · intro i hi loadSet hls kv hkv other0 hother0 lp hlp l hl
          by_cases hdone : i ∈ done.map Prod.snd
          · exact (hclones i hdone loadSet hls kv hkv other0 hother0 lp hlp l hl).mono scale
              _ _ _ e3
          · have hix : i = x.2 := by
              rcases hmemsplit i hi with h | h
              · exact absurd h hdone
              · exact h
            subst hix
            have hSS0 : S = loadSet := by
              have := L2 x.2 hdone
              rw [hS2, hls] at this
              exact Option.some.inj this
            subst hSS0
            obtain ⟨other, hother, href⟩ := deref_find_transfer m.loadSets m2.loadSets L1 L1b L4
              kv.1 other0 hother0
            have hlp2 : lp ∈ m2.getLoadingsByLoadSet other.getReference := by
              rw [href]
              cases lp with
              | none => cases hl
              | some p => exact mem_getLoadingsByLoadSet_of_grow hgrow _ p hlp
            exact (e6 kv hkv other hother lp hlp2 l (deref_of_grow hgrow lp l hl)).rebase scale
              _ _ _ hgrow)
    m ⟨rfl, rfl, fun _ => rfl, fun _ _ => rfl, (by intro i h; cases h), LoadingsGrow.grow_refl m,
      hfresh, fun s hs => hs, (by intro i h; cases h)⟩
  exact ⟨herr, hby, hcleared, hgrow, hclones⟩

/-- C19 (counterexample). In the model `mDanglingMember` the only embedded load-set
reference, the one of the outer load set, resolves; the member that the membership
index gives to the embedded load set does not. The pass ends on the null pointer
that stands for this member, and the outer load set keeps its embedding record. -/
theorem replaceCombinedLoadSets_dangling_member_counterexample :
    ((registered Sample.mDanglingMember.loadSets).all
        (fun loadSet => loadSet.data.embedded_loadsets.all
          (fun kv => (Sample.mDanglingMember.loadSets.find kv.1).isSome)) = true
      ∧ Sample.mDanglingMember.getLoadingsByLoadSet Sample.innerRef = [none])
      ∧ (replaceCombinedLoadSets Sample.recordScale Sample.mDanglingMember).error
          = some "null pointer dereference"
      ∧ (replaceCombinedLoadSets Sample.recordScale
            Sample.mDanglingMember).state.loadSets.deref (some 0) = some Sample.outerSet := by
  decide

/-- C19 (amended). In a model in which the ids that the model is about to give
to loadings are unused, the reference of every load set resolves, every embedded
load-set reference resolves and no member reference of an embedded load set is
dangling, `replaceCombinedLoadSets` completes; afterwards every load set has an
empty embedding record; for each record `(S', c)` that a load set `S` embedded and
every loading of `S'`, `S` has gained a new loading with a fresh id that is a clone
of it scaled by `c`; and the loadings that the model had are unchanged. -/
theorem replaceCombinedLoadSets_clones (scale : ℚ → Lg → Lg)
    (m : Model Lg LoadSetData Cg CSd) (hfresh : FreshLoadingIds m)
    (hown : ∀ loadSet ∈ registered m.loadSets,
      (m.loadSets.find loadSet.getReference).isSome = true)
    (hemb : ∀ loadSet ∈ registered m.loadSets, ∀ kv ∈ loadSet.data.embedded_loadsets,
      ∃ other, m.loadSets.deref (m.loadSets.find kv.1) = some other
        ∧ MembersResolve m other.getReference) :
    (replaceCombinedLoadSets scale m).error = none
      ∧ (∀ loadSet ∈ registered (replaceCombinedLoadSets scale m).state.loadSets,
          loadSet.data.embedded_loadsets = [])
      ∧ (∀ loadSet ∈ registered m.loadSets, ∀ kv ∈ loadSet.data.embedded_loadsets, ∀ other,
          m.loadSets.deref (m.loadSets.find kv.1) = some other →
          ∀ lp ∈ m.getLoadingsByLoadSet other.getReference, ∀ l,
            m.loadings.deref lp = some l →
            GainedClone scale m (replaceCombinedLoadSets scale m).state loadSet.getReference
              l kv.2)
      ∧ (∀ (i : Nat) (l : Identifiable Nat Lg), m.loadings.objs[i]? = some l →
          (replaceCombinedLoadSets scale m).state.loadings.objs[i]? = some l) := by
  obtain ⟨herr, hby, hcleared, hgrow, hclones⟩ := replaceCombinedLoadSets_invariant scale m hfresh
    (fun entry hentry loadSet hls => hown loadSet ((mem_registered _ _).2 ⟨entry, hentry, hls⟩))
    (fun entry hentry loadSet hls =>
      hemb loadSet ((mem_registered _ _).2 ⟨entry, hentry, hls⟩))
  refine ⟨herr, ?_, ?_, hgrow.2.1⟩
  · intro loadSet hmem
    obtain ⟨entry, hentry, hls⟩ := (mem_registered _ _).1 hmem
    rw [hby] at hentry
    exact hcleared entry.2 (List.mem_map_of_mem _ hentry) loadSet hls
  · intro loadSet hmem
    obtain ⟨entry, hentry, hls⟩ := (mem_registered _ _).1 hmem
    exact hclones entry.2 (List.mem_map_of_mem _ hentry) loadSet hls

theorem replaceCombinedLoadSets_clones_witness :
    (replaceCombinedLoadSets Sample.recordScale Sample.mCombined).error = none
      ∧ (∀ loadSet ∈ registered
            (replaceCombinedLoadSets Sample.recordScale Sample.mCombined).state.loadSets,
          loadSet.data.embedded_loadsets = [])
      ∧ GainedClone Sample.recordScale Sample.mCombined
          (replaceCombinedLoadSets Sample.recordScale Sample.mCombined).state
          Sample.outerSet.getReference Sample.loadingA 2 := by
  have hreg : registered Sample.mCombined.loadSets = [Sample.outerSet, Sample.innerSet] := by
    decide
  have hmembers : Sample.mCombined.getLoadingsByLoadSet Sample.innerSet.getReference
      = [some 0] := by decide
  have h := replaceCombinedLoadSets_clones Sample.recordScale Sample.mCombined
    (by
      intro k hk
      have hby : Sample.mCombined.loadings.by_id = [(60, 0)] := by decide
      have hauto : Sample.mCombined.loading_auto_id = 100 := by decide
      rw [hauto] at hk
      rw [hby]
      simp only [KeyMap.find]
      rw [if_neg (by omega)])
    (by
      intro loadSet hmem
      rw [hreg] at hmem
      simp only [List.mem_cons, List.mem_singleton, List.not_mem_nil, or_false] at hmem
      rcases hmem with rfl | rfl <;> decide)
    (by
      intro loadSet hmem kv hkv
      rw [hreg] at hmem
      simp only [List.mem_cons, List.mem_singleton, List.not_mem_nil, or_false] at hmem
      rcases hmem with rfl | rfl
      · have hkv2 : kv = (Sample.innerRef, 2) := by simpa [Sample.outerSet] using hkv
        subst hkv2
        refine ⟨Sample.innerSet, by decide, ?_⟩
        intro lp hlp
        rw [hmembers] at hlp
        rw [List.mem_singleton.1 hlp]
        exact ⟨Sample.loadingA, by decide⟩
      · cases hkv)
  exact ⟨h.1, h.2.1,
    h.2.2.1 Sample.outerSet (by rw [hreg]; simp) (Sample.innerRef, 2) (by simp [Sample.outerSet])
      Sample.innerSet (by decide) (some 0) (by rw [hmembers]; simp) Sample.loadingA (by decide)⟩

theorem finishClose_finished (K : Collaborators Lg Cg CSd) (m : Model Lg LoadSetData Cg CSd)
    (h : (finishClose K m).error = none) : (finishClose K m).state.finished = true := by
  unfold finishClose at h ⊢
  have h1 := Outcome.error_none_of_andThen _ _ h
  rw [Outcome.andThen_of_error_none _ _ h1]
  rfl

theorem finish_finished [Inhabited CSd] (K : Collaborators Lg Cg CSd)
    (m : Model Lg LoadSetData Cg CSd) (h : (finish K m).error = none) :
    (finish K m).state.finished = true := by
  unfold finish at h ⊢
  by_cases hf : m.finished = true
  · rw [if_pos hf]
    exact hf
  · rw [if_neg hf] at h ⊢
    have h1 := Outcome.error_none_of_andThen _ _ h
    rw [Outcome.andThen_of_error_none _ _ h1] at h ⊢
    exact finishClose_finished K _ h

/-- C12. `finish` is idempotent: on a model on which `finish` completes, a second
call returns at once and changes nothing; the whole state after two calls, with its
catalogs, its membership index, its mesh and its flag `finished`, is the state after
one call. -/
theorem finish_idempotent [Inhabited CSd] (K : Collaborators Lg Cg CSd)
    (m : Model Lg LoadSetData Cg CSd) (h : (finish K m).error = none) :
    finish K (finish K m).state = Outcome.ok (finish K m).state := by
  have hf := finish_finished K m h
  generalize (finish K m).state = m2 at hf
  unfold finish
  rw [if_pos hf]

theorem finish_idempotent_witness :
    (finish Sample.idleCollaborators Sample.mIntegrity).error = none
      ∧ finish Sample.idleCollaborators (finish Sample.idleCollaborators Sample.mIntegrity).state
          = Outcome.ok (finish Sample.idleCollaborators Sample.mIntegrity).state :=
  ⟨by decide, finish_idempotent Sample.idleCollaborators Sample.mIntegrity (by decide)⟩

theorem registered_of_by_id_nil {τ α : Type} (c : Container τ α) (h : c.by_id = []) :
    registered c = [] := by
  unfold registered
  rw [h]
  rfl

theorem finishPrepare_of_idle (K : Collaborators Lg Cg CSd) (m : Model Lg LoadSetData Cg CSd)
    (hes : m.elementSets.by_id = []) (han : m.analyses.by_id = []) :
    finishPrepare K m = m := by
  have h1 : allowElementSetDOFS K m = m := by
    unfold allowElementSetDOFS
    rw [registered_of_by_id_nil _ hes]
    rfl
  have h2 : addBoundaryConditionDOFS K m = m := by
    unfold addBoundaryConditionDOFS
    rw [han]
    rfl
  have h3 : removeAssertionsMissingDOFS m = m := by
    unfold removeAssertionsMissingDOFS objectivesToRemove
    rw [registered_of_by_id_nil _ han]
    rfl
  unfold finishPrepare
  rw [h1, h2, h3]

theorem finishOptional_of_allOff [Inhabited CSd] (K : Collaborators Lg Cg CSd)
    (m : Model Lg LoadSetData Cg CSd) (hcfg : m.configuration = ModelConfiguration.allOff) :
    finishOptional K m = Outcome.ok m := by
  simp [finishOptional, finishOptionalSteps, Outcome.andThen_of_ok, hcfg,
    ModelConfiguration.allOff]

theorem finishClose_of_idle (K : Collaborators Lg Cg CSd) (m : Model Lg LoadSetData Cg CSd)
    (hes : m.elementSets.by_id = []) (han : m.analyses = Container.empty)
    (hcfg : m.configuration = ModelConfiguration.allOff) :
    (finishClose K m).error = none
      ∧ (finishClose K m).state.finished = true
      ∧ (finishClose K m).state.constraints = m.constraints
      ∧ (finishClose K m).state.constraintSets = m.constraintSets
      ∧ (finishClose K m).state.constraintReferences_by_constraintSet_ids
          = m.constraintReferences_by_constraintSet_ids
      ∧ (finishClose K m).state.constraintReferences_by_constraintSet_original_ids_by_constraintSet_type
          = m.constraintReferences_by_constraintSet_original_ids_by_constraintSet_type := by
  have h1 : assignElementsToCells K m = m := by
    unfold assignElementsToCells
    rw [registered_of_by_id_nil _ hes]
    rfl
  have h2 : generateMaterialAssignments m = m := by
    unfold generateMaterialAssignments
    have hp : m.configuration.partitionModel = false := by
      rw [hcfg]
      rfl
    rw [if_neg (by rw [hp]; exact Bool.false_ne_true), registered_of_by_id_nil _ hes]
    rfl
  unfold finishClose
  rw [h1, h2]
  have h3 : (addDefaultAnalysis K m).error = none := by
    unfold addDefaultAnalysis
    split
    · unfold addAnalysis Container.add
      dsimp only
      rw [han]
      have hfind : ∀ r : Reference Nat,
          ((Container.empty : Container Nat AnalysisData).find r).isSome = false := by
        intro r
        unfold Container.find Container.empty
        cases r.original_id <;> cases r.id <;> rfl
      rw [if_neg (by rw [hfind]; exact Bool.false_ne_true)]
      rfl
    · rfl
  have h4 : (addDefaultAnalysis K m).state.constraints = m.constraints
      ∧ (addDefaultAnalysis K m).state.constraintSets = m.constraintSets
      ∧ (addDefaultAnalysis K m).state.constraintReferences_by_constraintSet_ids
          = m.constraintReferences_by_constraintSet_ids
      ∧ (addDefaultAnalysis K
            m).state.constraintReferences_by_constraintSet_original_ids_by_constraintSet_type
          = m.constraintReferences_by_constraintSet_original_ids_by_constraintSet_type := by
    unfold addDefaultAnalysis
    split
    · exact ⟨rfl, rfl, rfl, rfl⟩
    · exact ⟨rfl, rfl, rfl, rfl⟩
  rw [Outcome.andThen_of_error_none _ _ h3]
  exact ⟨rfl, rfl, h4.1, h4.2.1, h4.2.2.1, h4.2.2.2⟩

theorem finish_of_idle [Inhabited CSd] (K : Collaborators Lg Cg CSd)
    (m : Model Lg LoadSetData Cg CSd) (hfin : m.finished = false)
    (hes : m.elementSets.by_id = []) (han : m.analyses = Container.empty)
    (hcfg : m.configuration = ModelConfiguration.allOff) :
    finish K m = finishClose K m := by
  unfold finish
  rw [if_neg (by rw [hfin]; exact Bool.false_ne_true),
    finishPrepare_of_idle K m hes (by rw [han]; rfl), finishOptional_of_allOff K m hcfg,
    Outcome.andThen_of_ok]

/-- C13 (the code at the failing input). In the model `mIntegrity` every optional
step of the pipeline is off, the constraint `loading0` is in the catalog and was
declared in the constraint set `(type 1, original id 5)`, which nothing added to the
model. Whatever the collaborators, `finish` completes; afterwards the membership
index still holds the entry, its member resolves, and the catalog of constraint sets
does not resolve the set of the entry: no constraint set is registered at all. -/
theorem finish_keeps_unresolved_constraint_set (K : Collaborators Unit Unit Unit) :
    (finish K Sample.mIntegrity).error = none
      ∧ (finish K Sample.mIntegrity).state.finished = true
      ∧ membersByOriginalId
          (finish K
            Sample.mIntegrity).state.constraintReferences_by_constraintSet_original_ids_by_constraintSet_type
          Sample.sOrig = [Sample.lRef]
      ∧ (finish K Sample.mIntegrity).state.constraints.find Sample.lRef = some 0
      ∧ (finish K Sample.mIntegrity).state.constraintSets.find Sample.sOrig = none
      ∧ registered (finish K Sample.mIntegrity).state.constraintSets = [] := by
  rw [finish_of_idle K Sample.mIntegrity (by decide) (by decide) (by decide) (by decide)]
  obtain ⟨h1, h2, h3, h4, -, h6⟩ := finishClose_of_idle K Sample.mIntegrity (by decide)
    (by decide) (by decide)
  rw [h3, h4, h6]
  exact ⟨h1, h2, by decide, by decide, by decide, by decide⟩

/-! ## The splitting of the direct matrices -/

/-- C27. `splitDirectMatrices(sizeMax)` with `sizeMax < 2` throws, and leaves the
model as it was: no element set is erased or added, nothing else changes. -/
theorem splitDirectMatrices_size_under_two (sizeMax : Nat) (m : Model Lg LSd Cg CSd)
    (h : sizeMax < 2) :
    (splitDirectMatrices sizeMax m).error
        = some "Model can't split matrices to a size under 2."
      ∧ (splitDirectMatrices sizeMax m).state = m := by
  unfold splitDirectMatrices
  rw [if_pos h]
  exact ⟨rfl, rfl⟩

theorem splitDirectMatrices_size_under_two_witness :
    (1 < 2)
      ∧ (splitDirectMatrices 1 Sample.mBigMatrix).error
          = some "Model can't split matrices to a size under 2."
      ∧ (splitDirectMatrices 1 Sample.mBigMatrix).state = Sample.mBigMatrix :=
  ⟨by decide, splitDirectMatrices_size_under_two 1 Sample.mBigMatrix (by decide)⟩

/-- C26. The split-size bound fails on a matrix that has an original id: after
`splitDirectMatrices(2)` on a model whose only element set is a stiffness matrix of
three nodes with an original id, the pass has completed and the matrix of three
nodes is still among the element sets registered in the catalog. -/
theorem splitDirectMatrices_keeps_big_matrix :
    (splitDirectMatrices 2 Sample.mBigMatrix).error = none
      ∧ ∃ es ∈ registered (splitDirectMatrices 2 Sample.mBigMatrix).state.elementSets,
          es.data.isMatrixElement = true
            ∧ 2 < (MatrixElement.nodePositions es.data.submatrixByNodes).length :=
  ⟨by decide, Sample.bigMatrix, by decide, by decide, by decide⟩

/-- C28. A matrix of more than `sizeMax` nodes that has an original id is not absent
from the catalog after the split: `splitDirectMatrices(2)` completes on a model
whose only element set is such a matrix of three nodes, its reference no longer
resolves, and the catalog still returns the matrix for its internal id. -/
theorem splitDirectMatrices_big_matrix_not_absent :
    2 < (MatrixElement.nodePositions Sample.bigMatrix.data.submatrixByNodes).length
      ∧ (splitDirectMatrices 2 Sample.mBigMatrix).error = none
      ∧ (splitDirectMatrices 2 Sample.mBigMatrix).state.elementSets.find
          Sample.bigMatrix.getReference = none
      ∧ (splitDirectMatrices 2 Sample.mBigMatrix).state.elementSets.deref
          ((splitDirectMatrices 2 Sample.mBigMatrix).state.elementSets.get Sample.bigMatrix.getId)
          = some Sample.bigMatrix :=
  ⟨by decide, by decide, by decide, by decide⟩

end Model

namespace Outcome
variable {σ : Type}

theorem foldl_andThen_error_of_mem {ι : Type} (f : σ → ι → Outcome σ) (P : σ → Prop)
    (x : ι) (hkeep : ∀ s y, P s → (f s y).error = none → P (f s y).state)
    (hbad : ∀ s, P s → (f s x).error ≠ none) :
    ∀ (l : List ι), x ∈ l → ∀ s : σ, P s →
      (l.foldl (fun r x => r.andThen fun s => f s x) (Outcome.ok s)).error ≠ none := by
  intro l
  induction l with
  | nil => intro hx; cases hx
  | cons y rest ih =>
    intro hx s hs
    rw [List.foldl_cons, andThen_of_ok]
    cases he : (f s y).error with
    | some e =>
      rw [foldl_andThen_of_error_some f rest (f s y) e he, he]
      simp
    | none =>
      rw [eq_ok_of_error_none (f s y) he]
      rcases List.mem_cons.1 hx with rfl | hx2
      · exact absurd he (hbad s hs)
      · exact ih hx2 _ (hkeep s y hs he)

end Outcome

namespace Model

variable {Lg LSd Cg CSd : Type}

/-! ## Cells for the direct matrices -/

theorem findNode_congr_nodes (mesh mesh2 : Mesh) (h : mesh2.nodes = mesh.nodes) (position : Int) :
    mesh2.findNode position = mesh.findNode position := by
  unfold Mesh.findNode
  rw [h]

theorem nodeIdsOf_congr (mesh mesh2 : Mesh) (h : mesh2.nodes = mesh.nodes) (l : List Int) :
    nodeIdsOf mesh2 l = nodeIdsOf mesh l := by
  induction l with
  | nil => rfl
  | cons p rest ih => simp only [nodeIdsOf, ih, findNode_congr_nodes mesh mesh2 h]

theorem nodeIdsOf_isSome (mesh : Mesh) (l : List Int)
    (h : ∀ position ∈ l, (mesh.findNode position).isSome = true) :
    ∃ ids, nodeIdsOf mesh l = some ids := by
  induction l with
  | nil => exact ⟨[], rfl⟩
  | cons p rest ih =>
    obtain ⟨ids, hids⟩ := ih (fun q hq => h q (List.mem_cons_of_mem _ hq))
    have hp := h p (List.mem_cons_self _ _)
    obtain ⟨node, hnode⟩ := Option.isSome_iff_exists.1 hp
    exact ⟨node.id :: ids, by simp only [nodeIdsOf, hnode, hids]⟩

theorem cellTypeOfSize_of_le (size : Nat) (h1 : 1 ≤ size) (h20 : size ≤ 20) :
    cellTypeOfSize size
      = some (if size = 1 then CellType.POINT1 else if size = 2 then CellType.SEG2
          else CellType.POLY size) := by
  match size, h1, h20 with
  | 1, _, _ => rfl
  | 2, _, _ => rfl
  | n + 3, _, h => 
    have : cellTypeOfSize (n + 3) = if 3 ≤ n + 3 ∧ n + 3 ≤ 20 then some (CellType.POLY (n + 3)) else none := rfl
    rw [this, if_pos ⟨by omega, h⟩]
    simp

theorem cellTypeOfSize_of_gt (size : Nat) (h : 20 < size) : cellTypeOfSize size = none := by
  match size, h with
  | n + 3, h =>
    have : cellTypeOfSize (n + 3) = if 3 ≤ n + 3 ∧ n + 3 ≤ 20 then some (CellType.POLY (n + 3)) else none := rfl
    rw [this, if_neg (by omega)]

theorem makeCellsFromMatrix_of_group (st : MatrixCellsState Lg LSd Cg CSd) (ptr : Nat)
    (es : Identifiable Nat ElementSetData) (h : st.model.elementSets.objs[ptr]? = some es)
    (hg : es.data.cellGroup ≠ none) : makeCellsFromMatrix st ptr = Outcome.ok st := by
  unfold makeCellsFromMatrix
  rw [h]
  dsimp only
  split
  · rfl
  · rw [if_pos (Option.isSome_iff_ne_none.2 hg)]

theorem makeCellsFromMatrix_of_big (st : MatrixCellsState Lg LSd Cg CSd) (ptr : Nat)
    (es : Identifiable Nat ElementSetData) (h : st.model.elementSets.objs[ptr]? = some es)
    (hm : es.data.isMatrixElement = true) (hg : es.data.cellGroup = none)
    (hn : 20 < (MatrixElement.nodePositions es.data.submatrixByNodes).length) :
    (makeCellsFromMatrix st ptr).error ≠ none := by
  unfold makeCellsFromMatrix
  rw [h]
  dsimp only
  rw [if_neg (by simp [hm]), if_neg (by simp [hg]), if_neg (by omega),
    cellTypeOfSize_of_gt _ hn]
  simp [Outcome.throw]

theorem makeCellsFromMatrix_effect (st : MatrixCellsState Lg LSd Cg CSd) (ptr : Nat)
    (es : Identifiable Nat ElementSetData) (ids : List Int)
    (h : st.model.elementSets.objs[ptr]? = some es)
    (hm : es.data.isMatrixElement = true) (hg : es.data.cellGroup = none)
    (h1 : 1 ≤ (MatrixElement.nodePositions es.data.submatrixByNodes).length)
    (h20 : (MatrixElement.nodePositions es.data.submatrixByNodes).length ≤ 20)
    (hids : nodeIdsOf st.model.mesh (MatrixElement.nodePositions es.data.submatrixByNodes)
      = some ids) :
    makeCellsFromMatrix st ptr
      = Outcome.ok
          { model := assignCellGroup
              { st.model with
                mesh := Mesh.addCellInto
                  (st.model.mesh.createCellGroup ("DM" ++ toString (st.idM + 1))).2
                  (st.model.mesh.createCellGroup ("DM" ++ toString (st.idM + 1))).1
                  (if (MatrixElement.nodePositions es.data.submatrixByNodes).length = 1 then
                      CellType.POINT1
                    else if (MatrixElement.nodePositions es.data.submatrixByNodes).length = 2
                      then CellType.SEG2
                    else CellType.POLY
                      (MatrixElement.nodePositions es.data.submatrixByNodes).length)
                  ids }
              ptr (st.model.mesh.createCellGroup ("DM" ++ toString (st.idM + 1))).1,
            idM := st.idM + 1 } := by
  unfold makeCellsFromMatrix
  rw [h]
  dsimp only
  rw [if_neg (by simp [hm]), if_neg (by simp [hg]), if_neg (by omega),
    cellTypeOfSize_of_le _ h1 h20]
  dsimp only
  rw [hids]

theorem addCellInto_spec (mesh : Mesh) (group : Nat) (type : CellType) (nodeIds : List Int) :
    (mesh.addCellInto group type nodeIds).nodes = mesh.nodes
      ∧ (mesh.addCellInto group type nodeIds).cells
          = mesh.cells ++ [{ id := mesh.cell_auto_id, type := type, nodeIds := nodeIds,
                             isVirtual := true }]
      ∧ (mesh.addCellInto group type nodeIds).cellGroups
          = mesh.cellGroups.modify
              (fun g => { g with cellIds := g.cellIds ++ [mesh.cell_auto_id] }) group
      ∧ (mesh.addCellInto group type nodeIds).cell_auto_id = mesh.cell_auto_id + 1 := by
  unfold Mesh.addCellInto Mesh.addCell
  simp [Mesh.addCellToGroup]

theorem makeCellsFromMatrix_frame (st : MatrixCellsState Lg LSd Cg CSd) (ptr : Nat) :
    (makeCellsFromMatrix st ptr).state.model.mesh.nodes = st.model.mesh.nodes
      ∧ (∀ q : Nat, q ≠ ptr →
          (makeCellsFromMatrix st ptr).state.model.elementSets.objs[q]?
            = st.model.elementSets.objs[q]?)
      ∧ ∀ (q : Nat) (e3 : Identifiable Nat ElementSetData), (makeCellsFromMatrix st ptr).state.model.elementSets.objs[q]? = some e3 →
          ∃ e2, st.model.elementSets.objs[q]? = some e2 ∧ e3.data.kind = e2.data.kind
            ∧ (e3.data.cellGroup = none → e3 = e2) := by
  have key : ∀ (mesh2 : Mesh) (group : Nat), mesh2.nodes = st.model.mesh.nodes →
      (assignCellGroup { st.model with mesh := mesh2 } ptr group).mesh.nodes = st.model.mesh.nodes
        ∧ (∀ q : Nat, q ≠ ptr →
            (assignCellGroup { st.model with mesh := mesh2 } ptr group).elementSets.objs[q]?
              = st.model.elementSets.objs[q]?)
        ∧ ∀ (q : Nat) (e3 : Identifiable Nat ElementSetData),
            (assignCellGroup { st.model with mesh := mesh2 } ptr group).elementSets.objs[q]?
              = some e3 →
            ∃ e2, st.model.elementSets.objs[q]? = some e2 ∧ e3.data.kind = e2.data.kind
              ∧ (e3.data.cellGroup = none → e3 = e2) := by
    intro mesh2 group hmesh
    refine ⟨hmesh, ?_, ?_⟩
    · intro q hq
      simp only [assignCellGroup]
      rw [List.getElem?_modify_ne _ _ (Ne.symm hq)]
    · intro q e3 h3
      simp only [assignCellGroup] at h3
      rw [List.getElem?_modify] at h3
      cases h2 : st.model.elementSets.objs[q]? with
      | none => rw [h2] at h3; cases h3
      | some e2 =>
        rw [h2] at h3
        by_cases hq : ptr = q
        · simp only [if_pos hq, Option.map_eq_map, Option.map_some', Option.some.injEq] at h3
          subst h3
          exact ⟨e2, rfl, rfl, fun hc => by cases hc⟩
        · simp only [if_neg hq, Option.map_eq_map, Option.map_some', Option.some.injEq] at h3
          subst h3
          exact ⟨e2, rfl, rfl, fun _ => rfl⟩
  have triv : st.model.mesh.nodes = st.model.mesh.nodes
      ∧ (∀ q : Nat, q ≠ ptr → st.model.elementSets.objs[q]? = st.model.elementSets.objs[q]?)
      ∧ ∀ (q : Nat) (e3 : Identifiable Nat ElementSetData), st.model.elementSets.objs[q]? = some e3 →
          ∃ e2, st.model.elementSets.objs[q]? = some e2 ∧ e3.data.kind = e2.data.kind
            ∧ (e3.data.cellGroup = none → e3 = e2) :=
    ⟨rfl, fun _ _ => rfl, fun q e3 h3 => ⟨e3, h3, rfl, fun _ => rfl⟩⟩
  unfold makeCellsFromMatrix
  split
  · exact triv
  · split
    · exact triv
    · split
      · exact triv
      · split
        · exact triv
        · split
          · exact key _ _ rfl
          · split
            · exact key _ _ rfl
            · exact key _ _ (addCellInto_spec _ _ _ _).1

theorem modify_append_length {α : Type} (f : α → α) (l : List α) (a : α) :
    (l ++ [a]).modify f l.length = l ++ [f a] := by
  induction l with
  | nil => rfl
  | cons b rest ih => simp [ih]

theorem makeCellsFromDirectMatrices_error (m : Model Lg LSd Cg CSd) :
    (makeCellsFromDirectMatrices m).error
      = (m.elementSets.by_id.foldl
          (fun r entry => r.andThen fun st => makeCellsFromMatrix st entry.2)
          (Outcome.ok { model := m, idM := 0 })).error := by
  unfold makeCellsFromDirectMatrices makeCellsFromDirectMatricesUpTo Outcome.mapState
  rw [List.take_length]

/-- In a model whose matrices lie on nodes of the mesh, `makeCellsFromDirectMatrices`
fails exactly when a matrix element set of the catalog without a cell group has more
than 20 nodes. -/
theorem makeCellsFromDirectMatrices_fails_iff (m : Model Lg LSd Cg CSd)
    (hnodes : ∀ es ∈ registered m.elementSets, es.data.isMatrixElement = true →
      ∀ position ∈ MatrixElement.nodePositions es.data.submatrixByNodes,
        (m.mesh.findNode position).isSome = true) :
    (makeCellsFromDirectMatrices m).error ≠ none ↔
      ∃ es ∈ registered m.elementSets,
        es.data.isMatrixElement = true ∧ es.data.cellGroup = none
          ∧ 20 < (MatrixElement.nodePositions es.data.submatrixByNodes).length := by
  refine ⟨?_, ?_⟩
  · intro herr
    by_contra hno
    apply herr
    rw [makeCellsFromDirectMatrices_error]
    refine (Outcome.foldl_andThen_total
      (fun st (entry : Int × Nat) => makeCellsFromMatrix st entry.2)
      (fun _ st => st.model.mesh.nodes = m.mesh.nodes
        ∧ ∀ (q : Nat) (e2 : Identifiable Nat ElementSetData),
            st.model.elementSets.objs[q]? = some e2 →
            ∃ e, m.elementSets.objs[q]? = some e ∧ e2.data.kind = e.data.kind
              ∧ (e2.data.cellGroup = none → e2 = e))
      m.elementSets.by_id ?_ { model := m, idM := 0 }
      ⟨rfl, fun q e2 h2 => ⟨e2, h2, rfl, fun _ => rfl⟩⟩).1
    intro done x s hx hinv
    dsimp only at hinv ⊢
    obtain ⟨hn, hobjs⟩ := hinv
    obtain ⟨fn, -, fobjs⟩ := makeCellsFromMatrix_frame s x.2
    refine ⟨?_, fn.trans hn, ?_⟩
    · cases h2 : s.model.elementSets.objs[x.2]? with
      | none => unfold makeCellsFromMatrix; rw [h2]; rfl
      | some e2 =>
        obtain ⟨e, he, hk, hsame⟩ := hobjs x.2 e2 h2
        by_cases hm : e2.data.isMatrixElement = true
        · by_cases hg : e2.data.cellGroup = none
          · have hee := hsame hg
            subst hee
            have hreg : e2 ∈ registered m.elementSets := (mem_registered _ _).2 ⟨x, hx, he⟩
            by_cases h0 : (MatrixElement.nodePositions e2.data.submatrixByNodes).length = 0
            · unfold makeCellsFromMatrix
              rw [h2]
              dsimp only
              rw [if_neg (by simp [hm]), if_neg (by simp [hg]), if_pos h0]
              rfl
            · have h20 : (MatrixElement.nodePositions e2.data.submatrixByNodes).length ≤ 20 := by
                by_contra hbig
                exact hno ⟨e2, hreg, hm, hg, by omega⟩
              obtain ⟨ids, hids⟩ := nodeIdsOf_isSome m.mesh _ (hnodes e2 hreg hm)
              rw [makeCellsFromMatrix_effect s x.2 e2 ids h2 hm hg (by omega) h20
                (by rw [nodeIdsOf_congr m.mesh s.model.mesh hn]; exact hids)]
              rfl
          · rw [makeCellsFromMatrix_of_group s x.2 e2 h2 hg]
            rfl
        · unfold makeCellsFromMatrix
          rw [h2]
          dsimp only
          rw [if_pos hm]
          rfl
    · intro q e3 h3
      obtain ⟨e2, h2, hk, hsame⟩ := fobjs q e3 h3
      obtain ⟨e, he, hk2, hsame2⟩ := hobjs q e2 h2
      refine ⟨e, he, hk.trans hk2, fun hg => ?_⟩
      have h32 := hsame hg
      subst h32
      exact hsame2 hg
  · rintro ⟨es, hes, hm, hg, hn⟩
    obtain ⟨entry, hentry, hobj⟩ := (mem_registered _ es).1 hes
    rw [makeCellsFromDirectMatrices_error]
    refine Outcome.foldl_andThen_error_of_mem
      (fun st (entry : Int × Nat) => makeCellsFromMatrix st entry.2)
      (fun st => st.model.elementSets.objs[entry.2]? = some es) entry ?_ ?_ _ hentry
      { model := m, idM := 0 } hobj
    · intro s y hs hok
      dsimp only at hs hok ⊢
      by_cases hq : entry.2 = y.2
      · rw [← hq] at hok
        exact absurd hok (makeCellsFromMatrix_of_big s entry.2 es hs hm hg hn)
      · rw [(makeCellsFromMatrix_frame s y.2).2.1 entry.2 hq]
        exact hs
    · intro s hs
      exact makeCellsFromMatrix_of_big s entry.2 es hs hm hg hn

/-! ## The replacement of the direct matrices -/

/-- C23. The sum of the stiffness of the discrete elements does not give back the
matrix: on a stiffness matrix that couples a node with two others, with the term
(DX, DX) equal to 6 between the nodes of ids 101 and 102, `replaceDirectMatrices`
completes, the matrix is gone, and the discrete elements of the catalog bring 3 to
this entry: the term is divided by the two segments that leave the first node. -/
theorem replaceDirectMatrices_halves_coupling :
    (replaceDirectMatrices Sample.enumerators Sample.nodalFunctions Sample.mChain).error = none
      ∧ ((MatrixElement.findSubmatrix Sample.chainMatrix.data.submatrixByNodes 0 1).find
            (DOF.DX, DOF.DX)).getD 0 = 6
      ∧ (Sample.mChain.mesh.findNode 0).map (fun node => node.id) = some 101
      ∧ (Sample.mChain.mesh.findNode 1).map (fun node => node.id) = some 102
      ∧ (∀ es ∈ registered (replaceDirectMatrices Sample.enumerators Sample.nodalFunctions
            Sample.mChain).state.elementSets, es.data.isMatrixElement = false)
      ∧ stiffnessSum
          (replaceDirectMatrices Sample.enumerators Sample.nodalFunctions Sample.mChain).state
          101 DOF.DX 102 DOF.DX = 3 :=
  ⟨by decide!, by decide!, by decide, by decide, by decide!, by decide!⟩

/-- C24. The synthetic SPC leaves free a DOF that only a loading applied to another
node requires: the matrix adds the six DOFs to the node of position 0 (id 101), no
real geometry owns a DOF there, no loading and no constraint is applied to this node,
and the only SPC that `replaceDirectMatrices` adds blocks five DOFs on the node of
id 101: RY, the DOF of the loading applied to the node of position 1, is not
blocked. -/
theorem replaceDirectMatrices_spc_skips_foreign_loading :
    (replaceDirectMatrices Sample.enumerators Sample.nodalFunctions Sample.mPointMatrix).error
        = none
      ∧ (∀ loading ∈ registered Sample.mPointMatrix.loadings,
          (0 : Int) ∉ Sample.nodalFunctions.loadingNodePositions loading.data)
      ∧ registered Sample.mPointMatrix.constraints = []
      ∧ (replaceDirectMatricesRun Sample.enumerators Sample.nodalFunctions
          Sample.mPointMatrix).state.addedDofsByNode = [(0, DOFS.ALL_DOFS)]
      ∧ (replaceDirectMatricesRun Sample.enumerators Sample.nodalFunctions
          Sample.mPointMatrix).state.ownedDofsByNode = [(0, DOFS.NO_DOFS)]
      ∧ (registered (replaceDirectMatrices Sample.enumerators Sample.nodalFunctions
          Sample.mPointMatrix).state.constraints).map (fun constraint => constraint.data)
          = [(DOFS.ALL_DOFS \ {DOF.RY}, 101)] :=
  ⟨by decide!, by decide, by decide, by decide!, by decide!, by decide!⟩

/-- C25 (counterexample). A matrix that is not a stiffness matrix and whose terms are
all zero does not make `replaceDirectMatrices` fail: the pass completes, and the
catalog holds a discrete point, without any term, in place of the matrix. -/
theorem replaceDirectMatrices_zero_mass_counterexample :
    Sample.zeroMassMatrix ∈ registered Sample.mZeroMass.elementSets
      ∧ Sample.zeroMassMatrix.data.isMatrixElement = true
      ∧ Sample.zeroMassMatrix.type ≠ Sample.enumerators.ElementSet_STIFFNESS_MATRIX
      ∧ (replaceDirectMatrices Sample.enumerators Sample.nodalFunctions Sample.mZeroMass).error
          = none
      ∧ (registered (replaceDirectMatrices Sample.enumerators Sample.nodalFunctions
          Sample.mZeroMass).state.elementSets).map (fun es => es.data.kind)
          = [ElementSetKind.DiscretePoint [] []] :=
  ⟨by decide, by decide, by decide, by decide!, by decide!⟩

end Model

namespace Outcome
variable {σ : Type}

theorem andThen_error_ne_none (r : Outcome σ) (f : σ → Outcome σ) (h : r.error ≠ none) :
    (r.andThen f).error ≠ none := by
  cases he : r.error with
  | none => exact absurd he h
  | some e => rw [andThen_of_error_some r f e he]; exact h

theorem andThen_error_ne_none_of_next (r : Outcome σ) (f : σ → Outcome σ)
    (h : ∀ s, (f s).error ≠ none) : (r.andThen f).error ≠ none := by
  cases he : r.error with
  | none => rw [andThen_of_error_none r f he]; exact h _
  | some e => rw [andThen_of_error_some r f e he, he]; simp

theorem foldl_andThen_error_ne_none {ι : Type} (f : σ → ι → Outcome σ) (x : ι)
    (hbad : ∀ s, (f s x).error ≠ none) (l : List ι) (hx : x ∈ l) (s : σ) :
    (l.foldl (fun r x => r.andThen fun s => f s x) (Outcome.ok s)).error ≠ none :=
  foldl_andThen_error_of_mem f (fun _ => True) x (fun _ _ _ _ => trivial)
    (fun s _ => hbad s) l hx s trivial

end Outcome

namespace Model

variable {Lg LSd Cg CSd : Type}

theorem mem_nodePairs (submatrixByNodes : KeyMap (Int × Int) DOFMatrix) (pair : Int × Int) :
    pair ∈ MatrixElement.nodePairs submatrixByNodes ↔ ∃ kv ∈ submatrixByNodes, kv.1 = pair := by
  unfold MatrixElement.nodePairs
  rw [List.mem_dedup, List.mem_map]

theorem findInPairs_ne_nil (submatrixByNodes : KeyMap (Int × Int) DOFMatrix) (pair : Int × Int)
    (hpair : pair ∈ MatrixElement.nodePairs submatrixByNodes) (hne : pair.1 ≠ pair.2) :
    (MatrixElement.findInPairs submatrixByNodes pair.1).length ≠ 0 := by
  obtain ⟨kv, hkv, rfl⟩ := (mem_nodePairs _ _).1 hpair
  have hmem : kv.1.2 ∈ MatrixElement.findInPairs submatrixByNodes kv.1.1 := by
    unfold MatrixElement.findInPairs
    rw [List.mem_dedup, List.mem_filterMap]
    exact ⟨kv, hkv, by rw [if_pos ⟨rfl, Ne.symm hne⟩]⟩
  intro h0
  rw [List.length_eq_zero] at h0
  rw [h0] at hmem
  cases hmem

theorem exists_pair_of_findInPairs (submatrixByNodes : KeyMap (Int × Int) DOFMatrix)
    (nodePosition : Int)
    (h : (MatrixElement.findInPairs submatrixByNodes nodePosition).length ≠ 0) :
    ∃ pair ∈ MatrixElement.nodePairs submatrixByNodes, pair.1 ≠ pair.2
      ∧ (pair.1 = nodePosition ∨ pair.2 = nodePosition) := by
  cases hl : MatrixElement.findInPairs submatrixByNodes nodePosition with
  | nil => rw [hl] at h; exact absurd rfl h
  | cons j rest =>
    have hj : j ∈ MatrixElement.findInPairs submatrixByNodes nodePosition := by
      rw [hl]; exact List.mem_cons_self _ _
    unfold MatrixElement.findInPairs at hj
    rw [List.mem_dedup, List.mem_filterMap] at hj
    obtain ⟨kv, hkv, hsome⟩ := hj
    refine ⟨kv.1, (mem_nodePairs _ _).2 ⟨kv, hkv, rfl⟩, ?_⟩
    by_cases h1 : kv.1.1 = nodePosition ∧ kv.1.2 ≠ nodePosition
    · exact ⟨fun h => h1.2 (h ▸ h1.1), Or.inl h1.1⟩
    · rw [if_neg h1] at hsome
      by_cases h2 : kv.1.2 = nodePosition ∧ kv.1.1 ≠ nodePosition
      · exact ⟨fun h => h2.2 (h ▸ h2.1), Or.inr h2.1⟩
      · rw [if_neg h2] at hsome
        cases hsome

theorem pointStiffness_error (E : Enumerators) (type : Nat) (submatrix : DOFMatrix)
    (htype : type ≠ E.ElementSet_STIFFNESS_MATRIX) (kv : (DOF × DOF) × ℚ)
    (hkv : kv ∈ submatrix) (hvalue : kv.2 ≠ 0) :
    (pointStiffness E type submatrix).error ≠ none := by
  unfold pointStiffness
  refine Outcome.foldl_andThen_error_ne_none
    (fun (discrete : DOFMatrix) (kv : (DOF × DOF) × ℚ) =>
      if isNonZero kv.2 then
        if type = E.ElementSet_STIFFNESS_MATRIX then Outcome.ok (discrete.assign kv.1 kv.2)
        else Outcome.throw discrete "Not yet implemented"
      else Outcome.ok discrete) kv ?_ submatrix hkv []
  intro s
  dsimp only
  rw [if_pos (by simp [isNonZero, hvalue]), if_neg htype]
  simp [Outcome.throw]

theorem segmentStiffness_error (E : Enumerators) (type : Nat) (divide : ℚ → Nat → ℚ)
    (submatrixByNodes : KeyMap (Int × Int) DOFMatrix) (pair : Int × Int)
    (htype : type ≠ E.ElementSet_STIFFNESS_MATRIX)
    (block : (Nat × Nat) × (Int × Int)) (hblock : block ∈ segmentBlocks pair)
    (kv : (DOF × DOF) × ℚ)
    (hkv : kv ∈ MatrixElement.findSubmatrix submatrixByNodes block.2.1 block.2.2)
    (hvalue : divide kv.2 (MatrixElement.findInPairs submatrixByNodes pair.1).length ≠ 0) :
    (segmentStiffness E type divide submatrixByNodes pair).error ≠ none := by
  unfold segmentStiffness
  refine Outcome.foldl_andThen_error_ne_none _ block ?_ (segmentBlocks pair) hblock []
  intro s
  refine Outcome.foldl_andThen_error_ne_none _ kv ?_ _ hkv s
  intro s2
  dsimp only
  rw [if_pos (by simp [isNonZero, hvalue]), if_neg htype]
  simp [Outcome.throw]

theorem replaceSingleNode_error (E : Enumerators) (type : Nat)
    (submatrixByNodes : KeyMap (Int × Int) DOFMatrix) (st : ReplaceState Lg LSd Cg CSd)
    (nodePosition : Int)
    (h : (pointStiffness E type
      (MatrixElement.findSubmatrix submatrixByNodes nodePosition nodePosition)).error ≠ none) :
    (replaceSingleNode E type submatrixByNodes st nodePosition).error ≠ none := by
  unfold replaceSingleNode
  split
  · simp [Outcome.throw]
  · split
    · simp [Outcome.throw]
    · rename_i hnone
      exact absurd hnone h

theorem replaceNodeCouple_error (E : Enumerators) (type : Nat) (divide : ℚ → Nat → ℚ)
    (submatrixByNodes : KeyMap (Int × Int) DOFMatrix) (st : ReplaceState Lg LSd Cg CSd)
    (pair : Int × Int)
    (h : (segmentStiffness E type divide submatrixByNodes pair).error ≠ none) :
    (replaceNodeCouple E type divide submatrixByNodes st pair).error ≠ none := by
  unfold replaceNodeCouple
  split
  · refine Outcome.andThen_error_ne_none_of_next _ _ ?_
    intro s
    split
    · simp [Outcome.throw]
    · rename_i hnone
      exact absurd hnone h
  · simp [Outcome.throw]

theorem add_keeps_objs {τ α : Type} [DecidableEq τ] (c : Container τ α) (t : Identifiable τ α)
    (q : Nat) (e : Identifiable τ α) (h : c.objs[q]? = some e) :
    (c.add t).state.objs[q]? = some e := by
  unfold Container.add
  split
  · exact h
  · simp only [Outcome.ok, Container.register]
    rw [List.getElem?_append_left (by
      by_contra hlt
      rw [List.getElem?_eq_none (by omega)] at h
      cases h)]
    exact h

theorem replaceSingleNode_keeps (E : Enumerators) (type : Nat)
    (submatrixByNodes : KeyMap (Int × Int) DOFMatrix) (st : ReplaceState Lg LSd Cg CSd)
    (nodePosition : Int) (q : Nat) (e : Identifiable Nat ElementSetData)
    (h : st.model.elementSets.objs[q]? = some e) :
    (replaceSingleNode E type submatrixByNodes st nodePosition).state.model.elementSets.objs[q]?
      = some e := by
  unfold replaceSingleNode
  split
  · exact h
  · split
    · exact h
    · refine Outcome.andThen_induction
        (fun s : ReplaceState Lg LSd Cg CSd => s.model.elementSets.objs[q]? = some e) _ _ ?_ ?_
      · simp only [ReplaceState.withModel, Outcome.mapState]
        rw [(getVirtualMaterial_frame E _).2.2]
        exact h
      · intro s hs
        simp only [ReplaceState.withModel, Outcome.mapState, addElementSet]
        exact add_keeps_objs _ _ q e hs

theorem replaceNodeCouple_keeps (E : Enumerators) (type : Nat) (divide : ℚ → Nat → ℚ)
    (submatrixByNodes : KeyMap (Int × Int) DOFMatrix) (st : ReplaceState Lg LSd Cg CSd)
    (pair : Int × Int) (q : Nat) (e : Identifiable Nat ElementSetData)
    (h : st.model.elementSets.objs[q]? = some e) :
    (replaceNodeCouple E type divide submatrixByNodes st
        pair).state.model.elementSets.objs[q]?
      = some e := by
  unfold replaceNodeCouple
  split
  · refine Outcome.andThen_induction
      (fun s : ReplaceState Lg LSd Cg CSd => s.model.elementSets.objs[q]? = some e) _ _ ?_ ?_
    · simp only [ReplaceState.withModel, Outcome.mapState]
      rw [(getVirtualMaterial_frame E _).2.2]
      exact h
    · intro s hs
      split
      · exact hs
      · simp only [ReplaceState.withModel, Outcome.mapState, addElementSet]
        exact add_keeps_objs _ _ q e hs
  · exact h

theorem replaceMatrix_keeps (E : Enumerators) (divide : ℚ → Nat → ℚ)
    (st : ReplaceState Lg LSd Cg CSd) (ptr : Nat)
    (q : Nat) (e : Identifiable Nat ElementSetData)
    (h : st.model.elementSets.objs[q]? = some e) :
    (replaceMatrix E divide st ptr).state.model.elementSets.objs[q]? = some e := by
  unfold replaceMatrix
  split
  · exact h
  · split
    · exact h
    · refine Outcome.andThen_induction
        (fun s : ReplaceState Lg LSd Cg CSd => s.model.elementSets.objs[q]? = some e) _ _ ?_
        (fun s hs => hs)
      refine Outcome.andThen_induction
        (fun s : ReplaceState Lg LSd Cg CSd => s.model.elementSets.objs[q]? = some e) _ _ ?_ ?_
      · refine Outcome.foldl_andThen_induction
          (fun s : ReplaceState Lg LSd Cg CSd => s.model.elementSets.objs[q]? = some e) _ ?_ _ _ h
        intro s x hs
        unfold recordOwnedDOFS
        split <;> exact hs
      · intro s hs
        refine Outcome.foldl_andThen_induction
          (fun s : ReplaceState Lg LSd Cg CSd => s.model.elementSets.objs[q]? = some e) _ ?_ _ _ hs
        intro s2 x hs2
        unfold replacePair
        split
        · split
          · exact hs2
          · exact replaceSingleNode_keeps E _ _ s2 _ q e hs2
        · exact replaceNodeCouple_keeps E _ divide _ s2 _ q e hs2

theorem replacePair_error (E : Enumerators) (type : Nat) (divide : ℚ → Nat → ℚ)
    (submatrixByNodes : KeyMap (Int × Int) DOFMatrix)
    (htype : type ≠ E.ElementSet_STIFFNESS_MATRIX) (pair : Int × Int)
    (hpair : pair ∈ MatrixElement.nodePairs submatrixByNodes) (kv : (DOF × DOF) × ℚ)
    (hkv : kv ∈ MatrixElement.findSubmatrix submatrixByNodes pair.1 pair.2)
    (hvalue : kv.2 ≠ 0)
    (hquotient : ∀ nodePosition : Int,
      (MatrixElement.findInPairs submatrixByNodes nodePosition).length ≠ 0 →
      divide kv.2 (MatrixElement.findInPairs submatrixByNodes nodePosition).length ≠ 0) :
    ∃ pair2 ∈ MatrixElement.nodePairs submatrixByNodes,
      ∀ st : ReplaceState Lg LSd Cg CSd,
        (replacePair E type divide submatrixByNodes st pair2).error ≠ none := by
  by_cases hne : pair.1 = pair.2
  · by_cases hin : (MatrixElement.findInPairs submatrixByNodes pair.1).length ≠ 0
    · obtain ⟨pair2, hpair2, hne2, hor⟩ := exists_pair_of_findInPairs submatrixByNodes pair.1 hin
      have hkv2 : kv ∈ MatrixElement.findSubmatrix submatrixByNodes pair.1 pair.1 := by
        rw [← hne] at hkv
        exact hkv
      have hq2 := hquotient pair2.1 (findInPairs_ne_nil submatrixByNodes pair2 hpair2 hne2)
      refine ⟨pair2, hpair2, fun st => ?_⟩
      unfold replacePair
      rw [if_neg hne2]
      refine replaceNodeCouple_error E type divide submatrixByNodes st pair2 ?_
      rcases hor with h1 | h2
      · exact segmentStiffness_error E type divide submatrixByNodes pair2 htype
          ((0, 0), (pair2.1, pair2.1)) (by simp [segmentBlocks]) kv
          (by show kv ∈ MatrixElement.findSubmatrix submatrixByNodes pair2.1 pair2.1
              rw [h1]; exact hkv2) hq2
      · exact segmentStiffness_error E type divide submatrixByNodes pair2 htype
          ((1, 1), (pair2.2, pair2.2)) (by simp [segmentBlocks]) kv
          (by show kv ∈ MatrixElement.findSubmatrix submatrixByNodes pair2.2 pair2.2
              rw [h2]; exact hkv2) hq2
    · refine ⟨pair, hpair, fun st => ?_⟩
      unfold replacePair
      rw [if_pos hne, if_neg hin]
      refine replaceSingleNode_error E type submatrixByNodes st pair.1 ?_
      refine pointStiffness_error E type _ htype kv ?_ hvalue
      rw [← hne] at hkv
      exact hkv
  · refine ⟨pair, hpair, fun st => ?_⟩
    unfold replacePair
    rw [if_neg hne]
    exact replaceNodeCouple_error E type divide submatrixByNodes st pair
      (segmentStiffness_error E type divide submatrixByNodes pair htype
        ((0, 1), (pair.1, pair.2)) (by simp [segmentBlocks]) kv hkv
        (hquotient pair.1 (findInPairs_ne_nil submatrixByNodes pair hpair hne)))

/-- C25 (amended). A matrix element set of the catalog whose type is not
`STIFFNESS_MATRIX` makes `replaceDirectMatrices` fail, the run throwing at this
matrix or before it, when the matrix has a term that the pass reads as different
from zero wherever it reads it: the term is not zero, which is what the pass tests
for a node that is in no pair with another node, and its quotient by the number of
pairs of a node, as the machine computes it, is not zero either, which is what the
pass tests for the segments. -/
theorem replaceDirectMatrices_fails_on_other_matrix (E : Enumerators)
    (F : NodalFunctions Lg Cg) (m : Model Lg LSd Cg CSd)
    (es : Identifiable Nat ElementSetData) (hes : es ∈ registered m.elementSets)
    (hm : es.data.isMatrixElement = true) (htype : es.type ≠ E.ElementSet_STIFFNESS_MATRIX)
    (hterm : ∃ pair ∈ MatrixElement.nodePairs es.data.submatrixByNodes,
      ∃ kv ∈ MatrixElement.findSubmatrix es.data.submatrixByNodes pair.1 pair.2,
        kv.2 ≠ 0
          ∧ ∀ nodePosition : Int,
              (MatrixElement.findInPairs es.data.submatrixByNodes nodePosition).length ≠ 0 →
              F.divide kv.2
                (MatrixElement.findInPairs es.data.submatrixByNodes nodePosition).length
                ≠ 0) :
    (replaceDirectMatrices E F m).error ≠ none := by
  obtain ⟨entry, hentry, hobj⟩ := (mem_registered _ es).1 hes
  obtain ⟨pair, hpair, kv, hkv, hvalue, hquotient⟩ := hterm
  obtain ⟨pair2, hpair2, hbad⟩ := @replacePair_error Lg LSd Cg CSd E es.type F.divide
    es.data.submatrixByNodes htype pair hpair kv hkv hvalue hquotient
  unfold replaceDirectMatrices Outcome.mapState
  dsimp only
  refine Outcome.andThen_error_ne_none _ _ ?_
  unfold replaceDirectMatricesRun
  refine Outcome.andThen_error_ne_none _ _ ?_
  refine Outcome.foldl_andThen_error_of_mem _
    (fun st : ReplaceState Lg LSd Cg CSd => st.model.elementSets.objs[entry.2]? = some es)
    entry ?_ ?_ _ hentry _ hobj
  · intro s y hs _
    exact replaceMatrix_keeps E F.divide s y.2 entry.2 es hs
  · intro s hs
    unfold replaceMatrix
    rw [hs]
    dsimp only
    rw [if_neg (by simp [hm])]
    refine Outcome.andThen_error_ne_none _ _ ?_
    refine Outcome.andThen_error_ne_none_of_next _ _ ?_
    intro s2
    exact Outcome.foldl_andThen_error_ne_none _ pair2 (fun s3 => hbad s3) _ hpair2 s2

theorem replaceDirectMatrices_fails_on_other_matrix_witness :
    (replaceDirectMatrices Sample.enumerators Sample.nodalFunctions
      (Model.addElementSet Sample.mMesh3
        { Sample.chainMatrix with type := 99 }).state).error ≠ none :=
  replaceDirectMatrices_fails_on_other_matrix Sample.enumerators Sample.nodalFunctions
    (Model.addElementSet Sample.mMesh3 { Sample.chainMatrix with type := 99 }).state
    { Sample.chainMatrix with type := 99 } (by decide) (by decide) (by decide)
    ⟨(0, 1), by decide, ((DOF.DX, DOF.DX), 6), by decide, by decide,
      fun nodePosition hn =>
        div_ne_zero (by norm_num) (Nat.cast_ne_zero.2 hn)⟩

end Model

namespace Outcome
variable {σ : Type}

theorem foldl_andThen_split {ι : Type} (f : σ → ι → Outcome σ) (Inv : List ι → σ → Prop)
    (l0 : List ι)
    (hstep : ∀ pre x rest s, l0 = pre ++ x :: rest → Inv pre s → (f s x).error = none →
      Inv (pre ++ [x]) (f s x).state) :
    ∀ (l pre : List ι) (s : σ), l0 = pre ++ l → Inv pre s →
      ((l.foldl (fun r x => r.andThen fun s => f s x) (Outcome.ok s)).error = none →
          Inv l0 (l.foldl (fun r x => r.andThen fun s => f s x) (Outcome.ok s)).state)
        ∧ ((l.foldl (fun r x => r.andThen fun s => f s x) (Outcome.ok s)).error ≠ none →
          ∃ pre2 x rest s2, l0 = pre2 ++ x :: rest ∧ Inv pre2 s2 ∧ (f s2 x).error ≠ none) := by
  intro l
  induction l with
  | nil =>
    intro pre s hl hs
    rw [List.append_nil] at hl
    subst hl
    exact ⟨fun _ => hs, fun h => absurd rfl h⟩
  | cons y rest ih =>
    intro pre s hl hs
    rw [List.foldl_cons, andThen_of_ok]
    cases he : (f s y).error with
    | some e =>
      rw [foldl_andThen_of_error_some f rest (f s y) e he]
      refine ⟨fun h => ?_, fun _ => ⟨pre, y, rest, s, hl, hs, by rw [he]; simp⟩⟩
      rw [he] at h
      cases h
    | none =>
      rw [eq_ok_of_error_none (f s y) he]
      exact ih (pre ++ [y]) (f s y).state (by rw [hl]; simp) (hstep pre y rest s hl hs he)

end Outcome

namespace Model

variable {Lg LSd Cg CSd : Type}

/-! ## The removal of the redundant SPCs -/

end Model

namespace Outcome
variable {σ : Type}

end Outcome

namespace Model

variable {Lg LSd Cg CSd : Type}

end Model

namespace Outcome
variable {σ : Type}

theorem foldl_andThen_error_of_mem_list {ι : Type} (f : σ → ι → Outcome σ) (P : σ → Prop)
    (x : ι) (l0 : List ι)
    (hkeep : ∀ s y, y ∈ l0 → P s → (f s y).error = none → P (f s y).state)
    (hbad : ∀ s, P s → (f s x).error ≠ none) :
    ∀ (l : List ι), (∀ y ∈ l, y ∈ l0) → x ∈ l → ∀ s : σ, P s →
      (l.foldl (fun r x => r.andThen fun s => f s x) (Outcome.ok s)).error ≠ none := by
  intro l
  induction l with
  | nil => intro _ hx; cases hx
  | cons y rest ih =>
    intro hsub hx s hs
    rw [List.foldl_cons, andThen_of_ok]
    cases he : (f s y).error with
    | some e =>
      rw [foldl_andThen_of_error_some f rest (f s y) e he, he]
      simp
    | none =>
      rcases List.mem_cons.1 hx with h | h
      · subst h
        exact absurd he (hbad s hs)
      · rw [eq_ok_of_error_none (f s y) he]
        exact ih (fun z hz => hsub z (List.mem_cons_of_mem _ hz)) h _
          (hkeep s y (hsub y (List.mem_cons_self _ _)) hs he)

end Outcome

namespace Model

variable {Lg LSd Cg CSd : Type}

end Model

namespace KeyMap
variable {K V : Type} [DecidableEq K]

theorem find_of_find_erase (m : KeyMap K V) (k k2 : K) (v : V)
    (h : (m.erase k).find k2 = some v) : m.find k2 = some v := by
  by_cases hk : k = k2
  · subst hk
    rw [find_erase_self] at h
    cases h
  · rwa [find_erase_ne _ _ _ hk] at h

end KeyMap

namespace Model

variable {Lg LSd Cg CSd : Type}

end Model

namespace Container
variable {τ α : Type} [DecidableEq τ]

theorem find_of_erase_resolved (c : Container τ α) (r0 r : Reference τ) (p : Nat)
    (h : (c.erase r0).find r = some p) : c.find r = some p := by
  unfold Container.find Container.erase at h
  unfold Container.find
  cases ho : r.original_id with
  | some o =>
    rw [ho] at h
    dsimp only at h ⊢
    cases ho0 : r0.original_id with
    | none =>
      rw [ho0] at h
      exact h
    | some o0 =>
      rw [ho0] at h
      dsimp only at h
      by_cases ht : r0.type = r.type
      · rw [ht, KeyMap.find_assign_self] at h
        dsimp only at h
        have h2 := KeyMap.find_of_find_erase _ _ _ _ h
        unfold KeyMap.atOrEmpty at h2
        cases hin : KeyMap.find c.by_original_ids_by_type r.type with
        | none =>
          rw [hin] at h2
          simp [KeyMap.find] at h2
        | some inner =>
          rw [hin] at h2
          exact h2
      · rw [KeyMap.find_assign_ne _ _ _ _ ht] at h
        exact h
  | none =>
    rw [ho] at h
    dsimp only at h ⊢
    cases hi : r.id with
    | none =>
      rw [hi] at h
      cases h
    | some i =>
      rw [hi] at h
      dsimp only at h ⊢
      cases hi0 : r0.id with
      | none =>
        rw [hi0] at h
        exact h
      | some i0 =>
        rw [hi0] at h
        exact KeyMap.find_of_find_erase _ _ _ _ h

theorem find_erase_of_resolves_elsewhere (c : Container τ α) (t : Identifiable τ α)
    (r : Reference τ) (p : Nat) (hr : c.find r = some p)
    (ht : ∀ p2, c.find t.getReference = some p2 → p2 ≠ p) :
    (c.erase t.getReference).find r = some p ∧ r ≠ t.getReference := by
  constructor
  · rw [Model.find_erase_of_disjoint c t.getReference r]
    · exact hr
    · intro o ho hboth
      have e1 : c.find t.getReference = c.find r := by
        rw [find_of_original_id c r o ho, find_of_original_id c t.getReference o hboth.2,
          hboth.1]
      rw [hr] at e1
      exact ht p e1 rfl
    · intro ho i hi hid
      have hto : t.getReference.original_id = none := by
        simp only [Identifiable.getReference, Identifiable.isOriginal] at hid ⊢
        cases hx : t.original_id with
        | none => rfl
        | some x => simp [hx] at hid
      have e1 : c.find t.getReference = c.find r := by
        rw [find_of_id_only c r i ho hi, find_of_id_only c t.getReference i hto hid]
      rw [hr] at e1
      exact ht p e1 rfl
  · intro heq
    rw [heq] at hr
    exact ht p hr rfl

end Container

namespace Model

variable {Lg LSd Cg CSd : Type}

/-! ## Cells for the rigid constraints -/

theorem mem_getConstraintsByConstraintSet_iff (m : Model Lg LSd Cg CSd) (s : Reference Nat)
    (x : Option Nat) :
    x ∈ m.getConstraintsByConstraintSet s ↔
      ∃ r : Reference Nat,
        (r ∈ membersById m.constraintReferences_by_constraintSet_ids s
          ∨ r ∈ membersByOriginalId
              m.constraintReferences_by_constraintSet_original_ids_by_constraintSet_type s)
        ∧ m.constraints.find r = x := by
  rw [getConstraintsByConstraintSet_eq_foldl, mem_foldl_setInsert, mem_foldl_setInsert]
  constructor
  · rintro ((h | ⟨r, hr, hx⟩) | ⟨r, hr, hx⟩)
    · cases h
    · exact ⟨r, Or.inl hr, hx⟩
    · exact ⟨r, Or.inr hr, hx⟩
  · rintro ⟨r, hr | hr, hx⟩
    · exact Or.inl (Or.inr ⟨r, hr, hx⟩)
    · exact Or.inr ⟨r, hr, hx⟩

theorem mem_getConstraintsByType (m : Model Lg LSd Cg CSd) (constraintSet : Identifiable Nat CSd)
    (type : Nat) (ptr : Nat) :
    ptr ∈ getConstraintsByType m constraintSet type ↔
      some ptr ∈ m.getConstraintsByConstraintSet constraintSet.getReference
        ∧ ∃ c, m.constraints.objs[ptr]? = some c ∧ c.type = type := by
  unfold getConstraintsByType
  rw [List.mem_filterMap]
  constructor
  · rintro ⟨a, ha, hf⟩
    cases a with
    | none => cases hf
    | some p =>
      dsimp only at hf
      cases hobj : m.constraints.objs[p]? with
      | none => rw [hobj] at hf; cases hf
      | some c =>
        rw [hobj] at hf
        dsimp only at hf
        by_cases ht : c.type = type
        · rw [if_pos ht] at hf
          cases hf
          exact ⟨ha, c, hobj, ht⟩
        · rw [if_neg ht] at hf
          cases hf
  · rintro ⟨ha, c, hobj, ht⟩
    refine ⟨some ptr, ha, ?_⟩
    dsimp only
    rw [hobj]
    dsimp only
    rw [if_pos ht]

theorem mem_membersById_of_filter (index : KeyMap Int (List (Reference Nat)))
    (s refC : Reference Nat) (idCS : Int) (r : Reference Nat)
    (hr : r ∈ membersById index s) (hne : r ≠ refC) :
    r ∈ membersById
      (index.assign idCS
        ((KeyMap.atOrEmpty index idCS).filter (fun it2 => decide (it2 ≠ refC)))) s := by
  unfold membersById at hr ⊢
  cases hs : s.id with
  | none =>
    rw [hs] at hr
    simp [KeyMap.findOpt] at hr
  | some i =>
    rw [hs] at hr
    simp only [KeyMap.findOpt] at hr ⊢
    by_cases hi : idCS = i
    · subst hi
      rw [KeyMap.find_assign_self]
      simp only [Option.getD_some, List.mem_filter, decide_eq_true_eq]
      exact ⟨hr, hne⟩
    · rw [KeyMap.find_assign_ne _ _ _ _ hi]
      exact hr

theorem mem_membersByOriginalId_of_filter
    (index : KeyMap Nat (KeyMap Int (List (Reference Nat))))
    (s refC : Reference Nat) (originalIdCS : Int) (csT : Nat) (r : Reference Nat)
    (hr : r ∈ membersByOriginalId index s) (hne : r ≠ refC) :
    r ∈ membersByOriginalId
      (index.assign csT
        (KeyMap.assign (KeyMap.atOrEmpty index csT) originalIdCS
          ((KeyMap.atOrEmpty (KeyMap.atOrEmpty index csT) originalIdCS).filter
            (fun it3 => decide (it3 ≠ refC))))) s := by
  unfold membersByOriginalId at hr ⊢
  by_cases ht : csT = s.type
  · subst ht
    rw [KeyMap.find_assign_self]
    dsimp only
    cases hin : KeyMap.find index s.type with
    | none =>
      rw [hin] at hr
      cases hr
    | some inner =>
      rw [hin] at hr
      dsimp only at hr
      have hat : KeyMap.atOrEmpty index s.type = inner := by
        unfold KeyMap.atOrEmpty
        rw [hin]
        rfl
      rw [hat]
      cases ho : s.original_id with
      | none =>
        rw [ho] at hr
        simp [KeyMap.findOpt] at hr
      | some o =>
        rw [ho] at hr
        simp only [KeyMap.findOpt] at hr ⊢
        by_cases ho2 : originalIdCS = o
        · subst ho2
          rw [KeyMap.find_assign_self]
          simp only [Option.getD_some, List.mem_filter, decide_eq_true_eq]
          exact ⟨hr, hne⟩
        · rw [KeyMap.find_assign_ne _ _ _ _ ho2]
          exact hr
  · rw [KeyMap.find_assign_ne _ _ _ _ ht]
    exact hr

theorem mem_getConstraintsByType_removeConstraintOfSet (m : Model Lg LSd Cg CSd)
    (constraintSet : Identifiable Nat CSd) (type : Nat) (ptr : Nat) (x : Identifiable Nat Cg)
    (idCS : Int) (originalIdCS : Option Int) (csT : Nat)
    (hq : ptr ∈ getConstraintsByType m constraintSet type)
    (hown : ∀ p2, m.constraints.find x.getReference = some p2 → p2 ≠ ptr) :
    ptr ∈ getConstraintsByType
      (removeConstraintOfSet m x.getReference idCS originalIdCS csT) constraintSet type := by
  rw [mem_getConstraintsByType] at hq ⊢
  obtain ⟨hmem, c, hobj, ht⟩ := hq
  refine ⟨?_, c, hobj, ht⟩
  rw [mem_getConstraintsByConstraintSet_iff] at hmem ⊢
  obtain ⟨r, hr, hfind⟩ := hmem
  obtain ⟨hfind2, hne⟩ :=
    Container.find_erase_of_resolves_elsewhere m.constraints x r ptr hfind hown
  refine ⟨r, ?_, hfind2⟩
  rcases hr with hr | hr
  · exact Or.inl (mem_membersById_of_filter _ _ _ _ _ hr hne)
  · right
    unfold removeConstraintOfSet
    dsimp only
    cases originalIdCS with
    | none => exact hr
    | some o => exact mem_membersByOriginalId_of_filter _ _ _ _ _ _ hr hne

theorem ownReferences_removeConstraintOfSet (m : Model Lg LSd Cg CSd) (refC : Reference Nat)
    (idCS : Int) (originalIdCS : Option Int) (csT : Nat) (h : OwnReferences m) :
    OwnReferences (removeConstraintOfSet m refC idCS originalIdCS csT) := by
  intro ptr constraint ptr2 hobj hfind
  exact h ptr constraint ptr2 hobj (Container.find_of_erase_resolved _ _ _ _ hfind)

theorem getConstraintsByType_of_kept {m m2 : Model Lg LSd Cg CSd} (h : ConstraintsKept m m2)
    (constraintSet : Identifiable Nat CSd) (type : Nat) :
    getConstraintsByType m2 constraintSet type = getConstraintsByType m constraintSet type := by
  unfold getConstraintsByType getConstraintsByConstraintSet
  rw [h.1, h.2.1, h.2.2]

theorem removeConstraintOfSet_of_kept {m m2 : Model Lg LSd Cg CSd} (h : ConstraintsKept m m2)
    (refC : Reference Nat) (idCS : Int) (originalIdCS : Option Int) (csT : Nat) :
    ConstraintsKept (removeConstraintOfSet m refC idCS originalIdCS csT)
      (removeConstraintOfSet m2 refC idCS originalIdCS csT) := by
  unfold removeConstraintOfSet ConstraintsKept
  dsimp only
  rw [h.1, h.2.1, h.2.2]
  exact ⟨rfl, rfl, rfl⟩

theorem ConstraintsKept.kept_refl (m : Model Lg LSd Cg CSd) : ConstraintsKept m m :=
  ⟨rfl, rfl, rfl⟩

theorem ConstraintsKept.kept_trans {m m2 m3 : Model Lg LSd Cg CSd} (h : ConstraintsKept m m2)
    (h2 : ConstraintsKept m2 m3) : ConstraintsKept m m3 :=
  ⟨h2.1.trans h.1, h2.2.1.trans h.2.1, h2.2.2.trans h.2.2⟩

theorem addRigidMaterial_kept (E : Enumerators) (m : Model Lg LSd Cg CSd) (nature : Nature) :
    ConstraintsKept m (addRigidMaterial E m nature).2.state :=
  ⟨rfl, rfl, rfl⟩

theorem addRigidElementSet_kept (m : Model Lg LSd Cg CSd) (type : Nat) (kind : ElementSetKind)
    (group material : Nat) :
    ConstraintsKept m (addRigidElementSet m type kind group material).state :=
  ⟨rfl, rfl, rfl⟩

theorem addRigidCell_kept (master : Node) (group : Nat) (m : Model Lg LSd Cg CSd)
    (position : Int) : ConstraintsKept m (addRigidCell master group m position).state := by
  unfold addRigidCell
  split <;> exact ⟨rfl, rfl, rfl⟩

theorem makeCellsFromRigid_spec (E : Enumerators) (m : Model Lg LSd ConstraintData CSd)
    (constraintSet : Identifiable Nat CSd) (ptr : Nat) (x : Constraint)
    (hobj : m.constraints.objs[ptr]? = some x)
    (hok : (makeCellsFromRigid E m constraintSet ptr).error = none) :
    ∃ m4, ConstraintsKept m m4
      ∧ (makeCellsFromRigid E m constraintSet ptr).state
          = removeConstraintOfSet m4 x.getReference constraintSet.id
              constraintSet.original_id constraintSet.type := by
  unfold makeCellsFromRigid at hok ⊢
  simp only [hobj] at hok ⊢
  have h1 := Outcome.error_none_of_andThen _ _ hok
  rw [Outcome.andThen_of_error_none _ _ h1] at hok ⊢
  have k1 := addRigidMaterial_kept E m (Nature.Rigid (some 1) none)
  cases hnode : (addRigidMaterial E m (Nature.Rigid (some 1) none)).2.state.mesh.findNode
      x.data.getMaster with
  | none =>
    simp only [hnode] at hok
    cases hok
  | some master =>
    simp only [hnode] at hok ⊢
    have h2 := Outcome.error_none_of_andThen _ _ hok
    rw [Outcome.andThen_of_error_none _ _ h2] at hok ⊢
    have h3 := Outcome.error_none_of_andThen _ _ hok
    rw [Outcome.andThen_of_error_none _ _ h3]
    refine ⟨_, ?_, rfl⟩
    apply Outcome.foldl_andThen_induction (ConstraintsKept m)
    · intro s position hs
      exact hs.kept_trans (addRigidCell_kept _ _ _ _)
    · exact ⟨rfl, rfl, rfl⟩

theorem makeCellsFromQuasiRigid_spec (E : Enumerators) (m : Model Lg LSd ConstraintData CSd)
    (constraintSet : Identifiable Nat CSd) (ptr : Nat) (x : Constraint)
    (hobj : m.constraints.objs[ptr]? = some x)
    (hok : (makeCellsFromQuasiRigid E m constraintSet ptr).error = none) :
    x.data.getSlaves.length = 2
      ∧ ∃ m4, ConstraintsKept m m4
        ∧ (makeCellsFromQuasiRigid E m constraintSet ptr).state
            = removeConstraintOfSet m4 x.getReference constraintSet.id
                constraintSet.original_id constraintSet.type := by
  unfold makeCellsFromQuasiRigid at hok ⊢
  simp only [hobj] at hok ⊢
  by_cases hlen : x.data.getSlaves.length ≠ 2
  · rw [if_pos hlen] at hok
    cases hok
  · rw [if_neg hlen] at hok ⊢
    refine ⟨not_not.1 hlen, ?_⟩
    have h1 := Outcome.error_none_of_andThen _ _ hok
    rw [Outcome.andThen_of_error_none _ _ h1] at hok ⊢
    have k1 := addRigidMaterial_kept E m (Nature.Rigid (some 1) none)
    cases hm : x.data.getSlaves.head?.bind
        (addRigidMaterial E m (Nature.Rigid (some 1) none)).2.state.mesh.findNode with
    | none =>
      simp only [hm] at hok
      cases hok
    | some masterNode =>
      cases hs : x.data.getSlaves.getLast?.bind
          (addRigidMaterial E m (Nature.Rigid (some 1) none)).2.state.mesh.findNode with
      | none =>
        simp only [hm, hs] at hok
        cases hok
      | some slaveNode =>
        simp only [hm, hs] at hok ⊢
        have h2 := Outcome.error_none_of_andThen _ _ hok
        rw [Outcome.andThen_of_error_none _ _ h2]
        refine ⟨_, ?_, rfl⟩
        exact ⟨rfl, rfl, rfl⟩

theorem makeCellsFromQuasiRigid_error (E : Enumerators) (m : Model Lg LSd ConstraintData CSd)
    (constraintSet : Identifiable Nat CSd) (ptr : Nat) (x : Constraint)
    (hobj : m.constraints.objs[ptr]? = some x) (hlen : x.data.getSlaves.length ≠ 2) :
    (makeCellsFromQuasiRigid E m constraintSet ptr).error ≠ none := by
  unfold makeCellsFromQuasiRigid
  simp only [hobj]
  rw [if_pos hlen]
  simp [Outcome.throw]

theorem makeCellFromSlave_kept (E : Enumerators) (m : Model Lg LSd ConstraintData CSd)
    (constraint : Constraint) (master : Node) (st : Rbe3State Lg LSd CSd) (position : Int)
    (h : ConstraintsKept m st.model) :
    ConstraintsKept m (makeCellFromSlave E constraint master st position).state.model := by
  unfold makeCellFromSlave
  split
  · exact h
  · split
    · exact h
    · apply Outcome.andThen_induction (fun st2 : Rbe3State Lg LSd CSd =>
        ConstraintsKept m st2.model)
      · simp only [Outcome.mapState, addRbe3Part]
        apply Outcome.andThen_induction (ConstraintsKept m)
        · exact h.kept_trans ⟨rfl, rfl, rfl⟩
        · intro s hs
          exact hs.kept_trans ⟨rfl, rfl, rfl⟩
      · intro st2 hst2
        exact hst2

theorem makeCellsFromRBE3_spec (E : Enumerators) (m : Model Lg LSd ConstraintData CSd)
    (constraintSet : Identifiable Nat CSd) (ptr : Nat) (x : Constraint)
    (hobj : m.constraints.objs[ptr]? = some x)
    (hok : (makeCellsFromRBE3 E m constraintSet ptr).error = none) :
    ∃ m4, ConstraintsKept m m4
      ∧ (makeCellsFromRBE3 E m constraintSet ptr).state
          = removeConstraintOfSet m4 x.getReference constraintSet.id
              constraintSet.original_id constraintSet.type := by
  unfold makeCellsFromRBE3 at hok ⊢
  simp only [hobj] at hok ⊢
  cases hnode : m.mesh.findNode x.data.getMaster with
  | none =>
    simp only [hnode] at hok
    cases hok
  | some master =>
    simp only [hnode] at hok ⊢
    have h1 := Outcome.error_none_of_andThen _ _ hok
    rw [Outcome.andThen_of_error_none _ _ h1]
    refine ⟨_, ?_, rfl⟩
    simp only [Outcome.mapState]
    apply Outcome.foldl_andThen_induction (fun st2 : Rbe3State Lg LSd CSd =>
      ConstraintsKept m st2.model)
    · intro s position hs
      exact makeCellFromSlave_kept E m x master s position hs
    · exact ConstraintsKept.kept_refl m

theorem makeCellsFromRigid_of_none (E : Enumerators) (m : Model Lg LSd ConstraintData CSd)
    (constraintSet : Identifiable Nat CSd) (ptr : Nat) (hobj : m.constraints.objs[ptr]? = none) :
    (makeCellsFromRigid E m constraintSet ptr).error ≠ none := by
  unfold makeCellsFromRigid
  simp [hobj, Outcome.throw]

theorem makeCellsFromQuasiRigid_of_none (E : Enumerators)
    (m : Model Lg LSd ConstraintData CSd) (constraintSet : Identifiable Nat CSd) (ptr : Nat)
    (hobj : m.constraints.objs[ptr]? = none) :
    (makeCellsFromQuasiRigid E m constraintSet ptr).error ≠ none := by
  unfold makeCellsFromQuasiRigid
  simp [hobj, Outcome.throw]

theorem makeCellsFromRBE3_of_none (E : Enumerators) (m : Model Lg LSd ConstraintData CSd)
    (constraintSet : Identifiable Nat CSd) (ptr : Nat) (hobj : m.constraints.objs[ptr]? = none) :
    (makeCellsFromRBE3 E m constraintSet ptr).error ≠ none := by
  unfold makeCellsFromRBE3
  simp [hobj, Outcome.throw]

theorem handsOut_after_remove (constraintSet2 : Identifiable Nat CSd) (type : Nat)
    (ptrq : Nat) (q : Identifiable Nat Cg) (st m4 : Model Lg LSd Cg CSd)
    (constraintSet : Identifiable Nat CSd) (ptr : Nat) (x : Identifiable Nat Cg)
    (h : HandsOut st constraintSet2 type ptrq q)
    (hobj : st.constraints.objs[ptr]? = some x) (hne : ptr ≠ ptrq)
    (hkept : ConstraintsKept st m4) :
    HandsOut
        (removeConstraintOfSet m4 x.getReference constraintSet.id constraintSet.original_id
          constraintSet.type)
        constraintSet2 type ptrq q
      ∧ (removeConstraintOfSet m4 x.getReference constraintSet.id constraintSet.original_id
          constraintSet.type).constraints.objs = st.constraints.objs := by
  obtain ⟨hown, hq, hmem⟩ := h
  have hk := removeConstraintOfSet_of_kept hkept x.getReference constraintSet.id
    constraintSet.original_id constraintSet.type
  have hobjs : (removeConstraintOfSet m4 x.getReference constraintSet.id
      constraintSet.original_id constraintSet.type).constraints.objs
        = st.constraints.objs := by
    rw [hk.1]
    rfl
  refine ⟨⟨?_, ?_, ?_⟩, hobjs⟩
  · intro p c p2 hp hfind
    rw [hk.1] at hp hfind
    exact ownReferences_removeConstraintOfSet st _ _ _ _ hown p c p2 hp hfind
  · rw [hobjs]
    exact hq
  · rw [getConstraintsByType_of_kept hk]
    apply mem_getConstraintsByType_removeConstraintOfSet _ _ _ _ _ _ _ _ hmem
    intro p2 hfind
    rw [hown ptr x p2 hobj hfind]
    exact hne

theorem rbe_loop_keeps (constraintSet2 : Identifiable Nat CSd) (type : Nat) (ptrq : Nat)
    (q : Identifiable Nat Cg) (constraintSet : Identifiable Nat CSd)
    (body : Model Lg LSd Cg CSd → Nat → Outcome (Model Lg LSd Cg CSd))
    (hbody : ∀ st ptr x, st.constraints.objs[ptr]? = some x → (body st ptr).error = none →
      ∃ m4, ConstraintsKept st m4
        ∧ (body st ptr).state = removeConstraintOfSet m4 x.getReference constraintSet.id
            constraintSet.original_id constraintSet.type)
    (hnone : ∀ st ptr, st.constraints.objs[ptr]? = none → (body st ptr).error ≠ none)
    (L : List Nat) (objs0 : List (Identifiable Nat Cg))
    (hne : ∀ st ptr, ptr ∈ L → st.constraints.objs = objs0 → (body st ptr).error = none →
      ptr ≠ ptrq)
    (st : Model Lg LSd Cg CSd) (hobjs : st.constraints.objs = objs0)
    (h : HandsOut st constraintSet2 type ptrq q)
    (hok : (L.foldl (fun r ptr => r.andThen fun s => body s ptr) (Outcome.ok st)).error = none) :
    HandsOut (L.foldl (fun r ptr => r.andThen fun s => body s ptr) (Outcome.ok st)).state
        constraintSet2 type ptrq q
      ∧ (L.foldl (fun r ptr => r.andThen fun s => body s ptr)
          (Outcome.ok st)).state.constraints.objs = objs0 := by
  have key := Outcome.foldl_andThen_split body
    (fun _ s => HandsOut s constraintSet2 type ptrq q ∧ s.constraints.objs = objs0) L
    (by
      intro pre ptr rest s hl ⟨hs, hso⟩ hstep
      cases hobj : s.constraints.objs[ptr]? with
      | none => exact absurd hstep (hnone s ptr hobj)
      | some x =>
        obtain ⟨m4, hkept, hstate⟩ := hbody s ptr x hobj hstep
        rw [hstate]
        have hptr : ptr ≠ ptrq := hne s ptr (by rw [hl]; simp) hso hstep
        obtain ⟨h1, h2⟩ := handsOut_after_remove constraintSet2 type ptrq q s m4 constraintSet
          ptr x hs hobj hptr hkept
        exact ⟨h1, h2.trans hso⟩)
    L [] st rfl ⟨h, hobjs⟩
  exact key.1 hok

theorem type_of_handsOut {m : Model Lg LSd Cg CSd} {constraintSet : Identifiable Nat CSd}
    {type : Nat} {ptr : Nat} {q : Identifiable Nat Cg}
    (h : HandsOut m constraintSet type ptr q) : q.type = type := by
  obtain ⟨-, hq, hmem⟩ := h
  obtain ⟨-, c, hc, ht⟩ := (mem_getConstraintsByType _ _ _ _).1 hmem
  rw [hq] at hc
  cases hc
  exact ht

theorem ne_of_type_ne (m : Model Lg LSd Cg CSd) (constraintSet : Identifiable Nat CSd)
    (type type2 : Nat) (htype : type ≠ type2) (ptr ptrq : Nat) (q : Identifiable Nat Cg)
    (hq : m.constraints.objs[ptrq]? = some q) (hqt : q.type = type2)
    (hmem : ptr ∈ getConstraintsByType m constraintSet type) : ptr ≠ ptrq := by
  obtain ⟨-, c, hc, ht⟩ := (mem_getConstraintsByType _ _ _ _).1 hmem
  rintro rfl
  rw [hq] at hc
  cases hc
  exact htype (ht.symm.trans hqt)

theorem makeCellsFromRBEOf_spec (E : Enumerators)
    (hRQ : E.Constraint_RIGID ≠ E.Constraint_QUASI_RIGID)
    (h3Q : E.Constraint_RBE3 ≠ E.Constraint_QUASI_RIGID)
    (constraintSet2 : Identifiable Nat CSd) (ptrq : Nat) (q : Constraint)
    (hlen : q.data.getSlaves.length ≠ 2)
    (st : Model Lg LSd ConstraintData CSd) (constraintSet : Identifiable Nat CSd)
    (h : HandsOut st constraintSet2 E.Constraint_QUASI_RIGID ptrq q) :
    ((makeCellsFromRBEOf E st constraintSet).error = none →
        HandsOut (makeCellsFromRBEOf E st constraintSet).state constraintSet2
          E.Constraint_QUASI_RIGID ptrq q)
      ∧ (constraintSet = constraintSet2 →
          (makeCellsFromRBEOf E st constraintSet).error ≠ none) := by
  have hqt := type_of_handsOut h
  -- the loop over the RIGID constraints
  have hA : ((getConstraintsByType st constraintSet E.Constraint_RIGID).foldl
      (fun r ptr => r.andThen fun m2 => makeCellsFromRigid E m2 constraintSet ptr)
      (Outcome.ok st)).error = none →
      HandsOut ((getConstraintsByType st constraintSet E.Constraint_RIGID).foldl
        (fun r ptr => r.andThen fun m2 => makeCellsFromRigid E m2 constraintSet ptr)
        (Outcome.ok st)).state constraintSet2 E.Constraint_QUASI_RIGID ptrq q := by
    intro hok
    exact (rbe_loop_keeps constraintSet2 E.Constraint_QUASI_RIGID ptrq q constraintSet
      (fun s ptr => makeCellsFromRigid E s constraintSet ptr)
      (fun s ptr x hobj hstep => makeCellsFromRigid_spec E s constraintSet ptr x hobj hstep)
      (fun s ptr hobj => makeCellsFromRigid_of_none E s constraintSet ptr hobj)
      _ st.constraints.objs
      (fun s ptr hptr _ _ =>
        ne_of_type_ne st constraintSet _ _ hRQ ptr ptrq q h.2.1 hqt hptr)
      st rfl h hok).1
  -- the loop over the QUASI_RIGID constraints
  have hB : ∀ st1 : Model Lg LSd ConstraintData CSd,
      HandsOut st1 constraintSet2 E.Constraint_QUASI_RIGID ptrq q →
      ((getConstraintsByType st1 constraintSet E.Constraint_QUASI_RIGID).foldl
        (fun r ptr => r.andThen fun m2 => makeCellsFromQuasiRigid E m2 constraintSet ptr)
        (Outcome.ok st1)).error = none →
      HandsOut ((getConstraintsByType st1 constraintSet E.Constraint_QUASI_RIGID).foldl
        (fun r ptr => r.andThen fun m2 => makeCellsFromQuasiRigid E m2 constraintSet ptr)
        (Outcome.ok st1)).state constraintSet2 E.Constraint_QUASI_RIGID ptrq q := by
    intro st1 h1 hok
    exact (rbe_loop_keeps constraintSet2 E.Constraint_QUASI_RIGID ptrq q constraintSet
      (fun s ptr => makeCellsFromQuasiRigid E s constraintSet ptr)
      (fun s ptr x hobj hstep =>
        (makeCellsFromQuasiRigid_spec E s constraintSet ptr x hobj hstep).2)
      (fun s ptr hobj => makeCellsFromQuasiRigid_of_none E s constraintSet ptr hobj)
      _ st1.constraints.objs
      (fun s ptr _ hso hstep => by
        rintro rfl
        have hobj : s.constraints.objs[ptr]? = some q := by
          rw [hso]
          exact h1.2.1
        exact hlen (makeCellsFromQuasiRigid_spec E s constraintSet ptr q hobj hstep).1)
      st1 rfl h1 hok).1
  have hBbad : ∀ st1 : Model Lg LSd ConstraintData CSd,
      HandsOut st1 constraintSet2 E.Constraint_QUASI_RIGID ptrq q →
      ((getConstraintsByType st1 constraintSet2 E.Constraint_QUASI_RIGID).foldl
        (fun r ptr => r.andThen fun m2 => makeCellsFromQuasiRigid E m2 constraintSet2 ptr)
        (Outcome.ok st1)).error ≠ none := by
    intro st1 h1
    refine Outcome.foldl_andThen_error_of_mem_list
      (fun s ptr => makeCellsFromQuasiRigid E s constraintSet2 ptr)
      (fun s => s.constraints.objs = st1.constraints.objs) ptrq
      (getConstraintsByType st1 constraintSet2 E.Constraint_QUASI_RIGID) ?_ ?_ _
      (fun _ hy => hy) h1.2.2 st1 rfl
    · intro s ptr _ hs hstep
      dsimp only at hstep ⊢
      cases hobj : s.constraints.objs[ptr]? with
      | none => exact absurd hstep (makeCellsFromQuasiRigid_of_none E s constraintSet2 ptr hobj)
      | some x =>
        obtain ⟨-, m4, hkept, hstate⟩ :=
          makeCellsFromQuasiRigid_spec E s constraintSet2 ptr x hobj hstep
        rw [hstate, ← hs, ← hkept.1]
        rfl
    · intro s hs
      dsimp only
      exact makeCellsFromQuasiRigid_error E s constraintSet2 ptrq q
        (by rw [hs]; exact h1.2.1) hlen
  -- the loop over the RBE3 constraints
  have hC : ∀ st2 : Model Lg LSd ConstraintData CSd,
      HandsOut st2 constraintSet2 E.Constraint_QUASI_RIGID ptrq q →
      ((getConstraintsByType st2 constraintSet E.Constraint_RBE3).foldl
        (fun r ptr => r.andThen fun m3 => makeCellsFromRBE3 E m3 constraintSet ptr)
        (Outcome.ok st2)).error = none →
      HandsOut ((getConstraintsByType st2 constraintSet E.Constraint_RBE3).foldl
        (fun r ptr => r.andThen fun m3 => makeCellsFromRBE3 E m3 constraintSet ptr)
        (Outcome.ok st2)).state constraintSet2 E.Constraint_QUASI_RIGID ptrq q := by
    intro st2 h2 hok
    exact (rbe_loop_keeps constraintSet2 E.Constraint_QUASI_RIGID ptrq q constraintSet
      (fun s ptr => makeCellsFromRBE3 E s constraintSet ptr)
      (fun s ptr x hobj hstep => makeCellsFromRBE3_spec E s constraintSet ptr x hobj hstep)
      (fun s ptr hobj => makeCellsFromRBE3_of_none E s constraintSet ptr hobj)
      _ st2.constraints.objs
      (fun s ptr hptr _ _ =>
        ne_of_type_ne st2 constraintSet _ _ h3Q ptr ptrq q h2.2.1 (type_of_handsOut h2) hptr)
      st2 rfl h2 hok).1
  unfold makeCellsFromRBEOf
  constructor
  · intro hok
    have h1 := Outcome.error_none_of_andThen _ _ hok
    rw [Outcome.andThen_of_error_none _ _ h1] at hok ⊢
    have h2 := Outcome.error_none_of_andThen _ _ hok
    rw [Outcome.andThen_of_error_none _ _ h2] at hok ⊢
    exact hC _ (hB _ (hA h1) h2) hok
  · rintro rfl hok
    have h1 := Outcome.error_none_of_andThen _ _ hok
    rw [Outcome.andThen_of_error_none _ _ h1] at hok
    have h2 := Outcome.error_none_of_andThen _ _ hok
    exact hBbad _ (hA h1) h2

theorem makeCellsFromRBE_error_of_quasiRigid (E : Enumerators)
    (hRQ : E.Constraint_RIGID ≠ E.Constraint_QUASI_RIGID)
    (h3Q : E.Constraint_RBE3 ≠ E.Constraint_QUASI_RIGID)
    (m : Model Lg LSd ConstraintData CSd) (constraintSet : Identifiable Nat CSd) (ptr : Nat)
    (q : Constraint) (hcommon : constraintSet ∈ getCommonConstraintSets m)
    (h : HandsOut m constraintSet E.Constraint_QUASI_RIGID ptr q)
    (hlen : q.data.getSlaves.length ≠ 2) :
    (makeCellsFromRBE E m).error ≠ none := by
  unfold makeCellsFromRBE
  refine Outcome.foldl_andThen_error_of_mem_list
    (fun s cs => makeCellsFromRBEOf E s cs)
    (fun s => HandsOut s constraintSet E.Constraint_QUASI_RIGID ptr q) constraintSet
    (getCommonConstraintSets m) ?_ ?_ _ (fun _ hy => hy) hcommon m h
  · intro s cs _ hs hstep
    exact (makeCellsFromRBEOf_spec E hRQ h3Q constraintSet ptr q hlen s cs hs).1 hstep
  · intro s hs
    exact (makeCellsFromRBEOf_spec E hRQ h3Q constraintSet ptr q hlen s constraintSet hs).2 rfl

theorem addRigidMaterial_ok (E : Enumerators) (m : Model Lg LSd Cg CSd) (nature : Nature)
    (hmat : m.materials.by_id.find m.material_auto_id = none) :
    (addRigidMaterial E m nature).2
      = Outcome.ok
          { m with
            material_auto_id := m.material_auto_id + 1,
            materials := Container.register
              { m.materials with
                objs := m.materials.objs ++
                  [{ id := m.material_auto_id, original_id := none, type := E.Material_MATERIAL,
                     data := { natures := [nature] } }] }
              { id := m.material_auto_id, original_id := none, type := E.Material_MATERIAL,
                data := { natures := [nature] } }
              m.materials.objs.length } := by
  unfold addRigidMaterial addMaterial
  dsimp only
  rw [Container.add_of_find_none _ _ (by
    rw [Container.find_of_id_only _ _ m.material_auto_id rfl (by
      simp [Identifiable.getReference, Identifiable.isOriginal])]
    exact hmat)]
  rfl

theorem addRigidElementSet_ok (m : Model Lg LSd Cg CSd) (type : Nat) (kind : ElementSetKind)
    (group material : Nat) (hes : m.elementSets.by_id.find m.elementSet_auto_id = none) :
    addRigidElementSet m type kind group material
      = Outcome.ok
          { m with
            elementSet_auto_id := m.elementSet_auto_id + 1,
            elementSets := Container.register
              { m.elementSets with
                objs := m.elementSets.objs ++
                  [{ id := m.elementSet_auto_id, original_id := none, type := type,
                     data := { kind := kind, cellGroup := some group,
                               material := some material } }] }
              { id := m.elementSet_auto_id, original_id := none, type := type,
                data := { kind := kind, cellGroup := some group, material := some material } }
              m.elementSets.objs.length } := by
  unfold addRigidElementSet addElementSet
  dsimp only
  rw [Container.add_of_find_none _ _ (by
    rw [Container.find_of_id_only _ _ m.elementSet_auto_id rfl (by
      simp [Identifiable.getReference, Identifiable.isOriginal])]
    exact hes)]
  rfl

theorem makeCellsFromQuasiRigid_effect (E : Enumerators) (m : Model Lg LSd ConstraintData CSd)
    (constraintSet : Identifiable Nat CSd) (ptr : Nat) (constraint : Constraint)
    (s1 s2 : Int) (n1 n2 : Node)
    (hobj : m.constraints.objs[ptr]? = some constraint)
    (hsl : constraint.data.getSlaves = [s1, s2])
    (hn1 : m.mesh.findNode s1 = some n1) (hn2 : m.mesh.findNode s2 = some n2)
    (hmat : m.materials.by_id.find m.material_auto_id = none)
    (hes : m.elementSets.by_id.find m.elementSet_auto_id = none) :
    (makeCellsFromQuasiRigid E m constraintSet ptr).error = none
      ∧ (makeCellsFromQuasiRigid E m constraintSet ptr).state.materials.objs
          = m.materials.objs ++
              [{ id := m.material_auto_id, original_id := none, type := E.Material_MATERIAL,
                 data := { natures := [Nature.Rigid (some 1) none] } }]
      ∧ (makeCellsFromQuasiRigid E m constraintSet ptr).state.elementSets.objs
          = m.elementSets.objs ++
              [{ id := m.elementSet_auto_id, original_id := none, type := E.ElementSet_RBAR,
                 data := { kind := ElementSetKind.Rbar n1.id,
                           cellGroup := some m.mesh.cellGroups.length,
                           material := some m.materials.objs.length } }]
      ∧ (makeCellsFromQuasiRigid E m constraintSet ptr).state.mesh.cells
          = m.mesh.cells ++
              [{ id := m.mesh.cell_auto_id, type := CellType.SEG2, nodeIds := [n1.id, n2.id],
                 isVirtual := true }]
      ∧ (makeCellsFromQuasiRigid E m constraintSet ptr).state.mesh.cellGroups
          = m.mesh.cellGroups ++
              [{ name := "RBAR_" ++ originalIdLabel constraint.original_id,
                 cellIds := [m.mesh.cell_auto_id] }] := by
  have hlen : ¬ constraint.data.getSlaves.length ≠ 2 := by
    rw [hsl]
    simp
  have hstate : makeCellsFromQuasiRigid E m constraintSet ptr
      = Outcome.ok
          (removeConstraintOfSet
            { m with
              material_auto_id := m.material_auto_id + 1,
              materials := Container.register
                { m.materials with
                  objs := m.materials.objs ++
                    [{ id := m.material_auto_id, original_id := none,
                       type := E.Material_MATERIAL,
                       data := { natures := [Nature.Rigid (some 1) none] } }] }
                { id := m.material_auto_id, original_id := none, type := E.Material_MATERIAL,
                  data := { natures := [Nature.Rigid (some 1) none] } }
                m.materials.objs.length,
              elementSet_auto_id := m.elementSet_auto_id + 1,
              elementSets := Container.register
                { m.elementSets with
                  objs := m.elementSets.objs ++
                    [{ id := m.elementSet_auto_id, original_id := none,
                       type := E.ElementSet_RBAR,
                       data := { kind := ElementSetKind.Rbar n1.id,
                                 cellGroup := some m.mesh.cellGroups.length,
                                 material := some m.materials.objs.length } }] }
                { id := m.elementSet_auto_id, original_id := none, type := E.ElementSet_RBAR,
                  data := { kind := ElementSetKind.Rbar n1.id,
                            cellGroup := some m.mesh.cellGroups.length,
                            material := some m.materials.objs.length } }
                m.elementSets.objs.length,
              mesh := Mesh.addCellInto
                (m.mesh.createCellGroup ("RBAR_" ++ originalIdLabel constraint.original_id)).2
                m.mesh.cellGroups.length CellType.SEG2 [n1.id, n2.id] }
            constraint.getReference constraintSet.id constraintSet.original_id
            constraintSet.type) := by
    unfold makeCellsFromQuasiRigid
    simp only [hobj]
    rw [if_neg hlen, addRigidMaterial_ok E m _ hmat, Outcome.andThen_of_ok]
    simp only [hsl, List.head?_cons, List.getLast?_cons_cons, List.getLast?_singleton,
      Option.some_bind, hn1, hn2]
    rw [addRigidElementSet_ok, Outcome.andThen_of_ok]
    · rfl
    · exact hes
  rw [hstate]
  refine ⟨rfl, rfl, rfl, ?_, ?_⟩
  · simp only [Outcome.ok, removeConstraintOfSet]
    rw [(addCellInto_spec _ _ _ _).2.1]
    rfl
  · simp only [Outcome.ok, removeConstraintOfSet]
    rw [(addCellInto_spec _ _ _ _).2.2.1]
    simp only [Mesh.createCellGroup]
    rw [modify_append_length]
    rfl

end Model

namespace Container

variable {τ α : Type}

theorem findByOriginalId_foldl_none (original_id : Int) (l : KeyMap τ (KeyMap Int Nat))
    (hl : ∀ entry ∈ l, entry.2.find original_id = none) (t : Option Nat) :
    l.foldl
      (fun t it =>
        match KeyMap.find it.2 original_id with
        | some ptr => some ptr
        | none => t) t = t := by
  induction l generalizing t with
  | nil => rfl
  | cons x rest ih =>
    rw [List.foldl_cons, hl x (List.mem_cons_self _ _)]
    exact ih (fun e he => hl e (List.mem_cons_of_mem _ he)) t

theorem findByOriginalId_foldl_some (original_id : Int) (l : KeyMap τ (KeyMap Int Nat))
    (t : Option Nat)
    (h : l.foldl
      (fun t it =>
        match KeyMap.find it.2 original_id with
        | some ptr => some ptr
        | none => t) t = none) :
    t = none ∧ ∀ entry ∈ l, entry.2.find original_id = none := by
  induction l generalizing t with
  | nil => exact ⟨h, fun e he => by cases he⟩
  | cons x rest ih =>
    rw [List.foldl_cons] at h
    obtain ⟨h1, h2⟩ := ih _ h
    cases hx : KeyMap.find x.2 original_id with
    | some ptr => rw [hx] at h1; cases h1
    | none =>
      rw [hx] at h1
      refine ⟨h1, ?_⟩
      intro e he
      rcases List.mem_cons.1 he with rfl | he
      · exact hx
      · exact h2 e he

/-- C34. The lookup `find(original_id)` without a type finds nothing exactly when no
type of the index registers the original id; otherwise it returns what the last
type that registers it, in the order in which the index holds its types, has
registered under it. -/
theorem findByOriginalId_spec (c : Container τ α) (original_id : Int) :
    (c.findByOriginalId original_id = none
        ↔ ∀ entry ∈ c.by_original_ids_by_type, entry.2.find original_id = none)
      ∧ (∀ (pre post : KeyMap τ (KeyMap Int Nat)) (entry : τ × KeyMap Int Nat) (ptr : Nat),
          c.by_original_ids_by_type = pre ++ entry :: post →
          entry.2.find original_id = some ptr →
          (∀ later ∈ post, later.2.find original_id = none) →
          c.findByOriginalId original_id = some ptr) := by
  refine ⟨⟨fun h => (findByOriginalId_foldl_some original_id _ none h).2,
    fun h => findByOriginalId_foldl_none original_id _ h none⟩, ?_⟩
  intro pre post entry ptr hsplit hentry hpost
  unfold findByOriginalId
  rw [hsplit, List.foldl_append, List.foldl_cons, hentry]
  exact findByOriginalId_foldl_none original_id post hpost (some ptr)

/-- In the catalog `cTwoTypes` the types 0 and 1 both register the original id 5; the
lookup returns the entity of type 1, the last type of the index. -/
theorem findByOriginalId_spec_witness :
    Sample.cTwoTypes.by_original_ids_by_type = [(0, [(5, 0), (7, 1)])] ++ (1, [(5, 2)]) :: []
      ∧ Sample.cTwoTypes.findByOriginalId 5 = some 2
      ∧ Sample.cTwoTypes.objs[2]? = some Sample.e0Other :=
  ⟨by decide,
   (findByOriginalId_spec Sample.cTwoTypes 5).2 [(0, [(5, 0), (7, 1)])] [] (1, [(5, 2)]) 2
     (by decide) (by decide) (fun later h => by cases h),
   by decide⟩

/-- C39. The placeholder `vPlaceHolderY` has a Y parameter and no X parameter; it is
added to the catalog `cReal`, where its reference resolves to the value `vReal`,
which has no parameter. The call returns normally and the value keeps no Y
parameter: the Y parameter of the placeholder is not copied, the test being made on
the existing value. When the existing value has a Y parameter and the placeholder
`vPlaceHolder` has none, the Y parameter of the existing value is overwritten. -/
theorem addValue_placeholder_paraY_not_copied :
    Sample.vPlaceHolderY.data.isPlaceHolder = true
      ∧ Sample.vPlaceHolderY.data.hasParaY = true
      ∧ Sample.cReal.deref (Sample.cReal.find Sample.vPlaceHolderY.getReference)
          = some Sample.vReal
      ∧ (Sample.cReal.addValue Sample.vPlaceHolderY).error = none
      ∧ (Sample.cReal.addValue Sample.vPlaceHolderY).state.objs = [Sample.vReal]
      ∧ Sample.vReal.data.paraY = none
      ∧ ValueData.mergedOld Sample.vPlaceHolderY.data Sample.vReal.data = Sample.vReal.data
      ∧ Sample.vPlaceHolder.data.hasParaY = false
      ∧ (ValueData.mergedOld Sample.vPlaceHolder.data
          { isPlaceHolder := false, paraX := none, paraY := some 2 }).paraY = none := by
  decide

end Container

namespace Model

variable {Lg LSd Cg CSd : Type}

end Model

namespace Objective

/-- C40. The map `Objective::stringByType` has six entries and none for the type
`NODAL_COMPLEX_DISPLACEMENT_ASSERTION`; each of the six other types has an entry,
and two types with an entry that have the same string are the same type. -/
theorem stringByType_misses_complex_assertion :
    Objective.stringByType.find ObjectiveType.NODAL_COMPLEX_DISPLACEMENT_ASSERTION = none
      ∧ Objective.stringByType.length = 6
      ∧ (∀ t : ObjectiveType, t ≠ ObjectiveType.NODAL_COMPLEX_DISPLACEMENT_ASSERTION →
          (Objective.stringByType.find t).isSome = true)
      ∧ (∀ (t u : ObjectiveType) (s : String), Objective.stringByType.find t = some s →
          Objective.stringByType.find u = some s → t = u) := by
  refine ⟨by decide, by decide, ?_, ?_⟩
  · intro t ht
    cases t <;> first | rfl | exact absurd rfl ht
  · intro t u s ht hu
    cases t <;> cases u <;> first
      | rfl
      | (exfalso; revert ht hu; simp [Objective.stringByType, KeyMap.find]; done)
      | (exfalso; revert ht hu; simp [Objective.stringByType, KeyMap.find]; rintro rfl; decide)

end Objective

namespace Model

variable {Lg LSd Cg CSd : Type}

/-- The analysis that `addDefaultAnalysis` builds in the model `m`. -/
theorem addDefaultAnalysis_of_needed (K : Collaborators Lg Cg CSd)
    (m : Model Lg LoadSetData Cg CSd) (hnone : m.analyses.by_id.length = 0)
    (hsome : m.loadings.by_id.length > 0 ∨ m.constraints.by_id.length > 0) :
    addDefaultAnalysis K m =
      ({ m with analysis_auto_id := m.analysis_auto_id + 1 } :
          Model Lg LoadSetData Cg CSd).addAnalysis
        { id := m.analysis_auto_id, original_id := some 1, type := K.Analysis_LINEAR_MECA_STAT,
          data := { loadSet_references := [], constraintSet_references := [],
                    objectiveReferences := [], boundaryDOFSByNodePosition := [] } } := by
  unfold addDefaultAnalysis
  rw [if_pos ⟨hnone, hsome⟩]

theorem addDefaultAnalysis_of_not_needed (K : Collaborators Lg Cg CSd)
    (m : Model Lg LoadSetData Cg CSd)
    (h : ¬ (m.analyses.by_id.length = 0
      ∧ (m.loadings.by_id.length > 0 ∨ m.constraints.by_id.length > 0))) :
    addDefaultAnalysis K m = Outcome.ok m := by
  unfold addDefaultAnalysis
  rw [if_neg h]

theorem length_assign_pos {K V : Type} [DecidableEq K] (l : KeyMap K V) (k : K) (v : V) :
    0 < (KeyMap.assign l k v).length := by
  cases l with
  | nil => simp [KeyMap.assign]
  | cons x rest =>
    obtain ⟨k2, v2⟩ := x
    unfold KeyMap.assign
    split <;> simp

/-- What a completed `addDefaultAnalysis` leaves: the catalogs of loadings and
constraints of the model, and at least one analysis when one of them holds an
entity. -/
theorem addDefaultAnalysis_post (K : Collaborators Lg Cg CSd) (m : Model Lg LoadSetData Cg CSd)
    (hok : (addDefaultAnalysis K m).error = none) :
    (addDefaultAnalysis K m).state.loadings = m.loadings
      ∧ (addDefaultAnalysis K m).state.constraints = m.constraints
      ∧ ((m.loadings.by_id.length > 0 ∨ m.constraints.by_id.length > 0) →
          1 ≤ (addDefaultAnalysis K m).state.analyses.by_id.length) := by
  by_cases h : m.analyses.by_id.length = 0
      ∧ (m.loadings.by_id.length > 0 ∨ m.constraints.by_id.length > 0)
  · rw [addDefaultAnalysis_of_needed K m h.1 h.2] at hok ⊢
    refine ⟨rfl, rfl, fun _ => ?_⟩
    unfold addAnalysis at hok ⊢
    dsimp only at hok ⊢
    unfold Container.add at hok ⊢
    split at hok
    · cases hok
    · rename_i hfind
      rw [if_neg hfind]
      exact length_assign_pos _ _ _
  · rw [addDefaultAnalysis_of_not_needed K m h]
    refine ⟨rfl, rfl, fun hsome => ?_⟩
    have : m.analyses.by_id.length ≠ 0 := fun h0 => h ⟨h0, hsome⟩
    exact Nat.one_le_iff_ne_zero.2 this

/-- C35. `addDefaultAnalysis` on a model that holds no analysis and at least one
loading or constraint, the reference of the default analysis resolving to nothing,
completes and leaves exactly one analysis, the linear static analysis of original id
1 that exercises no set; on any other model it changes nothing. Hence, when `finish`
completes on a model that was not finished, a resulting model whose catalogs hold a
loading or a constraint holds at least one analysis. -/
theorem addDefaultAnalysis_spec [Inhabited CSd] (K : Collaborators Lg Cg CSd)
    (m : Model Lg LoadSetData Cg CSd) :
    (m.analyses.by_id.length = 0 →
      (m.loadings.by_id.length > 0 ∨ m.constraints.by_id.length > 0) →
      m.analyses.find
        { type := K.Analysis_LINEAR_MECA_STAT, original_id := some 1, id := none } = none →
      (addDefaultAnalysis K m).error = none
        ∧ (addDefaultAnalysis K m).state.analyses.by_id.length = 1
        ∧ registered (addDefaultAnalysis K m).state.analyses =
            [{ id := m.analysis_auto_id, original_id := some 1,
               type := K.Analysis_LINEAR_MECA_STAT,
               data := { loadSet_references := [], constraintSet_references := [],
                         objectiveReferences := [], boundaryDOFSByNodePosition := [] } }])
      ∧ (¬ (m.analyses.by_id.length = 0
            ∧ (m.loadings.by_id.length > 0 ∨ m.constraints.by_id.length > 0)) →
          addDefaultAnalysis K m = Outcome.ok m)
      ∧ (m.finished = false → (finish K m).error = none →
          ((finish K m).state.loadings.by_id.length > 0
            ∨ (finish K m).state.constraints.by_id.length > 0) →
          1 ≤ (finish K m).state.analyses.by_id.length) := by
  refine ⟨?_, addDefaultAnalysis_of_not_needed K m, ?_⟩
  · intro hnone hsome hfind
    rw [addDefaultAnalysis_of_needed K m hnone hsome]
    have hnil : m.analyses.by_id = [] := List.length_eq_zero.1 hnone
    unfold addAnalysis
    dsimp only
    unfold Container.add
    have hf : ¬ ((m.analyses.find (Identifiable.getReference
        ({ id := m.analysis_auto_id, original_id := some 1,
           type := K.Analysis_LINEAR_MECA_STAT,
           data := { loadSet_references := [], constraintSet_references := [],
                     objectiveReferences := [], boundaryDOFSByNodePosition := [] } } :
          Analysis))).isSome = true) := by
      have : Identifiable.getReference
        ({ id := m.analysis_auto_id, original_id := some 1,
           type := K.Analysis_LINEAR_MECA_STAT,
           data := { loadSet_references := [], constraintSet_references := [],
                     objectiveReferences := [], boundaryDOFSByNodePosition := [] } } :
          Analysis) = { type := K.Analysis_LINEAR_MECA_STAT, original_id := some 1, id := none } :=
        rfl
      rw [this, hfind]
      simp
    rw [if_neg hf]
    refine ⟨rfl, ?_, ?_⟩
    · simp [Outcome.ok, Container.register, hnil, KeyMap.assign]
    · simp [Outcome.ok, Container.register, hnil, KeyMap.assign, registered, Identifiable.getId]
  · intro hfin hok hsome
    unfold finish at hok hsome ⊢
    simp only [hfin, Bool.false_eq_true, ↓reduceIte] at hok hsome ⊢
    have h1 := Outcome.error_none_of_andThen _ _ hok
    rw [Outcome.andThen_of_error_none _ _ h1] at hok hsome ⊢
    generalize (finishOptional K (finishPrepare K m)).state = m2 at hok hsome ⊢
    unfold finishClose at hok hsome ⊢
    have h2 := Outcome.error_none_of_andThen _ _ hok
    rw [Outcome.andThen_of_error_none _ _ h2] at hsome ⊢
    obtain ⟨hl, hc, hpost⟩ := addDefaultAnalysis_post K _ h2
    have hsome2 : (addDefaultAnalysis K
        (generateMaterialAssignments (assignElementsToCells K m2))).state.loadings.by_id.length > 0
        ∨ (addDefaultAnalysis K
        (generateMaterialAssignments (assignElementsToCells K m2))).state.constraints.by_id.length
          > 0 := hsome
    rw [hl, hc] at hsome2
    exact hpost hsome2

/-- The model `mIntegrity` holds a constraint and no analysis, and is not finished:
`finish` completes on it and leaves one analysis. -/
theorem addDefaultAnalysis_spec_witness :
    Sample.mIntegrity.finished = false
      ∧ (finish Sample.idleCollaborators Sample.mIntegrity).error = none
      ∧ (finish Sample.idleCollaborators Sample.mIntegrity).state.constraints.by_id.length > 0
      ∧ 1 ≤ (finish Sample.idleCollaborators Sample.mIntegrity).state.analyses.by_id.length :=
  ⟨by decide, by decide, by decide,
   (addDefaultAnalysis_spec Sample.idleCollaborators Sample.mIntegrity).2.2 (by decide)
     (by decide) (Or.inr (by decide))⟩

/-! ### Sets common to the analyses -/

theorem count_le_one_of_nodup (l : List Nat) (x : Nat) (h : l.Nodup) : l.count x ≤ 1 :=
  List.nodup_iff_count_le_one.1 h x

theorem count_flatMap_le {A : Type} (L : List A) (f : A → List Nat)
    (hnd : ∀ a ∈ L, (f a).Nodup) (x : Nat) : (L.flatMap f).count x ≤ L.length := by
  induction L with
  | nil => simp
  | cons a rest ih =>
    rw [List.flatMap_cons, List.count_append, List.length_cons]
    have h1 := count_le_one_of_nodup (f a) x (hnd a (List.mem_cons_self _ _))
    have h2 := ih (fun b hb => hnd b (List.mem_cons_of_mem _ hb))
    omega

theorem count_flatMap_eq_length_iff {A : Type} (L : List A) (f : A → List Nat)
    (hnd : ∀ a ∈ L, (f a).Nodup) (x : Nat) :
    (L.flatMap f).count x = L.length ↔ ∀ a ∈ L, x ∈ f a := by
  induction L with
  | nil => simp
  | cons a rest ih =>
    rw [List.flatMap_cons, List.count_append, List.length_cons]
    have h1 := count_le_one_of_nodup (f a) x (hnd a (List.mem_cons_self _ _))
    have h2 := count_flatMap_le rest f (fun b hb => hnd b (List.mem_cons_of_mem _ hb)) x
    have ih2 := ih (fun b hb => hnd b (List.mem_cons_of_mem _ hb))
    constructor
    · intro h
      have h3 : (f a).count x = 1 := by omega
      have h4 : (rest.flatMap f).count x = rest.length := by omega
      intro b hb
      rcases List.mem_cons.1 hb with rfl | hb
      · exact List.count_pos_iff.1 (by omega)
      · exact ih2.1 h4 b hb
    · intro h
      have h3 : 0 < (f a).count x := List.count_pos_iff.2 (h a (List.mem_cons_self _ _))
      have h4 := ih2.2 (fun b hb => h b (List.mem_cons_of_mem _ hb))
      omega

theorem count_flatMap_ne_zero_iff {A : Type} (L : List A) (f : A → List Nat) (x : Nat) :
    (L.flatMap f).count x ≠ 0 ↔ ∃ a ∈ L, x ∈ f a := by
  rw [Nat.ne_zero_iff_zero_lt, List.count_pos_iff, List.mem_flatMap]

theorem registered_length {τ α : Type} (c : Container τ α)
    (hreg : ∀ entry ∈ c.by_id, (c.objs[entry.2]?).isSome = true) :
    (registered c).length = c.by_id.length := by
  unfold registered
  generalize c.by_id = l at hreg
  induction l with
  | nil => rfl
  | cons e rest ih =>
    have he := hreg e (List.mem_cons_self _ _)
    cases hobj : c.objs[e.2]? with
    | none => rw [hobj] at he; cases he
    | some x =>
      rw [List.filterMap_cons, hobj, List.length_cons, List.length_cons,
        ih (fun b hb => hreg b (List.mem_cons_of_mem _ hb))]

theorem filterMap_sublist_of_restricts {A B : Type} (f g : A → Option B) (l : List A)
    (h : ∀ a ∈ l, g a = none ∨ g a = f a) : (l.filterMap g).Sublist (l.filterMap f) := by
  induction l with
  | nil => exact List.Sublist.refl _
  | cons a rest ih =>
    have ih2 := ih (fun b hb => h b (List.mem_cons_of_mem _ hb))
    rcases h a (List.mem_cons_self _ _) with hg | hg
    · rw [List.filterMap_cons, hg]
      cases hf : f a with
      | none => rw [List.filterMap_cons, hf]; exact ih2
      | some y => rw [List.filterMap_cons, hf]; exact List.Sublist.cons _ ih2
    · cases hf : f a with
      | none => rw [List.filterMap_cons, List.filterMap_cons, hg, hf]; exact ih2
      | some y =>
        rw [List.filterMap_cons, List.filterMap_cons, hg, hf]
        exact List.Sublist.cons₂ _ ih2

/-- The count of a pointer reaches the number of analyses exactly when every analysis
hands the pointer out, in a catalog of analyses whose entries point to objects and
whose analyses hand out no pointer twice. -/
theorem count_eq_size_iff {α : Type} (analyses : Container Nat α)
    (f : Identifiable Nat α → List Nat)
    (hreg : ∀ entry ∈ analyses.by_id, (analyses.objs[entry.2]?).isSome = true)
    (hnd : ∀ a ∈ registered analyses, (f a).Nodup) (x : Nat) :
    (((registered analyses).flatMap f).count x = analyses.by_id.length
        ↔ ∀ a ∈ registered analyses, x ∈ f a)
      ∧ ((registered analyses).flatMap f).count x ≤ analyses.by_id.length := by
  rw [← registered_length analyses hreg]
  exact ⟨count_flatMap_eq_length_iff _ f hnd x, count_flatMap_le _ f hnd x⟩

/-- C32, amended. In a model with at least one analysis, whose catalog of analyses
points to objects only and whose analyses hand out no set twice (no analysis
designates a set through two references): `getCommonLoadSets` hands
out, entry after entry of the catalog of load sets, the load sets that every
analysis hands out and whose type is not DLOAD, and `getCommonConstraintSets` the
constraint sets that every analysis hands out; both results are sublists of the
catalogs, so that they follow the order of the catalog and hold an entry of it once
at most, and no load set of the first result has the type DLOAD. -/
theorem getCommonSets_spec (E : Enumerators) (m : Model Lg LSd Cg CSd)
    (hana : 0 < m.analyses.by_id.length)
    (hreg : ∀ entry ∈ m.analyses.by_id, (m.analyses.objs[entry.2]?).isSome = true)
    (hL : ∀ a ∈ registered m.analyses, (getLoadSetPointers m a).Nodup)
    (hC : ∀ a ∈ registered m.analyses, (getConstraintSetPointers m a).Nodup) :
    getCommonLoadSets E m
        = m.loadSets.by_id.filterMap (fun entry =>
            (m.loadSets.objs[entry.2]?).bind fun loadSet =>
              if (∀ a ∈ registered m.analyses, entry.2 ∈ getLoadSetPointers m a)
                  ∧ loadSet.type ≠ E.LoadSet_DLOAD then some loadSet else none)
      ∧ getCommonConstraintSets m
        = m.constraintSets.by_id.filterMap (fun entry =>
            (m.constraintSets.objs[entry.2]?).bind fun constraintSet =>
              if ∀ a ∈ registered m.analyses, entry.2 ∈ getConstraintSetPointers m a then
                some constraintSet
              else none)
      ∧ (getCommonLoadSets E m).Sublist (registered m.loadSets)
      ∧ (getCommonConstraintSets m).Sublist (registered m.constraintSets)
      ∧ (∀ loadSet ∈ getCommonLoadSets E m, loadSet.type ≠ E.LoadSet_DLOAD) := by
  refine ⟨?_, ?_, ?_, ?_, ?_⟩
  · unfold getCommonLoadSets
    apply List.filterMap_congr
    intro entry _
    cases hobj : m.loadSets.objs[entry.2]? with
    | none => rfl
    | some loadSet =>
      have h1 : (countedLoadSets m).count entry.2 = m.analyses.by_id.length
          ↔ ∀ a ∈ registered m.analyses, entry.2 ∈ getLoadSetPointers m a :=
        (count_eq_size_iff m.analyses (getLoadSetPointers m) hreg hL entry.2).1
      have hiff : ((countedLoadSets m).count entry.2 ≠ 0
          ∧ (countedLoadSets m).count entry.2 = m.analyses.by_id.length
          ∧ loadSet.type ≠ E.LoadSet_DLOAD)
          ↔ ((∀ a ∈ registered m.analyses, entry.2 ∈ getLoadSetPointers m a)
            ∧ loadSet.type ≠ E.LoadSet_DLOAD) := by
        constructor
        · rintro ⟨_, h2, h3⟩
          exact ⟨h1.1 h2, h3⟩
        · rintro ⟨h2, h3⟩
          have := h1.2 h2
          exact ⟨by omega, this, h3⟩
      simp only [Option.some_bind]
      by_cases hc : (∀ a ∈ registered m.analyses, entry.2 ∈ getLoadSetPointers m a)
            ∧ loadSet.type ≠ E.LoadSet_DLOAD
      · rw [if_pos hc, if_pos (hiff.2 hc)]
      · rw [if_neg hc, if_neg (fun h => hc (hiff.1 h))]
  · unfold getCommonConstraintSets
    apply List.filterMap_congr
    intro entry _
    cases hobj : m.constraintSets.objs[entry.2]? with
    | none => rfl
    | some constraintSet =>
      have h1 : ((registered m.analyses).flatMap fun analyse =>
            getConstraintSetPointers m analyse).count entry.2 = m.analyses.by_id.length
          ↔ ∀ a ∈ registered m.analyses, entry.2 ∈ getConstraintSetPointers m a :=
        (count_eq_size_iff m.analyses (getConstraintSetPointers m) hreg hC entry.2).1
      simp only [Option.some_bind]
      by_cases hc : ∀ a ∈ registered m.analyses, entry.2 ∈ getConstraintSetPointers m a
      · have := h1.2 hc
        rw [if_pos hc, if_pos ⟨by omega, this⟩]
      · rw [if_neg hc, if_neg (fun h => hc (h1.1 h.2))]
  · unfold getCommonLoadSets registered
    apply filterMap_sublist_of_restricts
    intro entry _
    cases hobj : m.loadSets.objs[entry.2]? with
    | none => exact Or.inl rfl
    | some loadSet =>
      dsimp only
      split
      · exact Or.inr rfl
      · exact Or.inl rfl
  · unfold getCommonConstraintSets registered
    apply filterMap_sublist_of_restricts
    intro entry _
    cases hobj : m.constraintSets.objs[entry.2]? with
    | none => exact Or.inl rfl
    | some constraintSet =>
      dsimp only
      split
      · exact Or.inr rfl
      · exact Or.inl rfl
  · intro loadSet hmem
    unfold getCommonLoadSets at hmem
    obtain ⟨entry, _, hentry⟩ := List.mem_filterMap.1 hmem
    cases hobj : m.loadSets.objs[entry.2]? with
    | none => rw [hobj] at hentry; cases hentry
    | some loadSet2 =>
      rw [hobj] at hentry
      dsimp only at hentry
      split at hentry
      · rename_i hc
        cases hentry
        exact hc.2.2
      · cases hentry

/-- In the model `mAnalyses` the two analyses hand out the load sets 61 (DLOAD) and
62 and the constraint set 51; the load set 63 and the constraint set 52 are handed
out by the first analysis only. The common load sets are the load set 62 alone, the
common constraint sets the constraint set 51 alone. -/
theorem getCommonSets_spec_witness :
    getCommonLoadSets Sample.enumerators Sample.mAnalyses = [Sample.loadSetOf 62 2]
      ∧ getCommonConstraintSets Sample.mAnalyses = [Sample.loadSetOf 51 3]
      ∧ (getCommonLoadSets Sample.enumerators Sample.mAnalyses).Sublist
          (registered Sample.mAnalyses.loadSets)
      ∧ (∀ loadSet ∈ getCommonLoadSets Sample.enumerators Sample.mAnalyses,
          loadSet.type ≠ Sample.enumerators.LoadSet_DLOAD) :=
  have h := getCommonSets_spec Sample.enumerators Sample.mAnalyses (by decide) (by decide)
    (by decide) (by decide)
  ⟨by decide, by decide, h.2.2.1, h.2.2.2.2⟩

theorem mem_getActiveLoadSets (m : Model Lg LSd Cg CSd) (p : Nat) :
    p ∈ getActiveLoadSets m ↔ (countedLoadSets m).count p ≠ 0 := by
  unfold getActiveLoadSets
  rw [mem_foldl_setInsert (fun x : Nat => x), Nat.ne_zero_iff_zero_lt, List.count_pos_iff]
  simp

theorem mem_getActiveConstraintSets (m : Model Lg LSd Cg CSd) (p : Nat) :
    p ∈ getActiveConstraintSets m ↔ (countedConstraintSets m).count p ≠ 0 := by
  unfold getActiveConstraintSets
  rw [mem_foldl_setInsert (fun x : Nat => x), Nat.ne_zero_iff_zero_lt, List.count_pos_iff]
  simp

/-- Membership in a set of pointers gathered from the entries of a list that pass a
test. -/
theorem mem_foldl_setInsert_of_step (step : List Nat → Int × Nat → List Nat)
    (cond : Int × Nat → Prop)
    (hpos : ∀ result entry, cond entry → step result entry = KeyMap.setInsert result entry.2)
    (hneg : ∀ result entry, ¬ cond entry → step result entry = result)
    (l : List (Int × Nat)) (init : List Nat) (p : Nat) :
    p ∈ l.foldl step init ↔ p ∈ init ∨ ∃ entry ∈ l, cond entry ∧ entry.2 = p := by
  induction l generalizing init with
  | nil => simp
  | cons e rest ih =>
    rw [List.foldl_cons, ih]
    by_cases hc : cond e
    · rw [hpos init e hc]
      have hins : p ∈ KeyMap.setInsert init e.2 ↔ p ∈ init ∨ e.2 = p := by
        unfold KeyMap.setInsert
        split
        · rename_i hin
          constructor
          · exact Or.inl
          · rintro (h | h)
            · exact h
            · exact h ▸ hin
        · rw [List.mem_append, List.mem_singleton]
          constructor
          · rintro (h | h)
            · exact Or.inl h
            · exact Or.inr h.symm
          · rintro (h | h)
            · exact Or.inl h
            · exact Or.inr h.symm
      rw [hins]
      constructor
      · rintro ((h | h) | ⟨entry, he, hce, hp⟩)
        · exact Or.inl h
        · exact Or.inr ⟨e, List.mem_cons_self _ _, hc, h⟩
        · exact Or.inr ⟨entry, List.mem_cons_of_mem _ he, hce, hp⟩
      · rintro (h | ⟨entry, he, hce, hp⟩)
        · exact Or.inl (Or.inl h)
        · rcases List.mem_cons.1 he with rfl | he
          · exact Or.inl (Or.inr hp)
          · exact Or.inr ⟨entry, he, hce, hp⟩
    · rw [hneg init e hc]
      constructor
      · rintro (h | ⟨entry, he, hce, hp⟩)
        · exact Or.inl h
        · exact Or.inr ⟨entry, List.mem_cons_of_mem _ he, hce, hp⟩
      · rintro (h | ⟨entry, he, hce, hp⟩)
        · exact Or.inl h
        · rcases List.mem_cons.1 he with rfl | he
          · exact absurd hce hc
          · exact Or.inr ⟨entry, he, hce, hp⟩

theorem mem_getUncommonLoadSets (E : Enumerators) (m : Model Lg LSd Cg CSd) (p : Nat) :
    p ∈ getUncommonLoadSets E m
      ↔ (∃ entry ∈ m.loadSets.by_id, entry.2 = p)
        ∧ ∃ loadSet, m.loadSets.objs[p]? = some loadSet
          ∧ ((countedLoadSets m).count p ≠ 0
              ∧ (countedLoadSets m).count p < m.analyses.by_id.length)
          ∧ loadSet.type ≠ E.LoadSet_DLOAD := by
  unfold getUncommonLoadSets
  refine (mem_foldl_setInsert_of_step _
    (fun entry => ∃ loadSet, m.loadSets.objs[entry.2]? = some loadSet
      ∧ ((countedLoadSets m).count entry.2 ≠ 0
          ∧ (countedLoadSets m).count entry.2 < m.analyses.by_id.length)
      ∧ loadSet.type ≠ E.LoadSet_DLOAD) ?_ ?_ _ _ _).trans ?_
  · rintro result entry ⟨loadSet, hobj, hc⟩
    simp only [hobj]
    rw [if_pos hc]
  · intro result entry hc
    cases hobj : m.loadSets.objs[entry.2]? with
    | none => rfl
    | some loadSet =>
      simp only
      rw [if_neg (fun h => hc ⟨loadSet, hobj, h⟩)]
  · constructor
    · rintro (h | ⟨entry, he, ⟨loadSet, hobj, hc⟩, rfl⟩)
      · cases h
      · exact ⟨⟨entry, he, rfl⟩, loadSet, hobj, hc⟩
    · rintro ⟨⟨entry, he, rfl⟩, loadSet, hobj, hc⟩
      exact Or.inr ⟨entry, he, ⟨loadSet, hobj, hc⟩, rfl⟩

theorem mem_getUncommonConstraintSets (m : Model Lg LSd Cg CSd) (p : Nat) :
    p ∈ getUncommonConstraintSets m
      ↔ (∃ entry ∈ m.constraintSets.by_id, entry.2 = p)
        ∧ (m.constraintSets.objs[p]?).isSome = true
        ∧ (countedConstraintSets m).count p ≠ 0
        ∧ (countedConstraintSets m).count p < m.analyses.by_id.length := by
  unfold getUncommonConstraintSets
  refine (mem_foldl_setInsert_of_step _
    (fun entry => (m.constraintSets.objs[entry.2]?).isSome = true
      ∧ (countedConstraintSets m).count entry.2 ≠ 0
      ∧ (countedConstraintSets m).count entry.2 < m.analyses.by_id.length) ?_ ?_ _ _ _).trans ?_
  · rintro result entry ⟨hsome, hc⟩
    cases hobj : m.constraintSets.objs[entry.2]? with
    | none => rw [hobj] at hsome; cases hsome
    | some constraintSet =>
      simp only
      rw [if_pos hc]
  · intro result entry hc
    cases hobj : m.constraintSets.objs[entry.2]? with
    | none => rfl
    | some constraintSet =>
      simp only
      rw [if_neg (fun h => hc ⟨by rw [hobj]; rfl, h⟩)]
  · constructor
    · rintro (h | ⟨entry, he, hc, rfl⟩)
      · cases h
      · exact ⟨⟨entry, he, rfl⟩, hc⟩
    · rintro ⟨⟨entry, he, rfl⟩, hc⟩
      exact Or.inr ⟨entry, he, hc, rfl⟩

theorem mem_getCommonLoadSetPointers (E : Enumerators) (m : Model Lg LSd Cg CSd) (p : Nat) :
    p ∈ getCommonLoadSetPointers E m
      ↔ (∃ entry ∈ m.loadSets.by_id, entry.2 = p)
        ∧ ∃ loadSet, m.loadSets.objs[p]? = some loadSet
          ∧ (countedLoadSets m).count p ≠ 0
          ∧ (countedLoadSets m).count p = m.analyses.by_id.length
          ∧ loadSet.type ≠ E.LoadSet_DLOAD := by
  unfold getCommonLoadSetPointers
  rw [List.mem_filterMap]
  constructor
  · rintro ⟨entry, he, h⟩
    cases hobj : m.loadSets.objs[entry.2]? with
    | none => rw [hobj] at h; cases h
    | some loadSet =>
      rw [hobj] at h
      dsimp only at h
      split at h
      · rename_i hc
        cases h
        exact ⟨⟨entry, he, rfl⟩, loadSet, hobj, hc⟩
      · cases h
  · rintro ⟨⟨entry, he, rfl⟩, loadSet, hobj, hc⟩
    refine ⟨entry, he, ?_⟩
    rw [hobj]
    dsimp only
    rw [if_pos hc]

theorem mem_getCommonConstraintSetPointers (m : Model Lg LSd Cg CSd) (p : Nat) :
    p ∈ getCommonConstraintSetPointers m
      ↔ (∃ entry ∈ m.constraintSets.by_id, entry.2 = p)
        ∧ (m.constraintSets.objs[p]?).isSome = true
        ∧ (countedConstraintSets m).count p ≠ 0
        ∧ (countedConstraintSets m).count p = m.analyses.by_id.length := by
  unfold getCommonConstraintSetPointers
  rw [List.mem_filterMap]
  constructor
  · rintro ⟨entry, he, h⟩
    cases hobj : m.constraintSets.objs[entry.2]? with
    | none => rw [hobj] at h; cases h
    | some constraintSet =>
      rw [hobj] at h
      dsimp only at h
      split at h
      · rename_i hc
        cases h
        exact ⟨⟨entry, he, rfl⟩, by rw [hobj]; rfl, hc⟩
      · cases h
  · rintro ⟨⟨entry, he, rfl⟩, hsome, hc⟩
    refine ⟨entry, he, ?_⟩
    cases hobj : m.constraintSets.objs[entry.2]? with
    | none => rw [hobj] at hsome; cases hsome
    | some constraintSet =>
      dsimp only
      rw [if_pos hc]

/-- The result of `getCommonLoadSets` is made of the load sets behind the pointers
of `getCommonLoadSetPointers`, in their order. -/
theorem getCommonLoadSets_eq (E : Enumerators) (m : Model Lg LSd Cg CSd) :
    getCommonLoadSets E m
      = (getCommonLoadSetPointers E m).filterMap fun p => m.loadSets.objs[p]? := by
  unfold getCommonLoadSets getCommonLoadSetPointers
  rw [List.filterMap_filterMap]
  apply List.filterMap_congr
  intro entry _
  cases hobj : m.loadSets.objs[entry.2]? with
  | none => rfl
  | some loadSet =>
    dsimp only
    split
    · simp [hobj]
    · rfl

theorem getCommonConstraintSets_eq (m : Model Lg LSd Cg CSd) :
    getCommonConstraintSets m
      = (getCommonConstraintSetPointers m).filterMap fun p => m.constraintSets.objs[p]? := by
  unfold getCommonConstraintSets getCommonConstraintSetPointers
  rw [List.filterMap_filterMap]
  apply List.filterMap_congr
  intro entry _
  cases hobj : m.constraintSets.objs[entry.2]? with
  | none => rfl
  | some constraintSet =>
    dsimp only
    split
    · rename_i hc
      have hc2 : (countedConstraintSets m).count entry.2 ≠ 0
          ∧ (countedConstraintSets m).count entry.2 = m.analyses.by_id.length := hc
      rw [if_pos hc2]
      simp [hobj]
    · rename_i hc
      have hc2 : ¬ ((countedConstraintSets m).count entry.2 ≠ 0
          ∧ (countedConstraintSets m).count entry.2 = m.analyses.by_id.length) := hc
      rw [if_neg hc2]
      rfl

/-- C33, as stated, fails: in the model `mAnalyses` the load set 61, of type DLOAD and
behind the pointer 0, is handed out by both analyses, so that it is an active load
set; it is neither among the common load sets nor among the uncommon ones. -/
theorem getUncommonLoadSets_dload_counterexample :
    Sample.mAnalyses.loadSets.objs[0]?
        = some (Sample.loadSetOf 61 Sample.enumerators.LoadSet_DLOAD)
      ∧ 0 ∈ getActiveLoadSets Sample.mAnalyses
      ∧ 0 ∉ getCommonLoadSetPointers Sample.enumerators Sample.mAnalyses
      ∧ Sample.loadSetOf 61 Sample.enumerators.LoadSet_DLOAD
          ∉ getCommonLoadSets Sample.enumerators Sample.mAnalyses
      ∧ 0 ∉ getUncommonLoadSets Sample.enumerators Sample.mAnalyses
      ∧ ¬ (∀ p ∈ getActiveLoadSets Sample.mAnalyses,
            (p ∈ getCommonLoadSetPointers Sample.enumerators Sample.mAnalyses
              ↔ p ∉ getUncommonLoadSets Sample.enumerators Sample.mAnalyses)) := by
  decide

/-- C33, amended. In a model whose catalog of analyses points to objects only and
whose analyses hand out no set twice: a load set of the catalog that some analysis
hands out and whose type is not DLOAD is in exactly one of the results of
`getCommonLoadSets` and `getUncommonLoadSets`, a load set of type DLOAD is in
neither, and every load set of `getUncommonLoadSets` is handed out by some analysis;
a constraint set of the catalog that some analysis hands out is in exactly one of
the results of `getCommonConstraintSets` and `getUncommonConstraintSets`, and every
constraint set of `getUncommonConstraintSets` is handed out by some analysis. The
results of `getCommonLoadSets` and `getCommonConstraintSets` are the sets behind the
pointers compared here. -/
theorem getUncommonSets_complement (E : Enumerators) (m : Model Lg LSd Cg CSd)
    (hreg : ∀ entry ∈ m.analyses.by_id, (m.analyses.objs[entry.2]?).isSome = true)
    (hL : ∀ a ∈ registered m.analyses, (getLoadSetPointers m a).Nodup)
    (hC : ∀ a ∈ registered m.analyses, (getConstraintSetPointers m a).Nodup) :
    (∀ (p : Nat) (loadSet : Identifiable Nat LSd),
        (∃ entry ∈ m.loadSets.by_id, entry.2 = p) → m.loadSets.objs[p]? = some loadSet →
        p ∈ getActiveLoadSets m → loadSet.type ≠ E.LoadSet_DLOAD →
        (p ∈ getCommonLoadSetPointers E m ↔ p ∉ getUncommonLoadSets E m))
      ∧ (∀ (p : Nat) (loadSet : Identifiable Nat LSd), m.loadSets.objs[p]? = some loadSet →
          loadSet.type = E.LoadSet_DLOAD →
          p ∉ getCommonLoadSetPointers E m ∧ p ∉ getUncommonLoadSets E m)
      ∧ (∀ p ∈ getUncommonLoadSets E m, p ∈ getActiveLoadSets m)
      ∧ (∀ (p : Nat), (∃ entry ∈ m.constraintSets.by_id, entry.2 = p) →
          (m.constraintSets.objs[p]?).isSome = true → p ∈ getActiveConstraintSets m →
          (p ∈ getCommonConstraintSetPointers m ↔ p ∉ getUncommonConstraintSets m))
      ∧ (∀ p ∈ getUncommonConstraintSets m, p ∈ getActiveConstraintSets m)
      ∧ getCommonLoadSets E m
          = (getCommonLoadSetPointers E m).filterMap (fun p => m.loadSets.objs[p]?)
      ∧ getCommonConstraintSets m
          = (getCommonConstraintSetPointers m).filterMap
              (fun p => m.constraintSets.objs[p]?) := by
  refine ⟨?_, ?_, ?_, ?_, ?_, getCommonLoadSets_eq E m, getCommonConstraintSets_eq m⟩
  · intro p loadSet hentry hobj hactive htype
    have hle : (countedLoadSets m).count p ≤ m.analyses.by_id.length :=
      (count_eq_size_iff m.analyses (getLoadSetPointers m) hreg hL p).2
    have hne := (mem_getActiveLoadSets m p).1 hactive
    rw [mem_getCommonLoadSetPointers, mem_getUncommonLoadSets]
    constructor
    · rintro ⟨_, ls, _, _, heq, _⟩ ⟨_, ls2, _, ⟨_, hlt⟩, _⟩
      omega
    · intro hnot
      refine ⟨hentry, loadSet, hobj, hne, ?_, htype⟩
      by_contra hneq
      exact hnot ⟨hentry, loadSet, hobj, ⟨hne, by omega⟩, htype⟩
  · intro p loadSet hobj htype
    rw [mem_getCommonLoadSetPointers, mem_getUncommonLoadSets]
    constructor
    · rintro ⟨_, ls, hls, _, _, hty⟩
      rw [hobj] at hls
      cases hls
      exact hty htype
    · rintro ⟨_, ls, hls, _, hty⟩
      rw [hobj] at hls
      cases hls
      exact hty htype
  · intro p hp
    rw [mem_getUncommonLoadSets] at hp
    obtain ⟨_, ls, _, ⟨hne, _⟩, _⟩ := hp
    exact (mem_getActiveLoadSets m p).2 hne
  · intro p hentry hsome hactive
    have hle : (countedConstraintSets m).count p ≤ m.analyses.by_id.length :=
      (count_eq_size_iff m.analyses (getConstraintSetPointers m) hreg hC p).2
    have hne := (mem_getActiveConstraintSets m p).1 hactive
    rw [mem_getCommonConstraintSetPointers, mem_getUncommonConstraintSets]
    constructor
    · rintro ⟨_, _, _, heq⟩ ⟨_, _, _, hlt⟩
      omega
    · intro hnot
      refine ⟨hentry, hsome, hne, ?_⟩
      by_contra hneq
      exact hnot ⟨hentry, hsome, hne, by omega⟩
  · intro p hp
    rw [mem_getUncommonConstraintSets] at hp
    exact (mem_getActiveConstraintSets m p).2 hp.2.2.1

/-- In the model `mAnalyses` the load set 63, behind the pointer 2, is handed out by
the first analysis only: it is among the uncommon load sets and not among the
common ones; the load set 62, behind the pointer 1, is common and not uncommon. -/
theorem getUncommonSets_complement_witness :
    2 ∈ getActiveLoadSets Sample.mAnalyses
      ∧ 2 ∈ getUncommonLoadSets Sample.enumerators Sample.mAnalyses
      ∧ (2 ∈ getCommonLoadSetPointers Sample.enumerators Sample.mAnalyses
          ↔ 2 ∉ getUncommonLoadSets Sample.enumerators Sample.mAnalyses)
      ∧ (1 ∈ getCommonLoadSetPointers Sample.enumerators Sample.mAnalyses
          ↔ 1 ∉ getUncommonLoadSets Sample.enumerators Sample.mAnalyses)
      ∧ 1 ∈ getCommonLoadSetPointers Sample.enumerators Sample.mAnalyses :=
  have h := getUncommonSets_complement Sample.enumerators Sample.mAnalyses (by decide)
    (by decide) (by decide)
  ⟨by decide, by decide,
   h.1 2 (Sample.loadSetOf 63 2) ⟨(63, 2), by decide, rfl⟩ (by decide) (by decide) (by decide),
   h.1 1 (Sample.loadSetOf 62 2) ⟨(62, 1), by decide, rfl⟩ (by decide) (by decide) (by decide),
   by decide⟩

/-! ### Provenance of the loadings that a load set receives -/

theorem cloneLoadingInto_members (scale : ℚ → Lg → Lg) (m : Model Lg LoadSetData Cg CSd)
    (loadSet : Identifiable Nat LoadSetData) (c : ℚ) (lp : Option Nat) (l : Identifiable Nat Lg)
    (hfresh : FreshLoadingIds m) (hl : m.loadings.deref lp = some l)
    (hS : (m.loadSets.find loadSet.getReference).isSome = true) :
    (∀ s r, MemberReference (cloneLoadingInto scale m loadSet c lp).state s r →
        MemberReference m s r
          ∨ (r = { type := l.type, original_id := none, id := some m.loading_auto_id }
              ∧ SameKey loadSet.getReference s))
      ∧ (cloneLoadingInto scale m loadSet c lp).state.loadings.find
          { type := l.type, original_id := none, id := some m.loading_auto_id }
            = some m.loadings.objs.length
      ∧ (cloneLoadingInto scale m loadSet c lp).state.loadings.objs[m.loadings.objs.length]?
          = some { id := m.loading_auto_id, original_id := none, type := l.type,
                   data := scale c l.data } := by
  obtain ⟨herr, hls, hauto, hobjs, hbyid, hbyorig, hidx, hidx2⟩ :=
    cloneLoadingInto_state scale m loadSet c lp l hfresh hl hS
  generalize cloneLoadingInto scale m loadSet c lp = res at *
  refine ⟨?_, ?_, ?_⟩
  · intro s r hr
    unfold MemberReference at hr ⊢
    unfold SameKey
    rcases hr with hr | hr
    · rw [hidx, mem_membersById_insertById] at hr
      rcases hr with hr | ⟨h1, h2, h3⟩
      · exact Or.inl (Or.inl hr)
      · exact Or.inr ⟨h1, Or.inl ⟨h2, h3⟩⟩
    · rw [hidx2, mem_membersByOriginalId_insertByOriginalId] at hr
      rcases hr with hr | ⟨h1, h2, h3, h4⟩
      · exact Or.inl (Or.inr hr)
      · exact Or.inr ⟨h1, Or.inr ⟨h2, h3, h4⟩⟩
  · unfold Container.find
    dsimp only
    rw [hbyid, KeyMap.find_assign_self]
  · rw [hobjs]
    simp

/-- The members that a load set has in a later state are members that it had, when
its member references are those that it had and these resolved. -/
theorem members_of_frame {m m2 : Model Lg LSd Cg CSd} (s : Reference Nat)
    (hframe : ∀ r, MemberReference m2 s r → MemberReference m s r)
    (hgrow : LoadingsGrow m m2) (hres : MembersResolve m s) (lp : Option Nat)
    (hlp : lp ∈ m2.getLoadingsByLoadSet s) :
    lp ∈ m.getLoadingsByLoadSet s
      ∧ ∀ l, m2.loadings.deref lp = some l → m.loadings.deref lp = some l := by
  rw [mem_getLoadingsByLoadSet_iff] at hlp
  obtain ⟨r, hr, hx⟩ := hlp
  have hr0 := hframe r hr
  have hmem0 : m.loadings.find r ∈ m.getLoadingsByLoadSet s :=
    (mem_getLoadingsByLoadSet_iff m s _).2 ⟨r, hr0, rfl⟩
  obtain ⟨l0, hl0⟩ := hres _ hmem0
  cases hf : m.loadings.find r with
  | none => rw [hf] at hl0; cases hl0
  | some p =>
    rw [hf] at hl0 hmem0
    have h2 := hgrow.2.2.1 r p hf
    rw [h2] at hx
    subst hx
    refine ⟨hmem0, ?_⟩
    intro l hl
    have := hgrow.2.1 p l0 hl0
    unfold Container.deref at hl ⊢
    dsimp only at hl ⊢
    rw [this] at hl
    cases hl
    exact hl0

theorem flattenEmbedded_members (scale : ℚ → Lg → Lg) (m : Model Lg LoadSetData Cg CSd)
    (loadSet : Identifiable Nat LoadSetData) (kv : Reference Nat × ℚ)
    (other : Identifiable Nat LoadSetData)
    (hother : m.loadSets.deref (m.loadSets.find kv.1) = some other)
    (hfresh : FreshLoadingIds m)
    (hS : (m.loadSets.find loadSet.getReference).isSome = true)
    (hmem : MembersResolve m other.getReference) :
    ∀ s r, MemberReference (flattenEmbedded scale m loadSet kv).state s r →
      MemberReference m s r
        ∨ (SameKey loadSet.getReference s
            ∧ ∃ (q : Nat) (x : Identifiable Nat Lg) (lp : Option Nat) (l : Identifiable Nat Lg),
              (flattenEmbedded scale m loadSet kv).state.loadings.find r = some q
                ∧ (flattenEmbedded scale m loadSet kv).state.loadings.objs[q]? = some x
                ∧ m.loadings.objs.length ≤ q
                ∧ lp ∈ m.getLoadingsByLoadSet other.getReference
                ∧ m.loadings.deref lp = some l ∧ IsClone scale x l kv.2) := by
  unfold flattenEmbedded
  rw [hother]
  dsimp only
  have key := Outcome.foldl_andThen_total
    (fun (m2 : Model Lg LoadSetData Cg CSd) (loading : Option Nat) =>
      cloneLoadingInto scale m2 loadSet kv.2 loading)
    (fun _ m2 =>
      m2.loadSets = m.loadSets ∧ LoadingsGrow m m2 ∧ FreshLoadingIds m2
        ∧ ∀ s r, MemberReference m2 s r →
            MemberReference m s r
              ∨ (SameKey loadSet.getReference s
                  ∧ ∃ (q : Nat) (x : Identifiable Nat Lg) (lp : Option Nat)
                      (l : Identifiable Nat Lg),
                    m2.loadings.find r = some q ∧ m2.loadings.objs[q]? = some x
                      ∧ m.loadings.objs.length ≤ q
                      ∧ lp ∈ m.getLoadingsByLoadSet other.getReference
                      ∧ m.loadings.deref lp = some l ∧ IsClone scale x l kv.2))
    (m.getLoadingsByLoadSet other.getReference)
    (by
      intro done x m2 hx ⟨hls, hgrow, hfr, hprov⟩
      dsimp only
      obtain ⟨l, hl⟩ := hmem x hx
      have hl2 := deref_of_grow hgrow x l hl
      have hS2 : (m2.loadSets.find loadSet.getReference).isSome = true := by
        rw [hls]; exact hS
      obtain ⟨e1, e2, e3, e4, -, -⟩ := cloneLoadingInto_spec scale m2 loadSet kv.2 x l hfr hl2 hS2
      obtain ⟨n1, n2, n3⟩ := cloneLoadingInto_members scale m2 loadSet kv.2 x l hfr hl2 hS2
      refine ⟨e1, e2.trans hls, hgrow.grow_trans e3, e4, ?_⟩
      intro s r hr
      rcases n1 s r hr with hold | ⟨hnew, hkey⟩
      · rcases hprov s r hold with h | ⟨hk, q, y, lp, l0, h1, h2, h3, h4, h5, h6⟩
        · exact Or.inl h
        · exact Or.inr ⟨hk, q, y, lp, l0, e3.2.2.1 r q h1, e3.2.1 q y h2, h3, h4, h5, h6⟩
      · subst hnew
        exact Or.inr ⟨hkey, m2.loadings.objs.length, _, x, l, n2, n3, hgrow.1, hx, hl,
          rfl, rfl, rfl⟩)
    m ⟨rfl, LoadingsGrow.grow_refl m, hfresh, fun s r h => Or.inl h⟩
  exact key.2.2.2.2

theorem SingleLevelClone.clone_mono (scale : ℚ → Lg → Lg) {m m2 m3 : Model Lg LoadSetData Cg CSd}
    (S : Identifiable Nat LoadSetData) (r : Reference Nat)
    (h : SingleLevelClone scale m m2 S r) (hg : LoadingsGrow m2 m3) :
    SingleLevelClone scale m m3 S r := by
  obtain ⟨q, x, kv, other, lp, l, h1, h2, h3, h4, h5, h6, h7, h8⟩ := h
  exact ⟨q, x, kv, other, lp, l, hg.2.2.1 r q h1, hg.2.1 q x h2, h3, h4, h5, h6, h7, h8⟩

/-- The turn of a load set adds member references under the keys of this load set
only. -/
theorem flattenLoadSet_frame (scale : ℚ → Lg → Lg) (m : Model Lg LoadSetData Cg CSd) (ptr : Nat)
    (loadSet : Identifiable Nat LoadSetData) (hptr : m.loadSets.objs[ptr]? = some loadSet)
    (hfresh : FreshLoadingIds m)
    (hS : (m.loadSets.find loadSet.getReference).isSome = true)
    (hemb : ∀ kv ∈ loadSet.data.embedded_loadsets,
      ∃ other, m.loadSets.deref (m.loadSets.find kv.1) = some other
        ∧ MembersResolve m other.getReference) :
    ∀ s r, MemberReference (flattenLoadSet scale m ptr).state s r →
      MemberReference m s r ∨ SameKey loadSet.getReference s := by
  unfold flattenLoadSet
  rw [hptr]
  dsimp only
  obtain ⟨herr, -, -, -, -, hprov⟩ := Outcome.foldl_andThen_total
    (fun (m2 : Model Lg LoadSetData Cg CSd) (kv : Reference Nat × ℚ) =>
      flattenEmbedded scale m2 loadSet kv)
    (fun _ m2 =>
      m2.loadSets = m.loadSets ∧ LoadingsGrow m m2 ∧ FreshLoadingIds m2
        ∧ (∀ s, MembersResolve m s → MembersResolve m2 s)
        ∧ ∀ s r, MemberReference m2 s r →
            MemberReference m s r ∨ SameKey loadSet.getReference s)
    loadSet.data.embedded_loadsets
    (by
      intro done x m2 hx ⟨hls, hgrow, hfr, hres, hprov⟩
      dsimp only
      obtain ⟨other, hother, hmem⟩ := hemb x hx
      have hother2 : m2.loadSets.deref (m2.loadSets.find x.1) = some other := by
        rw [hls]; exact hother
      have hS2 : (m2.loadSets.find loadSet.getReference).isSome = true := by
        rw [hls]; exact hS
      obtain ⟨e1, e2, e3, e4, e5, -⟩ := flattenEmbedded_spec scale m2 loadSet x other
        hother2 hfr hS2 (hres _ hmem)
      have n := flattenEmbedded_members scale m2 loadSet x other hother2 hfr hS2 (hres _ hmem)
      refine ⟨e1, e2.trans hls, hgrow.grow_trans e3, e4, fun s hs => e5 s (hres s hs), ?_⟩
      intro s r hr
      rcases n s r hr with hold | ⟨hk, -⟩
      · exact hprov s r hold
      · exact Or.inr hk)
    m ⟨rfl, LoadingsGrow.grow_refl m, hfresh, fun s hs => hs, fun s r h => Or.inl h⟩
  rw [Outcome.andThen_of_error_none _ _ herr]
  intro s r hr
  exact hprov s r hr

/-- The turn of a load set that does not embed itself: the member references that it
adds, under the keys of this load set, resolve to clones of the loadings that were
members of the embedded load sets when the turn started. -/
theorem flattenLoadSet_members (scale : ℚ → Lg → Lg) (m : Model Lg LoadSetData Cg CSd)
    (ptr : Nat) (loadSet : Identifiable Nat LoadSetData)
    (hptr : m.loadSets.objs[ptr]? = some loadSet) (hfresh : FreshLoadingIds m)
    (hS : (m.loadSets.find loadSet.getReference).isSome = true)
    (hemb : ∀ kv ∈ loadSet.data.embedded_loadsets,
      ∃ other, m.loadSets.deref (m.loadSets.find kv.1) = some other
        ∧ MembersResolve m other.getReference)
    (hself : ∀ kv ∈ loadSet.data.embedded_loadsets, ∀ other,
      m.loadSets.deref (m.loadSets.find kv.1) = some other →
      ¬ SameKey loadSet.getReference other.getReference) :
    ∀ s r, MemberReference (flattenLoadSet scale m ptr).state s r →
      MemberReference m s r
        ∨ (SameKey loadSet.getReference s
            ∧ SingleLevelClone scale m (flattenLoadSet scale m ptr).state loadSet r) := by
  unfold flattenLoadSet
  rw [hptr]
  dsimp only
  obtain ⟨herr, -, -, -, -, hprov⟩ := Outcome.foldl_andThen_total
    (fun (m2 : Model Lg LoadSetData Cg CSd) (kv : Reference Nat × ℚ) =>
      flattenEmbedded scale m2 loadSet kv)
    (fun _ m2 =>
      m2.loadSets = m.loadSets ∧ LoadingsGrow m m2 ∧ FreshLoadingIds m2
        ∧ (∀ s, MembersResolve m s → MembersResolve m2 s)
        ∧ ∀ s r, MemberReference m2 s r →
            MemberReference m s r
              ∨ (SameKey loadSet.getReference s ∧ SingleLevelClone scale m m2 loadSet r))
    loadSet.data.embedded_loadsets
    (by
      intro done x m2 hx ⟨hls, hgrow, hfr, hres, hprov⟩
      dsimp only
      obtain ⟨other, hother, hmem⟩ := hemb x hx
      have hother2 : m2.loadSets.deref (m2.loadSets.find x.1) = some other := by
        rw [hls]; exact hother
      have hS2 : (m2.loadSets.find loadSet.getReference).isSome = true := by
        rw [hls]; exact hS
      obtain ⟨e1, e2, e3, e4, e5, -⟩ := flattenEmbedded_spec scale m2 loadSet x other
        hother2 hfr hS2 (hres _ hmem)
      have n := flattenEmbedded_members scale m2 loadSet x other hother2 hfr hS2 (hres _ hmem)
      have hframe : ∀ r, MemberReference m2 other.getReference r →
          MemberReference m other.getReference r := by
        intro r hr
        rcases hprov _ r hr with h | ⟨hk, -⟩
        · exact h
        · exact absurd hk (hself x hx other hother)
      refine ⟨e1, e2.trans hls, hgrow.grow_trans e3, e4, fun s hs => e5 s (hres s hs), ?_⟩
      intro s r hr
      rcases n s r hr with hold | ⟨hk, q, y, lp, l, h1, h2, h3, h4, h5, h6⟩
      · rcases hprov s r hold with h | ⟨hk, hc⟩
        · exact Or.inl h
        · exact Or.inr ⟨hk, hc.clone_mono scale _ _ e3⟩
      · obtain ⟨g1, g2⟩ := members_of_frame other.getReference hframe hgrow hmem lp h4
        exact Or.inr ⟨hk, q, y, x, other, lp, l, h1, h2, Nat.le_trans hgrow.1 h3, hx, hother,
          g1, g2 l h5, h6⟩)
    m ⟨rfl, LoadingsGrow.grow_refl m, hfresh, fun s hs => hs, fun s r h => Or.inl h⟩
  rw [Outcome.andThen_of_error_none _ _ herr]
  intro s r hr
  exact hprov s r hr

end Model

namespace Outcome

variable {σ : Type}

theorem foldl_andThen_total_split {ι : Type} (f : σ → ι → Outcome σ) (Inv : List ι → σ → Prop)
    (l : List ι)
    (hstep : ∀ done x rest s, l = done ++ x :: rest → Inv done s →
      (f s x).error = none ∧ Inv (done ++ [x]) (f s x).state)
    (s : σ) (h0 : Inv [] s) :
    (l.foldl (fun r x => r.andThen fun s => f s x) (Outcome.ok s)).error = none
      ∧ Inv l (l.foldl (fun r x => r.andThen fun s => f s x) (Outcome.ok s)).state := by
  have key : ∀ (rest done : List ι) (s : σ), done ++ rest = l → Inv done s →
      (rest.foldl (fun r x => r.andThen fun s => f s x) (Outcome.ok s)).error = none
        ∧ Inv l (rest.foldl (fun r x => r.andThen fun s => f s x) (Outcome.ok s)).state := by
    intro rest
    induction rest with
    | nil =>
      intro done s hl hs
      rw [List.append_nil] at hl
      rw [← hl]
      exact ⟨rfl, hs⟩
    | cons x xs ih =>
      intro done s hl hs
      rw [List.foldl_cons, andThen_of_ok]
      obtain ⟨he, hi⟩ := hstep done x xs s hl.symm hs
      rw [eq_ok_of_error_none _ he]
      exact ih (done ++ [x]) (f s x).state (by rw [List.append_assoc]; exact hl) hi
  exact key l [] s rfl h0

end Outcome

namespace Model

variable {Lg LSd Cg CSd : Type}

theorem sameKey_getReference_self {α : Type} (t : Identifiable Nat α) :
    SameKey t.getReference t.getReference := by
  unfold SameKey Identifiable.getReference Identifiable.isOriginal
  cases t.original_id <;> simp

theorem eq_of_split_of_not_mem {A : Type} (a : A) :
    ∀ (pre post done rest : List A), a ∉ pre → a ∉ post →
      pre ++ a :: post = done ++ a :: rest → done = pre := by
  intro pre
  induction pre with
  | nil =>
    intro post done rest _ hpost h
    cases done with
    | nil => rfl
    | cons d ds =>
      exfalso
      simp only [List.nil_append, List.cons_append, List.cons.injEq] at h
      apply hpost
      rw [h.2]
      simp
  | cons p ps ih =>
    intro post done rest hpre hpost h
    cases done with
    | nil =>
      exfalso
      simp only [List.nil_append, List.cons_append, List.cons.injEq] at h
      exact hpre (by rw [h.1]; exact List.mem_cons_self _ _)
    | cons d ds =>
      simp only [List.cons_append, List.cons.injEq] at h
      rw [h.1, ih post ds rest (fun hm => hpre (List.mem_cons_of_mem _ hm)) hpost h.2]

/-- What the base facts of the pass give for the load set whose turn comes. -/
theorem passBase_facts (m m2 : Model Lg LoadSetData Cg CSd) (done : List (Int × Nat))
    (x : Int × Nat) (hx : x ∈ m.loadSets.by_id)
    (hown : ∀ entry ∈ m.loadSets.by_id, ∀ loadSet, m.loadSets.objs[entry.2]? = some loadSet →
      (m.loadSets.find loadSet.getReference).isSome = true)
    (hemb : ∀ entry ∈ m.loadSets.by_id, ∀ loadSet, m.loadSets.objs[entry.2]? = some loadSet →
      ∀ kv ∈ loadSet.data.embedded_loadsets,
        ∃ other, m.loadSets.deref (m.loadSets.find kv.1) = some other
          ∧ MembersResolve m other.getReference)
    (hbase : PassBase m m2 done) (S : Identifiable Nat LoadSetData)
    (hS2 : m2.loadSets.objs[x.2]? = some S) :
    ∃ S0, m.loadSets.objs[x.2]? = some S0 ∧ S.getReference = S0.getReference
      ∧ (m2.loadSets.find S.getReference).isSome = true
      ∧ (∀ kv ∈ S.data.embedded_loadsets,
          ∃ other, m2.loadSets.deref (m2.loadSets.find kv.1) = some other
            ∧ MembersResolve m2 other.getReference)
      ∧ (x.2 ∉ done.map Prod.snd → S = S0) := by
  obtain ⟨L1, L1b, L4, L2, L3, hgrow, hfr, hres⟩ := hbase
  obtain ⟨S0, hS0, hrefS⟩ : ∃ S0, m.loadSets.objs[x.2]? = some S0
      ∧ S.getReference = S0.getReference := by
    have := L4 x.2
    rw [hS2] at this
    cases h0 : m.loadSets.objs[x.2]? with
    | none => rw [h0] at this; cases this
    | some a =>
      rw [h0] at this
      exact ⟨a, rfl, Option.some.inj this⟩
  have hSS0 : x.2 ∉ done.map Prod.snd → S = S0 := by
    intro hdone
    have := L2 x.2 hdone
    rw [hS2, hS0] at this
    exact Option.some.inj this
  refine ⟨S0, hS0, hrefS, ?_, ?_, hSS0⟩
  · rw [find_congr_indices m.loadSets m2.loadSets L1 L1b, hrefS]
    exact hown x hx S0 hS0
  · intro kv hkv
    by_cases hdone : x.2 ∈ done.map Prod.snd
    · rw [L3 x.2 hdone S hS2] at hkv
      cases hkv
    · rw [hSS0 hdone] at hkv
      obtain ⟨other0, hother0, hmem0⟩ := hemb x hx S0 hS0 kv hkv
      obtain ⟨other, hother, href⟩ := deref_find_transfer m.loadSets m2.loadSets L1 L1b L4
        kv.1 other0 hother0
      exact ⟨other, hother, by rw [href]; exact hres _ hmem0⟩

/-- The base facts of the pass go through the turn of an entry of the catalog, which
completes. -/
theorem passBase_step (scale : ℚ → Lg → Lg) (m m2 : Model Lg LoadSetData Cg CSd)
    (done : List (Int × Nat)) (x : Int × Nat) (hx : x ∈ m.loadSets.by_id)
    (hown : ∀ entry ∈ m.loadSets.by_id, ∀ loadSet, m.loadSets.objs[entry.2]? = some loadSet →
      (m.loadSets.find loadSet.getReference).isSome = true)
    (hemb : ∀ entry ∈ m.loadSets.by_id, ∀ loadSet, m.loadSets.objs[entry.2]? = some loadSet →
      ∀ kv ∈ loadSet.data.embedded_loadsets,
        ∃ other, m.loadSets.deref (m.loadSets.find kv.1) = some other
          ∧ MembersResolve m other.getReference)
    (hbase : PassBase m m2 done) :
    (flattenLoadSet scale m2 x.2).error = none
      ∧ PassBase m (flattenLoadSet scale m2 x.2).state (done ++ [x]) := by
  have hmemsplit : ∀ i : Nat, i ∈ (done ++ [x]).map Prod.snd →
      i ∈ done.map Prod.snd ∨ i = x.2 := by
    intro i hi
    rw [List.map_append, List.mem_append] at hi
    rcases hi with hi | hi
    · exact Or.inl hi
    · right
      simpa using hi
  cases hS2 : m2.loadSets.objs[x.2]? with
  | none =>
    obtain ⟨L1, L1b, L4, L2, L3, hgrow, hfr, hres⟩ := hbase
    have hstep : flattenLoadSet scale m2 x.2 = Outcome.ok m2 := by
      unfold flattenLoadSet
      rw [hS2]
    rw [hstep]
    refine ⟨rfl, L1, L1b, L4, ?_, ?_, hgrow, hfr, hres⟩
    · intro i hi
      exact L2 i (fun h => hi (by rw [List.map_append]; exact List.mem_append_left _ h))
    · intro i hi loadSet hls
      rcases hmemsplit i hi with h | h
      · exact L3 i h loadSet hls
      · rw [h] at hls
        simp only [Outcome.ok] at hls
        rw [hS2] at hls
        cases hls
  | some S =>
    obtain ⟨S0, hS0, hrefS, hSres, hemb2, -⟩ := passBase_facts m m2 done x hx hown hemb hbase S hS2
    obtain ⟨L1, L1b, L4, L2, L3, hgrow, hfr, hres⟩ := hbase
    obtain ⟨e1, e2, e3, e4, e5, -⟩ := flattenLoadSet_spec scale m2 x.2 S hS2 hfr hSres hemb2
    have hobjs : ∀ i : Nat, (flattenLoadSet scale m2 x.2).state.loadSets.objs[i]?
        = (m2.loadSets.objs[i]?).map (fun ls =>
            if x.2 = i then { ls with data := { embedded_loadsets := [] } } else ls) := by
      intro i
      rw [e2]
      simp only [clearEmbedded]
      rw [List.getElem?_modify]
      rfl
    refine ⟨e1, by rw [e2]; exact L1, by rw [e2]; exact L1b, ?_, ?_, ?_, hgrow.grow_trans e3, e4,
      fun s hs => e5 s (hres s hs)⟩
    · intro i
      rw [hobjs, ← L4 i]
      cases m2.loadSets.objs[i]? with
      | none => rfl
      | some a =>
        by_cases hi : x.2 = i
        · simp [hi, Identifiable.getReference, Identifiable.isOriginal]
        · simp [hi]
    · intro i hi
      have hne : x.2 ≠ i := by
        intro h
        apply hi
        rw [List.map_append]
        exact List.mem_append_right _ (by simp [h])
      rw [hobjs, ← L2 i (fun h => hi (by
        rw [List.map_append]; exact List.mem_append_left _ h))]
      cases m2.loadSets.objs[i]? with
      | none => rfl
      | some a => simp [hne]
    · intro i hi loadSet hls
      rw [hobjs] at hls
      cases h2 : m2.loadSets.objs[i]? with
      | none => rw [h2] at hls; cases hls
      | some a =>
        rw [h2] at hls
        simp only [Option.map_some', Option.some.injEq] at hls
        by_cases hxi : x.2 = i
        · rw [if_pos hxi] at hls
          rw [← hls]
        · rw [if_neg hxi] at hls
          rcases hmemsplit i hi with h | h
          · rw [← hls]
            exact L3 i h a h2
          · exact absurd h.symm hxi

/-- The invariant of the pass behind C37, for a load set `S` whose turn comes after
the entries `pre`: the base facts, the frame of the load sets whose keys no turn has
used, and the provenance of the member references of `S`. -/
theorem replaceCombinedLoadSets_provenance (scale : ℚ → Lg → Lg)
    (m : Model Lg LoadSetData Cg CSd) (hfresh : FreshLoadingIds m)
    (hown : ∀ entry ∈ m.loadSets.by_id, ∀ loadSet, m.loadSets.objs[entry.2]? = some loadSet →
      (m.loadSets.find loadSet.getReference).isSome = true)
    (hemb : ∀ entry ∈ m.loadSets.by_id, ∀ loadSet, m.loadSets.objs[entry.2]? = some loadSet →
      ∀ kv ∈ loadSet.data.embedded_loadsets,
        ∃ other, m.loadSets.deref (m.loadSets.find kv.1) = some other
          ∧ MembersResolve m other.getReference)
    (pre post : List (Int × Nat)) (entry : Int × Nat) (S : Identifiable Nat LoadSetData)
    (hsplit : m.loadSets.by_id = pre ++ entry :: post)
    (hS : m.loadSets.objs[entry.2]? = some S)
    (hkey : ∀ e ∈ pre ++ post, ∀ T, m.loadSets.objs[e.2]? = some T →
      ¬ SameKey T.getReference S.getReference)
    (hlater : ∀ kv ∈ S.data.embedded_loadsets, ∀ other,
      m.loadSets.deref (m.loadSets.find kv.1) = some other →
      ¬ SameKey S.getReference other.getReference
        ∧ ∀ e ∈ pre, ∀ T, m.loadSets.objs[e.2]? = some T →
            ¬ SameKey T.getReference other.getReference) :
    (replaceCombinedLoadSets scale m).error = none
      ∧ ∀ r, MemberReference (replaceCombinedLoadSets scale m).state S.getReference r →
          MemberReference m S.getReference r
            ∨ SingleLevelClone scale m (replaceCombinedLoadSets scale m).state S r := by
  have hentry_pre : entry ∉ pre := by
    intro h
    exact hkey entry (List.mem_append_left _ h) S hS (sameKey_getReference_self S)
  have hentry_post : entry ∉ post := by
    intro h
    exact hkey entry (List.mem_append_right _ h) S hS (sameKey_getReference_self S)
  have hptr_pre : entry.2 ∉ pre.map Prod.snd := by
    intro h
    obtain ⟨e, he, heq⟩ := List.mem_map.1 h
    exact hkey e (List.mem_append_left _ he) S (by rw [heq]; exact hS)
      (sameKey_getReference_self S)
  unfold replaceCombinedLoadSets
  obtain ⟨herr, -, -, hG⟩ := Outcome.foldl_andThen_total_split
    (fun (m2 : Model Lg LoadSetData Cg CSd) (e : Int × Nat) => flattenLoadSet scale m2 e.2)
    (fun done m2 =>
      PassBase m m2 done
        ∧ (∀ s, (∀ e ∈ done, ∀ T, m.loadSets.objs[e.2]? = some T →
              ¬ SameKey T.getReference s) →
            ∀ r, MemberReference m2 s r → MemberReference m s r)
        ∧ ∀ r, MemberReference m2 S.getReference r →
            MemberReference m S.getReference r ∨ SingleLevelClone scale m m2 S r)
    m.loadSets.by_id
    (by
      intro done x rest m2 hl ⟨hbase, hF, hG⟩
      dsimp only
      have hx : x ∈ m.loadSets.by_id := by rw [hl]; simp
      obtain ⟨e1, hbase2⟩ := passBase_step scale m m2 done x hx hown hemb hbase
      refine ⟨e1, hbase2, ?_⟩
      cases hS2 : m2.loadSets.objs[x.2]? with
      | none =>
        have hstep : flattenLoadSet scale m2 x.2 = Outcome.ok m2 := by
          unfold flattenLoadSet
          rw [hS2]
        rw [hstep]
        exact ⟨fun s hs r hr => hF s (fun e he => hs e (List.mem_append_left _ he)) r hr, hG⟩
      | some T2 =>
        obtain ⟨T0, hT0, hrefT, hTres, hemb2, hTT0⟩ :=
          passBase_facts m m2 done x hx hown hemb hbase T2 hS2
        obtain ⟨L1, L1b, L4, L2, L3, hgrow, hfr, hres⟩ := hbase
        obtain ⟨-, -, e3, -, -, -⟩ := flattenLoadSet_spec scale m2 x.2 T2 hS2 hfr hTres hemb2
        have hframe := flattenLoadSet_frame scale m2 x.2 T2 hS2 hfr hTres hemb2
        have hF2 : ∀ s, (∀ e ∈ done ++ [x], ∀ T, m.loadSets.objs[e.2]? = some T →
              ¬ SameKey T.getReference s) →
            ∀ r, MemberReference (flattenLoadSet scale m2 x.2).state s r →
              MemberReference m s r := by
          intro s hs r hr
          rcases hframe s r hr with h | h
          · exact hF s (fun e he => hs e (List.mem_append_left _ he)) r h
          · rw [hrefT] at h
            exact absurd h (hs x (List.mem_append_right _ (List.mem_singleton.2 rfl)) T0 hT0)
        refine ⟨hF2, ?_⟩
        by_cases hsame : SameKey T0.getReference S.getReference
        · -- the turn of `S`
          have hxe : x = entry := by
            by_contra hne
            have hxmem : x ∈ pre ++ post := by
              have : x ∈ pre ++ entry :: post := by rw [← hsplit]; exact hx
              rcases List.mem_append.1 this with h | h
              · exact List.mem_append_left _ h
              · rcases List.mem_cons.1 h with h | h
                · exact absurd h hne
                · exact List.mem_append_right _ h
            exact hkey x hxmem T0 hT0 hsame
          subst hxe
          have hdone : done = pre :=
            eq_of_split_of_not_mem x pre post done rest hentry_pre hentry_post
              (by rw [← hsplit, hl])
          subst hdone
          have hTS : T0 = S := by
            rw [hS] at hT0
            exact (Option.some.inj hT0).symm
          subst hTS
          have hT2 : T2 = T0 := hTT0 hptr_pre
          subst hT2
          have hself2 : ∀ kv ∈ T2.data.embedded_loadsets, ∀ other,
              m2.loadSets.deref (m2.loadSets.find kv.1) = some other →
              ¬ SameKey T2.getReference other.getReference := by
            intro kv hkv other hother
            obtain ⟨other0, hother0, href⟩ := deref_find_transfer m2.loadSets m.loadSets
              L1.symm L1b.symm (fun i => (L4 i).symm) kv.1 other hother
            rw [← href]
            exact (hlater kv hkv other0 hother0).1
          have hmembers := flattenLoadSet_members scale m2 x.2 T2 hS2 hfr hTres hemb2 hself2
          intro r hr
          rcases hmembers _ r hr with h | ⟨-, q, y, kv, other, lp, l, h1, h2, h3, h4, h5, h6, h7,
            h8⟩
          · rcases hG r h with g | g
            · exact Or.inl g
            · exact Or.inr (g.clone_mono scale _ _ e3)
          · obtain ⟨other0, hother0, href⟩ := deref_find_transfer m2.loadSets m.loadSets
              L1.symm L1b.symm (fun i => (L4 i).symm) kv.1 other h5
            have hmemres : MembersResolve m other0.getReference := by
              obtain ⟨o, ho, hm⟩ := hemb x hx T2 hT0 kv h4
              rw [hother0] at ho
              cases ho
              exact hm
            have hfr0 : ∀ r, MemberReference m2 other0.getReference r →
                MemberReference m other0.getReference r :=
              hF other0.getReference (hlater kv h4 other0 hother0).2
            rw [← href] at h6
            obtain ⟨g1, g2⟩ := members_of_frame other0.getReference hfr0 hgrow hmemres lp h6
            exact Or.inr ⟨q, y, kv, other0, lp, l, h1, h2, Nat.le_trans hgrow.1 h3, h4, hother0,
              g1, g2 l h7, h8⟩
        · -- the turn of another load set
          intro r hr
          rcases hframe _ r hr with h | h
          · rcases hG r h with g | g
            · exact Or.inl g
            · exact Or.inr (g.clone_mono scale _ _ e3)
          · rw [hrefT] at h
            exact absurd h hsame)
    m ⟨⟨rfl, rfl, fun _ => rfl, fun _ _ => rfl, (by intro i h; cases h), LoadingsGrow.grow_refl m,
        hfresh, fun s hs => hs⟩, fun s _ r h => h, fun r h => Or.inl h⟩
  exact ⟨herr, hG⟩

/-- C37, as stated, fails: in the model `mNestedMiddleFirst` the outer load set
embeds the middle one with coefficient 2, the middle one embeds the innermost one
with coefficient 3, and the catalog holds the middle load set before the outer one.
Before the pass the middle load set has `loadingA` as its only member and the
innermost one `loadingB`. After the pass the outer load set has two members: the
second is the loading of id 102, whose attributes are those of `loadingB` scaled by
3 and then by 2, a clone of the clone that the middle load set received from the
innermost one. -/
theorem replaceCombinedLoadSets_nested_counterexample :
    (registered Sample.mNestedMiddleFirst.loadSets).map (fun loadSet => loadSet.id)
        = [52, 53, 54]
      ∧ Sample.mNestedMiddleFirst.getLoadingsByLoadSet Sample.innerRef = [some 0]
      ∧ Sample.mNestedMiddleFirst.getLoadingsByLoadSet Sample.innermostRef = [some 1]
      ∧ Sample.mNestedMiddleFirst.loadings.objs = [Sample.loadingA, Sample.loadingB]
      ∧ (replaceCombinedLoadSets Sample.recordScale Sample.mNestedMiddleFirst).error = none
      ∧ (replaceCombinedLoadSets Sample.recordScale
            Sample.mNestedMiddleFirst).state.getLoadingsByLoadSet Sample.outerRef
          = [some 3, some 4]
      ∧ (replaceCombinedLoadSets Sample.recordScale
            Sample.mNestedMiddleFirst).state.loadings.objs[4]?
          = some { id := 102, original_id := none, type := 0,
                   data := Sample.recordScale 2 (Sample.recordScale 3 Sample.loadingB.data) } := by
  decide

/-- C37, amended. In a model in which the ids that the model is about to give to
loadings are unused, the reference of every load set resolves, every embedded
load-set reference resolves and no member reference of an embedded load set is
dangling: let `S` be a load set of the catalog such that no other entry of the
catalog shares a key of the membership index with `S`, and such that the load sets
that `S` embeds are not `S` and have no turn before that of `S`. Then the pass
completes; afterwards every member of `S` is designated by a member reference that
`S` had before the pass, or is a loading that the pass has created, clone scaled by
`c` of a loading that was before the pass a direct member of the load set of a
record `(S', c)` of `S`, whatever `S'` embeds; and `S` has gained such a clone for
every record and every direct member. -/
theorem replaceCombinedLoadSets_single_level (scale : ℚ → Lg → Lg)
    (m : Model Lg LoadSetData Cg CSd) (hfresh : FreshLoadingIds m)
    (hown : ∀ loadSet ∈ registered m.loadSets,
      (m.loadSets.find loadSet.getReference).isSome = true)
    (hemb : ∀ loadSet ∈ registered m.loadSets, ∀ kv ∈ loadSet.data.embedded_loadsets,
      ∃ other, m.loadSets.deref (m.loadSets.find kv.1) = some other
        ∧ MembersResolve m other.getReference)
    (pre post : List (Int × Nat)) (entry : Int × Nat) (S : Identifiable Nat LoadSetData)
    (hsplit : m.loadSets.by_id = pre ++ entry :: post)
    (hS : m.loadSets.objs[entry.2]? = some S)
    (hkey : ∀ e ∈ pre ++ post, ∀ T, m.loadSets.objs[e.2]? = some T →
      ¬ SameKey T.getReference S.getReference)
    (hlater : ∀ kv ∈ S.data.embedded_loadsets, ∀ other,
      m.loadSets.deref (m.loadSets.find kv.1) = some other →
      ¬ SameKey S.getReference other.getReference
        ∧ ∀ e ∈ pre, ∀ T, m.loadSets.objs[e.2]? = some T →
            ¬ SameKey T.getReference other.getReference) :
    (replaceCombinedLoadSets scale m).error = none
      ∧ (∀ lp ∈ (replaceCombinedLoadSets scale m).state.getLoadingsByLoadSet S.getReference,
          (∃ r, MemberReference m S.getReference r
              ∧ (replaceCombinedLoadSets scale m).state.loadings.find r = lp)
            ∨ ∃ (q : Nat) (x : Identifiable Nat Lg) (kv : Reference Nat × ℚ)
                (other : Identifiable Nat LoadSetData) (lp0 : Option Nat)
                (l : Identifiable Nat Lg),
              lp = some q
                ∧ (replaceCombinedLoadSets scale m).state.loadings.objs[q]? = some x
                ∧ m.loadings.objs.length ≤ q ∧ kv ∈ S.data.embedded_loadsets
                ∧ m.loadSets.deref (m.loadSets.find kv.1) = some other
                ∧ lp0 ∈ m.getLoadingsByLoadSet other.getReference
                ∧ m.loadings.deref lp0 = some l ∧ IsClone scale x l kv.2)
      ∧ (∀ kv ∈ S.data.embedded_loadsets, ∀ other,
          m.loadSets.deref (m.loadSets.find kv.1) = some other →
          ∀ lp ∈ m.getLoadingsByLoadSet other.getReference, ∀ l,
            m.loadings.deref lp = some l →
            GainedClone scale m (replaceCombinedLoadSets scale m).state S.getReference
              l kv.2) := by
  have hown2 : ∀ e ∈ m.loadSets.by_id, ∀ loadSet, m.loadSets.objs[e.2]? = some loadSet →
      (m.loadSets.find loadSet.getReference).isSome = true :=
    fun e he loadSet hls => hown loadSet ((mem_registered _ _).2 ⟨e, he, hls⟩)
  have hemb2 : ∀ e ∈ m.loadSets.by_id, ∀ loadSet, m.loadSets.objs[e.2]? = some loadSet →
      ∀ kv ∈ loadSet.data.embedded_loadsets,
        ∃ other, m.loadSets.deref (m.loadSets.find kv.1) = some other
          ∧ MembersResolve m other.getReference :=
    fun e he loadSet hls => hemb loadSet ((mem_registered _ _).2 ⟨e, he, hls⟩)
  obtain ⟨herr, hprov⟩ := replaceCombinedLoadSets_provenance scale m hfresh hown2 hemb2 pre post
    entry S hsplit hS hkey hlater
  obtain ⟨-, -, -, -, hclones⟩ := replaceCombinedLoadSets_invariant scale m hfresh hown2 hemb2
  refine ⟨herr, ?_, ?_⟩
  · intro lp hlp
    rw [mem_getLoadingsByLoadSet_iff] at hlp
    obtain ⟨r, hr, hx⟩ := hlp
    rcases hprov r hr with h | ⟨q, x, kv, other, lp0, l, h1, h2, h3, h4, h5, h6, h7, h8⟩
    · exact Or.inl ⟨r, h, hx⟩
    · refine Or.inr ⟨q, x, kv, other, lp0, l, ?_, h2, h3, h4, h5, h6, h7, h8⟩
      rw [← hx, h1]
  · have hmem : entry.2 ∈ m.loadSets.by_id.map Prod.snd := by
      rw [hsplit]
      simp
    exact hclones entry.2 hmem S hS

/-- In the model `mNestedOuterFirst` the catalog holds the outer load set before the
middle one: the pass completes and the outer load set, which had no member, has as
its only member a clone scaled by 2 of `loadingA`, the direct member of the middle
load set. -/
theorem replaceCombinedLoadSets_single_level_witness :
    (replaceCombinedLoadSets Sample.recordScale Sample.mNestedOuterFirst).error = none
      ∧ (replaceCombinedLoadSets Sample.recordScale
            Sample.mNestedOuterFirst).state.getLoadingsByLoadSet Sample.outerSet.getReference
          = [some 2]
      ∧ (replaceCombinedLoadSets Sample.recordScale
            Sample.mNestedOuterFirst).state.loadings.objs[2]?
          = some { id := 100, original_id := none, type := 0,
                   data := Sample.recordScale 2 Sample.loadingA.data }
      ∧ (∀ kv ∈ Sample.outerSet.data.embedded_loadsets, ∀ other,
          Sample.mNestedOuterFirst.loadSets.deref
            (Sample.mNestedOuterFirst.loadSets.find kv.1) = some other →
          ∀ lp ∈ Sample.mNestedOuterFirst.getLoadingsByLoadSet other.getReference, ∀ l,
            Sample.mNestedOuterFirst.loadings.deref lp = some l →
            GainedClone Sample.recordScale Sample.mNestedOuterFirst
              (replaceCombinedLoadSets Sample.recordScale Sample.mNestedOuterFirst).state
              Sample.outerSet.getReference l kv.2) := by
  have hreg : registered Sample.mNestedOuterFirst.loadSets
      = [Sample.outerSet, Sample.middleSet, Sample.innermostSet] := by decide
  have hobjs : Sample.mNestedOuterFirst.loadSets.objs
      = [Sample.outerSet, Sample.middleSet, Sample.innermostSet] := by decide
  have hmiddle : Sample.mNestedOuterFirst.getLoadingsByLoadSet Sample.middleSet.getReference
      = [some 0] := by decide
  have hinnermost :
      Sample.mNestedOuterFirst.getLoadingsByLoadSet Sample.innermostSet.getReference
        = [some 1] := by decide
  have h := replaceCombinedLoadSets_single_level Sample.recordScale Sample.mNestedOuterFirst
    (by
      intro k hk
      have hby : Sample.mNestedOuterFirst.loadings.by_id = [(60, 0), (61, 1)] := by decide
      have hauto : Sample.mNestedOuterFirst.loading_auto_id = 100 := by decide
      rw [hauto] at hk
      rw [hby]
      simp only [KeyMap.find]
      rw [if_neg (by omega), if_neg (by omega)])
    (by
      intro loadSet hmem
      rw [hreg] at hmem
      simp only [List.mem_cons, List.mem_singleton, List.not_mem_nil, or_false] at hmem
      rcases hmem with rfl | rfl | rfl <;> decide)
    (by
      intro loadSet hmem kv hkv
      rw [hreg] at hmem
      simp only [List.mem_cons, List.mem_singleton, List.not_mem_nil, or_false] at hmem
      rcases hmem with rfl | rfl | rfl
      · have hkv2 : kv = (Sample.innerRef, 2) := by simpa [Sample.outerSet] using hkv
        subst hkv2
        refine ⟨Sample.middleSet, by decide, ?_⟩
        intro lp hlp
        rw [hmiddle] at hlp
        rw [List.mem_singleton.1 hlp]
        exact ⟨Sample.loadingA, by decide⟩
      · have hkv2 : kv = (Sample.innermostRef, 3) := by simpa [Sample.middleSet] using hkv
        subst hkv2
        refine ⟨Sample.innermostSet, by decide, ?_⟩
        intro lp hlp
        rw [hinnermost] at hlp
        rw [List.mem_singleton.1 hlp]
        exact ⟨Sample.loadingB, by decide⟩
      · simp [Sample.innermostSet] at hkv)
    [] [(52, 1), (53, 2)] (51, 0) Sample.outerSet (by decide) (by decide)
    (by
      intro e he T hT
      simp only [List.nil_append, List.mem_cons, List.mem_singleton, List.not_mem_nil,
        or_false] at he
      rcases he with rfl | rfl
      · have : T = Sample.middleSet := by
          rw [hobjs] at hT
          exact (Option.some.inj hT).symm
        subst this
        unfold SameKey
        decide
      · have : T = Sample.innermostSet := by
          rw [hobjs] at hT
          exact (Option.some.inj hT).symm
        subst this
        unfold SameKey
        decide)
    (by
      intro kv hkv other hother
      have hkv2 : kv = (Sample.innerRef, 2) := by simpa [Sample.outerSet] using hkv
      subst hkv2
      have : other = Sample.middleSet := by
        have h2 : Sample.mNestedOuterFirst.loadSets.deref
            (Sample.mNestedOuterFirst.loadSets.find (Sample.innerRef, (2 : ℚ)).1)
              = some Sample.middleSet := by decide
        rw [h2] at hother
        exact (Option.some.inj hother).symm
      subst this
      refine ⟨by unfold SameKey; decide, ?_⟩
      intro e he
      cases he)
  exact ⟨h.1, by decide, by decide, h.2.2⟩

/-- C38. The stiffness matrix `pointMatrix` lies on the node of position 0 (id 101)
alone and its only term, not zero, bears on the rotation RX; the model holds no
loading, no constraint and no cell. `replaceDirectMatrices` completes; the DOFs
recorded as required at the node are still none when the matrices have been
replaced, and the only SPC that the pass adds blocks the six DOFs of the node of id
101, RX among them. For the matrix `chainMatrix`, whose terms bear on DX, the pass
blocks DX at the three nodes. -/
theorem replaceDirectMatrices_spc_blocks_stiffness_dof :
    MatrixElement.findSubmatrix Sample.pointMatrix.data.submatrixByNodes 0 0
        = [((DOF.RX, DOF.RX), 1)]
      ∧ registered Sample.mPointOnly.loadings = []
      ∧ registered Sample.mPointOnly.constraints = []
      ∧ (replaceDirectMatrices Sample.enumerators Sample.nodalFunctions Sample.mPointOnly).error
          = none
      ∧ (replaceDirectMatricesRun Sample.enumerators Sample.nodalFunctions
          Sample.mPointOnly).state.requiredDofsByNode = [(0, DOFS.NO_DOFS)]
      ∧ (registered (replaceDirectMatrices Sample.enumerators Sample.nodalFunctions
          Sample.mPointOnly).state.constraints).map (fun constraint => constraint.data)
          = [(DOFS.ALL_DOFS, 101)]
      ∧ DOF.RX ∈ DOFS.ALL_DOFS
      ∧ (registered (replaceDirectMatrices Sample.enumerators Sample.nodalFunctions
          Sample.mChain).state.constraints).map (fun constraint => constraint.data)
          = [(DOFS.TRANSLATIONS, 101), (DOFS.TRANSLATIONS, 102), (DOFS.TRANSLATIONS, 103)]
      ∧ DOF.DX ∈ DOFS.TRANSLATIONS :=
  ⟨by decide, by decide, by decide, by decide!, by decide!, by decide!, by decide, by decide!,
    by decide⟩

/-! ### The parts of an RBE3 -/

theorem keyIndex_none_iff {K V : Type} [DecidableEq K] (l : KeyMap K V) (k : K) :
    keyIndex l k = none ↔ l.find k = none := by
  induction l with
  | nil => simp [keyIndex, KeyMap.find]
  | cons hd tl ih =>
    obtain ⟨k0, v0⟩ := hd
    by_cases h : k0 = k
    · simp [keyIndex, KeyMap.find, h]
    · simp [keyIndex, KeyMap.find, h, ih]

theorem assign_of_keyIndex_none {K V : Type} [DecidableEq K] (l : KeyMap K V) (k : K) (v : V)
    (h : keyIndex l k = none) : l.assign k v = l ++ [(k, v)] := by
  induction l with
  | nil => rfl
  | cons hd tl ih =>
    obtain ⟨k0, v0⟩ := hd
    by_cases h0 : k0 = k
    · simp [keyIndex, h0] at h
    · simp only [keyIndex, h0, if_false, Option.map_eq_none'] at h
      simp [KeyMap.assign, h0, ih h]

theorem keyIndex_append {K V : Type} [DecidableEq K] (l : KeyMap K V) (k k2 : K) (v : V) :
    keyIndex (l ++ [(k, v)]) k2
      = match keyIndex l k2 with
        | some i => some i
        | none => if k = k2 then some l.length else none := by
  induction l with
  | nil => simp [keyIndex]
  | cons hd tl ih =>
    obtain ⟨k0, v0⟩ := hd
    by_cases h0 : k0 = k2
    · simp [keyIndex, h0]
    · rw [List.cons_append]
      simp only [keyIndex, h0, if_false]
      rw [ih]
      cases keyIndex tl k2 with
      | some i => rfl
      | none =>
        by_cases hk : k = k2 <;> simp [hk]

theorem keyIndex_assign_of_some {K V : Type} [DecidableEq K] (l : KeyMap K V) (k k2 : K) (v : V)
    (i : Nat) (h : keyIndex l k = some i) :
    keyIndex (l.assign k v) k2 = keyIndex l k2
      ∧ (l.assign k v).map Prod.fst = l.map Prod.fst
      ∧ (l.assign k v).length = l.length := by
  induction l generalizing i with
  | nil => simp [keyIndex] at h
  | cons hd tl ih =>
    obtain ⟨k0, v0⟩ := hd
    by_cases h0 : k0 = k
    · subst h0
      simp [KeyMap.assign, keyIndex]
    · simp only [keyIndex, h0, if_false, Option.map_eq_some'] at h
      obtain ⟨i2, hi2, -⟩ := h
      obtain ⟨e1, e2, e3⟩ := ih i2 hi2
      simp [KeyMap.assign, h0, keyIndex, e1, e2, e3]

theorem keyIndex_lt {K V : Type} [DecidableEq K] (l : KeyMap K V) (k : K) (i : Nat)
    (h : keyIndex l k = some i) : i < l.length := by
  induction l generalizing i with
  | nil => simp [keyIndex] at h
  | cons hd tl ih =>
    obtain ⟨k0, v0⟩ := hd
    by_cases h0 : k0 = k
    · simp only [keyIndex, h0, if_true, Option.some.injEq] at h
      subst h
      simp
    · simp only [keyIndex, h0, if_false, Option.map_eq_some'] at h
      obtain ⟨i2, hi2, rfl⟩ := h
      have := ih i2 hi2
      simp only [List.length_cons]
      omega

theorem modify_append_right {α : Type} (f : α → α) (A B : List α) (i : Nat) :
    (A ++ B).modify f (A.length + i) = A ++ B.modify f i := by
  induction A with
  | nil => simp
  | cons a rest ih =>
    have : (a :: rest).length + i = (rest.length + i) + 1 := by simp; omega
    rw [this]
    simp [ih]

theorem rbe3Materials_append (E : Enumerators) (id : Int) (l : List (DOFS × ℚ)) (key : DOFS × ℚ) :
    rbe3Materials E id (l ++ [key])
      = rbe3Materials E id l ++
          [{ id := id + l.length, original_id := none, type := E.Material_MATERIAL,
             data := { natures := [Nature.Rigid none (some key.2)] } }] := by
  induction l generalizing id with
  | nil => simp [rbe3Materials]
  | cons k rest ih =>
    rw [List.cons_append, rbe3Materials, rbe3Materials, ih (id + 1)]
    have : id + 1 + (rest.length : Int) = id + (((k :: rest).length : Nat) : Int) := by
      simp only [List.length_cons]
      push_cast
      omega
    rw [this]
    rfl

theorem rbe3ElementSets_append (E : Enumerators) (masterId : Int) (mDOFS : DOFS) (id : Int)
    (group material : Nat) (l : List (DOFS × ℚ)) (key : DOFS × ℚ) :
    rbe3ElementSets E masterId mDOFS id group material (l ++ [key])
      = rbe3ElementSets E masterId mDOFS id group material l ++
          [{ id := id + l.length, original_id := none, type := E.ElementSet_RBE3,
             data := { kind := ElementSetKind.Rbe3 masterId mDOFS key.1,
                       cellGroup := some (group + l.length),
                       material := some (material + l.length) } }] := by
  induction l generalizing id group material with
  | nil => simp [rbe3ElementSets]
  | cons k rest ih =>
    rw [List.cons_append, rbe3ElementSets, rbe3ElementSets, ih (id + 1) (group + 1) (material + 1)]
    have h1 : id + 1 + (rest.length : Int) = id + (((k :: rest).length : Nat) : Int) := by
      simp only [List.length_cons]
      push_cast
      omega
    have h2 : group + 1 + rest.length = group + (k :: rest).length := by
      simp only [List.length_cons]
      omega
    have h3 : material + 1 + rest.length = material + (k :: rest).length := by
      simp only [List.length_cons]
      omega
    rw [h1, h2, h3]
    rfl

theorem rbe3CellGroups_append (label : String) (part : Nat) (l : KeyMap (DOFS × ℚ) (List Int))
    (entry : (DOFS × ℚ) × List Int) :
    rbe3CellGroups label part (l ++ [entry])
      = rbe3CellGroups label part l ++
          [{ name := "RBE3_" ++ toString (part + l.length) ++ "_" ++ label,
             cellIds := entry.2 }] := by
  induction l generalizing part with
  | nil => simp [rbe3CellGroups]
  | cons k rest ih =>
    rw [List.cons_append, rbe3CellGroups, rbe3CellGroups, ih (part + 1)]
    have h2 : part + 1 + rest.length = part + (k :: rest).length := by
      simp only [List.length_cons]
      omega
    rw [h2]
    rfl

theorem rbe3CellGroups_length (label : String) (part : Nat)
    (l : KeyMap (DOFS × ℚ) (List Int)) : (rbe3CellGroups label part l).length = l.length := by
  induction l generalizing part with
  | nil => rfl
  | cons k rest ih => simp [rbe3CellGroups, ih]

theorem rbe3CellGroups_assign (label : String) (part : Nat) (l : KeyMap (DOFS × ℚ) (List Int))
    (key : DOFS × ℚ) (c : Int) (i : Nat) (h : keyIndex l key = some i) :
    rbe3CellGroups label part (l.assign key (KeyMap.atOrEmpty l key ++ [c]))
      = (rbe3CellGroups label part l).modify
          (fun g => { g with cellIds := g.cellIds ++ [c] }) i := by
  induction l generalizing part i with
  | nil => simp [keyIndex] at h
  | cons hd tl ih =>
    obtain ⟨k0, v0⟩ := hd
    by_cases h0 : k0 = key
    · subst h0
      simp only [keyIndex, if_true, Option.some.injEq] at h
      subst h
      simp [KeyMap.assign, KeyMap.atOrEmpty, KeyMap.find, rbe3CellGroups]
    · simp only [keyIndex, h0, if_false, Option.map_eq_some'] at h
      obtain ⟨i2, hi2, rfl⟩ := h
      have hat : KeyMap.atOrEmpty ((k0, v0) :: tl) key = KeyMap.atOrEmpty tl key := by
        simp [KeyMap.atOrEmpty, KeyMap.find, h0]
      rw [hat]
      simp [KeyMap.assign, h0, rbe3CellGroups, ih (part + 1) i2 hi2]

theorem rbe3Cells_append (masterId : Int) (id : Int) (l : List Node) (slave : Node) :
    rbe3Cells masterId id (l ++ [slave])
      = rbe3Cells masterId id l ++
          [{ id := id + l.length, type := CellType.SEG2, nodeIds := [masterId, slave.id],
             isVirtual := true }] := by
  induction l generalizing id with
  | nil => simp [rbe3Cells]
  | cons k rest ih =>
    rw [List.cons_append, rbe3Cells, rbe3Cells, ih (id + 1)]
    have : id + 1 + (rest.length : Int) = id + (((k :: rest).length : Nat) : Int) := by
      simp only [List.length_cons]
      push_cast
      omega
    rw [this]
    rfl

theorem rbe3Cells_length (masterId : Int) (id : Int) (l : List Node) :
    (rbe3Cells masterId id l).length = l.length := by
  induction l generalizing id with
  | nil => rfl
  | cons k rest ih => simp [rbe3Cells, ih]

theorem rbe3Materials_length (E : Enumerators) (id : Int) (l : List (DOFS × ℚ)) :
    (rbe3Materials E id l).length = l.length := by
  induction l generalizing id with
  | nil => rfl
  | cons k rest ih => simp [rbe3Materials, ih]

theorem rbe3ElementSets_length (E : Enumerators) (masterId : Int) (mDOFS : DOFS) (id : Int)
    (group material : Nat) (l : List (DOFS × ℚ)) :
    (rbe3ElementSets E masterId mDOFS id group material l).length = l.length := by
  induction l generalizing id group material with
  | nil => rfl
  | cons k rest ih => simp [rbe3ElementSets, ih]

theorem rbe3Parts_append (constraint : Constraint) (cellId : Int) (done : List Int)
    (position : Int) :
    rbe3Parts constraint cellId (done ++ [position])
      = ((rbe3Parts constraint cellId done).1.assign (rbe3Key constraint position)
          (KeyMap.atOrEmpty (rbe3Parts constraint cellId done).1 (rbe3Key constraint position)
            ++ [(rbe3Parts constraint cellId done).2]),
         (rbe3Parts constraint cellId done).2 + 1) := by
  unfold rbe3Parts
  rw [List.foldl_append]
  rfl

theorem rbe3Parts_next (constraint : Constraint) (cellId : Int) (done : List Int) :
    (rbe3Parts constraint cellId done).2 = cellId + done.length := by
  induction done using List.reverseRecOn with
  | nil => simp [rbe3Parts]
  | append_singleton l a ih =>
    rw [rbe3Parts_append]
    simp only [List.length_append, List.length_singleton, Nat.cast_add, Nat.cast_one]
    rw [ih]
    omega

theorem find_none_iff_not_mem_keys {K V : Type} [DecidableEq K] (l : KeyMap K V) (k : K) :
    l.find k = none ↔ k ∉ l.map Prod.fst := by
  induction l with
  | nil => simp [KeyMap.find]
  | cons hd tl ih =>
    obtain ⟨k0, v0⟩ := hd
    by_cases h : k0 = k
    · simp [KeyMap.find, h]
    · simp only [KeyMap.find, h, if_false, ih, List.map_cons, List.mem_cons, not_or]
      constructor
      · intro h2
        exact ⟨fun h3 => h h3.symm, h2⟩
      · intro h2
        exact h2.2

theorem mem_of_find {K V : Type} [DecidableEq K] (l : KeyMap K V) (k : K) (v : V)
    (h : l.find k = some v) : (k, v) ∈ l := by
  induction l with
  | nil => simp [KeyMap.find] at h
  | cons hd tl ih =>
    obtain ⟨k0, v0⟩ := hd
    by_cases h0 : k0 = k
    · simp only [KeyMap.find, h0, if_true, Option.some.injEq] at h
      subst h0
      subst h
      exact List.mem_cons_self _ _
    · simp only [KeyMap.find, h0, if_false] at h
      exact List.mem_cons_of_mem _ (ih h)

theorem mem_assign {K V : Type} [DecidableEq K] (l : KeyMap K V) (k : K) (v : V)
    (e : K × V) (h : e ∈ l.assign k v) : e = (k, v) ∨ e ∈ l := by
  induction l with
  | nil =>
    simp only [KeyMap.assign, List.mem_singleton] at h
    exact Or.inl h
  | cons hd tl ih =>
    obtain ⟨k0, v0⟩ := hd
    by_cases h0 : k0 = k
    · simp only [KeyMap.assign, h0, if_true, List.mem_cons] at h
      rcases h with h | h
      · exact Or.inl h
      · exact Or.inr (List.mem_cons_of_mem _ h)
    · simp only [KeyMap.assign, h0, if_false, List.mem_cons] at h
      rcases h with h | h
      · right
        subst h
        exact List.mem_cons_self _ _
      · rcases ih h with h2 | h2
        · exact Or.inl h2
        · exact Or.inr (List.mem_cons_of_mem _ h2)

theorem keys_assign {K V : Type} [DecidableEq K] (l : KeyMap K V) (k : K) (v : V) :
    ((l.map Prod.fst).Nodup → ((l.assign k v).map Prod.fst).Nodup)
      ∧ ∀ k2, k2 ∈ (l.assign k v).map Prod.fst ↔ k2 ∈ l.map Prod.fst ∨ k2 = k := by
  cases h : keyIndex l k with
  | none =>
    rw [assign_of_keyIndex_none l k v h]
    have hnot : k ∉ l.map Prod.fst :=
      (find_none_iff_not_mem_keys l k).1 ((keyIndex_none_iff l k).1 h)
    constructor
    · intro hnd
      rw [List.map_append]
      simp only [List.map_cons, List.map_nil]
      rw [List.nodup_append]
      refine ⟨hnd, List.nodup_singleton _, ?_⟩
      intro a ha hb
      rw [List.mem_singleton] at hb
      subst hb
      exact hnot ha
    · intro k2
      simp
  | some i =>
    obtain ⟨-, e2, -⟩ := keyIndex_assign_of_some l k k v i h
    rw [e2]
    refine ⟨fun hnd => hnd, ?_⟩
    intro k2
    constructor
    · exact Or.inl
    · rintro (h2 | h2)
      · exact h2
      · subst h2
        by_contra hnot
        have := (keyIndex_none_iff l k2).2 ((find_none_iff_not_mem_keys l k2).2 hnot)
        rw [this] at h
        cases h

/-- The pairs of the parts of an RBE3 are the distinct pairs of its slaves. -/
theorem rbe3Parts_keys (constraint : Constraint) (cellId : Int) (positions : List Int) :
    ((rbe3Parts constraint cellId positions).1.map Prod.fst).Nodup
      ∧ (∀ key, key ∈ (rbe3Parts constraint cellId positions).1.map Prod.fst
          ↔ key ∈ positions.map (rbe3Key constraint))
      ∧ (rbe3Parts constraint cellId positions).1.length
          = ((positions.map (rbe3Key constraint)).dedup).length := by
  have h12 : ((rbe3Parts constraint cellId positions).1.map Prod.fst).Nodup
      ∧ (∀ key, key ∈ (rbe3Parts constraint cellId positions).1.map Prod.fst
          ↔ key ∈ positions.map (rbe3Key constraint)) := by
    induction positions using List.reverseRecOn with
    | nil => simp [rbe3Parts]
    | append_singleton l a ih =>
      rw [rbe3Parts_append]
      dsimp only
      obtain ⟨k1, k2⟩ := keys_assign (rbe3Parts constraint cellId l).1 (rbe3Key constraint a)
        (KeyMap.atOrEmpty (rbe3Parts constraint cellId l).1 (rbe3Key constraint a)
          ++ [(rbe3Parts constraint cellId l).2])
      refine ⟨k1 ih.1, ?_⟩
      intro key
      rw [k2, ih.2]
      simp
  refine ⟨h12.1, h12.2, ?_⟩
  have hperm : List.Perm ((rbe3Parts constraint cellId positions).1.map Prod.fst)
      ((positions.map (rbe3Key constraint)).dedup) := by
    rw [List.perm_ext_iff_of_nodup h12.1 (List.nodup_dedup _)]
    intro a
    rw [h12.2, List.mem_dedup]
  have := hperm.length_eq
  rw [List.length_map] at this
  exact this

/-- The cells of the slaves are shared out among the parts: the cell of a slave is
in the part of the pair of the slave, and a cell of a part is the cell of a slave
that has the pair of the part. -/
theorem rbe3Parts_partition (constraint : Constraint) (cellId : Int) (positions : List Int) :
    (∀ (j : Nat) (position : Int), positions[j]? = some position →
        ∃ cellIds, (rbe3Parts constraint cellId positions).1.find (rbe3Key constraint position)
            = some cellIds ∧ cellId + j ∈ cellIds)
      ∧ ∀ entry ∈ (rbe3Parts constraint cellId positions).1, ∀ c ∈ entry.2,
          ∃ (j : Nat) (position : Int), positions[j]? = some position ∧ c = cellId + j
            ∧ rbe3Key constraint position = entry.1 := by
  induction positions using List.reverseRecOn with
  | nil =>
    constructor
    · intro j position h
      simp at h
    · intro entry h
      simp [rbe3Parts] at h
  | append_singleton l a ih =>
    obtain ⟨ih1, ih2⟩ := ih
    rw [rbe3Parts_append]
    dsimp only
    rw [rbe3Parts_next]
    constructor
    · intro j position hj
      by_cases hlt : j < l.length
      · rw [List.getElem?_append_left hlt] at hj
        obtain ⟨cellIds, hfind, hmem⟩ := ih1 j position hj
        by_cases hk : rbe3Key constraint a = rbe3Key constraint position
        · rw [hk, KeyMap.find_assign_self]
          refine ⟨_, rfl, ?_⟩
          rw [List.mem_append]
          left
          unfold KeyMap.atOrEmpty
          rw [hfind]
          exact hmem
        · rw [KeyMap.find_assign_ne _ _ _ _ hk]
          exact ⟨cellIds, hfind, hmem⟩
      · have hge : l.length ≤ j := Nat.le_of_not_lt hlt
        rw [List.getElem?_append_right hge] at hj
        have hj0 : j - l.length = 0 := by
          by_contra hne
          have : (j - l.length) = (j - l.length - 1) + 1 := by omega
          rw [this] at hj
          simp at hj
        rw [hj0] at hj
        simp only [List.getElem?_cons_zero, Option.some.injEq] at hj
        subst hj
        rw [KeyMap.find_assign_self]
        refine ⟨_, rfl, ?_⟩
        rw [List.mem_append]
        right
        rw [List.mem_singleton]
        have : j = l.length := by omega
        rw [this]
    · intro entry hentry c hc
      rcases mem_assign _ _ _ _ hentry with hnew | hold
      · subst hnew
        dsimp only at hc ⊢
        rw [List.mem_append] at hc
        rcases hc with hc | hc
        · cases hfind : (rbe3Parts constraint cellId l).1.find (rbe3Key constraint a) with
          | none =>
            unfold KeyMap.atOrEmpty at hc
            rw [hfind] at hc
            cases hc
          | some cellIds =>
            unfold KeyMap.atOrEmpty at hc
            rw [hfind] at hc
            obtain ⟨j, position, hj, hcj, hkey⟩ := ih2 _ (mem_of_find _ _ _ hfind) c hc
            have hlt : j < l.length := (List.getElem?_eq_some_iff.1 hj).1
            exact ⟨j, position, by rw [List.getElem?_append_left hlt]; exact hj, hcj, hkey⟩
        · rw [List.mem_singleton] at hc
          refine ⟨l.length, a, ?_, hc, rfl⟩
          rw [List.getElem?_append_right (Nat.le_refl _)]
          simp
      · obtain ⟨j, position, hj, hcj, hkey⟩ := ih2 entry hold c hc
        have hlt : j < l.length := (List.getElem?_eq_some_iff.1 hj).1
        exact ⟨j, position, by rw [List.getElem?_append_left hlt]; exact hj, hcj, hkey⟩

theorem findNode_of_nodes (mesh mesh2 : Mesh) (h : mesh2.nodes = mesh.nodes) (position : Int) :
    mesh2.findNode position = mesh.findNode position := by
  unfold Mesh.findNode
  rw [h]

theorem addCell_then_group (mesh : Mesh) (type : CellType) (nodeIds : List Int) (group : Nat) :
    addCellOfPosition (mesh.addCell type nodeIds true).2 group (mesh.addCell type nodeIds true).1
      = { nodes := mesh.nodes,
          cells := mesh.cells ++
            [{ id := mesh.cell_auto_id, type := type, nodeIds := nodeIds, isVirtual := true }],
          cellGroups := mesh.cellGroups.modify
            (fun g => { g with cellIds := g.cellIds ++ [mesh.cell_auto_id] }) group,
          cell_auto_id := mesh.cell_auto_id + 1 } := by
  unfold addCellOfPosition findCellId Mesh.addCell
  simp [Mesh.addCellToGroup]

theorem lookup_assign (gb : KeyMap DOFS (KeyMap ℚ Nat)) (key key2 : DOFS × ℚ) (g : Nat) :
    ((gb.assign key.1 (KeyMap.assign ((gb.find key.1).getD []) key.2 g)).find key2.1).bind
        (fun byCoef => byCoef.find key2.2)
      = if key = key2 then some g
        else (gb.find key2.1).bind (fun byCoef => byCoef.find key2.2) := by
  obtain ⟨d, c⟩ := key
  obtain ⟨d2, c2⟩ := key2
  dsimp only
  by_cases hd : d = d2
  · subst hd
    rw [KeyMap.find_assign_self]
    simp only [Option.some_bind]
    by_cases hc : c = c2
    · subst hc
      rw [KeyMap.find_assign_self]
      simp
    · rw [KeyMap.find_assign_ne _ _ _ _ hc]
      have : ¬ ((d, c) = (d, c2)) := by
        intro h
        exact hc (Prod.mk.inj h).2
      rw [if_neg this]
      cases gb.find d with
      | none => simp [KeyMap.find]
      | some inner => simp
  · rw [KeyMap.find_assign_ne _ _ _ _ hd]
    have : ¬ ((d, c) = (d2, c2)) := by
      intro h
      exact hd (Prod.mk.inj h).1
    rw [if_neg this]

theorem addRbe3Part_ok (E : Enumerators) (constraint : Constraint) (master : Node)
    (position : Int) (nbParts : Nat) (m : Model Lg LSd ConstraintData CSd)
    (hmat : m.materials.by_id.find m.material_auto_id = none)
    (hes : m.elementSets.by_id.find m.elementSet_auto_id = none) :
    (addRbe3Part E constraint master position nbParts m).1 = m.mesh.cellGroups.length
      ∧ (addRbe3Part E constraint master position nbParts m).2.error = none
      ∧ (addRbe3Part E constraint master position nbParts m).2.state.materials.objs
          = m.materials.objs ++
              [{ id := m.material_auto_id, original_id := none, type := E.Material_MATERIAL,
                 data := { natures :=
                   [Nature.Rigid none (some (constraint.data.getCoefForNode position))] } }]
      ∧ (addRbe3Part E constraint master position nbParts m).2.state.material_auto_id
          = m.material_auto_id + 1
      ∧ (addRbe3Part E constraint master position nbParts m).2.state.materials.by_id
          = m.materials.by_id.assign m.material_auto_id m.materials.objs.length
      ∧ (addRbe3Part E constraint master position nbParts m).2.state.elementSets.objs
          = m.elementSets.objs ++
              [{ id := m.elementSet_auto_id, original_id := none, type := E.ElementSet_RBE3,
                 data := { kind := ElementSetKind.Rbe3 master.id constraint.data.getDOFS
                             (constraint.data.getSlaveDOFSForNode position),
                           cellGroup := some m.mesh.cellGroups.length,
                           material := some m.materials.objs.length } }]
      ∧ (addRbe3Part E constraint master position nbParts m).2.state.elementSet_auto_id
          = m.elementSet_auto_id + 1
      ∧ (addRbe3Part E constraint master position nbParts m).2.state.elementSets.by_id
          = m.elementSets.by_id.assign m.elementSet_auto_id m.elementSets.objs.length
      ∧ (addRbe3Part E constraint master position nbParts m).2.state.mesh
          = { m.mesh with
              cellGroups := m.mesh.cellGroups ++
                [{ name := "RBE3_" ++ toString nbParts ++ "_"
                     ++ originalIdLabel constraint.original_id,
                   cellIds := [] }] } := by
  unfold addRbe3Part
  dsimp only
  rw [addRigidMaterial_ok E m _ hmat, Outcome.andThen_of_ok, addRigidElementSet_ok]
  · exact ⟨rfl, rfl, rfl, rfl, rfl, rfl, rfl, rfl, rfl⟩
  · exact hes

theorem addCell_new_group (mesh : Mesh) (type : CellType) (nodeIds : List Int) (name : String) :
    addCellOfPosition
        { (mesh.addCell type nodeIds true).2 with
          cellGroups := (mesh.addCell type nodeIds true).2.cellGroups ++
            [{ name := name, cellIds := [] }] }
        mesh.cellGroups.length (mesh.addCell type nodeIds true).1
      = { nodes := mesh.nodes,
          cells := mesh.cells ++
            [{ id := mesh.cell_auto_id, type := type, nodeIds := nodeIds, isVirtual := true }],
          cellGroups := mesh.cellGroups ++ [{ name := name, cellIds := [mesh.cell_auto_id] }],
          cell_auto_id := mesh.cell_auto_id + 1 } := by
  unfold addCellOfPosition findCellId Mesh.addCell
  simp only [Mesh.addCellToGroup, List.getElem?_concat_length, Option.map_some']
  rw [modify_append_length]
  rfl

theorem makeCellFromSlave_turn (E : Enumerators) (m : Model Lg LSd ConstraintData CSd)
    (constraint : Constraint) (master : Node) (done : List Int) (st : Rbe3State Lg LSd CSd)
    (x : Int) (slave : Node) (hinv : Rbe3Turn E m constraint master done st)
    (hx : m.mesh.findNode x = some slave) :
    (makeCellFromSlave E constraint master st x).error = none
      ∧ Rbe3Turn E m constraint master (done ++ [x])
          (makeCellFromSlave E constraint master st x).state := by
  obtain ⟨hnodes, hparts, hlook, hmat, hmatid, hmatfresh, hes, hesid, hesfresh, hcells, hcid,
    hgroups, hres⟩ := hinv
  have hfn : st.model.mesh.findNode x = some slave := by
    rw [findNode_of_nodes _ _ hnodes]
    exact hx
  have hdone2 : (done ++ [x]).filterMap m.mesh.findNode
      = done.filterMap m.mesh.findNode ++ [slave] := by
    rw [List.filterMap_append]
    simp [hx]
  have hres2 : (done.filterMap m.mesh.findNode ++ [slave]).length = (done ++ [x]).length := by
    simp only [List.length_append, List.length_singleton, hres]
  have hnext := rbe3Parts_next constraint m.mesh.cell_auto_id done
  unfold Rbe3Turn
  rw [rbe3Parts_append, hdone2]
  dsimp only
  rw [hnext]
  generalize (rbe3Parts constraint m.mesh.cell_auto_id done).1 = P at *
  unfold makeCellFromSlave
  rw [hfn]
  dsimp only
  cases hidx : keyIndex P (rbe3Key constraint x) with
  | some i =>
    have hl2 : (st.groupByCoefByDOFS.find (constraint.data.getSlaveDOFSForNode x)).bind
        (fun byCoef => byCoef.find (constraint.data.getCoefForNode x))
          = some (m.mesh.cellGroups.length + i) := by
      have := hlook (rbe3Key constraint x)
      rw [hidx] at this
      exact this
    rw [hl2]
    dsimp only
    rw [addCell_then_group]
    obtain ⟨k1, k2, k3⟩ := keyIndex_assign_of_some P (rbe3Key constraint x) (rbe3Key constraint x)
      (KeyMap.atOrEmpty P (rbe3Key constraint x) ++ [m.mesh.cell_auto_id + ↑done.length]) i hidx
    refine ⟨rfl, hnodes, ?_, ?_, ?_, ?_, hmatfresh, ?_, ?_, hesfresh, ?_, ?_, ?_, hres2⟩
    · rw [k3]; exact hparts
    · intro key
      rw [(keyIndex_assign_of_some P (rbe3Key constraint x) key _ i hidx).1]
      exact hlook key
    · rw [k2]; exact hmat
    · rw [k3]; exact hmatid
    · rw [k2]; exact hes
    · rw [k3]; exact hesid
    · show st.model.mesh.cells ++ _ = _
      rw [hcells, rbe3Cells_append, List.append_assoc, hcid, hres]
    · show st.model.mesh.cell_auto_id + 1 = _
      rw [hcid]
      simp only [List.length_append, List.length_singleton, Nat.cast_add, Nat.cast_one]
      omega
    · show st.model.mesh.cellGroups.modify _ _ = _
      rw [hgroups, modify_append_right, rbe3CellGroups_assign _ _ _ _ _ i hidx, hcid]
  | none =>
    have hl2 : (st.groupByCoefByDOFS.find (constraint.data.getSlaveDOFSForNode x)).bind
        (fun byCoef => byCoef.find (constraint.data.getCoefForNode x)) = none := by
      have := hlook (rbe3Key constraint x)
      rw [hidx] at this
      exact this
    rw [hl2]
    dsimp only
    have hat : KeyMap.atOrEmpty P (rbe3Key constraint x) = [] := by
      unfold KeyMap.atOrEmpty
      rw [(keyIndex_none_iff P _).1 hidx]
      rfl
    rw [hat, assign_of_keyIndex_none P _ _ hidx]
    obtain ⟨a1, a2, a3, a4, a5, a6, a7, a8, a9⟩ := addRbe3Part_ok E constraint master x
      (st.nbParts + 1)
      { st.model with
        mesh := (st.model.mesh.addCell CellType.SEG2 [master.id, slave.id] true).2 }
      (hmatfresh _ (Int.le_refl _)) (hesfresh _ (Int.le_refl _))
    have herr : ((addRbe3Part E constraint master x (st.nbParts + 1)
        { st.model with
          mesh := (st.model.mesh.addCell CellType.SEG2 [master.id, slave.id] true).2 }).2.mapState
        fun m2 => ({ st with model := m2, nbParts := st.nbParts + 1 } :
          Rbe3State Lg LSd CSd)).error = none := a2
    rw [Outcome.andThen_of_error_none _ _ herr]
    have hG : st.model.mesh.cellGroups.length = m.mesh.cellGroups.length + P.length := by
      rw [hgroups, List.length_append, rbe3CellGroups_length]
    have hM : st.model.materials.objs.length = m.materials.objs.length + P.length := by
      rw [hmat, List.length_append, rbe3Materials_length, List.length_map]
    have hmesh : addCellOfPosition
        (addRbe3Part E constraint master x (st.nbParts + 1)
          { st.model with
            mesh := (st.model.mesh.addCell CellType.SEG2 [master.id, slave.id] true).2 }).2.state.mesh
        (addRbe3Part E constraint master x (st.nbParts + 1)
          { st.model with
            mesh := (st.model.mesh.addCell CellType.SEG2 [master.id, slave.id] true).2 }).1
        (st.model.mesh.addCell CellType.SEG2 [master.id, slave.id] true).1
        = { nodes := st.model.mesh.nodes,
            cells := st.model.mesh.cells ++
              [{ id := st.model.mesh.cell_auto_id, type := CellType.SEG2,
                 nodeIds := [master.id, slave.id], isVirtual := true }],
            cellGroups := st.model.mesh.cellGroups ++
              [{ name := "RBE3_" ++ toString (st.nbParts + 1) ++ "_"
                   ++ originalIdLabel constraint.original_id,
                 cellIds := [st.model.mesh.cell_auto_id] }],
            cell_auto_id := st.model.mesh.cell_auto_id + 1 } := by
      rw [a9, a1]
      exact addCell_new_group st.model.mesh CellType.SEG2 [master.id, slave.id] _
    refine ⟨rfl, ?_, ?_, ?_, ?_, ?_, ?_, ?_, ?_, ?_, ?_, ?_, ?_, hres2⟩
    · exact (congrArg (fun z : Mesh => z.nodes) hmesh).trans hnodes
    · show st.nbParts + 1 = _
      rw [List.length_append, hparts]
      rfl
    · intro key
      show ((st.groupByCoefByDOFS.assign (rbe3Key constraint x).1
        (KeyMap.assign ((st.groupByCoefByDOFS.find (rbe3Key constraint x).1).getD [])
          (rbe3Key constraint x).2 _)).find key.1).bind (fun byCoef => byCoef.find key.2) = _
      rw [lookup_assign, keyIndex_append, a1]
      by_cases hk : rbe3Key constraint x = key
      · subst hk
        rw [if_pos rfl, hidx]
        simp only [if_true, Option.map_some']
        show some st.model.mesh.cellGroups.length = _
        rw [hG]
      · rw [if_neg hk, hlook key]
        cases keyIndex P key with
        | some i => rfl
        | none => simp [hk]
    · show (addRbe3Part _ _ _ _ _ _).2.state.materials.objs = _
      rw [a3]
      simp only [List.map_append, List.map_cons, List.map_nil]
      rw [rbe3Materials_append, ← List.append_assoc]
      show st.model.materials.objs ++ _ = _
      rw [hmat, hmatid, List.length_map]
      rfl
    · show (addRbe3Part _ _ _ _ _ _).2.state.material_auto_id = _
      rw [a4]
      show st.model.material_auto_id + 1 = _
      rw [hmatid, List.length_append]
      simp only [List.length_singleton, Nat.cast_add, Nat.cast_one]
      omega
    · intro k hk
      have hk2 : st.model.material_auto_id + 1 ≤ k := by
        have : (addRbe3Part E constraint master x (st.nbParts + 1)
          { st.model with
            mesh := (st.model.mesh.addCell CellType.SEG2
              [master.id, slave.id] true).2 }).2.state.material_auto_id ≤ k := hk
        rw [a4] at this
        exact this
      show (addRbe3Part _ _ _ _ _ _).2.state.materials.by_id.find k = none
      rw [a5]
      show (st.model.materials.by_id.assign st.model.material_auto_id _).find k = none
      rw [KeyMap.find_assign_ne _ _ _ _ (by omega)]
      exact hmatfresh k (by omega)
    · show (addRbe3Part _ _ _ _ _ _).2.state.elementSets.objs = _
      rw [a6]
      simp only [List.map_append, List.map_cons, List.map_nil]
      rw [rbe3ElementSets_append, ← List.append_assoc]
      show st.model.elementSets.objs ++
        [{ id := st.model.elementSet_auto_id, original_id := none, type := E.ElementSet_RBE3,
           data := { kind := ElementSetKind.Rbe3 master.id constraint.data.getDOFS
                       (constraint.data.getSlaveDOFSForNode x),
                     cellGroup := some st.model.mesh.cellGroups.length,
                     material := some st.model.materials.objs.length } }] = _
      rw [hes, hesid, hG, hM, List.length_map]
      rfl
    · show (addRbe3Part _ _ _ _ _ _).2.state.elementSet_auto_id = _
      rw [a7]
      show st.model.elementSet_auto_id + 1 = _
      rw [hesid, List.length_append]
      simp only [List.length_singleton, Nat.cast_add, Nat.cast_one]
      omega
    · intro k hk
      have hk2 : st.model.elementSet_auto_id + 1 ≤ k := by
        have : (addRbe3Part E constraint master x (st.nbParts + 1)
          { st.model with
            mesh := (st.model.mesh.addCell CellType.SEG2
              [master.id, slave.id] true).2 }).2.state.elementSet_auto_id ≤ k := hk
        rw [a7] at this
        exact this
      show (addRbe3Part _ _ _ _ _ _).2.state.elementSets.by_id.find k = none
      rw [a8]
      show (st.model.elementSets.by_id.assign st.model.elementSet_auto_id _).find k = none
      rw [KeyMap.find_assign_ne _ _ _ _ (by omega)]
      exact hesfresh k (by omega)
    · refine (congrArg (fun z : Mesh => z.cells) hmesh).trans ?_
      show st.model.mesh.cells ++ _ = _
      rw [hcells, rbe3Cells_append, List.append_assoc, hcid, hres]
    · refine (congrArg (fun z : Mesh => z.cell_auto_id) hmesh).trans ?_
      show st.model.mesh.cell_auto_id + 1 = _
      rw [hcid]
      simp only [List.length_append, List.length_singleton, Nat.cast_add, Nat.cast_one]
      omega
    · refine (congrArg (fun z : Mesh => z.cellGroups) hmesh).trans ?_
      show st.model.mesh.cellGroups ++ _ = _
      rw [hgroups, rbe3CellGroups_append, List.append_assoc, hparts, hcid, Nat.add_comm 1 P.length]
      rfl

theorem mem_membersById_filter_inv (index : KeyMap Int (List (Reference Nat)))
    (s refC : Reference Nat) (idCS : Int) (r : Reference Nat) (hs : s.id = some idCS)
    (hr : r ∈ membersById
      (index.assign idCS
        ((KeyMap.atOrEmpty index idCS).filter (fun it2 => decide (it2 ≠ refC)))) s) :
    r ∈ membersById index s ∧ r ≠ refC := by
  unfold membersById at hr ⊢
  rw [hs] at hr ⊢
  simp only [KeyMap.findOpt, KeyMap.find_assign_self, Option.getD_some, List.mem_filter,
    decide_eq_true_eq] at hr
  refine ⟨?_, hr.2⟩
  have h1 := hr.1
  unfold KeyMap.atOrEmpty at h1
  exact h1

theorem mem_membersByOriginalId_filter_inv
    (index : KeyMap Nat (KeyMap Int (List (Reference Nat))))
    (s refC : Reference Nat) (originalIdCS : Int) (r : Reference Nat)
    (hs : s.original_id = some originalIdCS)
    (hr : r ∈ membersByOriginalId
      (index.assign s.type
        (KeyMap.assign (KeyMap.atOrEmpty index s.type) originalIdCS
          ((KeyMap.atOrEmpty (KeyMap.atOrEmpty index s.type) originalIdCS).filter
            (fun it3 => decide (it3 ≠ refC))))) s) :
    r ∈ membersByOriginalId index s ∧ r ≠ refC := by
  unfold membersByOriginalId at hr ⊢
  rw [KeyMap.find_assign_self] at hr
  dsimp only at hr
  rw [hs] at hr ⊢
  simp only [KeyMap.findOpt, KeyMap.find_assign_self, Option.getD_some, List.mem_filter,
    decide_eq_true_eq] at hr
  refine ⟨?_, hr.2⟩
  have h1 := hr.1
  unfold KeyMap.atOrEmpty at h1
  cases hin : KeyMap.find index s.type with
  | none =>
    rw [hin] at h1
    simp [KeyMap.find] at h1
  | some inner =>
    rw [hin] at h1
    simpa [KeyMap.findOpt] using h1

/-- After `remove(refC, idCS, originalIdCS, csT)` with the reference of a constraint
and the id, original id and type of a constraint set, the set no longer hands out
the constraint, when the member references of the set that designated the
constraint were its own reference. -/
theorem not_mem_after_removeConstraintOfSet (m : Model Lg LSd Cg CSd)
    (constraintSet : Identifiable Nat CSd) (x : Identifiable Nat Cg) (ptr : Nat)
    (hmember : ∀ r,
      (r ∈ membersById m.constraintReferences_by_constraintSet_ids constraintSet.getReference
        ∨ r ∈ membersByOriginalId
            m.constraintReferences_by_constraintSet_original_ids_by_constraintSet_type
            constraintSet.getReference) →
      m.constraints.find r = some ptr → r = x.getReference) :
    some ptr ∉
      (removeConstraintOfSet m x.getReference constraintSet.id constraintSet.original_id
        constraintSet.type).getConstraintsByConstraintSet constraintSet.getReference := by
  intro hmem
  rw [mem_getConstraintsByConstraintSet_iff] at hmem
  obtain ⟨r, hr, hfind⟩ := hmem
  have hfind0 : m.constraints.find r = some ptr :=
    Container.find_of_erase_resolved _ _ _ _ hfind
  have hold : (r ∈ membersById m.constraintReferences_by_constraintSet_ids
        constraintSet.getReference
      ∨ r ∈ membersByOriginalId
          m.constraintReferences_by_constraintSet_original_ids_by_constraintSet_type
          constraintSet.getReference) ∧ r ≠ x.getReference := by
    rcases hr with hr | hr
    · cases hs : constraintSet.getReference.id with
      | none =>
        exfalso
        unfold removeConstraintOfSet membersById at hr
        rw [hs] at hr
        simp [KeyMap.findOpt] at hr
      | some i =>
        have hi : i = constraintSet.id := by
          unfold Identifiable.getReference at hs
          dsimp only at hs
          split at hs
          · cases hs
          · exact (Option.some.inj hs).symm
        subst hi
        obtain ⟨h1, h2⟩ := mem_membersById_filter_inv _ _ _ _ r hs hr
        exact ⟨Or.inl h1, h2⟩
    · cases ho : constraintSet.original_id with
      | none =>
        exfalso
        unfold removeConstraintOfSet membersByOriginalId at hr
        dsimp only at hr
        have hs : constraintSet.getReference.original_id = none := ho
        rw [hs] at hr
        cases hf : KeyMap.find (match constraintSet.original_id with
          | some originalIdCS =>
            m.constraintReferences_by_constraintSet_original_ids_by_constraintSet_type.assign
              constraintSet.type
              (KeyMap.assign
                (KeyMap.atOrEmpty
                  m.constraintReferences_by_constraintSet_original_ids_by_constraintSet_type
                  constraintSet.type)
                originalIdCS
                ((KeyMap.atOrEmpty
                    (KeyMap.atOrEmpty
                      m.constraintReferences_by_constraintSet_original_ids_by_constraintSet_type
                      constraintSet.type)
                    originalIdCS).filter
                  (fun it3 => decide (it3 ≠ x.getReference))))
          | none => m.constraintReferences_by_constraintSet_original_ids_by_constraintSet_type)
            constraintSet.getReference.type with
        | none => rw [hf] at hr; cases hr
        | some inner =>
          rw [hf] at hr
          simp [KeyMap.findOpt] at hr
      | some o =>
        have hs : constraintSet.getReference.original_id = some o := ho
        have hr2 : r ∈ membersByOriginalId
            (m.constraintReferences_by_constraintSet_original_ids_by_constraintSet_type.assign
              constraintSet.getReference.type
              (KeyMap.assign
                (KeyMap.atOrEmpty
                  m.constraintReferences_by_constraintSet_original_ids_by_constraintSet_type
                  constraintSet.getReference.type)
                o
                ((KeyMap.atOrEmpty
                    (KeyMap.atOrEmpty
                      m.constraintReferences_by_constraintSet_original_ids_by_constraintSet_type
                      constraintSet.getReference.type)
                    o).filter
                  (fun it3 => decide (it3 ≠ x.getReference)))))
            constraintSet.getReference := by
          unfold removeConstraintOfSet at hr
          dsimp only at hr
          rw [ho] at hr
          exact hr
        obtain ⟨h1, h2⟩ := mem_membersByOriginalId_filter_inv _ _ _ o r hs hr2
        exact ⟨Or.inr h1, h2⟩
  exact hold.2 (hmember r hold.1 hfind0)

/-- The turn of `makeCellsFromRBE` for an RBE3 constraint that a constraint set
hands out, from a model in which the master and the slaves of the
constraint are nodes of the mesh and the ids that the model is about to give to
materials and element sets are unused: the turn completes; the catalog of element
sets receives one RBE3 element set by distinct pair (slave DOF set, slave
coefficient) of the slaves, as many as there are distinct pairs, each with a new
material that carries the coefficient of the pair and a new cell group; the mesh
receives one two-node cell (master, slave) by slave; the cell of a slave is in the
cell group of the pair of the slave, and every cell of a new cell group is the cell
of a slave that has the pair of the group, no pair having two groups; afterwards
the constraint set no longer hands out the constraint, the member references of the
set that designated the constraint being the reference of the constraint. -/
theorem makeCellsFromRBE3_parts (E : Enumerators) (m : Model Lg LSd ConstraintData CSd)
    (constraintSet : Identifiable Nat CSd) (ptr : Nat) (constraint : Constraint) (master : Node)
    (hobj : m.constraints.objs[ptr]? = some constraint)
    (hmaster : m.mesh.findNode constraint.data.getMaster = some master)
    (hslaves : ∀ position ∈ constraint.data.getSlaves,
      (m.mesh.findNode position).isSome = true)
    (hmat : ∀ k, m.material_auto_id ≤ k → m.materials.by_id.find k = none)
    (hes : ∀ k, m.elementSet_auto_id ≤ k → m.elementSets.by_id.find k = none)
    (hmember : ∀ r,
      (r ∈ membersById m.constraintReferences_by_constraintSet_ids constraintSet.getReference
        ∨ r ∈ membersByOriginalId
            m.constraintReferences_by_constraintSet_original_ids_by_constraintSet_type
            constraintSet.getReference) →
      m.constraints.find r = some ptr → r = constraint.getReference) :
    (makeCellsFromRBE3 E m constraintSet ptr).error = none
      ∧ (makeCellsFromRBE3 E m constraintSet ptr).state.elementSets.objs.length
          = m.elementSets.objs.length
            + ((constraint.data.getSlaves.map (rbe3Key constraint)).dedup).length
      ∧ (rbe3Parts constraint m.mesh.cell_auto_id constraint.data.getSlaves).1.length
          = ((constraint.data.getSlaves.map (rbe3Key constraint)).dedup).length
      ∧ ((rbe3Parts constraint m.mesh.cell_auto_id constraint.data.getSlaves).1.map
          Prod.fst).Nodup
      ∧ (makeCellsFromRBE3 E m constraintSet ptr).state.elementSets.objs
          = m.elementSets.objs ++ rbe3ElementSets E master.id constraint.data.getDOFS
              m.elementSet_auto_id m.mesh.cellGroups.length m.materials.objs.length
              ((rbe3Parts constraint m.mesh.cell_auto_id constraint.data.getSlaves).1.map
                Prod.fst)
      ∧ (makeCellsFromRBE3 E m constraintSet ptr).state.materials.objs
          = m.materials.objs ++ rbe3Materials E m.material_auto_id
              ((rbe3Parts constraint m.mesh.cell_auto_id constraint.data.getSlaves).1.map
                Prod.fst)
      ∧ (makeCellsFromRBE3 E m constraintSet ptr).state.mesh.cellGroups
          = m.mesh.cellGroups ++ rbe3CellGroups (originalIdLabel constraint.original_id) 1
              (rbe3Parts constraint m.mesh.cell_auto_id constraint.data.getSlaves).1
      ∧ (makeCellsFromRBE3 E m constraintSet ptr).state.mesh.cells
          = m.mesh.cells ++ rbe3Cells master.id m.mesh.cell_auto_id
              (constraint.data.getSlaves.filterMap m.mesh.findNode)
      ∧ (constraint.data.getSlaves.filterMap m.mesh.findNode).length
          = constraint.data.getSlaves.length
      ∧ (∀ (j : Nat) (position : Int), constraint.data.getSlaves[j]? = some position →
          ∃ cellIds,
            (rbe3Parts constraint m.mesh.cell_auto_id constraint.data.getSlaves).1.find
                (rbe3Key constraint position) = some cellIds
              ∧ m.mesh.cell_auto_id + j ∈ cellIds)
      ∧ (∀ entry ∈ (rbe3Parts constraint m.mesh.cell_auto_id constraint.data.getSlaves).1,
          ∀ c ∈ entry.2,
            ∃ (j : Nat) (position : Int), constraint.data.getSlaves[j]? = some position
              ∧ c = m.mesh.cell_auto_id + j ∧ rbe3Key constraint position = entry.1)
      ∧ some ptr ∉ (makeCellsFromRBE3 E m constraintSet ptr).state.getConstraintsByConstraintSet
          constraintSet.getReference := by
  obtain ⟨herr, hinv⟩ := Outcome.foldl_andThen_total
    (fun (st : Rbe3State Lg LSd CSd) (position : Int) =>
      makeCellFromSlave E constraint master st position)
    (fun done st => Rbe3Turn E m constraint master done st ∧ ConstraintsKept m st.model)
    constraint.data.getSlaves
    (by
      intro done x st hx ⟨hinv, hkept⟩
      dsimp only
      cases hn : m.mesh.findNode x with
      | none =>
        have := hslaves x hx
        rw [hn] at this
        cases this
      | some slave =>
        obtain ⟨e1, e2⟩ := makeCellFromSlave_turn E m constraint master done st x slave hinv hn
        exact ⟨e1, e2, makeCellFromSlave_kept E m constraint master st x hkept⟩)
    { model := m, nbParts := 0, groupByCoefByDOFS := [] }
    ⟨⟨rfl, rfl, fun key => rfl, (List.append_nil _).symm, by simp [rbe3Parts], hmat,
      (List.append_nil _).symm, by simp [rbe3Parts], hes, (List.append_nil _).symm,
      by simp, (List.append_nil _).symm, rfl⟩, ConstraintsKept.kept_refl m⟩
  obtain ⟨⟨hnodes, hparts, hlook, hmat2, hmatid, hmatfresh, hes2, hesid, hesfresh, hcells, hcid,
    hgroups, hres⟩, hkept⟩ := hinv
  obtain ⟨q1, q2, q3⟩ := rbe3Parts_keys constraint m.mesh.cell_auto_id constraint.data.getSlaves
  obtain ⟨r1, r2⟩ := rbe3Parts_partition constraint m.mesh.cell_auto_id
    constraint.data.getSlaves
  have hstate : makeCellsFromRBE3 E m constraintSet ptr
      = Outcome.ok (removeConstraintOfSet
          (constraint.data.getSlaves.foldl
            (fun (r : Outcome (Rbe3State Lg LSd CSd)) (position : Int) => r.andThen fun st =>
              makeCellFromSlave E constraint master st position)
            (Outcome.ok { model := m, nbParts := 0, groupByCoefByDOFS := [] })).state.model
          constraint.getReference constraintSet.id constraintSet.original_id
          constraintSet.type) := by
    unfold makeCellsFromRBE3
    simp only [hobj, hmaster]
    have h1 : ((constraint.data.getSlaves.foldl
        (fun (r : Outcome (Rbe3State Lg LSd CSd)) (position : Int) => r.andThen fun st =>
          makeCellFromSlave E constraint master st position)
        (Outcome.ok { model := m, nbParts := 0, groupByCoefByDOFS := [] })).mapState
        fun st => st.model).error = none := herr
    rw [Outcome.andThen_of_error_none _ _ h1]
    rfl
  rw [hstate]
  refine ⟨rfl, (congrArg List.length hes2).trans ?_, q3, q1, hes2, hmat2, hgroups, hcells, hres,
    r1, r2, ?_⟩
  · rw [List.length_append, rbe3ElementSets_length, List.length_map, q3]
  apply not_mem_after_removeConstraintOfSet
  intro r hr hfind
  rw [hkept.1] at hfind
  rw [hkept.2.1, hkept.2.2] at hr
  exact hmember r hr hfind

theorem makeCellsFromRBE3_parts_witness :
    (makeCellsFromRBE3 Sample.enumerators Sample.mRbe3 (Sample.spcSet 51) 0).error = none
      ∧ (rbe3Parts Sample.rbe3 Sample.mRbe3.mesh.cell_auto_id
          Sample.rbe3.data.getSlaves).1.length = 3
      ∧ ((makeCellsFromRBE3 Sample.enumerators Sample.mRbe3 (Sample.spcSet 51) 0).state.mesh.cells.map
          fun c => c.nodeIds) = [[101, 102], [101, 103], [101, 104], [101, 105]]
      ∧ some 0 ∉ (makeCellsFromRBE3 Sample.enumerators Sample.mRbe3
          (Sample.spcSet 51) 0).state.getConstraintsByConstraintSet
            (Sample.spcSet 51).getReference := by
  have h := makeCellsFromRBE3_parts Sample.enumerators Sample.mRbe3 (Sample.spcSet 51) 0
    Sample.rbe3 { position := 0, id := 101, dofs := DOFS.TRANSLATIONS }
    (by decide!) (by decide!) (by decide!) (by intro k _; rfl) (by intro k _; rfl)
    (by
      intro r hr _
      have e1 : membersById Sample.mRbe3.constraintReferences_by_constraintSet_ids
          (Sample.spcSet 51).getReference = [Sample.rbe3Ref] := by decide!
      have e2 : membersByOriginalId
          Sample.mRbe3.constraintReferences_by_constraintSet_original_ids_by_constraintSet_type
          (Sample.spcSet 51).getReference = [] := by decide!
      rw [e1, e2] at hr
      have hmem : r ∈ [Sample.rbe3Ref] := by
        rcases hr with hr | hr
        · exact hr
        · cases hr
      rw [List.mem_singleton] at hmem
      rw [hmem]
      decide!)
  refine ⟨h.1, h.2.2.1.trans (by decide!), ?_, h.2.2.2.2.2.2.2.2.2.2.2⟩
  rw [h.2.2.2.2.2.2.2.1]
  decide!

/-- C32, as stated, fails: in the model `mTwice`, which has two analyses, the
analysis 21 designates the constraint set 51 through two references and the analysis
22 does not designate it: the set is counted twice and `getCommonConstraintSets`
returns it, although one analysis does not reference it. The constraint set 53,
behind the pointer 2, is referenced by every analysis, twice by the analysis 21: it
is counted three times and is not returned. -/
theorem getCommonConstraintSets_twice_counterexample :
    0 < Sample.mTwice.analyses.by_id.length
      ∧ registered Sample.mTwice.analyses
          = [Sample.analysisTwice, Sample.analysisOn 22 [] [52, 53]]
      ∧ Sample.mTwice.constraintSets.objs
          = [Sample.originalSetOf 51 5, Sample.loadSetOf 52 3, Sample.originalSetOf 53 7]
      ∧ getConstraintSetPointers Sample.mTwice Sample.analysisTwice = [0, 0, 2, 2]
      ∧ getConstraintSetPointers Sample.mTwice (Sample.analysisOn 22 [] [52, 53]) = [1, 2]
      ∧ getCommonConstraintSets Sample.mTwice = [Sample.originalSetOf 51 5]
      ∧ getCommonConstraintSets Sample.mTwice
          ≠ Sample.mTwice.constraintSets.by_id.filterMap (fun entry =>
              (Sample.mTwice.constraintSets.objs[entry.2]?).bind fun constraintSet =>
                if ∀ a ∈ registered Sample.mTwice.analyses,
                    entry.2 ∈ getConstraintSetPointers Sample.mTwice a then
                  some constraintSet
                else none) := by
  decide

/-- C17. In the model `mAssertions` the assertion `assertionRX`, of internal id 43
and original id 7, bears on the rotation RX of a node that has the translations only,
in an analysis without boundary DOFs: it is unreachable. After
`removeAssertionsMissingDOFS` its reference no longer resolves and the analysis no
longer holds it, but the catalog still holds the assertion: the assertion is
registered under its internal id, `get` with this id hands it out, a reference by
this id resolves to it, and the iteration of the catalog still yields it. -/
theorem removeAssertionsMissingDOFS_keeps_original_assertion :
    Unreachable Sample.mAssertions 1 Sample.assertionRX
      ∧ Sample.mAssertions.objectives.objs[1]? = some Sample.assertionRX
      ∧ (removeAssertionsMissingDOFS Sample.mAssertions).objectives.find
          Sample.assertionRX.getReference = none
      ∧ (∀ analysis ∈ registered (removeAssertionsMissingDOFS Sample.mAssertions).analyses,
          Analysis.containsObjective analysis Sample.assertionRX.getReference = false)
      ∧ (removeAssertionsMissingDOFS Sample.mAssertions).objectives.get 43 = some 1
      ∧ (removeAssertionsMissingDOFS Sample.mAssertions).objectives.objs[1]?
          = some Sample.assertionRX
      ∧ (removeAssertionsMissingDOFS Sample.mAssertions).objectives.find
          { type := ObjectiveType.NODAL_DISPLACEMENT_ASSERTION, original_id := none,
            id := some 43 } = some 1
      ∧ Sample.assertionRX
          ∈ registered (removeAssertionsMissingDOFS Sample.mAssertions).objectives :=
  ⟨⟨by decide, Sample.analysisAssertions, by decide,
      ⟨Sample.assertionRX.getReference, by decide, by decide⟩, 0, by decide, {DOF.RX}, rfl,
      ⟨DOF.RX, by decide⟩, by decide⟩,
    by decide, by decide, by decide, by decide, by decide, by decide, by decide⟩

/-- C31. In the model `mRbe3ById` the only analysis exercises the constraint set 51,
which holds the RBE3 `rbe3` (internal id 81, original id 7) through the reference by
its internal id. `makeCellsFromRBE` completes; for the three distinct pairs (slave
DOFs, coefficient) of the four slaves it creates three RBE3 element sets, each with
its own material, which carries the coefficient, and its own cell group, and four
2-node cells (master, slave), the cell of each slave in the group of its pair. But
afterwards the constraint set 51 still hands out the constraint: the reference of the
constraint by type and original id no longer resolves, the catalog still holds the
constraint under its internal id 81, and the member reference of the set still
resolves to it. -/
theorem makeCellsFromRBE_keeps_rbe3_member :
    getCommonConstraintSets Sample.mRbe3ById = [Sample.spcSet 51]
      ∧ getConstraintsByType Sample.mRbe3ById (Sample.spcSet 51)
          Sample.enumerators.Constraint_RBE3 = [0]
      ∧ Sample.mRbe3ById.constraints.objs[0]? = some Sample.rbe3
      ∧ (makeCellsFromRBE Sample.enumerators Sample.mRbe3ById).error = none
      ∧ ((makeCellsFromRBE Sample.enumerators Sample.mRbe3ById).state.elementSets.objs.map
          fun elementSet => (elementSet.type, elementSet.data))
          = [(Sample.enumerators.ElementSet_RBE3,
                { kind := ElementSetKind.Rbe3 101 DOFS.ALL_DOFS DOFS.TRANSLATIONS,
                  cellGroup := some 0, material := some 0 }),
             (Sample.enumerators.ElementSet_RBE3,
                { kind := ElementSetKind.Rbe3 101 DOFS.ALL_DOFS DOFS.TRANSLATIONS,
                  cellGroup := some 1, material := some 1 }),
             (Sample.enumerators.ElementSet_RBE3,
                { kind := ElementSetKind.Rbe3 101 DOFS.ALL_DOFS {DOF.DX},
                  cellGroup := some 2, material := some 2 })]
      ∧ ((makeCellsFromRBE Sample.enumerators Sample.mRbe3ById).state.materials.objs.map
          fun material => material.data.natures)
          = [[Nature.Rigid none (some (1 / 2))], [Nature.Rigid none (some (1 / 4))],
             [Nature.Rigid none (some (1 / 2))]]
      ∧ (makeCellsFromRBE Sample.enumerators Sample.mRbe3ById).state.mesh.cellGroups
          = [{ name := "RBE3_1_7", cellIds := [0, 2] }, { name := "RBE3_2_7", cellIds := [1] },
             { name := "RBE3_3_7", cellIds := [3] }]
      ∧ (makeCellsFromRBE Sample.enumerators Sample.mRbe3ById).state.mesh.cells
          = [{ id := 0, type := CellType.SEG2, nodeIds := [101, 102], isVirtual := true },
             { id := 1, type := CellType.SEG2, nodeIds := [101, 103], isVirtual := true },
             { id := 2, type := CellType.SEG2, nodeIds := [101, 104], isVirtual := true },
             { id := 3, type := CellType.SEG2, nodeIds := [101, 105], isVirtual := true }]
      ∧ (makeCellsFromRBE Sample.enumerators Sample.mRbe3ById).state.constraints.find
          Sample.rbe3.getReference = none
      ∧ (makeCellsFromRBE Sample.enumerators Sample.mRbe3ById).state.constraints.get 81
          = some 0
      ∧ (makeCellsFromRBE Sample.enumerators Sample.mRbe3ById).state.constraints.objs[0]?
          = some Sample.rbe3
      ∧ (makeCellsFromRBE Sample.enumerators
          Sample.mRbe3ById).state.getConstraintsByConstraintSet (Sample.spcSet 51).getReference
          = [some 0]
      ∧ getConstraintsByType (makeCellsFromRBE Sample.enumerators Sample.mRbe3ById).state
          (Sample.spcSet 51) Sample.enumerators.Constraint_RBE3 = [0] :=
  ⟨by decide!, by decide!, by decide!, by decide!, by decide!, by decide!, by decide!,
    by decide!, by decide!, by decide!, by decide!, by decide!, by decide!⟩

/-- A turn of the loop of `makeCellsFromDirectMatrices` that completes either leaves
the state as it is, the element set behind the pointer being none that lacks cells,
or gives a cell group and a cell to a matrix that lacks cells. -/
theorem makeCellsFromMatrix_cases (st : MatrixCellsState Lg LSd Cg CSd) (ptr : Nat)
    (hok : (makeCellsFromMatrix st ptr).error = none) :
    (makeCellsFromMatrix st ptr = Outcome.ok st ∧ ¬ LacksCells st.model ptr)
      ∨ ∃ es ids, st.model.elementSets.objs[ptr]? = some es
          ∧ es.data.isMatrixElement = true ∧ es.data.cellGroup = none
          ∧ 1 ≤ (MatrixElement.nodePositions es.data.submatrixByNodes).length
          ∧ (MatrixElement.nodePositions es.data.submatrixByNodes).length ≤ 20
          ∧ nodeIdsOf st.model.mesh (MatrixElement.nodePositions es.data.submatrixByNodes)
              = some ids := by
  cases hobj : st.model.elementSets.objs[ptr]? with
  | none =>
    left
    refine ⟨by unfold makeCellsFromMatrix; rw [hobj], ?_⟩
    rintro ⟨es, hes, -⟩
    rw [hobj] at hes
    cases hes
  | some es =>
    by_cases hm : es.data.isMatrixElement = true
    · by_cases hg : es.data.cellGroup = none
      · by_cases h0 : (MatrixElement.nodePositions es.data.submatrixByNodes).length = 0
        · left
          refine ⟨?_, ?_⟩
          · unfold makeCellsFromMatrix
            rw [hobj]
            dsimp only
            rw [if_neg (by simp [hm]), if_neg (by simp [hg]), if_pos h0]
          · rintro ⟨es2, hes2, -, -, h1⟩
            rw [hobj] at hes2
            cases hes2
            omega
        · right
          have h20 : (MatrixElement.nodePositions es.data.submatrixByNodes).length ≤ 20 := by
            by_contra hbig
            exact makeCellsFromMatrix_of_big st ptr es hobj hm hg (by omega) hok
          cases hids : nodeIdsOf st.model.mesh
              (MatrixElement.nodePositions es.data.submatrixByNodes) with
          | some ids => exact ⟨es, ids, rfl, hm, hg, by omega, h20, hids⟩
          | none =>
            exfalso
            unfold makeCellsFromMatrix at hok
            rw [hobj] at hok
            dsimp only at hok
            rw [if_neg (by simp [hm]), if_neg (by simp [hg]), if_neg h0,
              cellTypeOfSize_of_le _ (by omega) h20] at hok
            dsimp only at hok
            rw [hids] at hok
            cases hok
      · left
        refine ⟨makeCellsFromMatrix_of_group st ptr es hobj hg, ?_⟩
        rintro ⟨es2, hes2, -, hg2, -⟩
        rw [hobj] at hes2
        cases hes2
        exact hg hg2
    · left
      refine ⟨?_, ?_⟩
      · unfold makeCellsFromMatrix
        rw [hobj]
        dsimp only
        rw [if_pos hm]
      · rintro ⟨es2, hes2, hm2, -⟩
        rw [hobj] at hes2
        cases hes2
        exact hm hm2

/-- The state after a turn that gives a cell group and a cell to a matrix. -/
theorem makeCellsFromMatrix_made (st : MatrixCellsState Lg LSd Cg CSd) (ptr : Nat)
    (es : Identifiable Nat ElementSetData) (ids : List Int)
    (h : st.model.elementSets.objs[ptr]? = some es)
    (hm : es.data.isMatrixElement = true) (hg : es.data.cellGroup = none)
    (h1 : 1 ≤ (MatrixElement.nodePositions es.data.submatrixByNodes).length)
    (h20 : (MatrixElement.nodePositions es.data.submatrixByNodes).length ≤ 20)
    (hids : nodeIdsOf st.model.mesh (MatrixElement.nodePositions es.data.submatrixByNodes)
      = some ids) :
    (makeCellsFromMatrix st ptr).state.idM = st.idM + 1
      ∧ (makeCellsFromMatrix st ptr).state.model.mesh.nodes = st.model.mesh.nodes
      ∧ (makeCellsFromMatrix st ptr).state.model.mesh.cell_auto_id
          = st.model.mesh.cell_auto_id + 1
      ∧ (makeCellsFromMatrix st ptr).state.model.mesh.cellGroups
          = st.model.mesh.cellGroups
              ++ [{ name := "DM" ++ toString (st.idM + 1),
                    cellIds := [st.model.mesh.cell_auto_id] }]
      ∧ (makeCellsFromMatrix st ptr).state.model.mesh.cells
          = st.model.mesh.cells ++
              [{ id := st.model.mesh.cell_auto_id,
                 type :=
                   if (MatrixElement.nodePositions es.data.submatrixByNodes).length = 1
                     then CellType.POINT1
                   else if (MatrixElement.nodePositions es.data.submatrixByNodes).length = 2
                     then CellType.SEG2
                   else CellType.POLY
                     (MatrixElement.nodePositions es.data.submatrixByNodes).length,
                 nodeIds := ids, isVirtual := true }]
      ∧ (makeCellsFromMatrix st ptr).state.model.elementSets.objs[ptr]?
          = some { es with data := { es.data with
              cellGroup := some st.model.mesh.cellGroups.length } }
      ∧ ∀ q : Nat, q ≠ ptr →
          (makeCellsFromMatrix st ptr).state.model.elementSets.objs[q]?
            = st.model.elementSets.objs[q]? := by
  rw [makeCellsFromMatrix_effect st ptr es ids h hm hg h1 h20 hids]
  obtain ⟨hnodes, hcells, hgroups, hauto⟩ := addCellInto_spec
    (st.model.mesh.createCellGroup ("DM" ++ toString (st.idM + 1))).2
    (st.model.mesh.createCellGroup ("DM" ++ toString (st.idM + 1))).1
    (if (MatrixElement.nodePositions es.data.submatrixByNodes).length = 1 then CellType.POINT1
      else if (MatrixElement.nodePositions es.data.submatrixByNodes).length = 2
        then CellType.SEG2
      else CellType.POLY (MatrixElement.nodePositions es.data.submatrixByNodes).length) ids
  refine ⟨rfl, ?_, ?_, ?_, ?_, ?_, ?_⟩
  · simp only [Outcome.ok, assignCellGroup]
    rw [hnodes]
    rfl
  · simp only [Outcome.ok, assignCellGroup]
    rw [hauto]
    rfl
  · simp only [Outcome.ok, assignCellGroup]
    rw [hgroups]
    simp only [Mesh.createCellGroup]
    rw [modify_append_length]
    simp
  · simp only [Outcome.ok, assignCellGroup]
    rw [hcells]
    simp [Mesh.createCellGroup]
  · simp only [Outcome.ok, assignCellGroup, List.getElem?_modify, h]
    simp [Mesh.createCellGroup]
  · intro q hq
    simp only [Outcome.ok, assignCellGroup]
    rw [List.getElem?_modify_ne _ _ (Ne.symm hq)]

theorem lacksCells_congr (m m2 : Model Lg LSd Cg CSd) (ptr : Nat)
    (h : m2.elementSets.objs[ptr]? = m.elementSets.objs[ptr]?) :
    LacksCells m2 ptr ↔ LacksCells m ptr := by
  unfold LacksCells
  rw [h]

/-- A turn of the loop of `makeCellsFromDirectMatrices` that completes keeps what the
loop has made and adds the part of the entry of the turn. -/
theorem makeCellsFromMatrix_turn (m : Model Lg LSd Cg CSd) (done : List (Int × Nat))
    (x : Int × Nat) (st : MatrixCellsState Lg LSd Cg CSd)
    (hinv : ∃ made groups cells, MatrixCellsMade m done st.model made groups cells
      ∧ st.idM = made.length
      ∧ st.model.mesh.cell_auto_id = m.mesh.cell_auto_id + (made.length : Int))
    (hok : (makeCellsFromMatrix st x.2).error = none) :
    ∃ made groups cells,
      MatrixCellsMade m (done ++ [x]) (makeCellsFromMatrix st x.2).state.model made groups cells
        ∧ (makeCellsFromMatrix st x.2).state.idM = made.length
        ∧ (makeCellsFromMatrix st x.2).state.model.mesh.cell_auto_id
            = m.mesh.cell_auto_id + (made.length : Int) := by
  obtain ⟨made, groups, cells, ⟨hnd, hmem, hnodes, hgroups, hglen, hcells, hclen, hout, hin⟩,
    hidM, hauto⟩ := hinv
  rcases makeCellsFromMatrix_cases st x.2 hok with ⟨hsame, hnot⟩ | ⟨es, ids, hobj, hm, hg, h1, h20,
    hids⟩
  · rw [hsame]
    refine ⟨made, groups, cells, ⟨hnd, ?_, hnodes, hgroups, hglen, hcells, hclen, hout, hin⟩, hidM,
      hauto⟩
    intro ptr
    rw [hmem ptr]
    constructor
    · rintro ⟨entry, he, hp, hl⟩
      exact ⟨entry, List.mem_append_left _ he, hp, hl⟩
    · rintro ⟨entry, he, hp, hl⟩
      rcases List.mem_append.1 he with he | he
      · exact ⟨entry, he, hp, hl⟩
      · rw [List.mem_singleton] at he
        subst he
        subst hp
        by_cases hmade : entry.2 ∈ made
        · exact (hmem entry.2).1 hmade
        · exact absurd ((lacksCells_congr m st.model entry.2 (hout entry.2 hmade)).2 hl) hnot
  · have hnotin : x.2 ∉ made := by
      intro hx
      obtain ⟨k, hk⟩ := List.mem_iff_getElem?.1 hx
      obtain ⟨es0, ids0, -, -, -, hst, -, -⟩ := hin k x.2 hk
      rw [hobj] at hst
      have := congrArg (fun e : Option (Identifiable Nat ElementSetData) =>
        e.bind fun e => e.data.cellGroup) hst
      simp [hg] at this
    have hmobj : m.elementSets.objs[x.2]? = some es := by
      rw [← hout x.2 hnotin]
      exact hobj
    obtain ⟨e1, e2, e3, e4, e5, e6, e7⟩ :=
      makeCellsFromMatrix_made st x.2 es ids hobj hm hg h1 h20 hids
    refine ⟨made ++ [x.2],
      groups ++ [{ name := "DM" ++ toString (st.idM + 1),
                   cellIds := [st.model.mesh.cell_auto_id] }],
      cells ++ [{ id := st.model.mesh.cell_auto_id,
                  type :=
                    if (MatrixElement.nodePositions es.data.submatrixByNodes).length = 1
                      then CellType.POINT1
                    else if (MatrixElement.nodePositions es.data.submatrixByNodes).length = 2
                      then CellType.SEG2
                    else CellType.POLY
                      (MatrixElement.nodePositions es.data.submatrixByNodes).length,
                  nodeIds := ids, isVirtual := true }],
      ⟨?_, ?_, e2.trans hnodes, ?_, ?_, ?_, ?_, ?_, ?_⟩, ?_, ?_⟩
    · exact List.Nodup.append hnd (List.nodup_singleton _) (by
        intro a ha hb
        rw [List.mem_singleton] at hb
        subst hb
        exact hnotin ha)
    · intro ptr
      rw [List.mem_append, List.mem_singleton, hmem ptr]
      constructor
      · rintro (⟨entry, he, hp, hl⟩ | rfl)
        · exact ⟨entry, List.mem_append_left _ he, hp, hl⟩
        · exact ⟨x, List.mem_append_right _ (List.mem_singleton_self _), rfl,
            ⟨es, hmobj, hm, hg, h1⟩⟩
      · rintro ⟨entry, he, hp, hl⟩
        rcases List.mem_append.1 he with he | he
        · exact Or.inl ⟨entry, he, hp, hl⟩
        · rw [List.mem_singleton] at he
          subst he
          exact Or.inr hp.symm
    · rw [e4, hgroups, List.append_assoc]
    · simp [hglen]
    · rw [e5, hcells, List.append_assoc]
    · simp [hclen]
    · intro ptr hptr
      rw [List.mem_append, List.mem_singleton, not_or] at hptr
      rw [e7 ptr hptr.2]
      exact hout ptr hptr.1
    · intro k ptr hk
      by_cases hlt : k < made.length
      · rw [List.getElem?_append_left hlt] at hk
        obtain ⟨es0, ids0, a1, a2, a3, a4, a5, a6⟩ := hin k ptr hk
        have hne : ptr ≠ x.2 := by
          rintro rfl
          exact hnotin (List.mem_iff_getElem?.2 ⟨k, hk⟩)
        refine ⟨es0, ids0, a1, a2, a3, ?_, ?_, ?_⟩
        · rw [e7 ptr hne]
          exact a4
        · rw [List.getElem?_append_left (by omega)]
          exact a5
        · rw [List.getElem?_append_left (by omega)]
          exact a6
      · have hkeq : k = made.length := by
          by_contra hne
          rw [List.getElem?_eq_none (by simp; omega)] at hk
          cases hk
        subst hkeq
        rw [List.getElem?_append_right (le_refl _)] at hk
        simp only [Nat.sub_self, List.getElem?_cons_zero, Option.some.injEq] at hk
        subst hk
        refine ⟨es, ids, hmobj, h20, ?_, ?_, ?_, ?_⟩
        · rw [← nodeIdsOf_congr m.mesh st.model.mesh hnodes]
          exact hids
        · rw [e6, hgroups, List.length_append, hglen]
        · rw [← hglen, List.getElem?_append_right (le_refl _)]
          simp only [Nat.sub_self, List.getElem?_cons_zero]
          rw [hidM, hauto, hglen]
        · rw [← hclen, List.getElem?_append_right (le_refl _)]
          simp only [Nat.sub_self, List.getElem?_cons_zero]
          rw [hauto, hclen]
    · rw [e1, hidM, List.length_append]
      rfl
    · rw [e3, hauto, List.length_append]
      simp only [List.length_singleton]
      push_cast
      ring

/-- C29. In a model whose matrices lie on nodes of the mesh,
`makeCellsFromDirectMatrices` fails exactly when a matrix element set of the catalog
without a cell group has more than 20 nodes. When there is none, the pass completes
and in the model that it leaves: every matrix element set of the catalog that had no
cell group and has `n` nodes, `1 ≤ n ≤ 20`, is assigned a cell group, new and its
own, that holds one cell, new too, of type POINT1, SEG2 or POLY`n` for `n` = 1, 2 or
more, on the ids of the nodes of the matrix; every other element set, those that had
a cell group among them, and the cell groups and cells that the mesh had are as
before. -/
theorem makeCellsFromDirectMatrices_spec (m : Model Lg LSd Cg CSd)
    (hnodes : ∀ es ∈ registered m.elementSets, es.data.isMatrixElement = true →
      ∀ position ∈ MatrixElement.nodePositions es.data.submatrixByNodes,
        (m.mesh.findNode position).isSome = true) :
    ((makeCellsFromDirectMatrices m).error ≠ none ↔
        ∃ es ∈ registered m.elementSets,
          es.data.isMatrixElement = true ∧ es.data.cellGroup = none
            ∧ 20 < (MatrixElement.nodePositions es.data.submatrixByNodes).length)
      ∧ ((¬ ∃ es ∈ registered m.elementSets,
            es.data.isMatrixElement = true ∧ es.data.cellGroup = none
              ∧ 20 < (MatrixElement.nodePositions es.data.submatrixByNodes).length) →
          (makeCellsFromDirectMatrices m).error = none
            ∧ ∃ made groups cells,
                MatrixCellsMade m m.elementSets.by_id (makeCellsFromDirectMatrices m).state
                  made groups cells) := by
  have hiff := makeCellsFromDirectMatrices_fails_iff m hnodes
  refine ⟨hiff, fun hno => ?_⟩
  have hok : (makeCellsFromDirectMatrices m).error = none := by
    by_contra hne
    exact hno (hiff.1 hne)
  refine ⟨hok, ?_⟩
  rw [makeCellsFromDirectMatrices_error] at hok
  have key := (Outcome.foldl_andThen_split
    (fun st (entry : Int × Nat) => makeCellsFromMatrix st entry.2)
    (fun done st => ∃ made groups cells, MatrixCellsMade m done st.model made groups cells
      ∧ st.idM = made.length
      ∧ st.model.mesh.cell_auto_id = m.mesh.cell_auto_id + (made.length : Int))
    m.elementSets.by_id
    (fun pre x rest s _ hs hstep => makeCellsFromMatrix_turn m pre x s hs hstep)
    m.elementSets.by_id [] { model := m, idM := 0 } rfl
    ⟨[], [], [], ⟨List.nodup_nil, by simp, rfl, by simp, rfl, by simp, rfl, fun _ _ => rfl,
      by simp⟩, rfl, by simp⟩).1 hok
  obtain ⟨made, groups, cells, hmade, -, -⟩ := key
  refine ⟨made, groups, cells, ?_⟩
  have hstate : (makeCellsFromDirectMatrices m).state
      = (m.elementSets.by_id.foldl
          (fun (r : Outcome (MatrixCellsState Lg LSd Cg CSd)) (entry : Int × Nat) =>
            r.andThen fun st => makeCellsFromMatrix st entry.2)
          (Outcome.ok { model := m, idM := 0 })).state.model := by
    unfold makeCellsFromDirectMatrices makeCellsFromDirectMatricesUpTo Outcome.mapState
    rw [List.take_length]
  rw [hstate]
  exact hmade

/-- In the model `mBigMatrix` the only element set is a matrix on the three nodes of
the mesh, without a cell group: the pass completes, the matrix is assigned the cell
group "DM1", and this group holds the only cell of the mesh, of type POLY3, on the
nodes of ids 101, 102 and 103. -/
theorem makeCellsFromDirectMatrices_spec_witness :
    (∀ es ∈ registered Sample.mBigMatrix.elementSets, es.data.isMatrixElement = true →
        ∀ position ∈ MatrixElement.nodePositions es.data.submatrixByNodes,
          (Sample.mBigMatrix.mesh.findNode position).isSome = true)
      ∧ (makeCellsFromDirectMatrices Sample.mBigMatrix).error = none
      ∧ (∃ made groups cells,
          MatrixCellsMade Sample.mBigMatrix Sample.mBigMatrix.elementSets.by_id
            (makeCellsFromDirectMatrices Sample.mBigMatrix).state made groups cells)
      ∧ (makeCellsFromDirectMatrices Sample.mBigMatrix).state.elementSets.objs
          = [{ Sample.bigMatrix with
                data := { Sample.bigMatrix.data with cellGroup := some 0 } }]
      ∧ (makeCellsFromDirectMatrices Sample.mBigMatrix).state.mesh.cellGroups
          = [{ name := "DM1", cellIds := [0] }]
      ∧ (makeCellsFromDirectMatrices Sample.mBigMatrix).state.mesh.cells
          = [{ id := 0, type := CellType.POLY 3, nodeIds := [101, 102, 103],
               isVirtual := true }] := by
  have h : ∀ es ∈ registered Sample.mBigMatrix.elementSets, es.data.isMatrixElement = true →
      ∀ position ∈ MatrixElement.nodePositions es.data.submatrixByNodes,
        (Sample.mBigMatrix.mesh.findNode position).isSome = true := by
    intro es hes _ position hp
    have hreg : registered Sample.mBigMatrix.elementSets = [Sample.bigMatrix] := by decide
    rw [hreg, List.mem_singleton] at hes
    subst hes
    have hpos : MatrixElement.nodePositions Sample.bigMatrix.data.submatrixByNodes = [0, 1, 2] := by
      decide
    rw [hpos] at hp
    simp only [List.mem_cons, List.mem_singleton, List.not_mem_nil, or_false] at hp
    rcases hp with rfl | rfl | rfl <;> decide
  have hno : ¬ ∃ es ∈ registered Sample.mBigMatrix.elementSets,
      es.data.isMatrixElement = true ∧ es.data.cellGroup = none
        ∧ 20 < (MatrixElement.nodePositions es.data.submatrixByNodes).length := by
    rintro ⟨es, hes, -, -, hbig⟩
    have hreg : registered Sample.mBigMatrix.elementSets = [Sample.bigMatrix] := by decide
    rw [hreg, List.mem_singleton] at hes
    subst hes
    revert hbig
    decide
  have hspec := (makeCellsFromDirectMatrices_spec Sample.mBigMatrix h).2 hno
  exact ⟨h, hspec.1, hspec.2, by decide!, by decide!, by decide!⟩

/-! ### What the cells for the rigid constraints keep -/

theorem getElem?_of_prefix {α : Type} {l l2 : List α} (h : l <+: l2) (i : Nat) (x : α)
    (hx : l[i]? = some x) : l2[i]? = some x := by
  obtain ⟨t, rfl⟩ := h
  have hlt : i < l.length := by
    by_contra hge
    rw [List.getElem?_eq_none (by omega)] at hx
    cases hx
  rw [List.getElem?_append_left hlt]
  exact hx

theorem RbeGrows.grows_refl (groups : Nat) (m : Model Lg LSd Cg CSd) : RbeGrows groups m m :=
  ⟨rfl, List.prefix_refl _, List.prefix_refl _, List.prefix_refl _, le_refl _, fun _ _ => rfl⟩

theorem RbeGrows.grows_trans {groups : Nat} {m m2 m3 : Model Lg LSd Cg CSd}
    (h : RbeGrows groups m m2) (h2 : RbeGrows groups m2 m3) : RbeGrows groups m m3 :=
  ⟨h2.1.trans h.1, h.2.1.trans h2.2.1, h.2.2.1.trans h2.2.2.1, h.2.2.2.1.trans h2.2.2.2.1,
    h.2.2.2.2.1.trans h2.2.2.2.2.1, fun i hi => (h2.2.2.2.2.2 i hi).trans (h.2.2.2.2.2 i hi)⟩

theorem RbeGrows.grows_mono {groups groups2 : Nat} {m m2 : Model Lg LSd Cg CSd}
    (h : RbeGrows groups m m2) (hle : groups2 ≤ groups) : RbeGrows groups2 m m2 :=
  ⟨h.1, h.2.1, h.2.2.1, h.2.2.2.1, h.2.2.2.2.1, fun i hi => h.2.2.2.2.2 i (by omega)⟩

theorem objs_prefix_add {τ α : Type} [DecidableEq τ] (c : Container τ α)
    (t : Identifiable τ α) : c.objs <+: (c.add t).state.objs := by
  unfold Container.add
  split
  · exact List.prefix_refl _
  · exact List.prefix_append _ _

theorem addRigidMaterial_grows (E : Enumerators) (m : Model Lg LSd Cg CSd) (nature : Nature)
    (groups : Nat) : RbeGrows groups m (addRigidMaterial E m nature).2.state :=
  ⟨rfl, List.prefix_refl _, objs_prefix_add _ _, List.prefix_refl _, le_refl _, fun _ _ => rfl⟩

theorem addRigidElementSet_grows (m : Model Lg LSd Cg CSd) (type : Nat) (kind : ElementSetKind)
    (group material : Nat) (groups : Nat) :
    RbeGrows groups m (addRigidElementSet m type kind group material).state :=
  ⟨rfl, List.prefix_refl _, List.prefix_refl _, objs_prefix_add _ _, le_refl _, fun _ _ => rfl⟩

theorem createCellGroup_grows (m : Model Lg LSd Cg CSd) (name : String) (groups : Nat)
    (hg : groups ≤ m.mesh.cellGroups.length) :
    RbeGrows groups m { m with mesh := (m.mesh.createCellGroup name).2 } := by
  refine ⟨rfl, List.prefix_refl _, List.prefix_refl _, List.prefix_refl _, ?_, ?_⟩
  · simp [Mesh.createCellGroup]
  · intro i hi
    simp only [Mesh.createCellGroup]
    rw [List.getElem?_append_left (by omega)]

theorem addCellInto_grows (m : Model Lg LSd Cg CSd) (group : Nat) (type : CellType)
    (nodeIds : List Int) (groups : Nat) (hg : groups ≤ group) :
    RbeGrows groups m { m with mesh := m.mesh.addCellInto group type nodeIds } := by
  obtain ⟨h1, h2, h3, -⟩ := addCellInto_spec m.mesh group type nodeIds
  refine ⟨h1, ?_, List.prefix_refl _, List.prefix_refl _, ?_, ?_⟩
  · show m.mesh.cells <+: (m.mesh.addCellInto group type nodeIds).cells
    rw [h2]
    exact List.prefix_append _ _
  · show m.mesh.cellGroups.length ≤ (m.mesh.addCellInto group type nodeIds).cellGroups.length
    rw [h3, List.length_modify]
  · intro i hi
    show (m.mesh.addCellInto group type nodeIds).cellGroups[i]? = m.mesh.cellGroups[i]?
    rw [h3, List.getElem?_modify_ne _ _ (by omega)]

theorem removeConstraintOfSet_grows (m : Model Lg LSd Cg CSd) (refC : Reference Nat)
    (idCS : Int) (originalIdCS : Option Int) (csT : Nat) (groups : Nat) :
    RbeGrows groups m (removeConstraintOfSet m refC idCS originalIdCS csT) :=
  ⟨rfl, List.prefix_refl _, List.prefix_refl _, List.prefix_refl _, le_refl _, fun _ _ => rfl⟩

theorem addRigidCell_grows (master : Node) (group : Nat) (m : Model Lg LSd Cg CSd)
    (position : Int) (groups : Nat) (hg : groups ≤ group) :
    RbeGrows groups m (addRigidCell master group m position).state := by
  unfold addRigidCell
  split
  · exact RbeGrows.grows_refl _ _
  · exact addCellInto_grows m group _ _ groups hg

theorem makeCellsFromRigid_grows (E : Enumerators) (m : Model Lg LSd ConstraintData CSd)
    (constraintSet : Identifiable Nat CSd) (ptr : Nat) :
    RbeGrows m.mesh.cellGroups.length m (makeCellsFromRigid E m constraintSet ptr).state := by
  unfold makeCellsFromRigid
  split
  · exact RbeGrows.grows_refl _ _
  · refine Outcome.andThen_induction (RbeGrows m.mesh.cellGroups.length m) _ _
      (addRigidMaterial_grows E m _ _) ?_
    intro m1 h1
    split
    · exact h1.grows_trans (createCellGroup_grows m1 _ _ h1.2.2.2.2.1)
    · refine Outcome.andThen_induction (RbeGrows m.mesh.cellGroups.length m) _ _
        ((h1.grows_trans (createCellGroup_grows m1 _ _ h1.2.2.2.2.1)).grows_trans
          (addRigidElementSet_grows _ _ _ _ _ _)) ?_
      intro m2 h2
      refine Outcome.andThen_induction (RbeGrows m.mesh.cellGroups.length m) _ _ ?_ ?_
      · refine Outcome.foldl_andThen_induction (RbeGrows m.mesh.cellGroups.length m) _ ?_ _ _ h2
        intro m3 position h3
        exact h3.grows_trans (addRigidCell_grows _ _ m3 position _ h1.2.2.2.2.1)
      · intro m4 h4
        exact h4.grows_trans (removeConstraintOfSet_grows m4 _ _ _ _ _)

theorem makeCellsFromQuasiRigid_grows (E : Enumerators) (m : Model Lg LSd ConstraintData CSd)
    (constraintSet : Identifiable Nat CSd) (ptr : Nat) :
    RbeGrows m.mesh.cellGroups.length m
      (makeCellsFromQuasiRigid E m constraintSet ptr).state := by
  unfold makeCellsFromQuasiRigid
  split
  · exact RbeGrows.grows_refl _ _
  · split
    · exact RbeGrows.grows_refl _ _
    · refine Outcome.andThen_induction (RbeGrows m.mesh.cellGroups.length m) _ _
        (addRigidMaterial_grows E m _ _) ?_
      intro m1 h1
      split
      · refine Outcome.andThen_induction (RbeGrows m.mesh.cellGroups.length m) _ _
          ((h1.grows_trans (createCellGroup_grows m1 _ _ h1.2.2.2.2.1)).grows_trans
            (addRigidElementSet_grows _ _ _ _ _ _)) ?_
        intro m2 h2
        exact (h2.grows_trans (addCellInto_grows m2 _ _ _ _ h1.2.2.2.2.1)).grows_trans
          (removeConstraintOfSet_grows _ _ _ _ _ _)
      · exact h1

theorem addCell_grows (m : Model Lg LSd Cg CSd) (type : CellType) (nodeIds : List Int)
    (groups : Nat) :
    RbeGrows groups m { m with mesh := (m.mesh.addCell type nodeIds true).2 } :=
  ⟨rfl, List.prefix_append _ _, List.prefix_refl _, List.prefix_refl _, le_refl _,
    fun _ _ => rfl⟩

theorem addCellOfPosition_grows (m : Model Lg LSd Cg CSd) (group cellPosition : Nat)
    (groups : Nat) (hg : groups ≤ group) :
    RbeGrows groups m { m with mesh := addCellOfPosition m.mesh group cellPosition } := by
  unfold addCellOfPosition
  split
  · refine ⟨rfl, List.prefix_refl _, List.prefix_refl _, List.prefix_refl _, ?_, ?_⟩
    · simp [Mesh.addCellToGroup]
    · intro i hi
      simp only [Mesh.addCellToGroup]
      rw [List.getElem?_modify_ne _ _ (by omega)]
  · exact RbeGrows.grows_refl _ _

theorem addRbe3Part_grows (E : Enumerators) (constraint : Constraint) (master : Node)
    (position : Int) (nbParts : Nat) (m : Model Lg LSd ConstraintData CSd) (groups : Nat)
    (hg : groups ≤ m.mesh.cellGroups.length) :
    RbeGrows groups m (addRbe3Part E constraint master position nbParts m).2.state := by
  unfold addRbe3Part
  dsimp only
  refine Outcome.andThen_induction (RbeGrows groups m) _ _ (addRigidMaterial_grows E m _ _) ?_
  intro m1 h1
  exact (h1.grows_trans (createCellGroup_grows m1 _ _ (hg.trans h1.2.2.2.2.1))).grows_trans
    (addRigidElementSet_grows _ _ _ _ _ _)

/-- A turn of the loop over the slaves of an RBE3 keeps what the model held when the
loop started, the groups recorded for the pairs (DOFs, coefficient) being groups
created by the loop. -/
theorem makeCellFromSlave_grows (E : Enumerators) (m : Model Lg LSd ConstraintData CSd)
    (constraint : Constraint) (master : Node) (st : Rbe3State Lg LSd CSd) (position : Int)
    (h : RbeGrows m.mesh.cellGroups.length m st.model
      ∧ ∀ (key : DOFS × ℚ) (g : Nat),
          (st.groupByCoefByDOFS.find key.1).bind (fun byCoef => byCoef.find key.2) = some g →
          m.mesh.cellGroups.length ≤ g) :
    RbeGrows m.mesh.cellGroups.length m
        (makeCellFromSlave E constraint master st position).state.model
      ∧ ∀ (key : DOFS × ℚ) (g : Nat),
          ((makeCellFromSlave E constraint master st position).state.groupByCoefByDOFS.find
              key.1).bind (fun byCoef => byCoef.find key.2) = some g →
          m.mesh.cellGroups.length ≤ g := by
  obtain ⟨hgrow, hmap⟩ := h
  unfold makeCellFromSlave
  cases hfn : st.model.mesh.findNode position with
  | none => exact ⟨hgrow, hmap⟩
  | some slave =>
    dsimp only
    cases hl : (st.groupByCoefByDOFS.find (constraint.data.getSlaveDOFSForNode position)).bind
        fun byCoef => byCoef.find (constraint.data.getCoefForNode position) with
    | some groupRBE3 =>
      dsimp only
      refine ⟨?_, hmap⟩
      have hge := hmap (constraint.data.getSlaveDOFSForNode position,
        constraint.data.getCoefForNode position) groupRBE3 hl
      exact (hgrow.grows_trans (addCell_grows st.model _ _ _)).grows_trans
        (addCellOfPosition_grows
          { st.model with mesh := (st.model.mesh.addCell CellType.SEG2
              [master.id, slave.id] true).2 } groupRBE3 _ _ hge)
    | none =>
      dsimp only
      have hpart := addRbe3Part_grows E constraint master position (st.nbParts + 1)
        { st.model with mesh := (st.model.mesh.addCell CellType.SEG2
            [master.id, slave.id] true).2 } m.mesh.cellGroups.length
        (by
          show m.mesh.cellGroups.length ≤ st.model.mesh.cellGroups.length
          exact hgrow.2.2.2.2.1)
      have hbase : RbeGrows m.mesh.cellGroups.length m
          (addRbe3Part E constraint master position (st.nbParts + 1)
            { st.model with mesh := (st.model.mesh.addCell CellType.SEG2
                [master.id, slave.id] true).2 }).2.state :=
        (hgrow.grows_trans (addCell_grows st.model _ _ _)).grows_trans hpart
      cases he : (addRbe3Part E constraint master position (st.nbParts + 1)
          { st.model with mesh := (st.model.mesh.addCell CellType.SEG2
              [master.id, slave.id] true).2 }).2.error with
      | some e =>
        rw [Outcome.andThen_of_error_some _ _ e (by simpa [Outcome.mapState] using he)]
        exact ⟨hbase, hmap⟩
      | none =>
        rw [Outcome.andThen_of_error_none _ _ (by simpa [Outcome.mapState] using he)]
        refine ⟨?_, ?_⟩
        · exact hbase.grows_trans (addCellOfPosition_grows _ _ _ _ (by
            show m.mesh.cellGroups.length ≤ st.model.mesh.cellGroups.length
            exact hgrow.2.2.2.2.1))
        · intro key g hg
          simp only [Outcome.ok, Outcome.mapState] at hg
          rw [lookup_assign st.groupByCoefByDOFS
            (constraint.data.getSlaveDOFSForNode position,
              constraint.data.getCoefForNode position) key] at hg
          split at hg
          · cases hg
            show m.mesh.cellGroups.length ≤ st.model.mesh.cellGroups.length
            exact hgrow.2.2.2.2.1
          · exact hmap key g hg

theorem makeCellsFromRBE3_grows (E : Enumerators) (m : Model Lg LSd ConstraintData CSd)
    (constraintSet : Identifiable Nat CSd) (ptr : Nat) :
    RbeGrows m.mesh.cellGroups.length m (makeCellsFromRBE3 E m constraintSet ptr).state := by
  unfold makeCellsFromRBE3
  cases hobj : m.constraints.objs[ptr]? with
  | none => exact RbeGrows.grows_refl _ _
  | some constraint =>
    dsimp only
    cases hnode : m.mesh.findNode constraint.data.getMaster with
    | none => exact RbeGrows.grows_refl _ _
    | some master =>
      dsimp only
      refine Outcome.andThen_induction (RbeGrows m.mesh.cellGroups.length m) _ _ ?_ ?_
      · simp only [Outcome.mapState]
        exact (Outcome.foldl_andThen_induction
          (fun st : Rbe3State Lg LSd CSd =>
            RbeGrows m.mesh.cellGroups.length m st.model
              ∧ ∀ (key : DOFS × ℚ) (g : Nat),
                  (st.groupByCoefByDOFS.find key.1).bind (fun byCoef => byCoef.find key.2)
                    = some g →
                  m.mesh.cellGroups.length ≤ g)
          (fun st position => makeCellFromSlave E constraint master st position)
          (fun st position hst => makeCellFromSlave_grows E m constraint master st position hst)
          _ (Outcome.ok { model := m, nbParts := 0, groupByCoefByDOFS := [] })
          ⟨RbeGrows.grows_refl _ _, fun key g hg => by simp [KeyMap.find, Outcome.ok] at hg⟩).1
      · intro m4 h4
        exact h4.grows_trans (removeConstraintOfSet_grows m4 _ _ _ _ _)

/-- A loop of `makeCellsFromRBE` over the constraints `L` of a constraint set, seen
from a constraint `q` that a constraint set hands out: as long as the turn of `q` has
not come the set hands `q` out, and from the turn of `q` on the model holds what the
turn has made, `D` being kept by the steps of the pass. -/
theorem rbe_loop_made (m : Model Lg LSd Cg CSd) (constraintSet2 : Identifiable Nat CSd)
    (type : Nat) (ptrq : Nat) (q : Identifiable Nat Cg) (D : Model Lg LSd Cg CSd → Prop)
    (constraintSet : Identifiable Nat CSd)
    (body : Model Lg LSd Cg CSd → Nat → Outcome (Model Lg LSd Cg CSd))
    (hgrows : ∀ st ptr, RbeGrows st.mesh.cellGroups.length st (body st ptr).state)
    (hbody : ∀ st ptr x, st.constraints.objs[ptr]? = some x → (body st ptr).error = none →
      ∃ m4, ConstraintsKept st m4
        ∧ (body st ptr).state = removeConstraintOfSet m4 x.getReference constraintSet.id
            constraintSet.original_id constraintSet.type)
    (hnone : ∀ st ptr, st.constraints.objs[ptr]? = none → (body st ptr).error ≠ none)
    (hD : ∀ st st2, RbeGrows st.mesh.cellGroups.length st st2 → D st → D st2)
    (L : List Nat) (objs0 : List (Identifiable Nat Cg))
    (hq : ∀ st, ptrq ∈ L → st.constraints.objs = objs0 →
      RbeGrows m.mesh.cellGroups.length m st → HandsOut st constraintSet2 type ptrq q →
      (body st ptrq).error = none → D (body st ptrq).state)
    (st : Model Lg LSd Cg CSd) (hobjs : st.constraints.objs = objs0)
    (hbase : RbeGrows m.mesh.cellGroups.length m st)
    (h : HandsOut st constraintSet2 type ptrq q ∨ D st)
    (hok : (L.foldl (fun r ptr => r.andThen fun s => body s ptr) (Outcome.ok st)).error = none) :
    (L.foldl (fun r ptr => r.andThen fun s => body s ptr)
        (Outcome.ok st)).state.constraints.objs = objs0
      ∧ RbeGrows m.mesh.cellGroups.length m
          (L.foldl (fun r ptr => r.andThen fun s => body s ptr) (Outcome.ok st)).state
      ∧ (HandsOut (L.foldl (fun r ptr => r.andThen fun s => body s ptr) (Outcome.ok st)).state
            constraintSet2 type ptrq q
          ∨ D (L.foldl (fun r ptr => r.andThen fun s => body s ptr) (Outcome.ok st)).state)
      ∧ (ptrq ∈ L ∨ D st →
          D (L.foldl (fun r ptr => r.andThen fun s => body s ptr) (Outcome.ok st)).state) := by
  have key := Outcome.foldl_andThen_split body
    (fun pre s => s.constraints.objs = objs0 ∧ RbeGrows m.mesh.cellGroups.length m s
      ∧ (HandsOut s constraintSet2 type ptrq q ∨ D s) ∧ (ptrq ∈ pre ∨ D st → D s)) L
    (by
      intro pre ptr rest s hl ⟨ho, hb, hd, hp⟩ hstep
      have hg := hgrows s ptr
      have hmem : ptr ∈ L := by rw [hl]; simp
      cases hobj : s.constraints.objs[ptr]? with
      | none => exact absurd hstep (hnone s ptr hobj)
      | some x =>
        obtain ⟨m4, hkept, hstate⟩ := hbody s ptr x hobj hstep
        have hobjs2 : (body s ptr).state.constraints.objs = objs0 := by
          rw [hstate, ← ho, ← hkept.1]
          rfl
        have hcase : HandsOut (body s ptr).state constraintSet2 type ptrq q
            ∨ D (body s ptr).state := by
          rcases hd with hh | hdd
          · by_cases hp2 : ptr = ptrq
            · subst hp2
              exact Or.inr (hq s hmem ho hb hh hstep)
            · rw [hstate]
              exact Or.inl (handsOut_after_remove constraintSet2 type ptrq q s m4 constraintSet
                ptr x hh hobj hp2 hkept).1
          · exact Or.inr (hD _ _ hg hdd)
        refine ⟨hobjs2, hb.grows_trans (hg.grows_mono hb.2.2.2.2.1), hcase, ?_⟩
        rintro (hin | hd0)
        · rcases List.mem_append.1 hin with hin | hin
          · exact hD _ _ hg (hp (Or.inl hin))
          · rw [List.mem_singleton] at hin
            subst hin
            rcases hd with hh | hdd
            · exact hq s hmem ho hb hh hstep
            · exact hD _ _ hg hdd
        · exact hD _ _ hg (hp (Or.inr hd0)))
    L [] st rfl ⟨hobjs, hbase, h, fun hx => by
      rcases hx with hx | hx
      · cases hx
      · exact hx⟩
  exact key.1 hok

/-- The turn of `makeCellsFromRBE` for a common constraint set, seen from a
QUASI_RIGID constraint `q` that a constraint set hands out. -/
theorem makeCellsFromRBEOf_made (E : Enumerators)
    (hRQ : E.Constraint_RIGID ≠ E.Constraint_QUASI_RIGID)
    (h3Q : E.Constraint_RBE3 ≠ E.Constraint_QUASI_RIGID)
    (m : Model Lg LSd ConstraintData CSd) (constraintSet2 : Identifiable Nat CSd)
    (ptrq : Nat) (q : Constraint) (D : Model Lg LSd ConstraintData CSd → Prop)
    (hD : ∀ st st2, RbeGrows st.mesh.cellGroups.length st st2 → D st → D st2)
    (hturn : ∀ st constraintSet, RbeGrows m.mesh.cellGroups.length m st →
      HandsOut st constraintSet2 E.Constraint_QUASI_RIGID ptrq q →
      (makeCellsFromQuasiRigid E st constraintSet ptrq).error = none →
      D (makeCellsFromQuasiRigid E st constraintSet ptrq).state)
    (st : Model Lg LSd ConstraintData CSd) (constraintSet : Identifiable Nat CSd)
    (hbase : RbeGrows m.mesh.cellGroups.length m st)
    (h : HandsOut st constraintSet2 E.Constraint_QUASI_RIGID ptrq q ∨ D st)
    (hok : (makeCellsFromRBEOf E st constraintSet).error = none) :
    RbeGrows m.mesh.cellGroups.length m (makeCellsFromRBEOf E st constraintSet).state
      ∧ (HandsOut (makeCellsFromRBEOf E st constraintSet).state constraintSet2
            E.Constraint_QUASI_RIGID ptrq q
          ∨ D (makeCellsFromRBEOf E st constraintSet).state)
      ∧ (constraintSet = constraintSet2 ∨ D st →
          D (makeCellsFromRBEOf E st constraintSet).state) := by
  have hvac : ∀ (type : Nat), type ≠ E.Constraint_QUASI_RIGID →
      ∀ (st0 s : Model Lg LSd ConstraintData CSd),
        ptrq ∈ getConstraintsByType st0 constraintSet type →
        s.constraints.objs = st0.constraints.objs →
        HandsOut s constraintSet2 E.Constraint_QUASI_RIGID ptrq q → False := by
    intro type htype st0 s hin hso hh
    obtain ⟨-, c, hc, ht⟩ := (mem_getConstraintsByType _ _ _ _).1 hin
    have hq := hh.2.1
    rw [hso, hc] at hq
    cases hq
    exact htype (ht.symm.trans (type_of_handsOut hh))
  -- the loop over the RIGID constraints
  have hA : ∀ st0 : Model Lg LSd ConstraintData CSd,
      RbeGrows m.mesh.cellGroups.length m st0 →
      (HandsOut st0 constraintSet2 E.Constraint_QUASI_RIGID ptrq q ∨ D st0) →
      ((getConstraintsByType st0 constraintSet E.Constraint_RIGID).foldl
        (fun r ptr => r.andThen fun m2 => makeCellsFromRigid E m2 constraintSet ptr)
        (Outcome.ok st0)).error = none →
      RbeGrows m.mesh.cellGroups.length m
          ((getConstraintsByType st0 constraintSet E.Constraint_RIGID).foldl
            (fun r ptr => r.andThen fun m2 => makeCellsFromRigid E m2 constraintSet ptr)
            (Outcome.ok st0)).state
        ∧ (HandsOut ((getConstraintsByType st0 constraintSet E.Constraint_RIGID).foldl
              (fun r ptr => r.andThen fun m2 => makeCellsFromRigid E m2 constraintSet ptr)
              (Outcome.ok st0)).state constraintSet2 E.Constraint_QUASI_RIGID ptrq q
            ∨ D ((getConstraintsByType st0 constraintSet E.Constraint_RIGID).foldl
              (fun r ptr => r.andThen fun m2 => makeCellsFromRigid E m2 constraintSet ptr)
              (Outcome.ok st0)).state)
        ∧ (D st0 → D ((getConstraintsByType st0 constraintSet E.Constraint_RIGID).foldl
              (fun r ptr => r.andThen fun m2 => makeCellsFromRigid E m2 constraintSet ptr)
              (Outcome.ok st0)).state) := by
    intro st0 hb0 hd0 hok0
    obtain ⟨-, b, d, k⟩ := rbe_loop_made m constraintSet2 E.Constraint_QUASI_RIGID ptrq q D
      constraintSet (fun s ptr => makeCellsFromRigid E s constraintSet ptr)
      (fun s ptr => makeCellsFromRigid_grows E s constraintSet ptr)
      (fun s ptr x hobj hstep => makeCellsFromRigid_spec E s constraintSet ptr x hobj hstep)
      (fun s ptr hobj => makeCellsFromRigid_of_none E s constraintSet ptr hobj) hD
      (getConstraintsByType st0 constraintSet E.Constraint_RIGID) st0.constraints.objs
      (fun s hin hso _ hh _ => (hvac _ hRQ st0 s hin hso hh).elim)
      st0 rfl hb0 hd0 hok0
    exact ⟨b, d, fun hd => k (Or.inr hd)⟩
  -- the loop over the QUASI_RIGID constraints
  have hB : ∀ st0 : Model Lg LSd ConstraintData CSd,
      RbeGrows m.mesh.cellGroups.length m st0 →
      (HandsOut st0 constraintSet2 E.Constraint_QUASI_RIGID ptrq q ∨ D st0) →
      ((getConstraintsByType st0 constraintSet E.Constraint_QUASI_RIGID).foldl
        (fun r ptr => r.andThen fun m2 => makeCellsFromQuasiRigid E m2 constraintSet ptr)
        (Outcome.ok st0)).error = none →
      RbeGrows m.mesh.cellGroups.length m
          ((getConstraintsByType st0 constraintSet E.Constraint_QUASI_RIGID).foldl
            (fun r ptr => r.andThen fun m2 => makeCellsFromQuasiRigid E m2 constraintSet ptr)
            (Outcome.ok st0)).state
        ∧ (HandsOut ((getConstraintsByType st0 constraintSet E.Constraint_QUASI_RIGID).foldl
              (fun r ptr => r.andThen fun m2 => makeCellsFromQuasiRigid E m2 constraintSet ptr)
              (Outcome.ok st0)).state constraintSet2 E.Constraint_QUASI_RIGID ptrq q
            ∨ D ((getConstraintsByType st0 constraintSet E.Constraint_QUASI_RIGID).foldl
              (fun r ptr => r.andThen fun m2 => makeCellsFromQuasiRigid E m2 constraintSet ptr)
              (Outcome.ok st0)).state)
        ∧ (constraintSet = constraintSet2 ∨ D st0 →
            D ((getConstraintsByType st0 constraintSet E.Constraint_QUASI_RIGID).foldl
              (fun r ptr => r.andThen fun m2 => makeCellsFromQuasiRigid E m2 constraintSet ptr)
              (Outcome.ok st0)).state) := by
    intro st0 hb0 hd0 hok0
    obtain ⟨-, b, d, k⟩ := rbe_loop_made m constraintSet2 E.Constraint_QUASI_RIGID ptrq q D
      constraintSet (fun s ptr => makeCellsFromQuasiRigid E s constraintSet ptr)
      (fun s ptr => makeCellsFromQuasiRigid_grows E s constraintSet ptr)
      (fun s ptr x hobj hstep =>
        (makeCellsFromQuasiRigid_spec E s constraintSet ptr x hobj hstep).2)
      (fun s ptr hobj => makeCellsFromQuasiRigid_of_none E s constraintSet ptr hobj) hD
      (getConstraintsByType st0 constraintSet E.Constraint_QUASI_RIGID) st0.constraints.objs
      (fun s _ _ hb hh hstep => hturn s constraintSet hb hh hstep)
      st0 rfl hb0 hd0 hok0
    refine ⟨b, d, ?_⟩
    rintro (hcs | hd)
    · rcases hd0 with hh | hdd
      · subst hcs
        exact k (Or.inl hh.2.2)
      · exact k (Or.inr hdd)
    · exact k (Or.inr hd)
  -- the loop over the RBE3 constraints
  have hC : ∀ st0 : Model Lg LSd ConstraintData CSd,
      RbeGrows m.mesh.cellGroups.length m st0 →
      (HandsOut st0 constraintSet2 E.Constraint_QUASI_RIGID ptrq q ∨ D st0) →
      ((getConstraintsByType st0 constraintSet E.Constraint_RBE3).foldl
        (fun r ptr => r.andThen fun m2 => makeCellsFromRBE3 E m2 constraintSet ptr)
        (Outcome.ok st0)).error = none →
      RbeGrows m.mesh.cellGroups.length m
          ((getConstraintsByType st0 constraintSet E.Constraint_RBE3).foldl
            (fun r ptr => r.andThen fun m2 => makeCellsFromRBE3 E m2 constraintSet ptr)
            (Outcome.ok st0)).state
        ∧ (HandsOut ((getConstraintsByType st0 constraintSet E.Constraint_RBE3).foldl
              (fun r ptr => r.andThen fun m2 => makeCellsFromRBE3 E m2 constraintSet ptr)
              (Outcome.ok st0)).state constraintSet2 E.Constraint_QUASI_RIGID ptrq q
            ∨ D ((getConstraintsByType st0 constraintSet E.Constraint_RBE3).foldl
              (fun r ptr => r.andThen fun m2 => makeCellsFromRBE3 E m2 constraintSet ptr)
              (Outcome.ok st0)).state)
        ∧ (D st0 → D ((getConstraintsByType st0 constraintSet E.Constraint_RBE3).foldl
              (fun r ptr => r.andThen fun m2 => makeCellsFromRBE3 E m2 constraintSet ptr)
              (Outcome.ok st0)).state) := by
    intro st0 hb0 hd0 hok0
    obtain ⟨-, b, d, k⟩ := rbe_loop_made m constraintSet2 E.Constraint_QUASI_RIGID ptrq q D
      constraintSet (fun s ptr => makeCellsFromRBE3 E s constraintSet ptr)
      (fun s ptr => makeCellsFromRBE3_grows E s constraintSet ptr)
      (fun s ptr x hobj hstep => makeCellsFromRBE3_spec E s constraintSet ptr x hobj hstep)
      (fun s ptr hobj => makeCellsFromRBE3_of_none E s constraintSet ptr hobj) hD
      (getConstraintsByType st0 constraintSet E.Constraint_RBE3) st0.constraints.objs
      (fun s hin hso _ hh _ => (hvac _ h3Q st0 s hin hso hh).elim)
      st0 rfl hb0 hd0 hok0
    exact ⟨b, d, fun hd => k (Or.inr hd)⟩
  unfold makeCellsFromRBEOf at hok ⊢
  have h1 := Outcome.error_none_of_andThen _ _ hok
  rw [Outcome.andThen_of_error_none _ _ h1] at hok ⊢
  have h2 := Outcome.error_none_of_andThen _ _ hok
  rw [Outcome.andThen_of_error_none _ _ h2] at hok ⊢
  obtain ⟨b1, d1, k1⟩ := hA st hbase h h1
  obtain ⟨b2, d2, k2⟩ := hB _ b1 d1 h2
  obtain ⟨b3, d3, k3⟩ := hC _ b2 d2 hok
  refine ⟨b3, d3, ?_⟩
  rintro (hcs | hd0)
  · exact k3 (k2 (Or.inl hcs))
  · exact k3 (k2 (Or.inr (k1 hd0)))

/-- The pass `makeCellsFromRBE`, seen from a QUASI_RIGID constraint `q` that a common
constraint set hands out when the pass starts: when the pass completes, the model
holds what the turn of `q` has made. -/
theorem makeCellsFromRBE_made (E : Enumerators)
    (hRQ : E.Constraint_RIGID ≠ E.Constraint_QUASI_RIGID)
    (h3Q : E.Constraint_RBE3 ≠ E.Constraint_QUASI_RIGID)
    (m : Model Lg LSd ConstraintData CSd) (constraintSet : Identifiable Nat CSd)
    (ptrq : Nat) (q : Constraint) (D : Model Lg LSd ConstraintData CSd → Prop)
    (hD : ∀ st st2, RbeGrows st.mesh.cellGroups.length st st2 → D st → D st2)
    (hturn : ∀ st constraintSet2, RbeGrows m.mesh.cellGroups.length m st →
      HandsOut st constraintSet E.Constraint_QUASI_RIGID ptrq q →
      (makeCellsFromQuasiRigid E st constraintSet2 ptrq).error = none →
      D (makeCellsFromQuasiRigid E st constraintSet2 ptrq).state)
    (hcommon : constraintSet ∈ getCommonConstraintSets m)
    (h : HandsOut m constraintSet E.Constraint_QUASI_RIGID ptrq q)
    (hok : (makeCellsFromRBE E m).error = none) :
    D (makeCellsFromRBE E m).state := by
  unfold makeCellsFromRBE at hok ⊢
  have key := (Outcome.foldl_andThen_split
    (fun s cs => makeCellsFromRBEOf E s cs)
    (fun pre s => RbeGrows m.mesh.cellGroups.length m s
      ∧ (HandsOut s constraintSet E.Constraint_QUASI_RIGID ptrq q ∨ D s)
      ∧ (constraintSet ∈ pre → D s))
    (getCommonConstraintSets m)
    (by
      intro pre cs rest s _ ⟨hb, hd, hp⟩ hstep
      obtain ⟨b, d, k⟩ := makeCellsFromRBEOf_made E hRQ h3Q m constraintSet ptrq q D hD hturn
        s cs hb hd hstep
      refine ⟨b, d, ?_⟩
      intro hin
      rcases List.mem_append.1 hin with hin | hin
      · exact k (Or.inr (hp hin))
      · rw [List.mem_singleton] at hin
        exact k (Or.inl hin.symm))
    (getCommonConstraintSets m) [] m rfl
    ⟨RbeGrows.grows_refl _ _, Or.inl h, fun hx => by cases hx⟩).1 hok
  exact key.2.2 hcommon

theorem addRigidMaterial_fresh (E : Enumerators) (m : Model Lg LSd Cg CSd) (nature : Nature)
    (h : (addRigidMaterial E m nature).2.error = none) :
    m.materials.by_id.find m.material_auto_id = none := by
  by_contra hne
  have hfind : m.materials.find
      (Identifiable.getReference
        ({ id := m.material_auto_id, original_id := none, type := E.Material_MATERIAL,
           data := { natures := [nature] } } : Identifiable Nat MaterialData))
        = m.materials.by_id.find m.material_auto_id :=
    Container.find_of_id_only _ _ m.material_auto_id rfl (by
      simp [Identifiable.getReference, Identifiable.isOriginal])
  unfold addRigidMaterial addMaterial Container.add at h
  dsimp only at h
  rw [hfind, if_pos (Option.isSome_iff_ne_none.2 hne)] at h
  cases h

theorem addRigidElementSet_fresh (m : Model Lg LSd Cg CSd) (type : Nat)
    (kind : ElementSetKind) (group material : Nat)
    (h : (addRigidElementSet m type kind group material).error = none) :
    m.elementSets.by_id.find m.elementSet_auto_id = none := by
  by_contra hne
  have hfind : m.elementSets.find
      (Identifiable.getReference
        ({ id := m.elementSet_auto_id, original_id := none, type := type,
           data := { kind := kind, cellGroup := some group, material := some material } } :
          Identifiable Nat ElementSetData))
        = m.elementSets.by_id.find m.elementSet_auto_id :=
    Container.find_of_id_only _ _ m.elementSet_auto_id rfl (by
      simp [Identifiable.getReference, Identifiable.isOriginal])
  unfold addRigidElementSet addElementSet Container.add at h
  dsimp only at h
  rw [hfind, if_pos (Option.isSome_iff_ne_none.2 hne)] at h
  cases h

/-- A turn of `makeCellsFromRBE` for a QUASI_RIGID constraint with two slaves
completes only if the two slaves are nodes of the mesh and the next ids of material
and of element set are unused. -/
theorem makeCellsFromQuasiRigid_of_ok (E : Enumerators) (m : Model Lg LSd ConstraintData CSd)
    (constraintSet : Identifiable Nat CSd) (ptr : Nat) (constraint : Constraint)
    (s1 s2 : Int) (hobj : m.constraints.objs[ptr]? = some constraint)
    (hsl : constraint.data.getSlaves = [s1, s2])
    (hok : (makeCellsFromQuasiRigid E m constraintSet ptr).error = none) :
    ∃ n1 n2, m.mesh.findNode s1 = some n1 ∧ m.mesh.findNode s2 = some n2
      ∧ m.materials.by_id.find m.material_auto_id = none
      ∧ m.elementSets.by_id.find m.elementSet_auto_id = none := by
  have hlen : ¬ constraint.data.getSlaves.length ≠ 2 := by
    rw [hsl]
    simp
  unfold makeCellsFromQuasiRigid at hok
  simp only [hobj] at hok
  rw [if_neg hlen] at hok
  have h1 := Outcome.error_none_of_andThen _ _ hok
  rw [Outcome.andThen_of_error_none _ _ h1] at hok
  have hmat := addRigidMaterial_fresh E m _ h1
  have hmesh : (addRigidMaterial E m (Nature.Rigid (some 1) none)).2.state.mesh = m.mesh := rfl
  simp only [hsl, List.head?_cons, List.getLast?_cons_cons, List.getLast?_singleton,
    Option.some_bind, hmesh] at hok
  cases hn1 : m.mesh.findNode s1 with
  | none =>
    simp only [hn1] at hok
    cases hok
  | some n1 =>
    cases hn2 : m.mesh.findNode s2 with
    | none =>
      simp only [hn1, hn2] at hok
      cases hok
    | some n2 =>
      simp only [hn1, hn2] at hok
      have h2 := Outcome.error_none_of_andThen _ _ hok
      exact ⟨n1, n2, rfl, rfl, hmat, addRigidElementSet_fresh _ _ _ _ _ h2⟩

theorem quasiRigidMade_grows (E : Enumerators) (m : Model Lg LSd Cg CSd)
    (constraint : Identifiable Nat Cg) (n1 n2 : Node) (st st2 : Model Lg LSd Cg CSd)
    (hg : RbeGrows st.mesh.cellGroups.length st st2)
    (h : QuasiRigidMade E m constraint n1 n2 st) : QuasiRigidMade E m constraint n1 n2 st2 := by
  obtain ⟨material, elementSet, group, cell, materialId, elementSetId, cellId, a1, a2, a3, a4, a5,
    a6, a7, a8⟩ := h
  obtain ⟨-, gcells, gmat, ges, -, ggroups⟩ := hg
  refine ⟨material, elementSet, group, cell, materialId, elementSetId, cellId, a1,
    getElem?_of_prefix gmat _ _ a2, a3, getElem?_of_prefix ges _ _ a4, a5, ?_, a7,
    getElem?_of_prefix gcells _ _ a8⟩
  rw [ggroups group (by
    by_contra hge
    rw [List.getElem?_eq_none (by omega)] at a6
    cases a6)]
  exact a6

/-- The turn of `makeCellsFromRBE` for a QUASI_RIGID constraint with two slaves, from
a state of the pass: when it completes, the model holds the rigid material, the RBAR
element set, the cell group and the cell of the constraint. -/
theorem makeCellsFromQuasiRigid_made (E : Enumerators)
    (m st : Model Lg LSd ConstraintData CSd)
    (constraintSet : Identifiable Nat CSd) (ptr : Nat) (constraint : Constraint)
    (s1 s2 : Int) (hobj : st.constraints.objs[ptr]? = some constraint)
    (hsl : constraint.data.getSlaves = [s1, s2])
    (hbase : RbeGrows m.mesh.cellGroups.length m st)
    (hok : (makeCellsFromQuasiRigid E st constraintSet ptr).error = none) :
    ∃ n1 n2, m.mesh.findNode s1 = some n1 ∧ m.mesh.findNode s2 = some n2
      ∧ QuasiRigidMade E m constraint n1 n2
          (makeCellsFromQuasiRigid E st constraintSet ptr).state := by
  obtain ⟨n1, n2, hn1, hn2, hmat, hes⟩ :=
    makeCellsFromQuasiRigid_of_ok E st constraintSet ptr constraint s1 s2 hobj hsl hok
  obtain ⟨-, e2, e3, e4, e5⟩ := makeCellsFromQuasiRigid_effect E st constraintSet ptr constraint
    s1 s2 n1 n2 hobj hsl hn1 hn2 hmat hes
  obtain ⟨bnodes, bcells, bmat, bes, bgroups, -⟩ := hbase
  refine ⟨n1, n2, by rw [← findNode_of_nodes m.mesh st.mesh bnodes]; exact hn1,
    by rw [← findNode_of_nodes m.mesh st.mesh bnodes]; exact hn2,
    st.materials.objs.length, st.elementSets.objs.length, st.mesh.cellGroups.length,
    st.mesh.cells.length, st.material_auto_id, st.elementSet_auto_id, st.mesh.cell_auto_id,
    bmat.length_le, ?_, bes.length_le, ?_, bgroups, ?_, bcells.length_le, ?_⟩
  · rw [e2]
    simp
  · rw [e3]
    simp
  · rw [e5]
    simp
  · rw [e4]
    simp

/-- C30. The enumerators of the kinds of rigid constraint being distinct and the
catalog resolving the own reference of a constraint to no other constraint, take a
QUASI_RIGID constraint that a common constraint set hands out when `makeCellsFromRBE`
starts. If its number of slaves differs from two, the pass fails. If it has exactly
two slaves and the pass completes, the two slaves are nodes of the mesh and the model
that the pass leaves holds, none of them being in the model before the pass: a rigid
material, an RBAR element set with this material and a cell group, and in this cell
group one cell and no more, a 2-node cell (SEG2) that joins the two slaves. Nothing of
this depends on the constraint being completely rigid. -/
theorem makeCellsFromRBE_quasi_rigid (E : Enumerators)
    (hRQ : E.Constraint_RIGID ≠ E.Constraint_QUASI_RIGID)
    (h3Q : E.Constraint_RBE3 ≠ E.Constraint_QUASI_RIGID) :
    (∀ (m : Model Lg LSd ConstraintData CSd) (constraintSet : Identifiable Nat CSd)
        (ptr : Nat) (constraint : Constraint),
        constraintSet ∈ getCommonConstraintSets m → OwnReferences m →
        m.constraints.objs[ptr]? = some constraint →
        ptr ∈ getConstraintsByType m constraintSet E.Constraint_QUASI_RIGID →
        constraint.data.getSlaves.length ≠ 2 →
        (makeCellsFromRBE E m).error ≠ none)
      ∧ ∀ (m : Model Lg LSd ConstraintData CSd) (constraintSet : Identifiable Nat CSd)
          (ptr : Nat) (constraint : Constraint) (s1 s2 : Int),
          constraintSet ∈ getCommonConstraintSets m → OwnReferences m →
          m.constraints.objs[ptr]? = some constraint →
          ptr ∈ getConstraintsByType m constraintSet E.Constraint_QUASI_RIGID →
          constraint.data.getSlaves = [s1, s2] →
          (makeCellsFromRBE E m).error = none →
          ∃ n1 n2, m.mesh.findNode s1 = some n1 ∧ m.mesh.findNode s2 = some n2
            ∧ QuasiRigidMade E m constraint n1 n2 (makeCellsFromRBE E m).state :=
  ⟨fun m constraintSet ptr constraint hcommon hown hobj hmem hlen =>
      makeCellsFromRBE_error_of_quasiRigid E hRQ h3Q m constraintSet ptr constraint hcommon
        ⟨hown, hobj, hmem⟩ hlen,
    fun m constraintSet ptr constraint s1 s2 hcommon hown hobj hmem hsl hok =>
      makeCellsFromRBE_made E hRQ h3Q m constraintSet ptr constraint
        (fun st => ∃ n1 n2, m.mesh.findNode s1 = some n1 ∧ m.mesh.findNode s2 = some n2
          ∧ QuasiRigidMade E m constraint n1 n2 st)
        (fun st st2 hg ⟨n1, n2, a, b, hmade⟩ =>
          ⟨n1, n2, a, b, quasiRigidMade_grows E m constraint n1 n2 st st2 hg hmade⟩)
        (fun st constraintSet2 hb hh hstep =>
          makeCellsFromQuasiRigid_made E m st constraintSet2 ptr constraint s1 s2 hh.2.1 hsl hb
            hstep)
        hcommon ⟨hown, hobj, hmem⟩ hok⟩

theorem ownReferences_of_single (m : Model Lg LSd Cg CSd) (x : Identifiable Nat Cg)
    (hobjs : m.constraints.objs = [x])
    (hfind : m.constraints.find x.getReference = some 0) : OwnReferences m := by
  intro ptr constraint ptr2 hobj hf
  rw [hobjs] at hobj
  cases ptr with
  | zero =>
    simp only [List.getElem?_cons_zero, Option.some.injEq] at hobj
    subst hobj
    rw [hfind] at hf
    exact (Option.some.inj hf).symm
  | succ n => simp at hobj

/-- The pass fails on `mQuasiRigid [0, 1, 2]`, whose common constraint set 51 holds a
QUASI_RIGID constraint with three slaves. On `mQuasiRigid [0, 2]`, whose QUASI_RIGID
constraint bears on the translations only and so is not completely rigid, the pass
completes and the model that it leaves holds the material, the element set, the cell
group and the cell of the constraint: the only cell of the mesh joins the nodes of
ids 101 and 103 and is alone in the cell group of the only element set. -/
theorem makeCellsFromRBE_quasi_rigid_witness :
    (makeCellsFromRBE Sample.enumerators (Sample.mQuasiRigid [0, 1, 2])).error ≠ none
      ∧ (Sample.quasiRigid 71 [0, 2]).data.isCompletelyRigid = false
      ∧ (makeCellsFromRBE Sample.enumerators (Sample.mQuasiRigid [0, 2])).error = none
      ∧ (∃ n1 n2, (Sample.mQuasiRigid [0, 2]).mesh.findNode 0 = some n1
          ∧ (Sample.mQuasiRigid [0, 2]).mesh.findNode 2 = some n2
          ∧ QuasiRigidMade Sample.enumerators (Sample.mQuasiRigid [0, 2])
              (Sample.quasiRigid 71 [0, 2]) n1 n2
              (makeCellsFromRBE Sample.enumerators (Sample.mQuasiRigid [0, 2])).state)
      ∧ (makeCellsFromRBE Sample.enumerators (Sample.mQuasiRigid [0, 2])).state.mesh.cells
          = [{ id := 0, type := CellType.SEG2, nodeIds := [101, 103], isVirtual := true }]
      ∧ ((makeCellsFromRBE Sample.enumerators
            (Sample.mQuasiRigid [0, 2])).state.mesh.cellGroups.map fun g => g.cellIds)
          = [[0]]
      ∧ ((makeCellsFromRBE Sample.enumerators
            (Sample.mQuasiRigid [0, 2])).state.elementSets.objs.map
              fun elementSet => (elementSet.type, elementSet.data))
          = [(Sample.enumerators.ElementSet_RBAR,
              { kind := ElementSetKind.Rbar 101, cellGroup := some 0, material := some 0 })] :=
  ⟨(makeCellsFromRBE_quasi_rigid Sample.enumerators (by decide) (by decide)).1
      (Sample.mQuasiRigid [0, 1, 2]) (Sample.spcSet 51) 0 (Sample.quasiRigid 71 [0, 1, 2])
      (by decide!)
      (ownReferences_of_single _ (Sample.quasiRigid 71 [0, 1, 2]) (by decide!) (by decide!))
      (by decide!) (by decide!) (by decide),
    by decide, by decide!,
    (makeCellsFromRBE_quasi_rigid Sample.enumerators (by decide) (by decide)).2
      (Sample.mQuasiRigid [0, 2]) (Sample.spcSet 51) 0 (Sample.quasiRigid 71 [0, 2]) 0 2
      (by decide!)
      (ownReferences_of_single _ (Sample.quasiRigid 71 [0, 2]) (by decide!) (by decide!))
      (by decide!) (by decide!) (by decide) (by decide!),
    by decide!, by decide!, by decide!⟩

end Model

end vega
